import Mathlib

/-!
# Memory block driver (`drv_memory.c`): transfer engine

A shallow embedding of the transfer state machines, the sequencer
(`DRV_MEMORY_StartXfer`) and the admission routine (`DRV_MEMORY_SetupXfer`) of
the Harmony memory driver, followed by theorems about them.

Conventions of the embedding.

* `uint32_t` values are `Nat`s; every operation that can wrap is followed by
  `% 4294967296` (`u32`), `uint16_t` by `% 65536` and `uint8_t` by `% 256`.
* Pointers are `Nat` addresses into a byte memory `World.ram`; `0` is `NULL`.
  Pointer arithmetic does not wrap (C gives no meaning to a pointer that leaves
  its object).
* A `switch` whose cases fall through is written as one function per case
  label, each calling the function of the label it falls into.
* The attached memory device and the operating system are an explicit
  environment, `World`: every answer they give is read from an oracle indexed
  by the number of earlier calls of the same kind, so that any behaviour of the
  device (accepting or rejecting commands, any number of busy polls) and of the
  OS (timer and semaphore failures) is a `World`.
* Division by zero is undefined in C: the functions that divide return
  `Option`, `none` standing for the undefined behaviour.
-/

namespace DrvMemory

/-! ## Machine integers -/

/-- Truncation to `uint32_t`. -/
def u32 (n : Nat) : Nat := n % 4294967296

/-- The decrement `n--` of a `uint32_t` value (`n < 2^32`): 0 wraps to
`2^32 - 1`. -/
def dec32 (n : Nat) : Nat := if n = 0 then 4294967295 else n - 1

/-- Subtraction `a - b` of `uint32_t` values (`a, b < 2^32`): the difference
modulo `2^32`. -/
def sub32 (a b : Nat) : Nat := if b ≤ a then a - b else a + 4294967296 - b

/-- Truncation to `uint16_t`. -/
def u16 (n : Nat) : Nat := n % 65536

/-- Truncation to `uint8_t`. -/
def u8 (n : Nat) : Nat := n % 256

/-! ## Constants of headers that are not part of the sources -/

/-- Modelled from the spec: `MEMORY_DEVICE_TRANSFER_STATUS` is declared in a
header that is not in the sources; the spec lists the results of
`transfer_status` as `Busy | Completed | Error*`, in this order, and the
sequencer tests `>= MEMORY_DEVICE_TRANSFER_ERROR_UNKNOWN` for the errors. -/
def MEMORY_DEVICE_TRANSFER_BUSY : Nat := 0

/-- Modelled from the spec: second enumerator of `MEMORY_DEVICE_TRANSFER_STATUS`
(see `MEMORY_DEVICE_TRANSFER_BUSY`). -/
def MEMORY_DEVICE_TRANSFER_COMPLETED : Nat := 1

/-- Modelled from the spec: first of the error enumerators of
`MEMORY_DEVICE_TRANSFER_STATUS` (see `MEMORY_DEVICE_TRANSFER_BUSY`). -/
def MEMORY_DEVICE_TRANSFER_ERROR_UNKNOWN : Nat := 2

/-- Modelled from the spec: the invalid-handle sentinel `DRV_HANDLE_INVALID`
(header absent), the all-ones value of a 32-bit handle. -/
def DRV_HANDLE_INVALID : Nat := 4294967295

/-- Modelled from the spec: the invalid command handle
`DRV_MEMORY_COMMAND_HANDLE_INVALID` (header absent), the all-ones sentinel. -/
def DRV_MEMORY_COMMAND_HANDLE_INVALID : Nat := 4294967295

/-- Modelled from the spec: `DRV_MEMORY_INDEX_MASK` (header absent), the slot
field of a handle `token<<16 | deviceIndex<<8 | slotIndex`. -/
def DRV_MEMORY_INDEX_MASK : Nat := 0xFF

/-- Modelled from the spec: `DRV_MEMORY_INSTANCE_INDEX_MASK` (header absent), the
device-index field of a handle `token<<16 | deviceIndex<<8 | slotIndex`. -/
def DRV_MEMORY_INSTANCE_INDEX_MASK : Nat := 0xFF00

/-- Modelled from the spec: `DRV_MEMORY_TOKEN_MAX` (header absent), the largest
16-bit token, the token field of the invalid sentinel. -/
def DRV_MEMORY_TOKEN_MAX : Nat := 0xFFFF

/-- Modelled from the spec: `DRV_MEMORY_MAKE_HANDLE` (header absent),
`token<<16 | deviceIndex<<8 | slotIndex` on `uint32_t` operands. -/
def DRV_MEMORY_MAKE_HANDLE (token drvIndex index : Nat) : Nat :=
  u32 (token <<< 16) ||| u32 (drvIndex <<< 8) ||| index

/-- Number of driver instances: `tasks.c` runs `DRV_MEMORY_Tasks` for the two
instances `sysObj.drvMemory0` and `sysObj.drvMemory1`. -/
def DRV_MEMORY_INSTANCES_NUMBER : Nat := 2

/-- Modelled from the spec: the Read bit of `DRV_IO_INTENT` (header absent). -/
def DRV_IO_INTENT_READ : Nat := 1

/-- Modelled from the spec: the Write bit of `DRV_IO_INTENT` (header absent). -/
def DRV_IO_INTENT_WRITE : Nat := 2

/-- Index of the read entry of the geometry table; `DRV_MEMORY_HandleRead` reads
the read block size from `mediaGeometryTable[0]`. -/
def SYS_MEDIA_GEOMETRY_TABLE_READ_ENTRY : Nat := 0

/-- Modelled from the spec: index of the write entry of the geometry table
(header absent; the table is indexed by Read, Write, Erase). -/
def SYS_MEDIA_GEOMETRY_TABLE_WRITE_ENTRY : Nat := 1

/-- Modelled from the spec: index of the erase entry of the geometry table
(header absent; the table is indexed by Read, Write, Erase). -/
def SYS_MEDIA_GEOMETRY_TABLE_ERASE_ENTRY : Nat := 2

/-! ## Data model -/

inductive SYS_STATUS where
  | SYS_STATUS_ERROR
  | SYS_STATUS_UNINITIALIZED
  | SYS_STATUS_BUSY
  | SYS_STATUS_READY
deriving DecidableEq, Repr

inductive DRV_MEMORY_OPERATION_TYPE where
  | DRV_MEMORY_OPERATION_TYPE_READ
  | DRV_MEMORY_OPERATION_TYPE_WRITE
  | DRV_MEMORY_OPERATION_TYPE_ERASE
  | DRV_MEMORY_OPERATION_TYPE_ERASE_WRITE
deriving DecidableEq, Repr

inductive DRV_MEMORY_COMMAND_STATUS where
  | DRV_MEMORY_COMMAND_COMPLETED
  | DRV_MEMORY_COMMAND_QUEUED
  | DRV_MEMORY_COMMAND_IN_PROGRESS
  | DRV_MEMORY_COMMAND_ERROR_UNKNOWN
deriving DecidableEq, Repr

inductive DRV_MEMORY_EVENT where
  | DRV_MEMORY_EVENT_COMMAND_COMPLETE
  | DRV_MEMORY_EVENT_COMMAND_ERROR
deriving DecidableEq, Repr

inductive DRV_MEMORY_READ_STATE where
  | DRV_MEMORY_READ_INIT
  | DRV_MEMORY_READ_MEM
  | DRV_MEMORY_READ_MEM_STATUS
deriving DecidableEq, Repr

inductive DRV_MEMORY_WRITE_STATE where
  | DRV_MEMORY_WRITE_INIT
  | DRV_MEMORY_WRITE_MEM
  | DRV_MEMORY_WRITE_MEM_STATUS
deriving DecidableEq, Repr

inductive DRV_MEMORY_ERASE_STATE where
  | DRV_MEMORY_ERASE_INIT
  | DRV_MEMORY_ERASE_CMD
  | DRV_MEMORY_ERASE_CMD_STATUS
deriving DecidableEq, Repr

inductive DRV_MEMORY_EW_STATE where
  | DRV_MEMORY_EW_INIT
  | DRV_MEMORY_EW_READ_SECTOR
  | DRV_MEMORY_EW_ERASE_SECTOR
  | DRV_MEMORY_EW_WRITE_SECTOR
deriving DecidableEq, Repr

open SYS_STATUS DRV_MEMORY_OPERATION_TYPE DRV_MEMORY_COMMAND_STATUS DRV_MEMORY_EVENT
open DRV_MEMORY_READ_STATE DRV_MEMORY_WRITE_STATE DRV_MEMORY_ERASE_STATE DRV_MEMORY_EW_STATE

/-- One entry of the media geometry table. -/
structure SYS_MEDIA_REGION_GEOMETRY where
  blockSize : Nat
  numBlocks : Nat
deriving DecidableEq, Repr

/-- A pointer to a client object: the instance whose pool holds it and its slot
in that pool. -/
structure ClientPtr where
  inst : Nat
  slot : Nat
deriving DecidableEq, Repr

/-- The client object of one open session. `transferHandler` is a function
pointer, `none` being `NULL`. -/
structure DRV_MEMORY_CLIENT_OBJECT where
  inUse : Bool
  drvIndex : Nat
  intent : Nat
  transferHandler : Option Nat
  context : Nat
  clientHandle : Nat
deriving DecidableEq, Repr

/-- The command descriptor (`currentBufObj`). `hClient` points to the owning
client object, `none` being `NULL`. -/
structure DRV_MEMORY_BUFFER_OBJECT where
  commandHandle : Nat
  hClient : Option ClientPtr
  buffer : Nat
  blockStart : Nat
  nBlocks : Nat
  opType : DRV_MEMORY_OPERATION_TYPE
  status : DRV_MEMORY_COMMAND_STATUS
deriving DecidableEq, Repr

/-- The function table of the attached memory device, as far as the driver
tests its entries against `NULL`. -/
structure MEMORY_DEVICE_INTERFACE where
  hasSectorErase : Bool
  hasStatus : Bool
  hasOpen : Bool
  hasEventHandlerSet : Bool
deriving DecidableEq, Repr

/-- The driver instance object. `transferMutex` and `clientMutex` count the
holders of the two locks (0 is free). -/
structure DRV_MEMORY_OBJECT where
  status : SYS_STATUS
  inUse : Bool
  isExclusive : Bool
  numClients : Nat
  nClientsMax : Nat
  clientObjPool : Nat → DRV_MEMORY_CLIENT_OBJECT
  bufferToken : Nat
  clientToken : Nat
  memoryDevice : MEMORY_DEVICE_INTERFACE
  memDevIndex : Nat
  memDevHandle : Nat
  isMemDevInterruptEnabled : Bool
  memDevStatusPollUs : Nat
  isTransferDone : Bool
  ewBuffer : Nat
  mediaGeometryTable : Nat → SYS_MEDIA_REGION_GEOMETRY
  writeBlockSize : Nat
  eraseBlockSize : Nat
  blockStartAddress : Nat
  readState : DRV_MEMORY_READ_STATE
  writeState : DRV_MEMORY_WRITE_STATE
  eraseState : DRV_MEMORY_ERASE_STATE
  ewState : DRV_MEMORY_EW_STATE
  blockAddress : Nat
  nBlocks : Nat
  writePtr : Nat
  sectorNumber : Nat
  blockOffsetInSector : Nat
  nBlocksToWrite : Nat
  currentBufObj : DRV_MEMORY_BUFFER_OBJECT
  transferMutex : Nat
  clientMutex : Nat

/-- The table `gDrvMemoryObj` of driver instances. -/
abbrev Driver := Nat → DRV_MEMORY_OBJECT

/-! ## The environment: memory device, RAM and operating system -/

/-- A command given to the memory device, with its arguments. -/
inductive DevCall where
  | read (handle : Nat) (data : Nat) (nBlocks : Nat) (address : Nat)
  | pageWrite (handle : Nat) (data : Nat) (address : Nat)
  | sectorErase (handle : Nat) (address : Nat)
deriving DecidableEq, Repr

/-- One invocation of a client's transfer handler. -/
structure HandlerCall where
  handler : Nat
  event : DRV_MEMORY_EVENT
  commandHandle : Nat
  context : Nat
deriving DecidableEq, Repr

/-- The environment of the driver.

Device: `flash` is the stored bytes, `devPageSize` and `devSectorSize` the
sizes of a program page and of an erase sector; `accept n` is the answer of the
device to the `n`-th command it is given (read, page write or sector erase) and
`tstatus n` its answer to the `n`-th status poll. `cmdLog` records the
commands, `nPoll` counts the polls.

RAM: `ram`, the bytes the pointers of the driver point to.

OS: `timerOk n` tells whether the `n`-th `SYS_TIME_CallbackRegisterUS` returns
a valid handle, `pendOk n` whether the `n`-th `OSAL_SEM_Pend` succeeds,
`lockOk n` whether the `n`-th `OSAL_MUTEX_Lock` succeeds, and `isr n` whether
the device event handler `DRV_MEMORY_EventHandler` has run when the sequencer
looks at `isTransferDone` for the `n`-th time. `handlerLog` records the calls
of client transfer handlers. -/
structure World where
  flash : Nat → Nat
  devPageSize : Nat
  devSectorSize : Nat
  accept : Nat → Bool
  tstatus : Nat → Nat
  cmdLog : List DevCall
  nPoll : Nat
  ram : Nat → Nat
  timerOk : Nat → Bool
  nTimer : Nat
  pendOk : Nat → Bool
  nPend : Nat
  lockOk : Nat → Bool
  nLock : Nat
  nUnlock : Nat
  isr : Nat → Bool
  nIsr : Nat
  handlerLog : List HandlerCall

/-- The device primitive `read(handle, buffer, blockCount, address)`: when the
command is accepted, `nBlocks` stored bytes from `address` on are copied to
`data`. -/
def World.devRead (w : World) (handle data nBlocks address : Nat) : Bool × World :=
  let ok := w.accept w.cmdLog.length
  let w1 := { w with cmdLog := w.cmdLog ++ [DevCall.read handle data nBlocks address] }
  let ram1 : Nat → Nat := fun a =>
    if data ≤ a ∧ a < data + nBlocks then w.flash (address + (a - data)) else w.ram a
  if ok then (true, { w1 with ram := ram1 }) else (false, w1)

/-- The device primitive `page_write(handle, buffer, address)`: when the
command is accepted, one page is stored at `address` from the bytes at
`data`. -/
def World.devPageWrite (w : World) (handle data address : Nat) : Bool × World :=
  let ok := w.accept w.cmdLog.length
  let w1 := { w with cmdLog := w.cmdLog ++ [DevCall.pageWrite handle data address] }
  let flash1 : Nat → Nat := fun a =>
    if address ≤ a ∧ a < address + w.devPageSize then w.ram (data + (a - address)) else w.flash a
  if ok then (true, { w1 with flash := flash1 }) else (false, w1)

/-- The device primitive `sector_erase(handle, address)`: when the command is
accepted, the sector at `address` is blanked (every byte `0xFF`). -/
def World.devSectorErase (w : World) (handle address : Nat) : Bool × World :=
  let ok := w.accept w.cmdLog.length
  let w1 := { w with cmdLog := w.cmdLog ++ [DevCall.sectorErase handle address] }
  let flash1 : Nat → Nat := fun a =>
    if address ≤ a ∧ a < address + w.devSectorSize then 0xFF else w.flash a
  if ok then (true, { w1 with flash := flash1 }) else (false, w1)

/-- The device primitive `transfer_status(handle)`. -/
def World.devTransferStatusGet (w : World) (_handle : Nat) : Nat × World :=
  (w.tstatus w.nPoll, { w with nPoll := w.nPoll + 1 })

/-- The library routine `memcpy(dst, src, n)` on the RAM. -/
def World.memcpy (w : World) (dst src n : Nat) : World :=
  { w with ram := fun a => if dst ≤ a ∧ a < dst + n then w.ram (src + (a - dst)) else w.ram a }

/-! ## The transfer state machines -/

/-- `DRV_MEMORY_HandleRead`, case `DRV_MEMORY_READ_MEM_STATUS`. -/
def DRV_MEMORY_HandleRead_MEM_STATUS (dObj : DRV_MEMORY_OBJECT) (w : World) :
    Nat × DRV_MEMORY_OBJECT × World :=
  let r := w.devTransferStatusGet dObj.memDevHandle
  (r.1, dObj, r.2)

/-- `DRV_MEMORY_HandleRead`, case `DRV_MEMORY_READ_MEM`, entered with the local
variable `address`. -/
def DRV_MEMORY_HandleRead_MEM (dObj : DRV_MEMORY_OBJECT) (w : World)
    (data nBlocks address : Nat) : Nat × DRV_MEMORY_OBJECT × World :=
  let r := w.devRead dObj.memDevHandle data nBlocks address
  if r.1 = true then
    DRV_MEMORY_HandleRead_MEM_STATUS { dObj with readState := DRV_MEMORY_READ_MEM_STATUS } r.2
  else
    (MEMORY_DEVICE_TRANSFER_ERROR_UNKNOWN, dObj, r.2)

/-- `DRV_MEMORY_HandleRead`: one tick of the read machine. The local `address`
is 0 unless the tick starts in the Init state. -/
def DRV_MEMORY_HandleRead (dObj : DRV_MEMORY_OBJECT) (w : World)
    (data blockStart nBlocks : Nat) : Nat × DRV_MEMORY_OBJECT × World :=
  match dObj.readState with
  | DRV_MEMORY_READ_INIT =>
    let address := u32 (u32 (blockStart * (dObj.mediaGeometryTable 0).blockSize)
      + dObj.blockStartAddress)
    DRV_MEMORY_HandleRead_MEM { dObj with readState := DRV_MEMORY_READ_MEM } w data nBlocks address
  | DRV_MEMORY_READ_MEM => DRV_MEMORY_HandleRead_MEM dObj w data nBlocks 0
  | DRV_MEMORY_READ_MEM_STATUS => DRV_MEMORY_HandleRead_MEM_STATUS dObj w

/-- `DRV_MEMORY_HandleWrite`, case `DRV_MEMORY_WRITE_MEM_STATUS`. -/
def DRV_MEMORY_HandleWrite_MEM_STATUS (dObj : DRV_MEMORY_OBJECT) (w : World) :
    Nat × DRV_MEMORY_OBJECT × World :=
  let r := w.devTransferStatusGet dObj.memDevHandle
  if r.1 = MEMORY_DEVICE_TRANSFER_COMPLETED then
    let dObj := { dObj with nBlocks := dec32 dObj.nBlocks }
    if dObj.nBlocks ≠ 0 then
      (MEMORY_DEVICE_TRANSFER_BUSY,
        { dObj with
          blockAddress := u32 (dObj.blockAddress + dObj.writeBlockSize),
          writePtr := dObj.writePtr + dObj.writeBlockSize,
          writeState := DRV_MEMORY_WRITE_MEM }, r.2)
    else (r.1, dObj, r.2)
  else (r.1, dObj, r.2)

/-- `DRV_MEMORY_HandleWrite`, case `DRV_MEMORY_WRITE_MEM`. -/
def DRV_MEMORY_HandleWrite_MEM (dObj : DRV_MEMORY_OBJECT) (w : World) :
    Nat × DRV_MEMORY_OBJECT × World :=
  let dObj := { dObj with isTransferDone := false }
  let r := w.devPageWrite dObj.memDevHandle dObj.writePtr dObj.blockAddress
  if r.1 = true then
    DRV_MEMORY_HandleWrite_MEM_STATUS { dObj with writeState := DRV_MEMORY_WRITE_MEM_STATUS } r.2
  else
    (MEMORY_DEVICE_TRANSFER_ERROR_UNKNOWN, dObj, r.2)

/-- `DRV_MEMORY_HandleWrite`: one tick of the write machine. -/
def DRV_MEMORY_HandleWrite (dObj : DRV_MEMORY_OBJECT) (w : World)
    (data blockStart nBlocks : Nat) : Nat × DRV_MEMORY_OBJECT × World :=
  match dObj.writeState with
  | DRV_MEMORY_WRITE_INIT =>
    DRV_MEMORY_HandleWrite_MEM
      { dObj with
        blockAddress := u32 (u32 (blockStart * dObj.writeBlockSize) + dObj.blockStartAddress),
        nBlocks := nBlocks,
        writePtr := data,
        writeState := DRV_MEMORY_WRITE_MEM } w
  | DRV_MEMORY_WRITE_MEM => DRV_MEMORY_HandleWrite_MEM dObj w
  | DRV_MEMORY_WRITE_MEM_STATUS => DRV_MEMORY_HandleWrite_MEM_STATUS dObj w

/-- `DRV_MEMORY_HandleErase`, case `DRV_MEMORY_ERASE_CMD_STATUS`. -/
def DRV_MEMORY_HandleErase_CMD_STATUS (dObj : DRV_MEMORY_OBJECT) (w : World) :
    Nat × DRV_MEMORY_OBJECT × World :=
  let r := w.devTransferStatusGet dObj.memDevHandle
  if r.1 = MEMORY_DEVICE_TRANSFER_COMPLETED then
    let dObj := { dObj with nBlocks := dec32 dObj.nBlocks }
    if dObj.nBlocks ≠ 0 then
      (MEMORY_DEVICE_TRANSFER_BUSY,
        { dObj with
          blockAddress := u32 (dObj.blockAddress + dObj.eraseBlockSize),
          eraseState := DRV_MEMORY_ERASE_CMD }, r.2)
    else (r.1, dObj, r.2)
  else (r.1, dObj, r.2)

/-- `DRV_MEMORY_HandleErase`, case `DRV_MEMORY_ERASE_CMD`. -/
def DRV_MEMORY_HandleErase_CMD (dObj : DRV_MEMORY_OBJECT) (w : World) :
    Nat × DRV_MEMORY_OBJECT × World :=
  let dObj := { dObj with isTransferDone := false }
  let r := w.devSectorErase dObj.memDevHandle dObj.blockAddress
  if r.1 = true then
    DRV_MEMORY_HandleErase_CMD_STATUS { dObj with eraseState := DRV_MEMORY_ERASE_CMD_STATUS } r.2
  else
    (MEMORY_DEVICE_TRANSFER_ERROR_UNKNOWN, dObj, r.2)

/-- `DRV_MEMORY_HandleErase`: one tick of the erase machine (`data` is not
used). -/
def DRV_MEMORY_HandleErase (dObj : DRV_MEMORY_OBJECT) (w : World)
    (_data blockStart nBlocks : Nat) : Nat × DRV_MEMORY_OBJECT × World :=
  match dObj.eraseState with
  | DRV_MEMORY_ERASE_INIT =>
    DRV_MEMORY_HandleErase_CMD
      { dObj with
        blockAddress := u32 (u32 (blockStart * dObj.eraseBlockSize) + dObj.blockStartAddress),
        nBlocks := nBlocks,
        eraseState := DRV_MEMORY_ERASE_CMD } w
  | DRV_MEMORY_ERASE_CMD => DRV_MEMORY_HandleErase_CMD dObj w
  | DRV_MEMORY_ERASE_CMD_STATUS => DRV_MEMORY_HandleErase_CMD_STATUS dObj w

/-- `DRV_MEMORY_HandleEraseWrite`, case `DRV_MEMORY_EW_WRITE_SECTOR`. -/
def DRV_MEMORY_HandleEraseWrite_WRITE_SECTOR (dObj : DRV_MEMORY_OBJECT) (w : World)
    (pagesPerSector : Nat) : Nat × DRV_MEMORY_OBJECT × World :=
  let r := DRV_MEMORY_HandleWrite dObj w dObj.writePtr
    (u32 (dObj.sectorNumber * pagesPerSector)) pagesPerSector
  if r.1 = MEMORY_DEVICE_TRANSFER_COMPLETED then
    let dObj := r.2.1
    let bufferObj := dObj.currentBufObj
    if sub32 bufferObj.nBlocks dObj.nBlocksToWrite = 0 then r
    else
      let bufferObj := { bufferObj with
        nBlocks := sub32 bufferObj.nBlocks dObj.nBlocksToWrite,
        blockStart := u32 (bufferObj.blockStart + dObj.nBlocksToWrite),
        buffer := bufferObj.buffer + u32 (dObj.nBlocksToWrite * dObj.writeBlockSize) }
      (MEMORY_DEVICE_TRANSFER_BUSY,
        { dObj with currentBufObj := bufferObj, ewState := DRV_MEMORY_EW_INIT }, r.2.2)
  else r

/-- `DRV_MEMORY_HandleEraseWrite`, case `DRV_MEMORY_EW_ERASE_SECTOR`. -/
def DRV_MEMORY_HandleEraseWrite_ERASE_SECTOR (dObj : DRV_MEMORY_OBJECT) (w : World) :
    Nat × DRV_MEMORY_OBJECT × World :=
  let r := DRV_MEMORY_HandleErase dObj w 0 dObj.sectorNumber 1
  if r.1 = MEMORY_DEVICE_TRANSFER_COMPLETED then
    (MEMORY_DEVICE_TRANSFER_BUSY, { r.2.1 with ewState := DRV_MEMORY_EW_WRITE_SECTOR }, r.2.2)
  else r

/-- `DRV_MEMORY_HandleEraseWrite`, case `DRV_MEMORY_EW_READ_SECTOR`. -/
def DRV_MEMORY_HandleEraseWrite_READ_SECTOR (dObj : DRV_MEMORY_OBJECT) (w : World) :
    Nat × DRV_MEMORY_OBJECT × World :=
  let readBlockStart := u32 (dObj.sectorNumber * dObj.eraseBlockSize)
  let r := DRV_MEMORY_HandleRead dObj w dObj.ewBuffer readBlockStart dObj.eraseBlockSize
  if r.1 = MEMORY_DEVICE_TRANSFER_COMPLETED then
    let dObj := r.2.1
    let dObj := { dObj with
      blockOffsetInSector := u32 (dObj.blockOffsetInSector * dObj.writeBlockSize) }
    let w := r.2.2.memcpy (dObj.ewBuffer + dObj.blockOffsetInSector) dObj.currentBufObj.buffer
      (u32 (dObj.nBlocksToWrite * dObj.writeBlockSize))
    DRV_MEMORY_HandleEraseWrite_ERASE_SECTOR { dObj with ewState := DRV_MEMORY_EW_ERASE_SECTOR } w
  else r

/-- `DRV_MEMORY_HandleEraseWrite`, case `DRV_MEMORY_EW_INIT`; `pagesPerSector`
is not 0 here. -/
def DRV_MEMORY_HandleEraseWrite_INIT (dObj : DRV_MEMORY_OBJECT) (w : World)
    (pagesPerSector : Nat) : Nat × DRV_MEMORY_OBJECT × World :=
  let bufferObj := dObj.currentBufObj
  let dObj := { dObj with
    readState := DRV_MEMORY_READ_INIT,
    eraseState := DRV_MEMORY_ERASE_INIT,
    writeState := DRV_MEMORY_WRITE_INIT,
    sectorNumber := bufferObj.blockStart / pagesPerSector,
    blockOffsetInSector := bufferObj.blockStart % pagesPerSector }
  let dObj := { dObj with nBlocksToWrite := sub32 pagesPerSector dObj.blockOffsetInSector }
  let dObj :=
    if bufferObj.nBlocks < dObj.nBlocksToWrite then
      { dObj with nBlocksToWrite := bufferObj.nBlocks }
    else dObj
  if dObj.nBlocksToWrite ≠ pagesPerSector then
    DRV_MEMORY_HandleEraseWrite_READ_SECTOR
      { dObj with writePtr := dObj.ewBuffer, ewState := DRV_MEMORY_EW_READ_SECTOR } w
  else
    (MEMORY_DEVICE_TRANSFER_BUSY,
      { dObj with writePtr := bufferObj.buffer, ewState := DRV_MEMORY_EW_ERASE_SECTOR }, w)

/-- `DRV_MEMORY_HandleEraseWrite`: one tick of the erase-write machine. The
arguments `data`, `blockStart` and `nBlocks` are not used: the machine works on
the command descriptor. `none` is the division by zero of
`eraseBlockSize / writeBlockSize`, or of `blockStart / pagesPerSector` in the
Init state. -/
def DRV_MEMORY_HandleEraseWrite (dObj : DRV_MEMORY_OBJECT) (w : World)
    (_data _blockStart _nBlocks : Nat) : Option (Nat × DRV_MEMORY_OBJECT × World) :=
  if dObj.writeBlockSize = 0 then none
  else
    let pagesPerSector := u8 (dObj.eraseBlockSize / dObj.writeBlockSize)
    match dObj.ewState with
    | DRV_MEMORY_EW_INIT =>
      if pagesPerSector = 0 then none
      else some (DRV_MEMORY_HandleEraseWrite_INIT dObj w pagesPerSector)
    | DRV_MEMORY_EW_READ_SECTOR => some (DRV_MEMORY_HandleEraseWrite_READ_SECTOR dObj w)
    | DRV_MEMORY_EW_ERASE_SECTOR => some (DRV_MEMORY_HandleEraseWrite_ERASE_SECTOR dObj w)
    | DRV_MEMORY_EW_WRITE_SECTOR =>
      some (DRV_MEMORY_HandleEraseWrite_WRITE_SECTOR dObj w pagesPerSector)

/-- The dispatch table `gMemoryXferFuncPtr`, indexed by the operation type. -/
def gMemoryXferFuncPtr (opType : DRV_MEMORY_OPERATION_TYPE) (dObj : DRV_MEMORY_OBJECT)
    (w : World) (data blockStart nBlocks : Nat) : Option (Nat × DRV_MEMORY_OBJECT × World) :=
  match opType with
  | DRV_MEMORY_OPERATION_TYPE_READ => some (DRV_MEMORY_HandleRead dObj w data blockStart nBlocks)
  | DRV_MEMORY_OPERATION_TYPE_WRITE => some (DRV_MEMORY_HandleWrite dObj w data blockStart nBlocks)
  | DRV_MEMORY_OPERATION_TYPE_ERASE => some (DRV_MEMORY_HandleErase dObj w data blockStart nBlocks)
  | DRV_MEMORY_OPERATION_TYPE_ERASE_WRITE =>
    DRV_MEMORY_HandleEraseWrite dObj w data blockStart nBlocks

/-! ## The sequencer -/

/-- How a run of a function with a loop ends: it returns, it meets undefined
behaviour of C, or the fuel given to the loop is used up. -/
inductive Outcome (α : Type) where
  | returned (a : α)
  | undefinedBehaviour
  | outOfFuel

/-- The tick of the command in the descriptor, as called by the sequencer:
`gMemoryXferFuncPtr[bufferObj->opType](dObj, &bufferObj->buffer[0],
bufferObj->blockStart, bufferObj->nBlocks)`. -/
def DRV_MEMORY_StartXfer_tick (dObj : DRV_MEMORY_OBJECT) (w : World) :
    Option (Nat × DRV_MEMORY_OBJECT × World) :=
  gMemoryXferFuncPtr dObj.currentBufObj.opType dObj w dObj.currentBufObj.buffer
    dObj.currentBufObj.blockStart dObj.currentBufObj.nBlocks

/-- The body of the `while` loop of `DRV_MEMORY_StartXfer` before the next tick:
the wait for the completion signal. The first component is `false` when the
sequencer returns `false` from here (the timer could not be armed, or the wait
failed). -/
def DRV_MEMORY_StartXfer_wait (dObj : DRV_MEMORY_OBJECT) (w : World) :
    Bool × DRV_MEMORY_OBJECT × World :=
  if dObj.isMemDevInterruptEnabled = false ∧ dObj.memDevStatusPollUs > 0 then
    let armed := w.timerOk w.nTimer
    let w := { w with nTimer := w.nTimer + 1 }
    if armed = false then (false, dObj, w)
    else
      let pended := w.pendOk w.nPend
      let w := { w with nPend := w.nPend + 1 }
      if pended = true then (true, dObj, w) else (false, dObj, w)
  else if dObj.isMemDevInterruptEnabled = true ∧ dObj.memDevStatusPollUs = 0 then
    let fired := w.isr w.nIsr
    let w := { w with nIsr := w.nIsr + 1 }
    let dObj := if fired = true then { dObj with isTransferDone := true } else dObj
    if dObj.isTransferDone = false then
      let pended := w.pendOk w.nPend
      let w := { w with nPend := w.nPend + 1 }
      if pended = true then (true, dObj, w) else (false, dObj, w)
    else (true, dObj, w)
  else (true, dObj, w)

/-- The `while (transferStatus == MEMORY_DEVICE_TRANSFER_BUSY)` loop of
`DRV_MEMORY_StartXfer`. The result is `none` when the sequencer returns `false`
from inside the loop and `some transferStatus` when the loop ends. -/
def DRV_MEMORY_StartXfer_loop : Nat → DRV_MEMORY_OBJECT → World → Nat →
    Outcome (Option Nat × DRV_MEMORY_OBJECT × World)
  | fuel, dObj, w, transferStatus =>
    if transferStatus = MEMORY_DEVICE_TRANSFER_BUSY then
      match fuel with
      | 0 => Outcome.outOfFuel
      | fuel + 1 =>
        let r := DRV_MEMORY_StartXfer_wait dObj w
        if r.1 = false then Outcome.returned (none, r.2.1, r.2.2)
        else
          match DRV_MEMORY_StartXfer_tick r.2.1 r.2.2 with
          | none => Outcome.undefinedBehaviour
          | some t => DRV_MEMORY_StartXfer_loop fuel t.2.1 t.2.2 t.1
    else Outcome.returned (some transferStatus, dObj, w)

/-- The client object a pointer points to. -/
def Driver.client (g : Driver) (p : ClientPtr) : DRV_MEMORY_CLIENT_OBJECT :=
  (g p.inst).clientObjPool p.slot

/-- The call of the client's transfer handler at the end of
`DRV_MEMORY_StartXfer`: `if (clientObj->transferHandler != NULL)
clientObj->transferHandler(event, commandHandle, clientObj->context)`. -/
def World.callTransferHandler (w : World) (clientObj : DRV_MEMORY_CLIENT_OBJECT)
    (event : DRV_MEMORY_EVENT) (commandHandle : Nat) : World :=
  match clientObj.transferHandler with
  | some h =>
    { w with handlerLog := w.handlerLog ++
      [HandlerCall.mk h event commandHandle clientObj.context] }
  | none => w

/-- The end of `DRV_MEMORY_StartXfer`, after the loop: the status of the command
is recorded and the client's handler is called. Dereferencing a `NULL`
`hClient` is undefined. -/
def DRV_MEMORY_StartXfer_finish (g : Driver) (i : Nat) (dObj : DRV_MEMORY_OBJECT) (w : World)
    (transferStatus : Nat) : Outcome (Bool × Driver × World) :=
  let bufferObj := dObj.currentBufObj
  let r : DRV_MEMORY_COMMAND_STATUS × DRV_MEMORY_EVENT × Bool :=
    if transferStatus = MEMORY_DEVICE_TRANSFER_COMPLETED then
      (DRV_MEMORY_COMMAND_COMPLETED, DRV_MEMORY_EVENT_COMMAND_COMPLETE, true)
    else if transferStatus ≥ MEMORY_DEVICE_TRANSFER_ERROR_UNKNOWN then
      (DRV_MEMORY_COMMAND_ERROR_UNKNOWN, DRV_MEMORY_EVENT_COMMAND_ERROR, false)
    else (bufferObj.status, DRV_MEMORY_EVENT_COMMAND_ERROR, false)
  let bufferObj := { bufferObj with status := r.1 }
  let g : Driver := Function.update g i { dObj with currentBufObj := bufferObj }
  match bufferObj.hClient with
  | none => Outcome.undefinedBehaviour
  | some p =>
    Outcome.returned (r.2.2, g, w.callTransferHandler (g.client p) r.2.1 bufferObj.commandHandle)

/-- The beginning of `DRV_MEMORY_StartXfer`: the four sub-state machines are
set to their Init states and the command is marked In Progress. -/
def DRV_MEMORY_StartXfer_init (dObj : DRV_MEMORY_OBJECT) : DRV_MEMORY_OBJECT :=
  { dObj with
    readState := DRV_MEMORY_READ_INIT,
    writeState := DRV_MEMORY_WRITE_INIT,
    eraseState := DRV_MEMORY_ERASE_INIT,
    ewState := DRV_MEMORY_EW_INIT,
    currentBufObj := { dObj.currentBufObj with status := DRV_MEMORY_COMMAND_IN_PROGRESS } }

/-- `DRV_MEMORY_StartXfer` on the instance `gDrvMemoryObj[i]`. -/
def DRV_MEMORY_StartXfer (fuel : Nat) (g : Driver) (i : Nat) (w : World) :
    Outcome (Bool × Driver × World) :=
  let dObj := DRV_MEMORY_StartXfer_init (g i)
  match DRV_MEMORY_StartXfer_tick dObj w with
  | none => Outcome.undefinedBehaviour
  | some t =>
    match DRV_MEMORY_StartXfer_loop fuel t.2.1 t.2.2 t.1 with
    | Outcome.outOfFuel => Outcome.outOfFuel
    | Outcome.undefinedBehaviour => Outcome.undefinedBehaviour
    | Outcome.returned (none, dObj, w) => Outcome.returned (false, Function.update g i dObj, w)
    | Outcome.returned (some transferStatus, dObj, w) =>
      DRV_MEMORY_StartXfer_finish g i dObj w transferStatus

/-! ## Admission -/

/-- `DRV_MEMORY_UPDATE_TOKEN` on a `uint16_t` token. -/
def DRV_MEMORY_UPDATE_TOKEN (token : Nat) : Nat :=
  let token := u16 (token + 1)
  if token ≥ DRV_MEMORY_TOKEN_MAX then 1 else token

/-- `DRV_MEMORY_AllocateBufferObject`: fills the command descriptor of the
client's instance and returns the new command handle with the driver table (the
caller stores the handle through `handle` when that pointer is not `NULL`). -/
def DRV_MEMORY_AllocateBufferObject (g : Driver) (clientObj : ClientPtr)
    (buffer blockStart nBlocks : Nat) (opType : DRV_MEMORY_OPERATION_TYPE) : Driver × Nat :=
  let drvIndex := (g.client clientObj).drvIndex
  let dObj := g drvIndex
  let bufferObj : DRV_MEMORY_BUFFER_OBJECT :=
    { commandHandle := DRV_MEMORY_MAKE_HANDLE dObj.bufferToken drvIndex 0,
      hClient := some clientObj,
      buffer := buffer,
      blockStart := blockStart,
      nBlocks := nBlocks,
      opType := opType,
      status := DRV_MEMORY_COMMAND_QUEUED }
  let dObj := { dObj with
    currentBufObj := bufferObj,
    bufferToken := DRV_MEMORY_UPDATE_TOKEN dObj.bufferToken }
  (Function.update g drvIndex dObj, bufferObj.commandHandle)

/-- `DRV_MEMORY_DriverHandleValidate`: the client object of a driver handle,
`none` (`NULL`) when the handle is not valid or the driver is not ready. -/
def DRV_MEMORY_DriverHandleValidate (g : Driver) (handle : Nat) : Option ClientPtr :=
  if handle ≠ DRV_HANDLE_INVALID ∧ handle ≠ 0 then
    let inst := u8 ((handle &&& DRV_MEMORY_INSTANCE_INDEX_MASK) >>> 8)
    let clientIndex := u8 (handle &&& DRV_MEMORY_INDEX_MASK)
    if inst ≥ DRV_MEMORY_INSTANCES_NUMBER then none
    else if clientIndex ≥ (g inst).nClientsMax then none
    else
      let clientObj := (g inst).clientObjPool clientIndex
      if clientObj.clientHandle ≠ handle ∨ clientObj.inUse = false then none
      else if (g clientObj.drvIndex).status ≠ SYS_STATUS_READY then none
      else some (ClientPtr.mk inst clientIndex)
  else none

/-- `OSAL_MUTEX_Lock(&dObj->transferMutex, OSAL_WAIT_FOREVER)` on instance `i`. -/
def OSAL_MUTEX_Lock_transferMutex (g : Driver) (i : Nat) (w : World) : Bool × Driver × World :=
  let ok := w.lockOk w.nLock
  let w := { w with nLock := w.nLock + 1 }
  if ok = true then
    (true, Function.update g i { g i with transferMutex := (g i).transferMutex + 1 }, w)
  else (false, g, w)

/-- `OSAL_MUTEX_Unlock(&dObj->transferMutex)` on instance `i`. -/
def OSAL_MUTEX_Unlock_transferMutex (g : Driver) (i : Nat) (w : World) : Driver × World :=
  (Function.update g i { g i with transferMutex := (g i).transferMutex - 1 },
    { w with nUnlock := w.nUnlock + 1 })

/-- What `DRV_MEMORY_SetupXfer` leaves behind: its return value, the driver
table, the environment, and the value stored through `commandHandle` (`none`
when that pointer is `NULL`). -/
structure SetupResult where
  isSuccess : Bool
  g : Driver
  w : World
  commandHandle : Option Nat

/-- `DRV_MEMORY_SetupXfer`. `hasCommandHandle` tells whether the pointer
`commandHandle` is not `NULL`. -/
def DRV_MEMORY_SetupXfer (fuel : Nat) (g : Driver) (w : World) (handle : Nat)
    (hasCommandHandle : Bool) (buffer blockStart nBlock geometry_type : Nat)
    (opType : DRV_MEMORY_OPERATION_TYPE) (io_intent : Nat) : Outcome SetupResult :=
  let invalid : Option Nat :=
    if hasCommandHandle = true then some DRV_MEMORY_COMMAND_HANDLE_INVALID else none
  match DRV_MEMORY_DriverHandleValidate g handle with
  | none => Outcome.returned ⟨false, g, w, invalid⟩
  | some clientObj =>
    if (g.client clientObj).intent &&& io_intent = 0 then
      Outcome.returned ⟨false, g, w, invalid⟩
    else
      let i := (g.client clientObj).drvIndex
      if buffer = 0 ∧ opType ≠ DRV_MEMORY_OPERATION_TYPE_ERASE then
        Outcome.returned ⟨false, g, w, invalid⟩
      else if nBlock = 0 ∨ blockStart + nBlock > ((g i).mediaGeometryTable geometry_type).numBlocks then
        Outcome.returned ⟨false, g, w, invalid⟩
      else
        let l := OSAL_MUTEX_Lock_transferMutex g i w
        if l.1 = true then
          let g := l.2.1
          let w := l.2.2
          if (g i).memoryDevice.hasSectorErase = false
              ∧ opType = DRV_MEMORY_OPERATION_TYPE_ERASE then
            let u := OSAL_MUTEX_Unlock_transferMutex g i w
            Outcome.returned ⟨false, u.1, u.2, invalid⟩
          else
            let opType :=
              if (g i).memoryDevice.hasSectorErase = false
                  ∧ opType = DRV_MEMORY_OPERATION_TYPE_ERASE_WRITE then
                DRV_MEMORY_OPERATION_TYPE_WRITE
              else opType
            let a := DRV_MEMORY_AllocateBufferObject g clientObj buffer blockStart nBlock opType
            let out : Option Nat := if hasCommandHandle = true then some a.2 else none
            match DRV_MEMORY_StartXfer fuel a.1 i w with
            | Outcome.outOfFuel => Outcome.outOfFuel
            | Outcome.undefinedBehaviour => Outcome.undefinedBehaviour
            | Outcome.returned r =>
              let u := OSAL_MUTEX_Unlock_transferMutex r.2.1 i r.2.2
              Outcome.returned ⟨r.1, u.1, u.2, out⟩
        else Outcome.returned ⟨false, l.2.1, l.2.2, invalid⟩

/-! ## The public block operations -/

/-- `DRV_MEMORY_Read`; the boolean of `DRV_MEMORY_SetupXfer` is discarded by the
caller of this `void` function. -/
def DRV_MEMORY_Read (fuel : Nat) (g : Driver) (w : World) (handle : Nat)
    (hasCommandHandle : Bool) (targetBuffer blockStart nBlock : Nat) : Outcome SetupResult :=
  DRV_MEMORY_SetupXfer fuel g w handle hasCommandHandle targetBuffer blockStart nBlock
    SYS_MEDIA_GEOMETRY_TABLE_READ_ENTRY DRV_MEMORY_OPERATION_TYPE_READ DRV_IO_INTENT_READ

/-- `DRV_MEMORY_SyncRead`. -/
def DRV_MEMORY_SyncRead (fuel : Nat) (g : Driver) (w : World) (handle : Nat)
    (targetBuffer blockStart nBlock : Nat) : Outcome SetupResult :=
  DRV_MEMORY_SetupXfer fuel g w handle false targetBuffer blockStart nBlock
    SYS_MEDIA_GEOMETRY_TABLE_READ_ENTRY DRV_MEMORY_OPERATION_TYPE_READ DRV_IO_INTENT_READ

/-- `DRV_MEMORY_Write`; the boolean of `DRV_MEMORY_SetupXfer` is discarded by the
caller of this `void` function. -/
def DRV_MEMORY_Write (fuel : Nat) (g : Driver) (w : World) (handle : Nat)
    (hasCommandHandle : Bool) (sourceBuffer blockStart nBlock : Nat) : Outcome SetupResult :=
  DRV_MEMORY_SetupXfer fuel g w handle hasCommandHandle sourceBuffer blockStart nBlock
    SYS_MEDIA_GEOMETRY_TABLE_WRITE_ENTRY DRV_MEMORY_OPERATION_TYPE_WRITE DRV_IO_INTENT_WRITE

/-- `DRV_MEMORY_SyncWrite`. -/
def DRV_MEMORY_SyncWrite (fuel : Nat) (g : Driver) (w : World) (handle : Nat)
    (sourceBuffer blockStart nBlock : Nat) : Outcome SetupResult :=
  DRV_MEMORY_SetupXfer fuel g w handle false sourceBuffer blockStart nBlock
    SYS_MEDIA_GEOMETRY_TABLE_WRITE_ENTRY DRV_MEMORY_OPERATION_TYPE_WRITE DRV_IO_INTENT_WRITE

/-- `DRV_MEMORY_Erase` (the buffer is `NULL`); the boolean of
`DRV_MEMORY_SetupXfer` is discarded by the caller of this `void` function. -/
def DRV_MEMORY_Erase (fuel : Nat) (g : Driver) (w : World) (handle : Nat)
    (hasCommandHandle : Bool) (blockStart nBlock : Nat) : Outcome SetupResult :=
  DRV_MEMORY_SetupXfer fuel g w handle hasCommandHandle 0 blockStart nBlock
    SYS_MEDIA_GEOMETRY_TABLE_ERASE_ENTRY DRV_MEMORY_OPERATION_TYPE_ERASE DRV_IO_INTENT_WRITE

/-- `DRV_MEMORY_SyncErase` (the buffer is `NULL`). -/
def DRV_MEMORY_SyncErase (fuel : Nat) (g : Driver) (w : World) (handle : Nat)
    (blockStart nBlock : Nat) : Outcome SetupResult :=
  DRV_MEMORY_SetupXfer fuel g w handle false 0 blockStart nBlock
    SYS_MEDIA_GEOMETRY_TABLE_ERASE_ENTRY DRV_MEMORY_OPERATION_TYPE_ERASE DRV_IO_INTENT_WRITE

/-- `DRV_MEMORY_EraseWrite`; the boolean of `DRV_MEMORY_SetupXfer` is discarded
by the caller of this `void` function. -/
def DRV_MEMORY_EraseWrite (fuel : Nat) (g : Driver) (w : World) (handle : Nat)
    (hasCommandHandle : Bool) (sourceBuffer blockStart nBlock : Nat) : Outcome SetupResult :=
  DRV_MEMORY_SetupXfer fuel g w handle hasCommandHandle sourceBuffer blockStart nBlock
    SYS_MEDIA_GEOMETRY_TABLE_WRITE_ENTRY DRV_MEMORY_OPERATION_TYPE_ERASE_WRITE
    DRV_IO_INTENT_WRITE

/-- `DRV_MEMORY_SyncEraseWrite`. -/
def DRV_MEMORY_SyncEraseWrite (fuel : Nat) (g : Driver) (w : World) (handle : Nat)
    (sourceBuffer blockStart nBlock : Nat) : Outcome SetupResult :=
  DRV_MEMORY_SetupXfer fuel g w handle false sourceBuffer blockStart nBlock
    SYS_MEDIA_GEOMETRY_TABLE_WRITE_ENTRY DRV_MEMORY_OPERATION_TYPE_ERASE_WRITE
    DRV_IO_INTENT_WRITE

/-- `DRV_MEMORY_CommandStatusGet`. -/
def DRV_MEMORY_CommandStatusGet (g : Driver) (w : World) (handle commandHandle : Nat) :
    DRV_MEMORY_COMMAND_STATUS × Driver × World :=
  match DRV_MEMORY_DriverHandleValidate g handle with
  | none => (DRV_MEMORY_COMMAND_ERROR_UNKNOWN, g, w)
  | some clientObj =>
    let i := (g.client clientObj).drvIndex
    let l := OSAL_MUTEX_Lock_transferMutex g i w
    if l.1 = true then
      let status :=
        if (l.2.1 i).currentBufObj.commandHandle = commandHandle then
          (l.2.1 i).currentBufObj.status
        else DRV_MEMORY_COMMAND_ERROR_UNKNOWN
      let u := OSAL_MUTEX_Unlock_transferMutex l.2.1 i l.2.2
      (status, u.1, u.2)
    else (DRV_MEMORY_COMMAND_ERROR_UNKNOWN, l.2.1, l.2.2)

/-! ## Predicates and functions used in the statements -/

/-- The oracles and the device parameters of two environments are the same. -/
structure World.SameOracles (w w' : World) : Prop where
  devPageSize : w'.devPageSize = w.devPageSize
  devSectorSize : w'.devSectorSize = w.devSectorSize
  accept : w'.accept = w.accept
  tstatus : w'.tstatus = w.tstatus
  timerOk : w'.timerOk = w.timerOk
  pendOk : w'.pendOk = w.pendOk
  lockOk : w'.lockOk = w.lockOk
  isr : w'.isr = w.isr

/-- The second environment is the first after waits of the sequencer: only the
counters of the OS calls differ. -/
structure World.Waited (w w' : World) extends World.SameOracles w w' : Prop where
  flash : w'.flash = w.flash
  cmdLog : w'.cmdLog = w.cmdLog
  nPoll : w'.nPoll = w.nPoll
  ram : w'.ram = w.ram
  nLock : w'.nLock = w.nLock
  nUnlock : w'.nUnlock = w.nUnlock
  handlerLog : w'.handlerLog = w.handlerLog

/-- The device accepts every command, every poll sequence reaches Completed
after finitely many Busy results, and the OS never fails a timer or a wait. -/
structure World.Cooperative (w : World) : Prop where
  accept : ∀ n, w.accept n = true
  tstatus : ∀ n, ∃ k, w.tstatus (n + k) = MEMORY_DEVICE_TRANSFER_COMPLETED ∧
    ∀ j, j < k → w.tstatus (n + j) = MEMORY_DEVICE_TRANSFER_BUSY
  timerOk : ∀ n, w.timerOk n = true
  pendOk : ∀ n, w.pendOk n = true

/-- The command log after `k` accepted page writes, the first from `ptr` at
`addr`, each next one `wbs` further. -/
def pagesLog (hdl wbs : Nat) : Nat → Nat → Nat → List DevCall → List DevCall
  | 0, _, _, log => log
  | k + 1, ptr, addr, log =>
    pagesLog hdl wbs k (ptr + wbs) (u32 (addr + wbs)) (log ++ [DevCall.pageWrite hdl ptr addr])

/-- The stored bytes after `k` accepted page writes of `ps` bytes each, the
first from `ptr` at `addr`, each next one `wbs` further. -/
def pagesFlash (ps wbs : Nat) (ram : Nat → Nat) : Nat → Nat → Nat → (Nat → Nat) → (Nat → Nat)
  | 0, _, _, flash => flash
  | k + 1, ptr, addr, flash =>
    pagesFlash ps wbs ram k (ptr + wbs) (u32 (addr + wbs))
      (fun a => if addr ≤ a ∧ a < addr + ps then ram (ptr + (a - addr)) else flash a)

/-- The buffer cursor and the page address after `k` further pages. -/
def pagesCursor (wbs : Nat) : Nat → Nat → Nat → Nat × Nat
  | 0, ptr, addr => (ptr, addr)
  | k + 1, ptr, addr => pagesCursor wbs k (ptr + wbs) (u32 (addr + wbs))

/-- The instance object with the cursor of the write machine replaced. -/
def DRV_MEMORY_OBJECT.withWrite (d : DRV_MEMORY_OBJECT) (n addr ptr : Nat)
    (st : DRV_MEMORY_WRITE_STATE) (done : Bool) : DRV_MEMORY_OBJECT :=
  { d with nBlocks := n, blockAddress := addr, writePtr := ptr, writeState := st,
           isTransferDone := done }

/-- The environment with the command log, the stored bytes and the call
counters replaced. -/
def World.withDev (w : World) (log : List DevCall) (flash : Nat → Nat) (np nt nq ni : Nat) :
    World :=
  { w with cmdLog := log, flash := flash, nPoll := np, nTimer := nt, nPend := nq, nIsr := ni }

/-- What `write_run` concludes: from the result of the status part of a write
tick, the loop reaches, after some iterations, the tick whose write result is
Completed with no page left. -/
def WriteRunGoal (post : Nat × DRV_MEMORY_OBJECT × World → Nat × DRV_MEMORY_OBJECT × World)
    (r : Nat) (d : DRV_MEMORY_OBJECT) (w : World) : Prop :=
  ∃ n b np nt nq ni, ∀ fuel,
    DRV_MEMORY_StartXfer_loop (fuel + n) (post (DRV_MEMORY_HandleWrite_MEM_STATUS d w)).2.1
      (post (DRV_MEMORY_HandleWrite_MEM_STATUS d w)).2.2
      (post (DRV_MEMORY_HandleWrite_MEM_STATUS d w)).1 =
    (fun t : Nat × DRV_MEMORY_OBJECT × World => DRV_MEMORY_StartXfer_loop fuel t.2.1 t.2.2 t.1)
      (post (MEMORY_DEVICE_TRANSFER_COMPLETED,
        d.withWrite 0 (pagesCursor d.writeBlockSize r d.writePtr d.blockAddress).2
          (pagesCursor d.writeBlockSize r d.writePtr d.blockAddress).1
          DRV_MEMORY_WRITE_MEM_STATUS b,
        w.withDev
          (pagesLog d.memDevHandle d.writeBlockSize r
            (d.writePtr + d.writeBlockSize) (u32 (d.blockAddress + d.writeBlockSize)) w.cmdLog)
          (pagesFlash w.devPageSize d.writeBlockSize w.ram r
            (d.writePtr + d.writeBlockSize) (u32 (d.blockAddress + d.writeBlockSize)) w.flash)
          np nt nq ni))

/-- The driver table after the transfer lock has been taken for the client `p`
and the command descriptor filled (`DRV_MEMORY_AllocateBufferObject`). -/
def Driver.allocated (g : Driver) (p : ClientPtr) (buffer blockStart nBlock : Nat)
    (opType : DRV_MEMORY_OPERATION_TYPE) : Driver :=
  (DRV_MEMORY_AllocateBufferObject
    (Function.update g (g.client p).drvIndex
      { g (g.client p).drvIndex with
        transferMutex := (g (g.client p).drvIndex).transferMutex + 1 })
    p buffer blockStart nBlock opType).1

/-! ## A concrete device: 256-byte pages, 4096-byte sectors -/

/-- The client of the concrete device: slot 0 of instance 0, opened for reading
and writing, with a transfer handler. -/
def demoClient : DRV_MEMORY_CLIENT_OBJECT :=
  { inUse := true, drvIndex := 0, intent := 3, transferHandler := some 77, context := 5,
    clientHandle := 0x10000 }

/-- A ready instance over a flash of 1024 pages of 256 bytes in 64 sectors of
4096 bytes, read byte by byte, polled every 500 microseconds. -/
def demoObj : DRV_MEMORY_OBJECT :=
  { status := SYS_STATUS_READY, inUse := true, isExclusive := false, numClients := 1,
    nClientsMax := 1, clientObjPool := fun _ => demoClient, bufferToken := 1, clientToken := 2,
    memoryDevice := ⟨true, true, true, true⟩, memDevIndex := 0, memDevHandle := 9,
    isMemDevInterruptEnabled := false, memDevStatusPollUs := 500, isTransferDone := false,
    ewBuffer := 0x20000000,
    mediaGeometryTable := fun i =>
      if i = 0 then ⟨1, 262144⟩ else if i = 1 then ⟨256, 1024⟩ else ⟨4096, 64⟩,
    writeBlockSize := 256, eraseBlockSize := 4096, blockStartAddress := 0,
    readState := DRV_MEMORY_READ_INIT, writeState := DRV_MEMORY_WRITE_INIT,
    eraseState := DRV_MEMORY_ERASE_INIT, ewState := DRV_MEMORY_EW_INIT,
    blockAddress := 0, nBlocks := 0, writePtr := 0, sectorNumber := 0, blockOffsetInSector := 0,
    nBlocksToWrite := 0,
    currentBufObj := ⟨0, none, 0, 0, 0, DRV_MEMORY_OPERATION_TYPE_READ,
      DRV_MEMORY_COMMAND_COMPLETED⟩,
    transferMutex := 0, clientMutex := 0 }

/-- The driver table of the concrete device. -/
def demoDriver : Driver := fun _ => demoObj

/-- An environment for the concrete device: the flash holds `a % 251` at `a`,
the RAM holds `(7 * a + 3) % 256` at `a`, the device accepts every command and
answers every second poll with Completed, the OS never fails. -/
def demoWorld : World :=
  { flash := fun a => a % 251, devPageSize := 256, devSectorSize := 4096,
    accept := fun _ => true, tstatus := fun n => if n % 2 = 0 then 0 else 1,
    cmdLog := [], nPoll := 0, ram := fun a => (7 * a + 3) % 256,
    timerOk := fun _ => true, nTimer := 0, pendOk := fun _ => true, nPend := 0,
    lockOk := fun _ => true, nLock := 0, nUnlock := 0, isr := fun _ => false, nIsr := 0,
    handlerLog := [] }

/-- The second instance object has the command identity, the client pool, the
tokens, the locks and the configuration of the first: what the transfer state
machines never write. -/
structure DRV_MEMORY_OBJECT.SameCommand (d d' : DRV_MEMORY_OBJECT) : Prop where
  commandHandle : d'.currentBufObj.commandHandle = d.currentBufObj.commandHandle
  hClient : d'.currentBufObj.hClient = d.currentBufObj.hClient
  opType : d'.currentBufObj.opType = d.currentBufObj.opType
  cmdStatus : d'.currentBufObj.status = d.currentBufObj.status
  clientObjPool : d'.clientObjPool = d.clientObjPool
  nClientsMax : d'.nClientsMax = d.nClientsMax
  bufferToken : d'.bufferToken = d.bufferToken
  transferMutex : d'.transferMutex = d.transferMutex
  status : d'.status = d.status
  memoryDevice : d'.memoryDevice = d.memoryDevice
  mediaGeometryTable : d'.mediaGeometryTable = d.mediaGeometryTable
  isMemDevInterruptEnabled : d'.isMemDevInterruptEnabled = d.isMemDevInterruptEnabled
  memDevStatusPollUs : d'.memDevStatusPollUs = d.memDevStatusPollUs

/-- The second environment has the oracles, the lock counters and the handler
log of the first: what neither a tick nor a wait changes. -/
structure World.SameOS (w w' : World) extends World.SameOracles w w' : Prop where
  nLock : w'.nLock = w.nLock
  nUnlock : w'.nUnlock = w.nUnlock
  handlerLog : w'.handlerLog = w.handlerLog

/-- The eight public block operations. -/
inductive BlockOp where
  | read
  | syncRead
  | write
  | syncWrite
  | erase
  | syncErase
  | eraseWrite
  | syncEraseWrite
deriving DecidableEq, Repr

/-- A block operation run through its public function; the erase operations
take no buffer, the synchronous ones no command-handle pointer. -/
def BlockOp.run (op : BlockOp) (fuel : Nat) (g : Driver) (w : World) (handle : Nat)
    (hasCommandHandle : Bool) (buffer blockStart nBlock : Nat) : Outcome SetupResult :=
  match op with
  | BlockOp.read => DRV_MEMORY_Read fuel g w handle hasCommandHandle buffer blockStart nBlock
  | BlockOp.syncRead => DRV_MEMORY_SyncRead fuel g w handle buffer blockStart nBlock
  | BlockOp.write => DRV_MEMORY_Write fuel g w handle hasCommandHandle buffer blockStart nBlock
  | BlockOp.syncWrite => DRV_MEMORY_SyncWrite fuel g w handle buffer blockStart nBlock
  | BlockOp.erase => DRV_MEMORY_Erase fuel g w handle hasCommandHandle blockStart nBlock
  | BlockOp.syncErase => DRV_MEMORY_SyncErase fuel g w handle blockStart nBlock
  | BlockOp.eraseWrite =>
    DRV_MEMORY_EraseWrite fuel g w handle hasCommandHandle buffer blockStart nBlock
  | BlockOp.syncEraseWrite => DRV_MEMORY_SyncEraseWrite fuel g w handle buffer blockStart nBlock

/-- The geometry class of a block operation as the specification assigns it:
the read table for Read, the write table for Write and EraseWrite, the erase
table for Erase. -/
def BlockOp.geometryClass (op : BlockOp) : Nat :=
  match op with
  | BlockOp.read => SYS_MEDIA_GEOMETRY_TABLE_READ_ENTRY
  | BlockOp.syncRead => SYS_MEDIA_GEOMETRY_TABLE_READ_ENTRY
  | BlockOp.write => SYS_MEDIA_GEOMETRY_TABLE_WRITE_ENTRY
  | BlockOp.syncWrite => SYS_MEDIA_GEOMETRY_TABLE_WRITE_ENTRY
  | BlockOp.eraseWrite => SYS_MEDIA_GEOMETRY_TABLE_WRITE_ENTRY
  | BlockOp.syncEraseWrite => SYS_MEDIA_GEOMETRY_TABLE_WRITE_ENTRY
  | BlockOp.erase => SYS_MEDIA_GEOMETRY_TABLE_ERASE_ENTRY
  | BlockOp.syncErase => SYS_MEDIA_GEOMETRY_TABLE_ERASE_ENTRY

/-- The outcome of an admission that refused the request at once: the function
returned `false` and left the driver table and the environment as they
were. -/
def Outcome.Rejected (o : Outcome SetupResult) (g : Driver) (w : World) : Prop :=
  ∃ r, o = Outcome.returned r ∧ r.isSuccess = false ∧ r.g = g ∧ r.w = w

/-- The instance with no sector-erase primitive. -/
def demoDriverNoErase : Driver :=
  fun _ => { demoObj with memoryDevice := ⟨false, true, true, true⟩ }

/-- The operation type that `DRV_MEMORY_SetupXfer` records for a request: an
erase-write on a device without a sector-erase primitive becomes a write. -/
def effectiveOpType (hasSectorErase : Bool) (opType : DRV_MEMORY_OPERATION_TYPE) :
    DRV_MEMORY_OPERATION_TYPE :=
  if hasSectorErase = false ∧ opType = DRV_MEMORY_OPERATION_TYPE_ERASE_WRITE then
    DRV_MEMORY_OPERATION_TYPE_WRITE
  else opType

/-- The result of a tick keeps, of the instance object and of the environment it
started from, what `SameCommand` and `SameOS` list. -/
def Framed (d : DRV_MEMORY_OBJECT) (w : World) (r : Nat × DRV_MEMORY_OBJECT × World) : Prop :=
  d.SameCommand r.2.1 ∧ w.SameOS r.2.2

/-- The handler calls that the end of the sequencer makes for a client: one
call when the client has registered a handler, none otherwise. -/
def handlerCalls (clientObj : DRV_MEMORY_CLIENT_OBJECT) (event : DRV_MEMORY_EVENT)
    (commandHandle : Nat) : List HandlerCall :=
  match clientObj.transferHandler with
  | some h => [HandlerCall.mk h event commandHandle clientObj.context]
  | none => []

/-- The concrete environment with a device that reports Completed at once. -/
def demoWorldFast : World := { demoWorld with tstatus := fun _ => 1 }

/-- The concrete environment with a device that reports an error. -/
def demoWorldBroken : World := { demoWorld with tstatus := fun _ => 2 }

/-- The concrete environment with an OS that cannot arm a timer. -/
def demoWorldNoTimer : World := { demoWorld with timerOk := fun _ => false }

/-- The wait of the sequencer fails: in polling mode the timer cannot be armed
or the wait on the completion signal fails; in interrupt mode the transfer is
not yet done and the wait on the completion signal fails. -/
def WaitFails (d : DRV_MEMORY_OBJECT) (w : World) : Prop :=
  (d.isMemDevInterruptEnabled = false ∧ d.memDevStatusPollUs > 0 ∧
    (w.timerOk w.nTimer = false ∨ w.pendOk w.nPend = false)) ∨
  (d.isMemDevInterruptEnabled = true ∧ d.memDevStatusPollUs = 0 ∧
    d.isTransferDone = false ∧ w.isr w.nIsr = false ∧ w.pendOk w.nPend = false)

/-- The first tick of a write of `n` pages from page 3 of the concrete device,
in the environment `w` after the lock call of admission. -/
def demoFirstTick (w : World) (n : Nat) : Nat × DRV_MEMORY_OBJECT × World :=
  DRV_MEMORY_HandleWrite
    (DRV_MEMORY_StartXfer_init (demoDriver.allocated ⟨0, 0⟩ 0x20002000 3 n
      DRV_MEMORY_OPERATION_TYPE_WRITE 0))
    { w with nLock := w.nLock + 1 } 0x20002000 3 n

/-- The second driver object holds the command of the first, whatever its
status, and the client pool, token, lock and configuration of the first: what
the sequencer as a whole leaves alone. -/
structure DRV_MEMORY_OBJECT.SameHandle (d d' : DRV_MEMORY_OBJECT) : Prop where
  commandHandle : d'.currentBufObj.commandHandle = d.currentBufObj.commandHandle
  hClient : d'.currentBufObj.hClient = d.currentBufObj.hClient
  opType : d'.currentBufObj.opType = d.currentBufObj.opType
  clientObjPool : d'.clientObjPool = d.clientObjPool
  nClientsMax : d'.nClientsMax = d.nClientsMax
  bufferToken : d'.bufferToken = d.bufferToken
  transferMutex : d'.transferMutex = d.transferMutex
  status : d'.status = d.status
  memoryDevice : d'.memoryDevice = d.memoryDevice
  mediaGeometryTable : d'.mediaGeometryTable = d.mediaGeometryTable

/-- The second driver object has the client pool, the status, the lock and the
configuration of the first: what no block operation changes. -/
structure DRV_MEMORY_OBJECT.SameConfig (d d' : DRV_MEMORY_OBJECT) : Prop where
  clientObjPool : d'.clientObjPool = d.clientObjPool
  nClientsMax : d'.nClientsMax = d.nClientsMax
  transferMutex : d'.transferMutex = d.transferMutex
  status : d'.status = d.status
  memoryDevice : d'.memoryDevice = d.memoryDevice
  mediaGeometryTable : d'.mediaGeometryTable = d.mediaGeometryTable

/-- The admission conditions of `DRV_MEMORY_SetupXfer` up to the lock. -/
structure Admissible (g : Driver) (handle buffer blockStart nBlock geometry_type : Nat)
    (opType : DRV_MEMORY_OPERATION_TYPE) (io_intent : Nat) (p : ClientPtr) : Prop where
  valid : DRV_MEMORY_DriverHandleValidate g handle = some p
  intent : (g.client p).intent &&& io_intent ≠ 0
  buffer : buffer ≠ 0 ∨ opType = DRV_MEMORY_OPERATION_TYPE_ERASE
  count : nBlock ≠ 0
  range : blockStart + nBlock ≤
    ((g (g.client p).drvIndex).mediaGeometryTable geometry_type).numBlocks

/-- The operation type a public block operation passes to
`DRV_MEMORY_SetupXfer`. -/
def BlockOp.opType (op : BlockOp) : DRV_MEMORY_OPERATION_TYPE :=
  match op with
  | BlockOp.read => DRV_MEMORY_OPERATION_TYPE_READ
  | BlockOp.syncRead => DRV_MEMORY_OPERATION_TYPE_READ
  | BlockOp.write => DRV_MEMORY_OPERATION_TYPE_WRITE
  | BlockOp.syncWrite => DRV_MEMORY_OPERATION_TYPE_WRITE
  | BlockOp.erase => DRV_MEMORY_OPERATION_TYPE_ERASE
  | BlockOp.syncErase => DRV_MEMORY_OPERATION_TYPE_ERASE
  | BlockOp.eraseWrite => DRV_MEMORY_OPERATION_TYPE_ERASE_WRITE
  | BlockOp.syncEraseWrite => DRV_MEMORY_OPERATION_TYPE_ERASE_WRITE

/-- The direction a block operation requires, as the specification assigns it:
the Read intent for Read and SyncRead, the Write intent for Write, Erase and
EraseWrite and their synchronous variants. -/
def BlockOp.requiredIntent (op : BlockOp) : Nat :=
  match op with
  | BlockOp.read => DRV_IO_INTENT_READ
  | BlockOp.syncRead => DRV_IO_INTENT_READ
  | _ => DRV_IO_INTENT_WRITE

/-- The synchronous operations: they take no command-handle pointer. -/
def BlockOp.isSync (op : BlockOp) : Bool :=
  match op with
  | BlockOp.syncRead => true
  | BlockOp.syncWrite => true
  | BlockOp.syncErase => true
  | BlockOp.syncEraseWrite => true
  | _ => false

/-- The buffer pointer a block operation passes on: the erase operations pass
`NULL`. -/
def BlockOp.bufferArg (op : BlockOp) (buffer : Nat) : Nat :=
  match op with
  | BlockOp.erase => 0
  | BlockOp.syncErase => 0
  | _ => buffer

/-- The request is admitted by `DRV_MEMORY_SetupXfer`: every check up to the
lock passes, the lock is obtained and the operation is not an Erase on a device
without a sector-erase primitive. -/
def Admitted (g : Driver) (w : World) (handle buffer blockStart nBlock geometry_type : Nat)
    (opType : DRV_MEMORY_OPERATION_TYPE) (io_intent : Nat) (p : ClientPtr) : Prop :=
  Admissible g handle buffer blockStart nBlock geometry_type opType io_intent p ∧
  w.lockOk w.nLock = true ∧
  ((g (g.client p).drvIndex).memoryDevice.hasSectorErase = true ∨
    opType ≠ DRV_MEMORY_OPERATION_TYPE_ERASE)

/-- The concrete device with its client opened for reading only. -/
def demoDriverReadOnly : Driver :=
  fun _ => { demoObj with clientObjPool := fun _ => { demoClient with intent := DRV_IO_INTENT_READ } }

/-- The concrete device with its client opened for writing only. -/
def demoDriverWriteOnly : Driver :=
  fun _ => { demoObj with clientObjPool := fun _ => { demoClient with intent := DRV_IO_INTENT_WRITE } }

/-- The device commands issued between two environments are page writes only:
no read, no sector erase. -/
def OnlyPageWrites (w w' : World) : Prop :=
  ∃ l, w'.cmdLog = w.cmdLog ++ l ∧ ∀ c ∈ l, ∃ h d a, c = DevCall.pageWrite h d a

/-- The decrement of the client counter `numClients`, taken as a `uint8_t`
like the client index: it wraps from 0 to 255. -/
def dec8 (n : Nat) : Nat := if n = 0 then 255 else n - 1

/-- `OSAL_MUTEX_Lock(&dObj->clientMutex, OSAL_WAIT_FOREVER)` on instance `i`. -/
def OSAL_MUTEX_Lock_clientMutex (g : Driver) (i : Nat) (w : World) : Bool × Driver × World :=
  let ok := w.lockOk w.nLock
  let w := { w with nLock := w.nLock + 1 }
  if ok = true then
    (true, Function.update g i { g i with clientMutex := (g i).clientMutex + 1 }, w)
  else (false, g, w)

/-- `OSAL_MUTEX_Unlock(&dObj->clientMutex)` on instance `i`. -/
def OSAL_MUTEX_Unlock_clientMutex (g : Driver) (i : Nat) (w : World) : Driver × World :=
  (Function.update g i { g i with clientMutex := (g i).clientMutex - 1 },
    { w with nUnlock := w.nUnlock + 1 })

/-- `DRV_MEMORY_Close`, the statements under the client lock:
`dObj->numClients--; dObj->isExclusive = false; clientObj->inUse = false;`
with `dObj = &gDrvMemoryObj[i]`. -/
def DRV_MEMORY_Close_locked (g : Driver) (i : Nat) (clientObj : ClientPtr) : Driver :=
  let g : Driver := Function.update g i
    { g i with numClients := dec8 (g i).numClients, isExclusive := false }
  Function.update g clientObj.inst
    { g clientObj.inst with
      clientObjPool := Function.update (g clientObj.inst).clientObjPool clientObj.slot
        { (g clientObj.inst).clientObjPool clientObj.slot with inUse := false } }

/-- `DRV_MEMORY_Close`. -/
def DRV_MEMORY_Close (g : Driver) (w : World) (handle : Nat) : Driver × World :=
  match DRV_MEMORY_DriverHandleValidate g handle with
  | none => (g, w)
  | some clientObj =>
    let i := (g.client clientObj).drvIndex
    let l := OSAL_MUTEX_Lock_clientMutex g i w
    if l.1 = true then
      OSAL_MUTEX_Unlock_clientMutex (DRV_MEMORY_Close_locked l.2.1 i clientObj) i l.2.2
    else (l.2.1, l.2.2)

/-- The instance object as the Init state of the erase-write machine leaves it
before it chooses its path: the three sub-machines reset, the sector of the
first page, the page offset in that sector and the number of pages of the
request that fall in that sector. -/
def DRV_MEMORY_OBJECT.ewInit (d : DRV_MEMORY_OBJECT) (pagesPerSector : Nat) :
    DRV_MEMORY_OBJECT :=
  { d with
    readState := DRV_MEMORY_READ_INIT,
    eraseState := DRV_MEMORY_ERASE_INIT,
    writeState := DRV_MEMORY_WRITE_INIT,
    sectorNumber := d.currentBufObj.blockStart / pagesPerSector,
    blockOffsetInSector := d.currentBufObj.blockStart % pagesPerSector,
    nBlocksToWrite :=
      min (pagesPerSector - d.currentBufObj.blockStart % pagesPerSector) d.currentBufObj.nBlocks }

/-- The second environment has the command log of the first followed by more
commands. -/
def World.Extends (w w' : World) : Prop := ∃ l, w'.cmdLog = w.cmdLog ++ l

/-- The instance object of the concrete device with an erase-write command of
`n` pages from page `bs` in its descriptor. -/
def demoEwObj (bs n : Nat) : DRV_MEMORY_OBJECT :=
  { demoObj with
    currentBufObj := ⟨0x10000, some ⟨0, 0⟩, 0x20002000, bs, n,
      DRV_MEMORY_OPERATION_TYPE_ERASE_WRITE, DRV_MEMORY_COMMAND_IN_PROGRESS⟩ }

/-- One accepted command on the instance `i`: a call of
`DRV_MEMORY_SetupXfer` that is admitted for a client of that instance and
returns, taking the driver table and the environment from `(g, w)` to
`(g', w')`. -/
def AcceptedStep (i : Nat) (g : Driver) (w : World) (g' : Driver) (w' : World) : Prop :=
  ∃ (fuel handle : Nat) (hasCommandHandle : Bool) (buffer blockStart nBlock geometry_type : Nat)
    (opType : DRV_MEMORY_OPERATION_TYPE) (io_intent : Nat) (p : ClientPtr) (r : SetupResult),
    Admitted g w handle buffer blockStart nBlock geometry_type opType io_intent p ∧
    (g.client p).drvIndex = i ∧
    DRV_MEMORY_SetupXfer fuel g w handle hasCommandHandle buffer blockStart nBlock geometry_type
      opType io_intent = Outcome.returned r ∧
    g' = r.g ∧ w' = r.w

/-- A sequence of `k` accepted commands on the instance `i`, one after the
other. -/
def AcceptedSteps (i : Nat) : Nat → Driver → World → Driver → World → Prop
  | 0, g, w, g', w' => g' = g ∧ w' = w
  | k + 1, g, w, g', w' =>
    ∃ g1 w1, AcceptedStep i g w g1 w1 ∧ AcceptedSteps i k g1 w1 g' w'

/-- The client `p` of instance `i`, reached through `handle`, can have a write
of one page admitted and carried out: the handle validates, the client has the
Write intent, the write geometry has a block, the device and the OS cooperate
and the lock is always obtained. -/
structure WriteReady (g : Driver) (w : World) (handle : Nat) (p : ClientPtr) (i : Nat) :
    Prop where
  valid : DRV_MEMORY_DriverHandleValidate g handle = some p
  inst : (g.client p).drvIndex = i
  intent : (g.client p).intent &&& DRV_IO_INTENT_WRITE ≠ 0
  room : 1 ≤ ((g i).mediaGeometryTable SYS_MEDIA_GEOMETRY_TABLE_WRITE_ENTRY).numBlocks
  coop : w.Cooperative
  lock : ∀ n, w.lockOk n = true

/-- The loop of the sequencer entered with the result of a tick. -/
def loopT (fuel : Nat) (t : Nat × DRV_MEMORY_OBJECT × World) :
    Outcome (Option Nat × DRV_MEMORY_OBJECT × World) :=
  DRV_MEMORY_StartXfer_loop fuel t.2.1 t.2.2 t.1

/-- From the tick result `t` the loop of the sequencer comes, after some
iterations, to the tick result `t'`: with enough fuel the loop from `t` ends as
the loop from `t'` does. -/
def Reaches (t t' : Nat × DRV_MEMORY_OBJECT × World) : Prop :=
  ∃ n, ∀ fuel, loopT (fuel + n) t = loopT fuel t'

/-- The second environment has the device contents, the RAM, the command log,
the oracles, the lock counters and the handler log of the first: only the
counters of polls and waits differ. -/
structure World.SameMem (w w' : World) extends World.SameOS w w' : Prop where
  flash : w'.flash = w.flash
  cmdLog : w'.cmdLog = w.cmdLog
  ram : w'.ram = w.ram

/-- The part of the environment that the device commands and `memcpy` change:
the command log, the stored bytes of the device and the RAM. -/
structure Mem where
  log : List DevCall
  flash : Nat → Nat
  ram : Nat → Nat

/-- The memory part of an environment. -/
def World.mem (w : World) : Mem := ⟨w.cmdLog, w.flash, w.ram⟩

/-- The effect of an accepted `read` command. -/
def Mem.read (m : Mem) (hdl data n addr : Nat) : Mem :=
  { m with
    log := m.log ++ [DevCall.read hdl data n addr],
    ram := fun a => if data ≤ a ∧ a < data + n then m.flash (addr + (a - data)) else m.ram a }

/-- The effect of `memcpy`. -/
def Mem.copy (m : Mem) (dst src n : Nat) : Mem :=
  { m with ram := fun a => if dst ≤ a ∧ a < dst + n then m.ram (src + (a - dst)) else m.ram a }

/-- The effect of an accepted `sector_erase` command on a device with sectors
of `ss` bytes. -/
def Mem.erase (m : Mem) (ss hdl addr : Nat) : Mem :=
  { m with
    log := m.log ++ [DevCall.sectorErase hdl addr],
    flash := fun a => if addr ≤ a ∧ a < addr + ss then 0xFF else m.flash a }

/-- The effect of `k` accepted `page_write` commands on a device with pages of
`ps` bytes, the first from `ptr` at `addr`, each next one `wbs` further. -/
def Mem.pages (m : Mem) (ps hdl wbs k ptr addr : Nat) : Mem :=
  { m with
    log := pagesLog hdl wbs k ptr addr m.log,
    flash := pagesFlash ps wbs m.ram k ptr addr m.flash }

/-- The second instance object has the command identity and the configuration
of the first, the geometry of the erase-write machine included. -/
structure DRV_MEMORY_OBJECT.SameEw (d d' : DRV_MEMORY_OBJECT) extends
    DRV_MEMORY_OBJECT.SameCommand d d' : Prop where
  memDevHandle : d'.memDevHandle = d.memDevHandle
  writeBlockSize : d'.writeBlockSize = d.writeBlockSize
  eraseBlockSize : d'.eraseBlockSize = d.eraseBlockSize
  blockStartAddress : d'.blockStartAddress = d.blockStartAddress
  ewBuffer : d'.ewBuffer = d.ewBuffer

/-- The end of the case `DRV_MEMORY_EW_WRITE_SECTOR`, after the call of the
write machine: when the sector is written, either the request is finished or
the descriptor is moved to the next sector and the state is Init again. -/
def ewWritePost (r : Nat × DRV_MEMORY_OBJECT × World) : Nat × DRV_MEMORY_OBJECT × World :=
  if r.1 = MEMORY_DEVICE_TRANSFER_COMPLETED then
    let dObj := r.2.1
    let bufferObj := dObj.currentBufObj
    if sub32 bufferObj.nBlocks dObj.nBlocksToWrite = 0 then r
    else
      let bufferObj := { bufferObj with
        nBlocks := sub32 bufferObj.nBlocks dObj.nBlocksToWrite,
        blockStart := u32 (bufferObj.blockStart + dObj.nBlocksToWrite),
        buffer := bufferObj.buffer + u32 (dObj.nBlocksToWrite * dObj.writeBlockSize) }
      (MEMORY_DEVICE_TRANSFER_BUSY,
        { dObj with currentBufObj := bufferObj, ewState := DRV_MEMORY_EW_INIT }, r.2.2)
  else r

/-- The effect on the memory of the erase-write of the first sector of a
request of `n` pages from page `bs`, the data at `B`, on a device with pages of
`ps` and sectors of `ss` bytes: unless the request covers the sector, the
sector is read into the scratch buffer and the pages of the request are copied
over it; the sector is erased; its pages are written, from the scratch buffer
or from the data. -/
def ewSectorMem (d : DRV_MEMORY_OBJECT) (ps ss B bs n : Nat) (m : Mem) : Mem :=
  let pps := u8 (d.eraseBlockSize / d.writeBlockSize)
  let m1 :=
    if bs % pps = 0 ∧ pps ≤ n then m
    else
      (m.read d.memDevHandle d.ewBuffer d.eraseBlockSize
        (u32 (u32 (u32 (bs / pps * d.eraseBlockSize) * (d.mediaGeometryTable 0).blockSize)
          + d.blockStartAddress))).copy
        (d.ewBuffer + u32 (bs % pps * d.writeBlockSize)) B
        (u32 (min (pps - bs % pps) n * d.writeBlockSize))
  (m1.erase ss d.memDevHandle (u32 (u32 (bs / pps * d.eraseBlockSize) + d.blockStartAddress))).pages
    ps d.memDevHandle d.writeBlockSize pps
    (if bs % pps = 0 ∧ pps ≤ n then B else d.ewBuffer)
    (u32 (u32 (u32 (bs / pps * pps) * d.writeBlockSize) + d.blockStartAddress))

/-- The effect on the memory of an erase-write of `n` pages from page `bs`, the
data at `B`: sector after sector, at most `k` sectors. -/
def ewMem (d : DRV_MEMORY_OBJECT) (ps ss : Nat) : Nat → Nat → Nat → Nat → Mem → Mem
  | 0, _, _, _, m => m
  | k + 1, B, bs, n, m =>
    if sub32 n (min (u8 (d.eraseBlockSize / d.writeBlockSize)
        - bs % u8 (d.eraseBlockSize / d.writeBlockSize)) n) = 0 then
      ewSectorMem d ps ss B bs n m
    else
      ewMem d ps ss k
        (B + u32 (min (u8 (d.eraseBlockSize / d.writeBlockSize)
          - bs % u8 (d.eraseBlockSize / d.writeBlockSize)) n * d.writeBlockSize))
        (u32 (bs + min (u8 (d.eraseBlockSize / d.writeBlockSize)
          - bs % u8 (d.eraseBlockSize / d.writeBlockSize)) n))
        (sub32 n (min (u8 (d.eraseBlockSize / d.writeBlockSize)
          - bs % u8 (d.eraseBlockSize / d.writeBlockSize)) n))
        (ewSectorMem d ps ss B bs n m)

/-- The device commands of the erase-write of sector `s` for a request of `n`
pages from page `bs` with the data at `B`, in the words of the specification:
a read of the sector into the scratch buffer unless the request covers the
whole sector; one erase of the sector; `pagesPerSector` page writes from page
`s * pagesPerSector` on, from the data when the request covers the sector and
from the scratch buffer otherwise. -/
def ewSectorCmds (d : DRV_MEMORY_OBJECT) (B bs n s : Nat) : List DevCall :=
  (if bs ≤ s * u8 (d.eraseBlockSize / d.writeBlockSize)
      ∧ (s + 1) * u8 (d.eraseBlockSize / d.writeBlockSize) ≤ bs + n then []
    else [DevCall.read d.memDevHandle d.ewBuffer d.eraseBlockSize
      (u32 (u32 (u32 (s * d.eraseBlockSize) * (d.mediaGeometryTable 0).blockSize)
        + d.blockStartAddress))])
  ++ DevCall.sectorErase d.memDevHandle (u32 (u32 (s * d.eraseBlockSize) + d.blockStartAddress))
  :: (List.range (u8 (d.eraseBlockSize / d.writeBlockSize))).map (fun k =>
      DevCall.pageWrite d.memDevHandle
        (if bs ≤ s * u8 (d.eraseBlockSize / d.writeBlockSize)
            ∧ (s + 1) * u8 (d.eraseBlockSize / d.writeBlockSize) ≤ bs + n then
          B + (s * u8 (d.eraseBlockSize / d.writeBlockSize) + k - bs) * d.writeBlockSize
        else d.ewBuffer + k * d.writeBlockSize)
        (u32 (d.blockStartAddress
          + (s * u8 (d.eraseBlockSize / d.writeBlockSize) + k) * d.writeBlockSize)))

/-- The device commands of an erase-write of `n` pages from page `bs`, in the
words of the specification: the commands of the sectors
`bs / pagesPerSector` to `(bs + n - 1) / pagesPerSector`, in ascending order. -/
def ewCmds (d : DRV_MEMORY_OBJECT) (B bs n : Nat) : List DevCall :=
  (List.range ((bs + n - 1) / u8 (d.eraseBlockSize / d.writeBlockSize)
      - bs / u8 (d.eraseBlockSize / d.writeBlockSize) + 1)).flatMap
    (fun j => ewSectorCmds d B bs n (bs / u8 (d.eraseBlockSize / d.writeBlockSize) + j))

/-- The instance object of the concrete device, for a device whose
`GeometryGet` reports a read block of 2 bytes (131072 read blocks). -/
def demoObjRead2 : DRV_MEMORY_OBJECT :=
  { demoObj with
    mediaGeometryTable := fun i =>
      if i = 0 then ⟨2, 131072⟩ else if i = 1 then ⟨256, 1024⟩ else ⟨4096, 64⟩ }

/-- The driver table of the device with the 2-byte read block. -/
def demoDriverRead2 : Driver := fun _ => demoObjRead2

/-- The result of tick number `k + 1` of the read machine on the same
arguments, each tick entered with the instance object and the environment that
the tick before it left. -/
def readTicks (data blockStart nBlocks : Nat) :
    Nat → DRV_MEMORY_OBJECT → World → Nat × DRV_MEMORY_OBJECT × World
  | 0, d, w => DRV_MEMORY_HandleRead d w data blockStart nBlocks
  | k + 1, d, w =>
    DRV_MEMORY_HandleRead (readTicks data blockStart nBlocks k d w).2.1
      (readTicks data blockStart nBlocks k d w).2.2 data blockStart nBlocks

/-- The concrete environment with a device that rejects every command. -/
def demoWorldReject : World := { demoWorld with accept := fun _ => false }

/-- The result of tick number `k + 1` of the command in the descriptor, each
tick entered with the instance object and the environment that the tick before
it left; `none` when a tick meets a division by zero. -/
def ticks : Nat → DRV_MEMORY_OBJECT → World → Option (Nat × DRV_MEMORY_OBJECT × World)
  | 0, d, w => DRV_MEMORY_StartXfer_tick d w
  | k + 1, d, w =>
    match ticks k d w with
    | none => none
    | some r => DRV_MEMORY_StartXfer_tick r.2.1 r.2.2

/-- The instance object of the concrete device, for a device whose
`GeometryGet` reports an erase block of 65536 bytes (4 erase blocks of 256
pages of 256 bytes). -/
def demoObjBlock64K : DRV_MEMORY_OBJECT :=
  { demoObj with
    eraseBlockSize := 65536,
    mediaGeometryTable := fun i =>
      if i = 0 then ⟨1, 262144⟩ else if i = 1 then ⟨256, 1024⟩ else ⟨65536, 4⟩ }

/-- The driver table of the device with the 65536-byte erase block. -/
def demoDriverBlock64K : Driver := fun _ => demoObjBlock64K

/-- The command log after `k` accepted sector erases, the first at `addr`, each
next one `ebs` further. -/
def erasesLog (hdl ebs : Nat) : Nat → Nat → List DevCall → List DevCall
  | 0, _, log => log
  | k + 1, addr, log =>
    erasesLog hdl ebs k (u32 (addr + ebs)) (log ++ [DevCall.sectorErase hdl addr])

/-- The instance object with its six numeric sub-state cursors replaced: block
address, remaining count, write pointer, sector number, offset in the sector
and blocks to write. -/
def DRV_MEMORY_OBJECT.withNums (d : DRV_MEMORY_OBJECT) (ba nb wp sn off ntw : Nat) :
    DRV_MEMORY_OBJECT :=
  { d with blockAddress := ba, nBlocks := nb, writePtr := wp, sectorNumber := sn,
           blockOffsetInSector := off, nBlocksToWrite := ntw }

/-- The instance object with its ten sub-state cursors replaced: the states of
the four machines and the six numeric cursors. -/
def DRV_MEMORY_OBJECT.withCursors (d : DRV_MEMORY_OBJECT) (rs : DRV_MEMORY_READ_STATE)
    (ws : DRV_MEMORY_WRITE_STATE) (es : DRV_MEMORY_ERASE_STATE) (ews : DRV_MEMORY_EW_STATE)
    (ba nb wp sn off ntw : Nat) : DRV_MEMORY_OBJECT :=
  { d with readState := rs, writeState := ws, eraseState := es, ewState := ews,
           blockAddress := ba, nBlocks := nb, writePtr := wp, sectorNumber := sn,
           blockOffsetInSector := off, nBlocksToWrite := ntw }

/-- The second instance object differs from the first only in the sub-state
cursors. -/
def DRV_MEMORY_OBJECT.SameButCursors (d d' : DRV_MEMORY_OBJECT) : Prop :=
  ∃ rs ws es ews ba nb wp sn off ntw, d' = d.withCursors rs ws es ews ba nb wp sn off ntw

/-- The instance object with the sector cursors of the erase-write machine
replaced. -/
def DRV_MEMORY_OBJECT.withSector (d : DRV_MEMORY_OBJECT) (sn off ntw : Nat) : DRV_MEMORY_OBJECT :=
  { d with sectorNumber := sn, blockOffsetInSector := off, nBlocksToWrite := ntw }

/-- The instance object with the write pointer and the sector cursors
replaced. -/
def DRV_MEMORY_OBJECT.withPtrSector (d : DRV_MEMORY_OBJECT) (wp sn off ntw : Nat) :
    DRV_MEMORY_OBJECT :=
  { d with writePtr := wp, sectorNumber := sn, blockOffsetInSector := off, nBlocksToWrite := ntw }

/-- The instance object with the block address and the remaining count
replaced. -/
def DRV_MEMORY_OBJECT.withAddr (d : DRV_MEMORY_OBJECT) (ba nb : Nat) : DRV_MEMORY_OBJECT :=
  { d with blockAddress := ba, nBlocks := nb }

/-- What relates the instance objects of two erase-write runs that started from
objects differing only in their sub-state cursors, once the Init state of the
machine is left: they are equal, or the erase and write machines are still in
their Init states and only the block address and the remaining count, which
those states overwrite, differ. -/
def EwInv (d d' : DRV_MEMORY_OBJECT) : Prop :=
  d' = d ∨ (d.eraseState = DRV_MEMORY_ERASE_INIT ∧ d.writeState = DRV_MEMORY_WRITE_INIT ∧
    ∃ ba nb, d' = d.withAddr ba nb)

/-- What relates the instance objects of two runs of one command that started
from objects differing only in their sub-state cursors, once the first tick is
done: only cursors that the machine of the command neither reads nor writes
differ. -/
def CursorInv (d d' : DRV_MEMORY_OBJECT) : Prop :=
  match d.currentBufObj.opType with
  | DRV_MEMORY_OPERATION_TYPE_READ => ∃ ba nb wp sn off ntw, d' = d.withNums ba nb wp sn off ntw
  | DRV_MEMORY_OPERATION_TYPE_WRITE => ∃ sn off ntw, d' = d.withSector sn off ntw
  | DRV_MEMORY_OPERATION_TYPE_ERASE => ∃ wp sn off ntw, d' = d.withPtrSector wp sn off ntw
  | DRV_MEMORY_OPERATION_TYPE_ERASE_WRITE => EwInv d d'

/-- Two ticks gave the same status and the same environment, and instance
objects related by `CursorInv`; or both met undefined behaviour. -/
def SameTicks (o o' : Option (Nat × DRV_MEMORY_OBJECT × World)) : Prop :=
  match o, o' with
  | some t, some t' => t'.1 = t.1 ∧ t'.2.2 = t.2.2 ∧ CursorInv t.2.1 t'.2.1
  | none, none => True
  | _, _ => False

/-- Two runs ended the same way: both returned, with results related by `R`,
or both met undefined behaviour, or both used up their fuel. -/
def Outcome.Same {α : Type} (R : α → α → Prop) (o o' : Outcome α) : Prop :=
  match o, o' with
  | Outcome.returned a, Outcome.returned a' => R a a'
  | Outcome.undefinedBehaviour, Outcome.undefinedBehaviour => True
  | Outcome.outOfFuel, Outcome.outOfFuel => True
  | _, _ => False

/-- The second result of `DRV_MEMORY_SetupXfer` has the return value, the
environment (with it the commands given to the device and the handler calls)
and the command handle of the first, and a driver table whose instance objects
differ from those of the first only in the sub-state cursors. -/
def SetupResult.SameButCursors (r r' : SetupResult) : Prop :=
  r'.isSuccess = r.isSuccess ∧ r'.w = r.w ∧ r'.commandHandle = r.commandHandle ∧
    ∀ j, (r.g j).SameButCursors (r'.g j)

/-- The concrete device as an earlier command could have left it: every
machine in its last state, the numeric cursors at values of that command. -/
def demoDriverStale : Driver :=
  fun _ => demoObj.withCursors DRV_MEMORY_READ_MEM_STATUS DRV_MEMORY_WRITE_MEM_STATUS
    DRV_MEMORY_ERASE_CMD_STATUS DRV_MEMORY_EW_WRITE_SECTOR 20480 7 0x20000300 5 768 3

/-- The tick boundaries of a command: the result of the first tick and, from
then on, of each further wait and tick of the loop of the sequencer, whatever
status the ticks return and whether the waits succeed (the loop stops at the
first status that is not Busy and at a failed wait; this sequence goes on).
`none` is undefined behaviour in a tick. -/
def tickBoundary : Nat → DRV_MEMORY_OBJECT → World → Option (Nat × DRV_MEMORY_OBJECT × World)
  | 0, d, w => DRV_MEMORY_StartXfer_tick d w
  | k + 1, d, w =>
    match tickBoundary k d w with
    | none => none
    | some r =>
      DRV_MEMORY_StartXfer_tick (DRV_MEMORY_StartXfer_wait r.2.1 r.2.2).2.1
        (DRV_MEMORY_StartXfer_wait r.2.1 r.2.2).2.2

/-- The invariant of the descriptor of an erase-write command requested for
`n0` blocks from block `bs0` with the data at `buf0`, on an instance with
write block `W` and erase block `E`: the end of the range is where it was, the
block cursor has not moved back, the buffer cursor has moved with the block
cursor; and outside the Init state of the machine the number of pages to write
in the sector is neither above the remaining count nor above
`pagesPerSector`. -/
structure EwCursors (bs0 n0 buf0 W E : Nat) (d : DRV_MEMORY_OBJECT) : Prop where
  opType : d.currentBufObj.opType = DRV_MEMORY_OPERATION_TYPE_ERASE_WRITE
  wbs : d.writeBlockSize = W
  ebs : d.eraseBlockSize = E
  fwd : bs0 ≤ d.currentBufObj.blockStart
  sum : d.currentBufObj.blockStart + d.currentBufObj.nBlocks = bs0 + n0
  buf : d.currentBufObj.buffer = buf0 + (d.currentBufObj.blockStart - bs0) * W
  part : d.ewState ≠ DRV_MEMORY_EW_INIT →
    d.nBlocksToWrite ≤ d.currentBufObj.nBlocks ∧ d.nBlocksToWrite ≤ u8 (E / W)

/-- Whether a device command is a `sector_erase`. -/
def DevCall.isSectorErase : DevCall → Bool
  | DevCall.sectorErase _ _ => true
  | _ => false

/-- Modelled from the spec: the Exclusive bit of `DRV_IO_INTENT` (header
absent). -/
def DRV_IO_INTENT_EXCLUSIVE : Nat := 8

/-- Modelled from the spec: what `GeometryGet` of the attached device reports
(`MEMORY_DEVICE_GEOMETRY`, header absent), as far as
`DRV_MEMORY_UpdateGeometry` copies it into the fields of the instance object
kept here. -/
structure MEMORY_DEVICE_GEOMETRY where
  read_blockSize : Nat
  read_numBlocks : Nat
  write_blockSize : Nat
  write_numBlocks : Nat
  erase_blockSize : Nat
  erase_numBlocks : Nat
  blockStartAddress : Nat
deriving DecidableEq, Repr

/-- The answers of the attached memory device to the calls that one
`DRV_MEMORY_IsReady` can make: `Status(memDevIndex)`, the handle returned by
`Open(memDevIndex, ...)`, and `GeometryGet`, `none` when it returns `false`. -/
structure DeviceAnswers where
  status : SYS_STATUS
  openHandle : Nat
  geometry : Option MEMORY_DEVICE_GEOMETRY
deriving DecidableEq, Repr

/-- `DRV_MEMORY_UpdateGeometry`, with the answer of `GeometryGet`: the three
entries of the geometry table, the write and erase block sizes and the start
address (the summary object `mediaGeometryObj` is not part of the model). -/
def DRV_MEMORY_UpdateGeometry (dObj : DRV_MEMORY_OBJECT)
    (geometryGet : Option MEMORY_DEVICE_GEOMETRY) : Bool × DRV_MEMORY_OBJECT :=
  match geometryGet with
  | none => (false, dObj)
  | some m =>
    (true,
      { dObj with
        mediaGeometryTable := fun i =>
          if i = SYS_MEDIA_GEOMETRY_TABLE_READ_ENTRY then ⟨m.read_blockSize, m.read_numBlocks⟩
          else if i = SYS_MEDIA_GEOMETRY_TABLE_WRITE_ENTRY then
            ⟨m.write_blockSize, m.write_numBlocks⟩
          else if i = SYS_MEDIA_GEOMETRY_TABLE_ERASE_ENTRY then
            ⟨m.erase_blockSize, m.erase_numBlocks⟩
          else dObj.mediaGeometryTable i,
        writeBlockSize := m.write_blockSize,
        eraseBlockSize := m.erase_blockSize,
        blockStartAddress := m.blockStartAddress })

/-- `DRV_MEMORY_IsReady`, with the answers of the attached device. -/
def DRV_MEMORY_IsReady (dObj : DRV_MEMORY_OBJECT) (dev : DeviceAnswers) :
    SYS_STATUS × DRV_MEMORY_OBJECT :=
  if dObj.memoryDevice.hasStatus = true ∧ dev.status ≠ SYS_STATUS_READY then
    (SYS_STATUS_BUSY, dObj)
  else
    let dObj :=
      if dObj.memoryDevice.hasOpen = true then { dObj with memDevHandle := dev.openHandle }
      else dObj
    if dObj.memoryDevice.hasOpen = true ∧ dObj.memDevHandle = DRV_HANDLE_INVALID then
      (SYS_STATUS_BUSY, dObj)
    else
      let u := DRV_MEMORY_UpdateGeometry dObj dev.geometry
      if u.1 = true then (SYS_STATUS_READY, { u.2 with status := SYS_STATUS_READY })
      else (SYS_STATUS_BUSY, u.2)

/-- `DRV_MEMORY_Open`, the allocation loop under the client lock: the first
slot of the pool that is not in use, among the slots `0 .. nClientsMax - 1`, is
taken, and the handle stored in it is returned; `none` when every slot is in
use (`clientObj` stays `NULL`). `dObj->numClients ++` is the successor: the
type of the field is declared in a header that is not part of the sources, so
no wrap is modelled; the increment happens once per slot taken. The call of
`EventHandlerSet` of the attached device, which writes nothing of the driver,
is left out. -/
def DRV_MEMORY_Open_locked (dObj : DRV_MEMORY_OBJECT) (drvIndex ioIntent : Nat) :
    Option Nat × DRV_MEMORY_OBJECT :=
  match (List.range dObj.nClientsMax).find? (fun k => (dObj.clientObjPool k).inUse = false) with
  | none => (none, dObj)
  | some iClient =>
    (some (DRV_MEMORY_MAKE_HANDLE dObj.clientToken drvIndex iClient),
      { dObj with
        clientObjPool := Function.update dObj.clientObjPool iClient
          { dObj.clientObjPool iClient with
            inUse := true,
            drvIndex := u8 drvIndex,
            intent := ioIntent,
            transferHandler := none,
            clientHandle := DRV_MEMORY_MAKE_HANDLE dObj.clientToken drvIndex iClient },
        isExclusive :=
          if ioIntent &&& DRV_IO_INTENT_EXCLUSIVE ≠ 0 then true else dObj.isExclusive,
        numClients := dObj.numClients + 1,
        clientToken := DRV_MEMORY_UPDATE_TOKEN dObj.clientToken })

/-- `DRV_MEMORY_Open`: the handle returned (`DRV_HANDLE_INVALID` on refusal),
the driver table and the environment. `dev` holds the answers of the attached
device, asked only when the instance is not Ready yet. -/
def DRV_MEMORY_Open (g : Driver) (w : World) (drvIndex ioIntent : Nat) (dev : DeviceAnswers) :
    Nat × Driver × World :=
  if drvIndex ≥ DRV_MEMORY_INSTANCES_NUMBER then (DRV_HANDLE_INVALID, g, w)
  else
    let r :=
      if (g drvIndex).status ≠ SYS_STATUS_READY then DRV_MEMORY_IsReady (g drvIndex) dev
      else (SYS_STATUS_READY, g drvIndex)
    let g : Driver := Function.update g drvIndex r.2
    if r.1 ≠ SYS_STATUS_READY then (DRV_HANDLE_INVALID, g, w)
    else
      let l := OSAL_MUTEX_Lock_clientMutex g drvIndex w
      if l.1 = true then
        if (l.2.1 drvIndex).isExclusive = true then
          (DRV_HANDLE_INVALID, OSAL_MUTEX_Unlock_clientMutex l.2.1 drvIndex l.2.2)
        else if (l.2.1 drvIndex).numClients > 0 ∧ ioIntent &&& DRV_IO_INTENT_EXCLUSIVE ≠ 0 then
          (DRV_HANDLE_INVALID, OSAL_MUTEX_Unlock_clientMutex l.2.1 drvIndex l.2.2)
        else
          let o := DRV_MEMORY_Open_locked (l.2.1 drvIndex) drvIndex ioIntent
          (o.1.getD DRV_HANDLE_INVALID,
            OSAL_MUTEX_Unlock_clientMutex (Function.update l.2.1 drvIndex o.2) drvIndex l.2.2)
      else (DRV_HANDLE_INVALID, l.2.1, l.2.2)

/-- A call of a client routine: `DRV_MEMORY_Open` with its arguments and the
answers of the attached device, or `DRV_MEMORY_Close` with its handle. -/
inductive ClientCall where
  | callOpen (drvIndex ioIntent : Nat) (dev : DeviceAnswers)
  | callClose (handle : Nat)
deriving DecidableEq, Repr

/-- One call on the driver table and the environment. -/
def ClientCall.run (c : ClientCall) (g : Driver) (w : World) : Driver × World :=
  match c with
  | ClientCall.callOpen drvIndex ioIntent dev => (DRV_MEMORY_Open g w drvIndex ioIntent dev).2
  | ClientCall.callClose handle => DRV_MEMORY_Close g w handle

/-- The number of in-use slots of the client pool of an instance. -/
def DRV_MEMORY_OBJECT.inUseCount (d : DRV_MEMORY_OBJECT) : Nat :=
  (List.range d.nClientsMax).countP (fun k => (d.clientObjPool k).inUse)

/-- The second instance object has the client bookkeeping of the first: the
size and content of the pool, the count and the exclusive flag. -/
structure SameClients (d d' : DRV_MEMORY_OBJECT) : Prop where
  nClientsMax : d'.nClientsMax = d.nClientsMax
  pool : d'.clientObjPool = d.clientObjPool
  numClients : d'.numClients = d.numClients
  isExclusive : d'.isExclusive = d.isExclusive

/-- The second instance object is the first after an accepted
`DRV_MEMORY_Open` on instance `i` with intent `io`: the exclusive flag was
clear, an exclusive intent found no client counted, a slot that was not in use
is now in use for instance `i`, and the count has been incremented. -/
structure TakesSlot (d d' : DRV_MEMORY_OBJECT) (i io : Nat) : Prop where
  nClientsMax : d'.nClientsMax = d.nClientsMax
  free : d.isExclusive = false
  alone : io &&& DRV_IO_INTENT_EXCLUSIVE ≠ 0 → d.numClients = 0
  slot : ∃ s c, s < d.nClientsMax ∧ (d.clientObjPool s).inUse = false ∧ c.inUse = true ∧
    c.drvIndex = i ∧ d'.clientObjPool = Function.update d.clientObjPool s c
  numClients : d'.numClients = d.numClients + 1
  isExclusive : d'.isExclusive = true → io &&& DRV_IO_INTENT_EXCLUSIVE ≠ 0

/-- The instance object that `DRV_MEMORY_Open` leaves at index `drvIndex`, from
the object it finds there and the result of the lock call. -/
def DRV_MEMORY_Open_object (d : DRV_MEMORY_OBJECT) (lockOk : Bool) (drvIndex ioIntent : Nat)
    (dev : DeviceAnswers) : DRV_MEMORY_OBJECT :=
  if (if d.status ≠ SYS_STATUS_READY then DRV_MEMORY_IsReady d dev
      else (SYS_STATUS_READY, d)).1 ≠ SYS_STATUS_READY then
    (if d.status ≠ SYS_STATUS_READY then DRV_MEMORY_IsReady d dev else (SYS_STATUS_READY, d)).2
  else if lockOk = true then
    if (if d.status ≠ SYS_STATUS_READY then DRV_MEMORY_IsReady d dev
        else (SYS_STATUS_READY, d)).2.isExclusive = true then
      (if d.status ≠ SYS_STATUS_READY then DRV_MEMORY_IsReady d dev else (SYS_STATUS_READY, d)).2
    else if (if d.status ≠ SYS_STATUS_READY then DRV_MEMORY_IsReady d dev
        else (SYS_STATUS_READY, d)).2.numClients > 0
        ∧ ioIntent &&& DRV_IO_INTENT_EXCLUSIVE ≠ 0 then
      (if d.status ≠ SYS_STATUS_READY then DRV_MEMORY_IsReady d dev else (SYS_STATUS_READY, d)).2
    else
      (DRV_MEMORY_Open_locked
        (if d.status ≠ SYS_STATUS_READY then DRV_MEMORY_IsReady d dev
          else (SYS_STATUS_READY, d)).2 drvIndex ioIntent).2
  else (if d.status ≠ SYS_STATUS_READY then DRV_MEMORY_IsReady d dev else (SYS_STATUS_READY, d)).2

/-! # Theorems -/

theorem SameOracles_refl (w : World) : w.SameOracles w := ⟨rfl, rfl, rfl, rfl, rfl, rfl, rfl, rfl⟩

theorem SameOracles_trans {a b c : World} (h1 : a.SameOracles b) (h2 : b.SameOracles c) :
    a.SameOracles c :=
  ⟨h2.devPageSize.trans h1.devPageSize, h2.devSectorSize.trans h1.devSectorSize,
   h2.accept.trans h1.accept, h2.tstatus.trans h1.tstatus, h2.timerOk.trans h1.timerOk,
   h2.pendOk.trans h1.pendOk, h2.lockOk.trans h1.lockOk, h2.isr.trans h1.isr⟩

theorem World.Cooperative.of_same {w w' : World} (h : w.Cooperative) (s : w.SameOracles w') :
    w'.Cooperative := by
  refine ⟨?_, ?_, ?_, ?_⟩
  · rw [s.accept]; exact h.accept
  · rw [s.tstatus]; exact h.tstatus
  · rw [s.timerOk]; exact h.timerOk
  · rw [s.pendOk]; exact h.pendOk

theorem StartXfer_wait_ok (d : DRV_MEMORY_OBJECT) (w : World)
    (ht : ∀ n, w.timerOk n = true) (hp : ∀ n, w.pendOk n = true) :
    (DRV_MEMORY_StartXfer_wait d w).1 = true ∧
    (∃ b, (DRV_MEMORY_StartXfer_wait d w).2.1 = { d with isTransferDone := b }) ∧
      w.Waited (DRV_MEMORY_StartXfer_wait d w).2.2 := by
  have W : ∀ a b c : Nat, w.Waited { w with nTimer := a, nPend := b, nIsr := c } := fun _ _ _ =>
    ⟨⟨rfl, rfl, rfl, rfl, rfl, rfl, rfl, rfl⟩, rfl, rfl, rfl, rfl, rfl, rfl, rfl⟩
  unfold DRV_MEMORY_StartXfer_wait
  split
  · simp only [ht, hp]
    exact ⟨by simp, ⟨d.isTransferDone, by simp⟩, by simpa using W _ _ _⟩
  · split
    · cases hf : w.isr w.nIsr <;> cases hd : d.isTransferDone
      · exact ⟨by simp [hp, hd], ⟨false, by simp [hp, hd]; rw [← hd]⟩,
          by simpa [hp, hd] using W _ _ _⟩
      · exact ⟨by simp [hp, hd], ⟨true, by simp [hp, hd]; rw [← hd]⟩,
          by simpa [hp, hd] using W _ _ _⟩
      · exact ⟨by simp [hp, hd], ⟨true, by simp [hp, hd]⟩, by simpa [hp, hd] using W _ _ _⟩
      · exact ⟨by simp [hp, hd], ⟨true, by simp [hp, hd]⟩, by simpa [hp, hd] using W _ _ _⟩
    · exact ⟨rfl, ⟨d.isTransferDone, rfl⟩, W _ _ _⟩

theorem loop_busy_step (fuel : Nat) (d : DRV_MEMORY_OBJECT) (w : World)
    (ht : ∀ n, w.timerOk n = true) (hp : ∀ n, w.pendOk n = true)
    (t : Nat × DRV_MEMORY_OBJECT × World)
    (htick : DRV_MEMORY_StartXfer_tick (DRV_MEMORY_StartXfer_wait d w).2.1
      (DRV_MEMORY_StartXfer_wait d w).2.2 = some t) :
    DRV_MEMORY_StartXfer_loop (fuel + 1) d w MEMORY_DEVICE_TRANSFER_BUSY =
      DRV_MEMORY_StartXfer_loop fuel t.2.1 t.2.2 t.1 := by
  have h1 := (StartXfer_wait_ok d w ht hp).1
  rw [DRV_MEMORY_StartXfer_loop]
  simp only [h1, htick, if_true]
  simp

theorem World.Waited.withDev_eq {w w' : World} (h : w.Waited w') (log : List DevCall)
    (flash : Nat → Nat) (np nt nq ni : Nat) :
    w'.withDev log flash np nt nq ni = w.withDev log flash np nt nq ni := by
  obtain ⟨⟨h1, h2, h3, h4, h5, h6, h7, h8⟩, h9, h10, h11, h12, h13, h14, h15⟩ := h
  cases w; cases w'
  simp only at h1 h2 h3 h4 h5 h6 h7 h8 h9 h10 h11 h12 h13 h14 h15
  subst h1 h2 h3 h4 h5 h6 h7 h8 h9 h10 h11 h12 h13 h14 h15
  rfl

/-- The run of the write machine from a page in flight to its last Completed
poll, under a sequencer tick that is the write tick followed by `post`. -/
theorem write_run (post : Nat × DRV_MEMORY_OBJECT × World → Nat × DRV_MEMORY_OBJECT × World)
    (M : DRV_MEMORY_OBJECT → Prop)
    (hpost : ∀ r, r.1 = MEMORY_DEVICE_TRANSFER_BUSY → post r = r)
    (hM : ∀ d a b c s t, M d → M (d.withWrite a b c s t))
    (htickMem : ∀ d w, M d → d.writeState = DRV_MEMORY_WRITE_MEM →
      DRV_MEMORY_StartXfer_tick d w = some (post (DRV_MEMORY_HandleWrite_MEM d w)))
    (htickStatus : ∀ d w, M d → d.writeState = DRV_MEMORY_WRITE_MEM_STATUS →
      DRV_MEMORY_StartXfer_tick d w = some (post (DRV_MEMORY_HandleWrite_MEM_STATUS d w))) :
    ∀ r k d w, w.Cooperative → M d → d.writeState = DRV_MEMORY_WRITE_MEM_STATUS →
      d.nBlocks = r + 1 → r + 1 < 4294967296 →
      w.tstatus (w.nPoll + k) = MEMORY_DEVICE_TRANSFER_COMPLETED →
      (∀ j, j < k → w.tstatus (w.nPoll + j) = MEMORY_DEVICE_TRANSFER_BUSY) →
      WriteRunGoal post r d w := by
  -- a Busy poll: the loop waits and polls again
  have busy : ∀ r k, (∀ d w, w.Cooperative → M d → d.writeState = DRV_MEMORY_WRITE_MEM_STATUS →
      d.nBlocks = r + 1 → r + 1 < 4294967296 →
      w.tstatus (w.nPoll + k) = MEMORY_DEVICE_TRANSFER_COMPLETED →
      (∀ j, j < k → w.tstatus (w.nPoll + j) = MEMORY_DEVICE_TRANSFER_BUSY) →
      WriteRunGoal post r d w) →
      ∀ d w, w.Cooperative → M d → d.writeState = DRV_MEMORY_WRITE_MEM_STATUS →
      d.nBlocks = r + 1 → r + 1 < 4294967296 →
      w.tstatus (w.nPoll + (k + 1)) = MEMORY_DEVICE_TRANSFER_COMPLETED →
      (∀ j, j < k + 1 → w.tstatus (w.nPoll + j) = MEMORY_DEVICE_TRANSFER_BUSY) →
      WriteRunGoal post r d w := by
    intro r k ih d w hc hm hs hn hr h1 h0
    have hb : w.tstatus w.nPoll = MEMORY_DEVICE_TRANSFER_BUSY := h0 0 (Nat.succ_pos k)
    have e : DRV_MEMORY_HandleWrite_MEM_STATUS d w =
        (MEMORY_DEVICE_TRANSFER_BUSY, d, { w with nPoll := w.nPoll + 1 }) := by
      simp [DRV_MEMORY_HandleWrite_MEM_STATUS, World.devTransferStatusGet, hb,
        MEMORY_DEVICE_TRANSFER_BUSY, MEMORY_DEVICE_TRANSFER_COMPLETED]
    obtain ⟨_, ⟨b0, hd⟩, hw⟩ := StartXfer_wait_ok d { w with nPoll := w.nPoll + 1 }
      hc.timerOk hc.pendOk
    have hc1 : World.Cooperative { w with nPoll := w.nPoll + 1 } :=
      ⟨hc.accept, hc.tstatus, hc.timerOk, hc.pendOk⟩
    have hcW : (DRV_MEMORY_StartXfer_wait d { w with nPoll := w.nPoll + 1 }).2.2.Cooperative :=
      hc1.of_same hw.toSameOracles
    have hmW : M (DRV_MEMORY_StartXfer_wait d { w with nPoll := w.nPoll + 1 }).2.1 := by
      rw [hd]; exact hM d d.nBlocks d.blockAddress d.writePtr d.writeState b0 hm
    obtain ⟨n, b, np, nt, nq, ni, hrun⟩ := ih _ _ hcW hmW (by rw [hd]; exact hs)
      (by rw [hd]; exact hn) hr
      (by rw [hw.tstatus, hw.nPoll]; simpa [Nat.add_assoc, Nat.add_comm 1 k] using h1)
      (by
        intro j hj
        rw [hw.tstatus, hw.nPoll]
        simpa [Nat.add_assoc, Nat.add_comm 1 j] using h0 (j + 1) (Nat.succ_lt_succ hj))
    refine ⟨n + 1, b, np, nt, nq, ni, fun fuel => ?_⟩
    rw [e, hpost _ rfl]
    have step := loop_busy_step (fuel + n) d { w with nPoll := w.nPoll + 1 } hc.timerOk hc.pendOk _
      (htickStatus _ _ hmW (by rw [hd]; exact hs))
    rw [← Nat.add_assoc]
    simp only [] at step ⊢
    rw [step, hrun fuel]
    simp only [hd, hw.cmdLog, hw.ram, hw.flash, hw.devPageSize, hw.withDev_eq]
    rfl
  intro r
  induction r with
  | zero =>
    intro k
    induction k with
    | zero =>
      intro d w _ _ hs hn _ h1 _
      refine ⟨0, d.isTransferDone, w.nPoll + 1, w.nTimer, w.nPend, w.nIsr, fun fuel => ?_⟩
      have e : DRV_MEMORY_HandleWrite_MEM_STATUS d w = (MEMORY_DEVICE_TRANSFER_COMPLETED,
          { d with nBlocks := 0 }, { w with nPoll := w.nPoll + 1 }) := by
        simp only [Nat.add_zero] at h1
        simp [DRV_MEMORY_HandleWrite_MEM_STATUS, World.devTransferStatusGet, h1, hn, dec32]
      rw [e]
      simp only [pagesCursor, pagesLog, pagesFlash, Nat.add_zero, DRV_MEMORY_OBJECT.withWrite,
        World.withDev]
      rw [← hs]
    | succ k ih => exact busy 0 k ih
  | succ r ihr =>
    intro k
    induction k with
    | zero =>
      intro d w hc hm hs hn hr h1 _
      simp only [Nat.add_zero] at h1
      have e : DRV_MEMORY_HandleWrite_MEM_STATUS d w = (MEMORY_DEVICE_TRANSFER_BUSY,
          d.withWrite (r + 1) (u32 (d.blockAddress + d.writeBlockSize))
            (d.writePtr + d.writeBlockSize) DRV_MEMORY_WRITE_MEM d.isTransferDone,
          { w with nPoll := w.nPoll + 1 }) := by
        simp [DRV_MEMORY_HandleWrite_MEM_STATUS, World.devTransferStatusGet, h1, hn, dec32,
          DRV_MEMORY_OBJECT.withWrite]
      obtain ⟨_, ⟨b0, hd⟩, hw⟩ := StartXfer_wait_ok
        (d.withWrite (r + 1) (u32 (d.blockAddress + d.writeBlockSize))
            (d.writePtr + d.writeBlockSize) DRV_MEMORY_WRITE_MEM d.isTransferDone)
        { w with nPoll := w.nPoll + 1 } hc.timerOk hc.pendOk
      have hc1 : World.Cooperative { w with nPoll := w.nPoll + 1 } :=
        ⟨hc.accept, hc.tstatus, hc.timerOk, hc.pendOk⟩
      have hcW := hc1.of_same hw.toSameOracles
      have hmW : M (DRV_MEMORY_StartXfer_wait
          (d.withWrite (r + 1) (u32 (d.blockAddress + d.writeBlockSize))
            (d.writePtr + d.writeBlockSize) DRV_MEMORY_WRITE_MEM d.isTransferDone)
          { w with nPoll := w.nPoll + 1 }).2.1 := by
        rw [hd]; exact hM d _ _ _ _ b0 hm
      generalize hwW : (DRV_MEMORY_StartXfer_wait
          (d.withWrite (r + 1) (u32 (d.blockAddress + d.writeBlockSize))
            (d.writePtr + d.writeBlockSize) DRV_MEMORY_WRITE_MEM d.isTransferDone)
          { w with nPoll := w.nPoll + 1 }).2.2 = wW at hw hcW
      have e2 : DRV_MEMORY_HandleWrite_MEM
          (d.withWrite (r + 1) (u32 (d.blockAddress + d.writeBlockSize))
            (d.writePtr + d.writeBlockSize) DRV_MEMORY_WRITE_MEM b0) wW =
          DRV_MEMORY_HandleWrite_MEM_STATUS
            (d.withWrite (r + 1) (u32 (d.blockAddress + d.writeBlockSize))
              (d.writePtr + d.writeBlockSize) DRV_MEMORY_WRITE_MEM_STATUS false)
            (wW.withDev (wW.cmdLog ++ [DevCall.pageWrite d.memDevHandle
                (d.writePtr + d.writeBlockSize) (u32 (d.blockAddress + d.writeBlockSize))])
              (fun a => if u32 (d.blockAddress + d.writeBlockSize) ≤ a ∧
                  a < u32 (d.blockAddress + d.writeBlockSize) + wW.devPageSize
                then wW.ram (d.writePtr + d.writeBlockSize +
                  (a - u32 (d.blockAddress + d.writeBlockSize))) else wW.flash a)
              wW.nPoll wW.nTimer wW.nPend wW.nIsr) := by
        simp [DRV_MEMORY_HandleWrite_MEM, World.devPageWrite, hcW.accept,
          DRV_MEMORY_OBJECT.withWrite, World.withDev]
      obtain ⟨k', hk1, hk0⟩ := hcW.tstatus wW.nPoll
      obtain ⟨n, b, np, nt, nq, ni, hrun⟩ := ihr k'
        (d.withWrite (r + 1) (u32 (d.blockAddress + d.writeBlockSize))
              (d.writePtr + d.writeBlockSize) DRV_MEMORY_WRITE_MEM_STATUS false)
        (wW.withDev (wW.cmdLog ++ [DevCall.pageWrite d.memDevHandle
                (d.writePtr + d.writeBlockSize) (u32 (d.blockAddress + d.writeBlockSize))])
              (fun a => if u32 (d.blockAddress + d.writeBlockSize) ≤ a ∧
                  a < u32 (d.blockAddress + d.writeBlockSize) + wW.devPageSize
                then wW.ram (d.writePtr + d.writeBlockSize +
                  (a - u32 (d.blockAddress + d.writeBlockSize))) else wW.flash a)
              wW.nPoll wW.nTimer wW.nPend wW.nIsr)
        ⟨hcW.accept, hcW.tstatus, hcW.timerOk, hcW.pendOk⟩ (hM d _ _ _ _ _ hm) rfl rfl
        (by omega) hk1 hk0
      refine ⟨n + 1, b, np, nt, nq, ni, fun fuel => ?_⟩
      rw [e, hpost _ rfl]
      have step := loop_busy_step (fuel + n) _ { w with nPoll := w.nPoll + 1 } hc.timerOk
        hc.pendOk _ (htickMem _ _ hmW (by rw [hd]; rfl))
      rw [← Nat.add_assoc]
      simp only [] at step ⊢
      rw [step, hwW, hd]
      change DRV_MEMORY_StartXfer_loop (fuel + n)
        (post (DRV_MEMORY_HandleWrite_MEM
          (d.withWrite (r + 1) (u32 (d.blockAddress + d.writeBlockSize))
            (d.writePtr + d.writeBlockSize) DRV_MEMORY_WRITE_MEM b0) wW)).2.1
        (post (DRV_MEMORY_HandleWrite_MEM
          (d.withWrite (r + 1) (u32 (d.blockAddress + d.writeBlockSize))
            (d.writePtr + d.writeBlockSize) DRV_MEMORY_WRITE_MEM b0) wW)).2.2
        (post (DRV_MEMORY_HandleWrite_MEM
          (d.withWrite (r + 1) (u32 (d.blockAddress + d.writeBlockSize))
            (d.writePtr + d.writeBlockSize) DRV_MEMORY_WRITE_MEM b0) wW)).1 = _
      rw [e2, hrun fuel]
      refine congrArg (fun x : DRV_MEMORY_OBJECT × World =>
        (fun t : Nat × DRV_MEMORY_OBJECT × World => DRV_MEMORY_StartXfer_loop fuel t.2.1 t.2.2 t.1)
          (post (MEMORY_DEVICE_TRANSFER_COMPLETED, x))) ?_
      refine Prod.ext rfl ?_
      show wW.withDev _ _ np nt nq ni = _
      rw [hw.withDev_eq]
      simp only [World.withDev, hw.cmdLog, hw.ram, hw.flash, hw.devPageSize]
      rfl
    | succ k ih => exact busy (r + 1) k ih

theorem callTransferHandler_same (w : World) (c : DRV_MEMORY_CLIENT_OBJECT)
    (e : DRV_MEMORY_EVENT) (h : Nat) : w.SameOracles (w.callTransferHandler c e h) := by
  unfold World.callTransferHandler
  split <;> exact ⟨rfl, rfl, rfl, rfl, rfl, rfl, rfl, rfl⟩

theorem callTransferHandler_dev (w : World) (c : DRV_MEMORY_CLIENT_OBJECT)
    (e : DRV_MEMORY_EVENT) (h : Nat) :
    (w.callTransferHandler c e h).cmdLog = w.cmdLog ∧
    (w.callTransferHandler c e h).flash = w.flash ∧
    (w.callTransferHandler c e h).ram = w.ram ∧
    (w.callTransferHandler c e h).nPoll = w.nPoll := by
  unfold World.callTransferHandler
  split <;> exact ⟨rfl, rfl, rfl, rfl⟩

theorem callTransferHandler_os (w : World) (c : DRV_MEMORY_CLIENT_OBJECT)
    (e : DRV_MEMORY_EVENT) (h : Nat) :
    (w.callTransferHandler c e h).nLock = w.nLock ∧
    (w.callTransferHandler c e h).nUnlock = w.nUnlock ∧
    (w.callTransferHandler c e h).nTimer = w.nTimer ∧
    (w.callTransferHandler c e h).nPend = w.nPend ∧
    (w.callTransferHandler c e h).nIsr = w.nIsr := by
  unfold World.callTransferHandler
  split <;> exact ⟨rfl, rfl, rfl, rfl, rfl⟩

theorem loop_done (fuel : Nat) (d : DRV_MEMORY_OBJECT) (w : World) (ts : Nat)
    (h : ts ≠ MEMORY_DEVICE_TRANSFER_BUSY) :
    DRV_MEMORY_StartXfer_loop fuel d w ts = Outcome.returned (some ts, d, w) := by
  cases fuel <;> simp [DRV_MEMORY_StartXfer_loop, h]

theorem pagesLog_eq (hdl wbs : Nat) : ∀ k ptr addr log, addr < 4294967296 →
    pagesLog hdl wbs k ptr addr log =
      log ++ (List.range k).map (fun j =>
        DevCall.pageWrite hdl (ptr + j * wbs) (u32 (addr + j * wbs))) := by
  intro k
  induction k with
  | zero => intro ptr addr log _; simp [pagesLog]
  | succ k ih =>
    intro ptr addr log h
    rw [pagesLog, ih _ _ _ (by unfold u32; omega), List.range_succ_eq_map]
    simp only [List.map_cons, List.map_map, List.append_assoc, List.singleton_append,
      Nat.zero_mul, Nat.add_zero]
    have h0 : u32 addr = addr := by unfold u32; omega
    rw [h0]
    congr 2
    apply List.map_congr_left
    intro j _
    simp only [Function.comp, Nat.succ_eq_add_one]
    have e1 : ptr + wbs + j * wbs = ptr + (j + 1) * wbs := by ring
    have e2 : u32 (u32 (addr + wbs) + j * wbs) = u32 (addr + (j + 1) * wbs) := by
      have : (j + 1) * wbs = j * wbs + wbs := by ring
      rw [this]; unfold u32; omega
    rw [e1, e2]

/-- The sequencer on a Write command, with a cooperative device and OS: it
returns `true` after the pages of the request have been programmed. -/
theorem StartXfer_write (g : Driver) (i : Nat) (w : World) (p : ClientPtr)
    (hop : (g i).currentBufObj.opType = DRV_MEMORY_OPERATION_TYPE_WRITE)
    (hcl : (g i).currentBufObj.hClient = some p)
    (hn : 1 ≤ (g i).currentBufObj.nBlocks) (hn32 : (g i).currentBufObj.nBlocks < 4294967296)
    (hc : w.Cooperative) :
    ∃ n, ∀ fuel, ∃ g' w', DRV_MEMORY_StartXfer (fuel + n) g i w = Outcome.returned (true, g', w') ∧
      w'.cmdLog = pagesLog (g i).memDevHandle (g i).writeBlockSize (g i).currentBufObj.nBlocks
        (g i).currentBufObj.buffer
        (u32 (u32 ((g i).currentBufObj.blockStart * (g i).writeBlockSize) + (g i).blockStartAddress))
        w.cmdLog ∧
      w'.nLock = w.nLock ∧ w'.nUnlock = w.nUnlock ∧ w.SameOracles w' ∧
      (∀ j, j ≠ i → g' j = g j) ∧ (g' i).transferMutex = (g i).transferMutex := by
  obtain ⟨r, hr⟩ : ∃ r, (g i).currentBufObj.nBlocks = r + 1 := ⟨_, (Nat.sub_add_cancel hn).symm⟩
  -- the state after the Init and Issue parts of the first tick
  generalize hd2 : ({ g i with
      readState := DRV_MEMORY_READ_INIT, eraseState := DRV_MEMORY_ERASE_INIT,
      ewState := DRV_MEMORY_EW_INIT,
      currentBufObj := { (g i).currentBufObj with status := DRV_MEMORY_COMMAND_IN_PROGRESS },
      blockAddress := u32 (u32 ((g i).currentBufObj.blockStart * (g i).writeBlockSize)
        + (g i).blockStartAddress),
      nBlocks := r + 1, writePtr := (g i).currentBufObj.buffer,
      writeState := DRV_MEMORY_WRITE_MEM_STATUS, isTransferDone := false } : DRV_MEMORY_OBJECT)
    = d2
  generalize hw2 : w.withDev (w.cmdLog ++ [DevCall.pageWrite (g i).memDevHandle
      (g i).currentBufObj.buffer
      (u32 (u32 ((g i).currentBufObj.blockStart * (g i).writeBlockSize)
        + (g i).blockStartAddress))])
      (fun a => if u32 (u32 ((g i).currentBufObj.blockStart * (g i).writeBlockSize)
          + (g i).blockStartAddress) ≤ a ∧
          a < u32 (u32 ((g i).currentBufObj.blockStart * (g i).writeBlockSize)
            + (g i).blockStartAddress) + w.devPageSize
        then w.ram ((g i).currentBufObj.buffer +
          (a - u32 (u32 ((g i).currentBufObj.blockStart * (g i).writeBlockSize)
            + (g i).blockStartAddress))) else w.flash a)
      w.nPoll w.nTimer w.nPend w.nIsr = w2
  have hc2 : w2.Cooperative := by
    subst hw2; exact ⟨hc.accept, hc.tstatus, hc.timerOk, hc.pendOk⟩
  have htick : DRV_MEMORY_StartXfer_tick (DRV_MEMORY_StartXfer_init (g i)) w
      = some (DRV_MEMORY_HandleWrite_MEM_STATUS d2 w2) := by
    subst hd2 hw2
    simp [DRV_MEMORY_StartXfer_tick, DRV_MEMORY_StartXfer_init, gMemoryXferFuncPtr, hop,
      DRV_MEMORY_HandleWrite,
      DRV_MEMORY_HandleWrite_MEM, World.devPageWrite, hc.accept, hr, World.withDev]
  obtain ⟨k, hk1, hk0⟩ := hc2.tstatus w2.nPoll
  obtain ⟨n, b, np, nt, nq, ni, hrun⟩ := write_run id
    (fun d => d.currentBufObj.opType = DRV_MEMORY_OPERATION_TYPE_WRITE)
    (fun _ _ => rfl) (fun _ _ _ _ _ _ h => h)
    (fun d w hm hs => by
      simp [DRV_MEMORY_StartXfer_tick, gMemoryXferFuncPtr, hm, DRV_MEMORY_HandleWrite, hs])
    (fun d w hm hs => by
      simp [DRV_MEMORY_StartXfer_tick, gMemoryXferFuncPtr, hm, DRV_MEMORY_HandleWrite, hs])
    r k d2 w2 hc2 (by subst hd2; exact hop) (by subst hd2; rfl) (by subst hd2; rfl)
    (by omega) hk1 hk0
  refine ⟨n, fun fuel => ?_⟩
  have hrun' := hrun fuel
  simp only [id] at hrun'
  rw [loop_done fuel _ _ MEMORY_DEVICE_TRANSFER_COMPLETED (by decide)] at hrun'
  unfold DRV_MEMORY_StartXfer
  simp only [htick, hrun']
  subst hd2 hw2
  simp only [DRV_MEMORY_StartXfer_finish, DRV_MEMORY_OBJECT.withWrite, hcl]
  refine ⟨_, _, rfl, ?_, ?_, ?_, ?_, ?_, ?_⟩
  · rw [(callTransferHandler_dev _ _ _ _).1, hr]; rfl
  · rw [(callTransferHandler_os _ _ _ _).1]; rfl
  · rw [(callTransferHandler_os _ _ _ _).2.1]; rfl
  · exact ⟨(callTransferHandler_same _ _ _ _).devPageSize.trans rfl,
      (callTransferHandler_same _ _ _ _).devSectorSize.trans rfl,
      (callTransferHandler_same _ _ _ _).accept.trans rfl,
      (callTransferHandler_same _ _ _ _).tstatus.trans rfl,
      (callTransferHandler_same _ _ _ _).timerOk.trans rfl,
      (callTransferHandler_same _ _ _ _).pendOk.trans rfl,
      (callTransferHandler_same _ _ _ _).lockOk.trans rfl,
      (callTransferHandler_same _ _ _ _).isr.trans rfl⟩
  · intro j hj; simp [Function.update, hj]
  · simp [Function.update]

theorem client_update_same_pool (g : Driver) (i : Nat) (d : DRV_MEMORY_OBJECT) (p : ClientPtr)
    (h : d.clientObjPool = (g i).clientObjPool) :
    Driver.client (Function.update g i d) p = g.client p := by
  unfold Driver.client
  by_cases hi : p.inst = i
  · subst hi; rw [Function.update_same, h]
  · rw [Function.update_noteq hi]

theorem Driver.allocated_at (g : Driver) (p : ClientPtr) (buffer blockStart nBlock : Nat)
    (opType : DRV_MEMORY_OPERATION_TYPE) :
    g.allocated p buffer blockStart nBlock opType (g.client p).drvIndex =
      { g (g.client p).drvIndex with
        transferMutex := (g (g.client p).drvIndex).transferMutex + 1,
        currentBufObj :=
          { commandHandle := DRV_MEMORY_MAKE_HANDLE (g (g.client p).drvIndex).bufferToken
              (g.client p).drvIndex 0,
            hClient := some p, buffer := buffer, blockStart := blockStart, nBlocks := nBlock,
            opType := opType, status := DRV_MEMORY_COMMAND_QUEUED },
        bufferToken := DRV_MEMORY_UPDATE_TOKEN (g (g.client p).drvIndex).bufferToken } := by
  unfold Driver.allocated DRV_MEMORY_AllocateBufferObject
  simp only []
  rw [client_update_same_pool _ _ _ _ (by rfl)]
  simp only [Function.update_same]

theorem Driver.allocated_other (g : Driver) (p : ClientPtr) (buffer blockStart nBlock : Nat)
    (opType : DRV_MEMORY_OPERATION_TYPE) (j : Nat) (hj : j ≠ (g.client p).drvIndex) :
    g.allocated p buffer blockStart nBlock opType j = g j := by
  unfold Driver.allocated DRV_MEMORY_AllocateBufferObject
  simp only []
  rw [client_update_same_pool _ _ _ _ (by rfl), Function.update_noteq hj,
    Function.update_noteq hj]

/-- `DRV_MEMORY_SetupXfer` on a request that passes admission: the lock is
taken, the descriptor is filled, the sequencer runs and the lock is released. -/
theorem SetupXfer_admitted (fuel : Nat) (g : Driver) (w : World) (handle : Nat)
    (hasCommandHandle : Bool) (buffer blockStart nBlock geometry_type : Nat)
    (opType : DRV_MEMORY_OPERATION_TYPE) (io_intent : Nat) (p : ClientPtr)
    (hvalid : DRV_MEMORY_DriverHandleValidate g handle = some p)
    (hintent : (g.client p).intent &&& io_intent ≠ 0)
    (hbuf : buffer ≠ 0 ∨ opType = DRV_MEMORY_OPERATION_TYPE_ERASE)
    (hn : nBlock ≠ 0)
    (hrange : blockStart + nBlock ≤
      ((g (g.client p).drvIndex).mediaGeometryTable geometry_type).numBlocks)
    (hlock : w.lockOk w.nLock = true)
    (hop : (g (g.client p).drvIndex).memoryDevice.hasSectorErase = true ∨
      opType ≠ DRV_MEMORY_OPERATION_TYPE_ERASE) :
    DRV_MEMORY_SetupXfer fuel g w handle hasCommandHandle buffer blockStart nBlock geometry_type
        opType io_intent =
      match DRV_MEMORY_StartXfer fuel (g.allocated p buffer blockStart nBlock
            (effectiveOpType (g (g.client p).drvIndex).memoryDevice.hasSectorErase opType))
          (g.client p).drvIndex { w with nLock := w.nLock + 1 } with
      | Outcome.outOfFuel => Outcome.outOfFuel
      | Outcome.undefinedBehaviour => Outcome.undefinedBehaviour
      | Outcome.returned r =>
        Outcome.returned ⟨r.1,
          (OSAL_MUTEX_Unlock_transferMutex r.2.1 (g.client p).drvIndex r.2.2).1,
          (OSAL_MUTEX_Unlock_transferMutex r.2.1 (g.client p).drvIndex r.2.2).2,
          if hasCommandHandle = true then
            some (DRV_MEMORY_MAKE_HANDLE (g (g.client p).drvIndex).bufferToken
              (g.client p).drvIndex 0)
          else none⟩ := by
  have hb : ¬ (buffer = 0 ∧ opType ≠ DRV_MEMORY_OPERATION_TYPE_ERASE) := by
    rintro ⟨h1, h2⟩; rcases hbuf with h | h
    · exact h h1
    · exact h2 h
  have hr : ¬ (nBlock = 0 ∨ blockStart + nBlock >
      ((g (g.client p).drvIndex).mediaGeometryTable geometry_type).numBlocks) := by
    rintro (h | h)
    · exact hn h
    · omega
  unfold DRV_MEMORY_SetupXfer
  simp only [hvalid, hintent, hb, hr, if_false, OSAL_MUTEX_Lock_transferMutex, hlock, if_true,
    Function.update_same]
  have ho : ¬ ((g (g.client p).drvIndex).memoryDevice.hasSectorErase = false ∧
      opType = DRV_MEMORY_OPERATION_TYPE_ERASE) := by
    rintro ⟨h1, h2⟩; rcases hop with h | h
    · rw [h] at h1; exact Bool.noConfusion h1
    · exact h h2
  simp only [ho, if_false]
  unfold Driver.allocated effectiveOpType
  simp only [DRV_MEMORY_AllocateBufferObject]
  rw [client_update_same_pool _ _ _ _ (by rfl)]
  simp only [Function.update_same]

/-- C1. A write request that passes admission, on a device that accepts every
page-program command and answers every poll sequence with Completed after
finitely many Busy results (and with an OS that arms every timer and completes
every wait): given enough fuel, `DRV_MEMORY_Write` returns, and the commands
given to the device are exactly `nBlock` page writes, the `i`-th from
`sourceBuffer + i * writeBlockSize` at the 32-bit address
`blockStartAddress + (blockStart + i) * writeBlockSize`, whatever the number
of Busy polls; when the last page starts within the 32-bit address space that
address is the exact sum. -/
theorem C1_write_programs_each_page (g : Driver) (w : World) (handle : Nat)
    (hasCommandHandle : Bool) (sourceBuffer blockStart nBlock : Nat) (p : ClientPtr)
    (hvalid : DRV_MEMORY_DriverHandleValidate g handle = some p)
    (hintent : (g.client p).intent &&& DRV_IO_INTENT_WRITE ≠ 0)
    (hbuf : sourceBuffer ≠ 0)
    (hn : 1 ≤ nBlock) (hn32 : nBlock < 4294967296)
    (hrange : blockStart + nBlock ≤ ((g (g.client p).drvIndex).mediaGeometryTable
      SYS_MEDIA_GEOMETRY_TABLE_WRITE_ENTRY).numBlocks)
    (hlock : w.lockOk w.nLock = true)
    (hcoop : w.Cooperative) :
    ∃ fuel0, ∀ fuel, fuel0 ≤ fuel → ∃ r,
      DRV_MEMORY_Write fuel g w handle hasCommandHandle sourceBuffer blockStart nBlock =
        Outcome.returned r ∧
      r.isSuccess = true ∧
      r.w.cmdLog = w.cmdLog ++ (List.range nBlock).map (fun i =>
        DevCall.pageWrite (g (g.client p).drvIndex).memDevHandle
          (sourceBuffer + i * (g (g.client p).drvIndex).writeBlockSize)
          (u32 ((g (g.client p).drvIndex).blockStartAddress +
            (blockStart + i) * (g (g.client p).drvIndex).writeBlockSize))) ∧
      ((g (g.client p).drvIndex).blockStartAddress +
          (blockStart + (nBlock - 1)) * (g (g.client p).drvIndex).writeBlockSize < 4294967296 →
        r.w.cmdLog = w.cmdLog ++ (List.range nBlock).map (fun i =>
          DevCall.pageWrite (g (g.client p).drvIndex).memDevHandle
            (sourceBuffer + i * (g (g.client p).drvIndex).writeBlockSize)
            ((g (g.client p).drvIndex).blockStartAddress +
              (blockStart + i) * (g (g.client p).drvIndex).writeBlockSize))) := by
  have hat := Driver.allocated_at g p sourceBuffer blockStart nBlock
    DRV_MEMORY_OPERATION_TYPE_WRITE
  have heff : effectiveOpType (g (g.client p).drvIndex).memoryDevice.hasSectorErase
      DRV_MEMORY_OPERATION_TYPE_WRITE = DRV_MEMORY_OPERATION_TYPE_WRITE := by
    simp [effectiveOpType]
  have hc1 : World.Cooperative { w with nLock := w.nLock + 1 } :=
    ⟨hcoop.accept, hcoop.tstatus, hcoop.timerOk, hcoop.pendOk⟩
  obtain ⟨n, hrun⟩ := StartXfer_write
    (g.allocated p sourceBuffer blockStart nBlock DRV_MEMORY_OPERATION_TYPE_WRITE)
    (g.client p).drvIndex { w with nLock := w.nLock + 1 } p
    (by rw [hat]) (by rw [hat]) (by rw [hat]; exact hn) (by rw [hat]; exact hn32) hc1
  refine ⟨n, fun fuel hf => ?_⟩
  obtain ⟨g', w', hS, hlog, -⟩ := hrun (fuel - n)
  rw [Nat.sub_add_cancel hf] at hS
  have key : w'.cmdLog = w.cmdLog ++ (List.range nBlock).map (fun i =>
        DevCall.pageWrite (g (g.client p).drvIndex).memDevHandle
          (sourceBuffer + i * (g (g.client p).drvIndex).writeBlockSize)
          (u32 ((g (g.client p).drvIndex).blockStartAddress +
            (blockStart + i) * (g (g.client p).drvIndex).writeBlockSize))) := by
    rw [hlog, hat, pagesLog_eq _ _ _ _ _ _ (by unfold u32; omega)]
    congr 1
    apply List.map_congr_left
    intro j _
    congr 1
    simp only [Nat.add_mul]
    unfold u32; omega
  unfold DRV_MEMORY_Write
  rw [SetupXfer_admitted fuel g w handle hasCommandHandle sourceBuffer blockStart nBlock _ _ _ p
    hvalid hintent (Or.inl hbuf) (by omega) hrange hlock (Or.inr (by decide)), heff, hS]
  refine ⟨_, rfl, rfl, key, ?_⟩
  intro hfit
  show w'.cmdLog = _
  rw [key]
  congr 1
  apply List.map_congr_left
  intro j hj
  have hj' : j < nBlock := List.mem_range.mp hj
  congr 1
  have : (blockStart + j) * (g (g.client p).drvIndex).writeBlockSize ≤
      (blockStart + (nBlock - 1)) * (g (g.client p).drvIndex).writeBlockSize :=
    Nat.mul_le_mul_right _ (by omega)
  unfold u32; omega

theorem demoWorld_cooperative : demoWorld.Cooperative := by
  refine ⟨fun _ => rfl, fun n => ?_, fun _ => rfl, fun _ => rfl⟩
  by_cases h : n % 2 = 0
  · refine ⟨1, ?_, ?_⟩
    · have : (n + 1) % 2 ≠ 0 := by omega
      simp [demoWorld, this, MEMORY_DEVICE_TRANSFER_COMPLETED]
    · intro j hj
      have : j = 0 := by omega
      subst this
      simp [demoWorld, h, MEMORY_DEVICE_TRANSFER_BUSY]
  · refine ⟨0, ?_, ?_⟩
    · simp [demoWorld, h, MEMORY_DEVICE_TRANSFER_COMPLETED]
    · intro j hj; omega

theorem demo_valid : DRV_MEMORY_DriverHandleValidate demoDriver 0x10000 = some ⟨0, 0⟩ := by
  decide

/-- C1 at the concrete device: two pages written from block 3. -/
theorem C1_write_programs_each_page_witness :
    ∃ fuel0, ∀ fuel, fuel0 ≤ fuel → ∃ r,
      DRV_MEMORY_Write fuel demoDriver demoWorld 0x10000 true 0x20002000 3 2 =
        Outcome.returned r ∧
      r.isSuccess = true ∧
      r.w.cmdLog = [DevCall.pageWrite 9 0x20002000 768, DevCall.pageWrite 9 0x20002100 1024] := by
  obtain ⟨n, h⟩ := C1_write_programs_each_page demoDriver demoWorld 0x10000 true 0x20002000 3 2
    ⟨0, 0⟩ (by decide) (by decide) (by decide) (by decide) (by decide) (by decide) rfl
    demoWorld_cooperative
  refine ⟨n, fun fuel hf => ?_⟩
  obtain ⟨r, h1, h2, h3, -⟩ := h fuel hf
  exact ⟨r, h1, h2, by rw [h3]; decide⟩

theorem SameCommand_refl (d : DRV_MEMORY_OBJECT) : d.SameCommand d :=
  ⟨rfl, rfl, rfl, rfl, rfl, rfl, rfl, rfl, rfl, rfl, rfl, rfl, rfl⟩

theorem SameCommand_trans {a b c : DRV_MEMORY_OBJECT} (h1 : a.SameCommand b)
    (h2 : b.SameCommand c) : a.SameCommand c :=
  ⟨h2.commandHandle.trans h1.commandHandle, h2.hClient.trans h1.hClient,
   h2.opType.trans h1.opType, h2.cmdStatus.trans h1.cmdStatus,
   h2.clientObjPool.trans h1.clientObjPool, h2.nClientsMax.trans h1.nClientsMax,
   h2.bufferToken.trans h1.bufferToken,
   h2.transferMutex.trans h1.transferMutex, h2.status.trans h1.status,
   h2.memoryDevice.trans h1.memoryDevice, h2.mediaGeometryTable.trans h1.mediaGeometryTable,
   h2.isMemDevInterruptEnabled.trans h1.isMemDevInterruptEnabled,
   h2.memDevStatusPollUs.trans h1.memDevStatusPollUs⟩

theorem SameOS_refl (w : World) : w.SameOS w :=
  ⟨SameOracles_refl w, rfl, rfl, rfl⟩

theorem SameOS_trans {a b c : World} (h1 : a.SameOS b) (h2 : b.SameOS c) : a.SameOS c :=
  ⟨SameOracles_trans h1.toSameOracles h2.toSameOracles, h2.nLock.trans h1.nLock,
   h2.nUnlock.trans h1.nUnlock, h2.handlerLog.trans h1.handlerLog⟩

theorem Framed.ite {d : DRV_MEMORY_OBJECT} {w : World} {c : Prop} [Decidable c]
    {a b : Nat × DRV_MEMORY_OBJECT × World} (ha : Framed d w a) (hb : Framed d w b) :
    Framed d w (if c then a else b) := by
  by_cases h : c
  · rw [if_pos h]; exact ha
  · rw [if_neg h]; exact hb

theorem Framed.step {d d1 : DRV_MEMORY_OBJECT} {w w1 : World}
    {r : Nat × DRV_MEMORY_OBJECT × World} (hd : d.SameCommand d1) (hw : w.SameOS w1)
    (hr : Framed d1 w1 r) : Framed d w r :=
  ⟨SameCommand_trans hd hr.1, SameOS_trans hw hr.2⟩

theorem devRead_sameOS (w : World) (h data n a : Nat) : w.SameOS (w.devRead h data n a).2 := by
  unfold World.devRead
  by_cases hk : w.accept w.cmdLog.length = true
  · simp only [hk, if_true]
    exact ⟨⟨rfl, rfl, rfl, rfl, rfl, rfl, rfl, rfl⟩, rfl, rfl, rfl⟩
  · simp only [hk, if_false]
    exact ⟨⟨rfl, rfl, rfl, rfl, rfl, rfl, rfl, rfl⟩, rfl, rfl, rfl⟩

theorem devPageWrite_sameOS (w : World) (h data a : Nat) :
    w.SameOS (w.devPageWrite h data a).2 := by
  unfold World.devPageWrite
  by_cases hk : w.accept w.cmdLog.length = true
  · simp only [hk, if_true]
    exact ⟨⟨rfl, rfl, rfl, rfl, rfl, rfl, rfl, rfl⟩, rfl, rfl, rfl⟩
  · simp only [hk, if_false]
    exact ⟨⟨rfl, rfl, rfl, rfl, rfl, rfl, rfl, rfl⟩, rfl, rfl, rfl⟩

theorem devSectorErase_sameOS (w : World) (h a : Nat) : w.SameOS (w.devSectorErase h a).2 := by
  unfold World.devSectorErase
  by_cases hk : w.accept w.cmdLog.length = true
  · simp only [hk, if_true]
    exact ⟨⟨rfl, rfl, rfl, rfl, rfl, rfl, rfl, rfl⟩, rfl, rfl, rfl⟩
  · simp only [hk, if_false]
    exact ⟨⟨rfl, rfl, rfl, rfl, rfl, rfl, rfl, rfl⟩, rfl, rfl, rfl⟩

theorem devTransferStatusGet_sameOS (w : World) (h : Nat) :
    w.SameOS (w.devTransferStatusGet h).2 :=
  ⟨⟨rfl, rfl, rfl, rfl, rfl, rfl, rfl, rfl⟩, rfl, rfl, rfl⟩

theorem memcpy_sameOS (w : World) (a b c : Nat) : w.SameOS (w.memcpy a b c) :=
  ⟨⟨rfl, rfl, rfl, rfl, rfl, rfl, rfl, rfl⟩, rfl, rfl, rfl⟩

theorem HandleRead_MEM_STATUS_frame (d : DRV_MEMORY_OBJECT) (w : World) :
    Framed d w (DRV_MEMORY_HandleRead_MEM_STATUS d w) :=
  ⟨SameCommand_refl d, devTransferStatusGet_sameOS w d.memDevHandle⟩

theorem HandleRead_MEM_frame (d : DRV_MEMORY_OBJECT) (w : World) (data n a : Nat) :
    Framed d w (DRV_MEMORY_HandleRead_MEM d w data n a) := by
  unfold DRV_MEMORY_HandleRead_MEM
  refine Framed.ite ?_ ?_
  · refine Framed.step ?_ ?_ (HandleRead_MEM_STATUS_frame _ _)
    · exact ⟨rfl, rfl, rfl, rfl, rfl, rfl, rfl, rfl, rfl, rfl, rfl, rfl, rfl⟩
    · exact devRead_sameOS w _ _ _ _
  · exact ⟨SameCommand_refl d, devRead_sameOS w _ _ _ _⟩

theorem HandleRead_frame (d : DRV_MEMORY_OBJECT) (w : World) (data bs n : Nat) :
    Framed d w (DRV_MEMORY_HandleRead d w data bs n) := by
  unfold DRV_MEMORY_HandleRead
  cases d.readState
  · refine Framed.step ?_ ?_ (HandleRead_MEM_frame _ _ _ _ _)
    · exact ⟨rfl, rfl, rfl, rfl, rfl, rfl, rfl, rfl, rfl, rfl, rfl, rfl, rfl⟩
    · exact SameOS_refl w
  · exact HandleRead_MEM_frame _ _ _ _ _
  · exact HandleRead_MEM_STATUS_frame _ _

theorem HandleWrite_MEM_STATUS_frame (d : DRV_MEMORY_OBJECT) (w : World) :
    Framed d w (DRV_MEMORY_HandleWrite_MEM_STATUS d w) := by
  unfold DRV_MEMORY_HandleWrite_MEM_STATUS
  refine Framed.ite (Framed.ite ?_ ?_) ?_
  · exact ⟨⟨rfl, rfl, rfl, rfl, rfl, rfl, rfl, rfl, rfl, rfl, rfl, rfl, rfl⟩,
      devTransferStatusGet_sameOS w d.memDevHandle⟩
  · exact ⟨⟨rfl, rfl, rfl, rfl, rfl, rfl, rfl, rfl, rfl, rfl, rfl, rfl, rfl⟩,
      devTransferStatusGet_sameOS w d.memDevHandle⟩
  · exact ⟨SameCommand_refl d, devTransferStatusGet_sameOS w d.memDevHandle⟩

theorem HandleWrite_MEM_frame (d : DRV_MEMORY_OBJECT) (w : World) :
    Framed d w (DRV_MEMORY_HandleWrite_MEM d w) := by
  unfold DRV_MEMORY_HandleWrite_MEM
  refine Framed.ite ?_ ?_
  · refine Framed.step ?_ ?_ (HandleWrite_MEM_STATUS_frame _ _)
    · exact ⟨rfl, rfl, rfl, rfl, rfl, rfl, rfl, rfl, rfl, rfl, rfl, rfl, rfl⟩
    · exact devPageWrite_sameOS w _ _ _
  · exact ⟨⟨rfl, rfl, rfl, rfl, rfl, rfl, rfl, rfl, rfl, rfl, rfl, rfl, rfl⟩,
      devPageWrite_sameOS w _ _ _⟩

theorem HandleWrite_frame (d : DRV_MEMORY_OBJECT) (w : World) (data bs n : Nat) :
    Framed d w (DRV_MEMORY_HandleWrite d w data bs n) := by
  unfold DRV_MEMORY_HandleWrite
  cases d.writeState
  · refine Framed.step ?_ ?_ (HandleWrite_MEM_frame _ _)
    · exact ⟨rfl, rfl, rfl, rfl, rfl, rfl, rfl, rfl, rfl, rfl, rfl, rfl, rfl⟩
    · exact SameOS_refl w
  · exact HandleWrite_MEM_frame _ _
  · exact HandleWrite_MEM_STATUS_frame _ _

theorem HandleErase_CMD_STATUS_frame (d : DRV_MEMORY_OBJECT) (w : World) :
    Framed d w (DRV_MEMORY_HandleErase_CMD_STATUS d w) := by
  unfold DRV_MEMORY_HandleErase_CMD_STATUS
  refine Framed.ite (Framed.ite ?_ ?_) ?_
  · exact ⟨⟨rfl, rfl, rfl, rfl, rfl, rfl, rfl, rfl, rfl, rfl, rfl, rfl, rfl⟩,
      devTransferStatusGet_sameOS w d.memDevHandle⟩
  · exact ⟨⟨rfl, rfl, rfl, rfl, rfl, rfl, rfl, rfl, rfl, rfl, rfl, rfl, rfl⟩,
      devTransferStatusGet_sameOS w d.memDevHandle⟩
  · exact ⟨SameCommand_refl d, devTransferStatusGet_sameOS w d.memDevHandle⟩

theorem HandleErase_CMD_frame (d : DRV_MEMORY_OBJECT) (w : World) :
    Framed d w (DRV_MEMORY_HandleErase_CMD d w) := by
  unfold DRV_MEMORY_HandleErase_CMD
  refine Framed.ite ?_ ?_
  · refine Framed.step ?_ ?_ (HandleErase_CMD_STATUS_frame _ _)
    · exact ⟨rfl, rfl, rfl, rfl, rfl, rfl, rfl, rfl, rfl, rfl, rfl, rfl, rfl⟩
    · exact devSectorErase_sameOS w _ _
  · exact ⟨⟨rfl, rfl, rfl, rfl, rfl, rfl, rfl, rfl, rfl, rfl, rfl, rfl, rfl⟩,
      devSectorErase_sameOS w _ _⟩

theorem HandleErase_frame (d : DRV_MEMORY_OBJECT) (w : World) (data bs n : Nat) :
    Framed d w (DRV_MEMORY_HandleErase d w data bs n) := by
  unfold DRV_MEMORY_HandleErase
  cases d.eraseState
  · refine Framed.step ?_ ?_ (HandleErase_CMD_frame _ _)
    · exact ⟨rfl, rfl, rfl, rfl, rfl, rfl, rfl, rfl, rfl, rfl, rfl, rfl, rfl⟩
    · exact SameOS_refl w
  · exact HandleErase_CMD_frame _ _
  · exact HandleErase_CMD_STATUS_frame _ _

theorem Framed.after {d d1 : DRV_MEMORY_OBJECT} {w w1 : World} {ts1 : Nat}
    {r : Nat × DRV_MEMORY_OBJECT × World} (hr : Framed d w r) (hd : r.2.1.SameCommand d1)
    (hw : r.2.2.SameOS w1) : Framed d w (ts1, d1, w1) :=
  ⟨SameCommand_trans hr.1 hd, SameOS_trans hr.2 hw⟩

theorem HandleEraseWrite_WRITE_SECTOR_frame (d : DRV_MEMORY_OBJECT) (w : World) (pps : Nat) :
    Framed d w (DRV_MEMORY_HandleEraseWrite_WRITE_SECTOR d w pps) := by
  unfold DRV_MEMORY_HandleEraseWrite_WRITE_SECTOR
  refine Framed.ite (Framed.ite ?_ ?_) ?_
  · exact HandleWrite_frame _ _ _ _ _
  · refine Framed.after (HandleWrite_frame d w d.writePtr (u32 (d.sectorNumber * pps)) pps) ?_
      (SameOS_refl _)
    exact ⟨rfl, rfl, rfl, rfl, rfl, rfl, rfl, rfl, rfl, rfl, rfl, rfl, rfl⟩
  · exact HandleWrite_frame _ _ _ _ _

theorem HandleEraseWrite_ERASE_SECTOR_frame (d : DRV_MEMORY_OBJECT) (w : World) :
    Framed d w (DRV_MEMORY_HandleEraseWrite_ERASE_SECTOR d w) := by
  unfold DRV_MEMORY_HandleEraseWrite_ERASE_SECTOR
  refine Framed.ite ?_ ?_
  · refine Framed.after (HandleErase_frame d w 0 d.sectorNumber 1) ?_ (SameOS_refl _)
    exact ⟨rfl, rfl, rfl, rfl, rfl, rfl, rfl, rfl, rfl, rfl, rfl, rfl, rfl⟩
  · exact HandleErase_frame _ _ _ _ _

theorem HandleEraseWrite_READ_SECTOR_frame (d : DRV_MEMORY_OBJECT) (w : World) :
    Framed d w (DRV_MEMORY_HandleEraseWrite_READ_SECTOR d w) := by
  unfold DRV_MEMORY_HandleEraseWrite_READ_SECTOR
  refine Framed.ite ?_ ?_
  · have h := HandleRead_frame d w d.ewBuffer (u32 (d.sectorNumber * d.eraseBlockSize))
      d.eraseBlockSize
    refine Framed.step (SameCommand_trans h.1 ?_) (SameOS_trans h.2 ?_)
      (HandleEraseWrite_ERASE_SECTOR_frame _ _)
    · exact ⟨rfl, rfl, rfl, rfl, rfl, rfl, rfl, rfl, rfl, rfl, rfl, rfl, rfl⟩
    · exact memcpy_sameOS _ _ _ _
  · exact HandleRead_frame _ _ _ _ _

theorem HandleEraseWrite_INIT_frame (d : DRV_MEMORY_OBJECT) (w : World) (pps : Nat) :
    Framed d w (DRV_MEMORY_HandleEraseWrite_INIT d w pps) := by
  unfold DRV_MEMORY_HandleEraseWrite_INIT
  by_cases hlt : d.currentBufObj.nBlocks < sub32 pps (d.currentBufObj.blockStart % pps)
  · simp only [hlt, if_true]
    refine Framed.ite ?_ ?_
    · refine Framed.step ?_ (SameOS_refl w) (HandleEraseWrite_READ_SECTOR_frame _ _)
      exact ⟨rfl, rfl, rfl, rfl, rfl, rfl, rfl, rfl, rfl, rfl, rfl, rfl, rfl⟩
    · exact ⟨⟨rfl, rfl, rfl, rfl, rfl, rfl, rfl, rfl, rfl, rfl, rfl, rfl, rfl⟩, SameOS_refl w⟩
  · simp only [hlt, if_false]
    refine Framed.ite ?_ ?_
    · refine Framed.step ?_ (SameOS_refl w) (HandleEraseWrite_READ_SECTOR_frame _ _)
      exact ⟨rfl, rfl, rfl, rfl, rfl, rfl, rfl, rfl, rfl, rfl, rfl, rfl, rfl⟩
    · exact ⟨⟨rfl, rfl, rfl, rfl, rfl, rfl, rfl, rfl, rfl, rfl, rfl, rfl, rfl⟩, SameOS_refl w⟩

theorem HandleEraseWrite_frame (d : DRV_MEMORY_OBJECT) (w : World) (data bs n : Nat)
    (t : Nat × DRV_MEMORY_OBJECT × World)
    (h : DRV_MEMORY_HandleEraseWrite d w data bs n = some t) : Framed d w t := by
  unfold DRV_MEMORY_HandleEraseWrite at h
  by_cases h0 : d.writeBlockSize = 0
  · rw [if_pos h0] at h; cases h
  · rw [if_neg h0] at h
    cases hs : d.ewState <;> simp only [hs] at h
    · by_cases hp : u8 (d.eraseBlockSize / d.writeBlockSize) = 0
      · rw [if_pos hp] at h; cases h
      · rw [if_neg hp] at h; cases h; exact HandleEraseWrite_INIT_frame _ _ _
    · cases h; exact HandleEraseWrite_READ_SECTOR_frame _ _
    · cases h; exact HandleEraseWrite_ERASE_SECTOR_frame _ _
    · cases h; exact HandleEraseWrite_WRITE_SECTOR_frame _ _ _

theorem StartXfer_tick_frame (d : DRV_MEMORY_OBJECT) (w : World)
    (t : Nat × DRV_MEMORY_OBJECT × World) (h : DRV_MEMORY_StartXfer_tick d w = some t) :
    Framed d w t := by
  unfold DRV_MEMORY_StartXfer_tick gMemoryXferFuncPtr at h
  cases ho : d.currentBufObj.opType <;> simp only [ho] at h
  · cases h; exact HandleRead_frame _ _ _ _ _
  · cases h; exact HandleWrite_frame _ _ _ _ _
  · cases h; exact HandleErase_frame _ _ _ _ _
  · exact HandleEraseWrite_frame _ _ _ _ _ _ h

/-- The wait of the sequencer, whether it succeeds or not, touches neither the
device nor the RAM, and of the instance object only `isTransferDone`. -/
theorem StartXfer_wait_frame (d : DRV_MEMORY_OBJECT) (w : World) :
    (∃ b, (DRV_MEMORY_StartXfer_wait d w).2.1 = { d with isTransferDone := b }) ∧
      w.Waited (DRV_MEMORY_StartXfer_wait d w).2.2 := by
  have W : ∀ a b c : Nat, w.Waited { w with nTimer := a, nPend := b, nIsr := c } := fun _ _ _ =>
    ⟨⟨rfl, rfl, rfl, rfl, rfl, rfl, rfl, rfl⟩, rfl, rfl, rfl, rfl, rfl, rfl, rfl⟩
  have P : ∀ (x : Bool) (b : Bool) (u v c : Nat),
      (∃ b', ((x, ({ d with isTransferDone := b } : DRV_MEMORY_OBJECT),
        ({ w with nTimer := u, nPend := v, nIsr := c } : World)) :
          Bool × DRV_MEMORY_OBJECT × World).2.1 = { d with isTransferDone := b' }) ∧
      w.Waited ((x, ({ d with isTransferDone := b } : DRV_MEMORY_OBJECT),
        ({ w with nTimer := u, nPend := v, nIsr := c } : World)) :
          Bool × DRV_MEMORY_OBJECT × World).2.2 :=
    fun _ b _ _ _ => ⟨⟨b, rfl⟩, W _ _ _⟩
  unfold DRV_MEMORY_StartXfer_wait
  by_cases h1 : d.isMemDevInterruptEnabled = false ∧ d.memDevStatusPollUs > 0
  · rw [if_pos h1]
    dsimp only
    by_cases ht : w.timerOk w.nTimer = false
    · rw [if_pos ht]; exact P false d.isTransferDone _ _ _
    · rw [if_neg ht]
      by_cases hp : w.pendOk w.nPend = true
      · rw [if_pos hp]; exact P true d.isTransferDone _ _ _
      · rw [if_neg hp]; exact P false d.isTransferDone _ _ _
  · rw [if_neg h1]
    by_cases h2 : d.isMemDevInterruptEnabled = true ∧ d.memDevStatusPollUs = 0
    · rw [if_pos h2]
      dsimp only
      by_cases hf : w.isr w.nIsr = true
      · rw [if_pos hf]
        rw [if_neg (by simp)]
        exact P true true _ _ _
      · rw [if_neg hf]
        by_cases hd : d.isTransferDone = false
        · rw [if_pos hd]
          by_cases hp : w.pendOk w.nPend = true
          · rw [if_pos hp]; exact P true d.isTransferDone _ _ _
          · rw [if_neg hp]; exact P false d.isTransferDone _ _ _
        · rw [if_neg hd]; exact P true d.isTransferDone _ _ _
    · rw [if_neg h2]
      exact P true d.isTransferDone _ _ _

theorem Waited.sameOS {w w' : World} (h : w.Waited w') : w.SameOS w' :=
  ⟨h.toSameOracles, h.nLock, h.nUnlock, h.handlerLog⟩

theorem StartXfer_wait_sameCommand (d : DRV_MEMORY_OBJECT) (w : World) :
    d.SameCommand (DRV_MEMORY_StartXfer_wait d w).2.1 := by
  obtain ⟨⟨b, hb⟩, -⟩ := StartXfer_wait_frame d w
  rw [hb]
  exact ⟨rfl, rfl, rfl, rfl, rfl, rfl, rfl, rfl, rfl, rfl, rfl, rfl, rfl⟩

theorem loop_zero (d : DRV_MEMORY_OBJECT) (w : World) (ts : Nat) :
    DRV_MEMORY_StartXfer_loop 0 d w ts =
      if ts = MEMORY_DEVICE_TRANSFER_BUSY then Outcome.outOfFuel
      else Outcome.returned (some ts, d, w) := by
  rw [DRV_MEMORY_StartXfer_loop]

theorem loop_succ (fuel : Nat) (d : DRV_MEMORY_OBJECT) (w : World) (ts : Nat) :
    DRV_MEMORY_StartXfer_loop (fuel + 1) d w ts =
      if ts = MEMORY_DEVICE_TRANSFER_BUSY then
        if (DRV_MEMORY_StartXfer_wait d w).1 = false then
          Outcome.returned (none, (DRV_MEMORY_StartXfer_wait d w).2.1,
            (DRV_MEMORY_StartXfer_wait d w).2.2)
        else
          match DRV_MEMORY_StartXfer_tick (DRV_MEMORY_StartXfer_wait d w).2.1
              (DRV_MEMORY_StartXfer_wait d w).2.2 with
          | none => Outcome.undefinedBehaviour
          | some t => DRV_MEMORY_StartXfer_loop fuel t.2.1 t.2.2 t.1
      else Outcome.returned (some ts, d, w) := by
  rw [DRV_MEMORY_StartXfer_loop]

/-- The loop of the sequencer never writes the identity of the command, the
client pool, the tokens or the lock, and never calls a handler. -/
theorem StartXfer_loop_frame : ∀ (fuel : Nat) (d : DRV_MEMORY_OBJECT) (w : World) (ts : Nat)
    (o : Option Nat) (d' : DRV_MEMORY_OBJECT) (w' : World),
    DRV_MEMORY_StartXfer_loop fuel d w ts = Outcome.returned (o, d', w') →
    d.SameCommand d' ∧ w.SameOS w' := by
  intro fuel
  induction fuel with
  | zero =>
    intro d w ts o d' w' h
    rw [loop_zero] at h
    by_cases hb : ts = MEMORY_DEVICE_TRANSFER_BUSY
    · rw [if_pos hb] at h; cases h
    · rw [if_neg hb] at h; cases h; exact ⟨SameCommand_refl _, SameOS_refl _⟩
  | succ fuel ih =>
    intro d w ts o d' w' h
    rw [loop_succ] at h
    by_cases hb : ts = MEMORY_DEVICE_TRANSFER_BUSY
    · rw [if_pos hb] at h
      have hdw := StartXfer_wait_sameCommand d w
      have hww := Waited.sameOS (StartXfer_wait_frame d w).2
      by_cases hf : (DRV_MEMORY_StartXfer_wait d w).1 = false
      · rw [if_pos hf] at h; cases h; exact ⟨hdw, hww⟩
      · rw [if_neg hf] at h
        cases ht : DRV_MEMORY_StartXfer_tick (DRV_MEMORY_StartXfer_wait d w).2.1
            (DRV_MEMORY_StartXfer_wait d w).2.2 with
        | none => rw [ht] at h; cases h
        | some t =>
          rw [ht] at h
          have h1 := StartXfer_tick_frame _ _ _ ht
          have h2 := ih _ _ _ _ _ _ h
          exact ⟨SameCommand_trans hdw (SameCommand_trans h1.1 h2.1),
            SameOS_trans hww (SameOS_trans h1.2 h2.2)⟩
    · rw [if_neg hb] at h; cases h; exact ⟨SameCommand_refl _, SameOS_refl _⟩

/-- The five checks of admission: when one of them fails,
`DRV_MEMORY_SetupXfer` returns `false` and nothing has changed. -/
theorem SetupXfer_rejected (fuel : Nat) (g : Driver) (w : World) (handle : Nat)
    (hasCommandHandle : Bool) (buffer blockStart nBlock geometry_type : Nat)
    (opType : DRV_MEMORY_OPERATION_TYPE) (io_intent : Nat)
    (h : DRV_MEMORY_DriverHandleValidate g handle = none ∨
      ∃ p, DRV_MEMORY_DriverHandleValidate g handle = some p ∧
        ((g.client p).intent &&& io_intent = 0 ∨
         (buffer = 0 ∧ opType ≠ DRV_MEMORY_OPERATION_TYPE_ERASE) ∨
         nBlock = 0 ∨
         blockStart + nBlock >
           ((g (g.client p).drvIndex).mediaGeometryTable geometry_type).numBlocks)) :
    DRV_MEMORY_SetupXfer fuel g w handle hasCommandHandle buffer blockStart nBlock geometry_type
        opType io_intent =
      Outcome.returned ⟨false, g, w,
        if hasCommandHandle = true then some DRV_MEMORY_COMMAND_HANDLE_INVALID else none⟩ := by
  unfold DRV_MEMORY_SetupXfer
  rcases h with h | ⟨p, hp, h⟩
  · simp only [h]
  · simp only [hp]
    by_cases h1 : (g.client p).intent &&& io_intent = 0
    · simp only [h1, if_true]
    · simp only [h1, if_false]
      by_cases h2 : buffer = 0 ∧ opType ≠ DRV_MEMORY_OPERATION_TYPE_ERASE
      · rw [if_pos h2]
      · rw [if_neg h2]
        have h3 : nBlock = 0 ∨ blockStart + nBlock >
            ((g (g.client p).drvIndex).mediaGeometryTable geometry_type).numBlocks := by
          rcases h with h | h | h | h
          · exact absurd h h1
          · exact absurd h h2
          · exact Or.inl h
          · exact Or.inr h
        rw [if_pos h3]

/-- C4. A request whose `blockStart + nBlock`, as a sum of integers, exceeds the
number of blocks of the geometry class of its operation is refused by every
public block operation: `false` is returned and nothing changes. Read looks
only at the read table, Write and EraseWrite only at the write table, Erase
only at the erase table. -/
theorem C4_range_beyond_geometry_rejected (op : BlockOp) (fuel : Nat) (g : Driver) (w : World)
    (handle : Nat) (hasCommandHandle : Bool) (buffer blockStart nBlock : Nat) (p : ClientPtr)
    (hvalid : DRV_MEMORY_DriverHandleValidate g handle = some p)
    (hrange : blockStart + nBlock >
      ((g (g.client p).drvIndex).mediaGeometryTable op.geometryClass).numBlocks) :
    (op.run fuel g w handle hasCommandHandle buffer blockStart nBlock).Rejected g w := by
  cases op <;>
    exact ⟨_, SetupXfer_rejected _ _ _ _ _ _ _ _ _ _ _
      (Or.inr ⟨p, hvalid, Or.inr (Or.inr (Or.inr hrange))⟩), rfl, rfl, rfl⟩

/-- C4 at the concrete device: 10 pages from page 1020 of 1024 are refused by
Write, although the same numbers fit the read table. -/
theorem C4_range_beyond_geometry_rejected_witness :
    (BlockOp.write.run 5 demoDriver demoWorld 0x10000 true 0x20002000 1020 10).Rejected
      demoDriver demoWorld :=
  C4_range_beyond_geometry_rejected BlockOp.write 5 demoDriver demoWorld 0x10000 true 0x20002000
    1020 10 ⟨0, 0⟩ demo_valid (by decide)

/-- C5. A block operation called with a block count of 0 returns `false`,
whatever its other arguments: nothing changes, so no command is given to the
device and its status is not polled. -/
theorem C5_zero_block_count_rejected (op : BlockOp) (fuel : Nat) (g : Driver) (w : World)
    (handle : Nat) (hasCommandHandle : Bool) (buffer blockStart : Nat) :
    ∃ r, op.run fuel g w handle hasCommandHandle buffer blockStart 0 = Outcome.returned r ∧
      r.isSuccess = false ∧ r.g = g ∧ r.w = w ∧
      r.w.cmdLog = w.cmdLog ∧ r.w.nPoll = w.nPoll := by
  have key : ∀ (hch : Bool) (buf gt : Nat) (ot : DRV_MEMORY_OPERATION_TYPE) (io : Nat),
      DRV_MEMORY_SetupXfer fuel g w handle hch buf blockStart 0 gt ot io =
        Outcome.returned ⟨false, g, w,
          if hch = true then some DRV_MEMORY_COMMAND_HANDLE_INVALID else none⟩ := by
    intro hch buf gt ot io
    cases hv : DRV_MEMORY_DriverHandleValidate g handle with
    | none => exact SetupXfer_rejected _ _ _ _ _ _ _ _ _ _ _ (Or.inl hv)
    | some p =>
      exact SetupXfer_rejected _ _ _ _ _ _ _ _ _ _ _
        (Or.inr ⟨p, hv, Or.inr (Or.inr (Or.inl rfl))⟩)
  cases op <;> exact ⟨_, key _ _ _ _ _, rfl, rfl, rfl, rfl, rfl⟩

/-- C8. When admission fails on the handle, the intent, the buffer, the block
count or the range, `DRV_MEMORY_SetupXfer` returns `false`; the command
descriptor, the buffer token and the holder count of the transfer lock of every
instance are unchanged and no lock call has been made. -/
theorem C8_admission_failure_allocates_nothing (fuel : Nat) (g : Driver) (w : World)
    (handle : Nat) (hasCommandHandle : Bool) (buffer blockStart nBlock geometry_type : Nat)
    (opType : DRV_MEMORY_OPERATION_TYPE) (io_intent : Nat)
    (h : DRV_MEMORY_DriverHandleValidate g handle = none ∨
      ∃ p, DRV_MEMORY_DriverHandleValidate g handle = some p ∧
        ((g.client p).intent &&& io_intent = 0 ∨
         (buffer = 0 ∧ opType ≠ DRV_MEMORY_OPERATION_TYPE_ERASE) ∨
         nBlock = 0 ∨
         blockStart + nBlock >
           ((g (g.client p).drvIndex).mediaGeometryTable geometry_type).numBlocks)) :
    ∃ r, DRV_MEMORY_SetupXfer fuel g w handle hasCommandHandle buffer blockStart nBlock
        geometry_type opType io_intent = Outcome.returned r ∧
      r.isSuccess = false ∧
      (∀ j, (r.g j).currentBufObj = (g j).currentBufObj ∧
        (r.g j).bufferToken = (g j).bufferToken ∧
        (r.g j).transferMutex = (g j).transferMutex) ∧
      r.w.nLock = w.nLock ∧ r.w.nUnlock = w.nUnlock ∧ r.g = g ∧ r.w = w :=
  ⟨_, SetupXfer_rejected _ _ _ _ _ _ _ _ _ _ _ h, rfl, fun _ => ⟨rfl, rfl, rfl⟩, rfl, rfl, rfl,
    rfl⟩

/-- C8 at the concrete device: a write through a handle that was never opened. -/
theorem C8_admission_failure_allocates_nothing_witness :
    ∃ r, DRV_MEMORY_SetupXfer 5 demoDriver demoWorld 0x20000 true 0x20002000 3 2
        SYS_MEDIA_GEOMETRY_TABLE_WRITE_ENTRY DRV_MEMORY_OPERATION_TYPE_WRITE DRV_IO_INTENT_WRITE
        = Outcome.returned r ∧
      r.isSuccess = false ∧
      (∀ j, (r.g j).currentBufObj = (demoDriver j).currentBufObj ∧
        (r.g j).bufferToken = (demoDriver j).bufferToken ∧
        (r.g j).transferMutex = (demoDriver j).transferMutex) ∧
      r.w.nLock = demoWorld.nLock ∧ r.w.nUnlock = demoWorld.nUnlock ∧ r.g = demoDriver ∧
      r.w = demoWorld :=
  C8_admission_failure_allocates_nothing 5 demoDriver demoWorld 0x20000 true 0x20002000 3 2
    SYS_MEDIA_GEOMETRY_TABLE_WRITE_ENTRY DRV_MEMORY_OPERATION_TYPE_WRITE DRV_IO_INTENT_WRITE
    (Or.inl (by decide))

/-- C6. An Erase request on a device without a sector-erase primitive: whatever
the arguments, `DRV_MEMORY_SetupXfer` returns `false`; the command descriptor
and the buffer token of every instance are as before; the holder count of the
transfer lock is as before (when the lock was taken it has been released, once);
no command was given to the device and its status was not polled, the flash and
the RAM are as before and no handler was called. -/
theorem C6_erase_without_sector_erase (fuel : Nat) (g : Driver) (w : World) (handle : Nat)
    (hasCommandHandle : Bool) (buffer blockStart nBlock geometry_type io_intent : Nat)
    (hno : ∀ p, DRV_MEMORY_DriverHandleValidate g handle = some p →
      (g (g.client p).drvIndex).memoryDevice.hasSectorErase = false) :
    ∃ r, DRV_MEMORY_SetupXfer fuel g w handle hasCommandHandle buffer blockStart nBlock
        geometry_type DRV_MEMORY_OPERATION_TYPE_ERASE io_intent = Outcome.returned r ∧
      r.isSuccess = false ∧
      (∀ j, (r.g j).currentBufObj = (g j).currentBufObj ∧
        (r.g j).bufferToken = (g j).bufferToken ∧
        (r.g j).transferMutex = (g j).transferMutex) ∧
      (r.w.nUnlock = w.nUnlock ∨
        (r.w.nUnlock = w.nUnlock + 1 ∧ r.w.nLock = w.nLock + 1 ∧ w.lockOk w.nLock = true)) ∧
      r.w.cmdLog = w.cmdLog ∧ r.w.nPoll = w.nPoll ∧ r.w.flash = w.flash ∧ r.w.ram = w.ram ∧
      r.w.handlerLog = w.handlerLog ∧
      r.commandHandle =
        (if hasCommandHandle = true then some DRV_MEMORY_COMMAND_HANDLE_INVALID else none) := by
  by_cases hrej : DRV_MEMORY_DriverHandleValidate g handle = none ∨
      ∃ p, DRV_MEMORY_DriverHandleValidate g handle = some p ∧
        ((g.client p).intent &&& io_intent = 0 ∨
         (buffer = 0 ∧ DRV_MEMORY_OPERATION_TYPE_ERASE ≠ DRV_MEMORY_OPERATION_TYPE_ERASE) ∨
         nBlock = 0 ∨
         blockStart + nBlock >
           ((g (g.client p).drvIndex).mediaGeometryTable geometry_type).numBlocks)
  · exact ⟨_, SetupXfer_rejected _ _ _ _ _ _ _ _ _ _ _ hrej, rfl, fun _ => ⟨rfl, rfl, rfl⟩,
      Or.inl rfl, rfl, rfl, rfl, rfl, rfl, rfl⟩
  · cases hv : DRV_MEMORY_DriverHandleValidate g handle with
    | none => exact absurd (Or.inl hv) hrej
    | some p =>
      have h1 : ¬ (g.client p).intent &&& io_intent = 0 := fun h =>
        hrej (Or.inr ⟨p, hv, Or.inl h⟩)
      have h3 : ¬ (nBlock = 0 ∨ blockStart + nBlock >
          ((g (g.client p).drvIndex).mediaGeometryTable geometry_type).numBlocks) := by
        rintro (h | h)
        · exact hrej (Or.inr ⟨p, hv, Or.inr (Or.inr (Or.inl h))⟩)
        · exact hrej (Or.inr ⟨p, hv, Or.inr (Or.inr (Or.inr h))⟩)
      have hne := hno p hv
      unfold DRV_MEMORY_SetupXfer
      simp only [hv, h1, h3, if_false, ne_eq, not_true_eq_false, and_false,
        OSAL_MUTEX_Lock_transferMutex]
      cases hl : w.lockOk w.nLock
      · simp only [Bool.false_eq_true, if_false]
        exact ⟨_, rfl, rfl, fun _ => ⟨rfl, rfl, rfl⟩, Or.inl rfl, rfl, rfl, rfl, rfl, rfl, rfl⟩
      · simp only [if_true, Function.update_same, hne, and_self,
          OSAL_MUTEX_Unlock_transferMutex]
        refine ⟨_, rfl, rfl, fun j => ?_, Or.inr ⟨rfl, rfl, trivial⟩, rfl, rfl, rfl, rfl, rfl, rfl⟩
        by_cases hj : j = (g.client p).drvIndex
        · subst hj; simp
        · simp [Function.update_noteq hj]

/-- C6 at the concrete device without sector erase: two sectors from sector 1. -/
theorem C6_erase_without_sector_erase_witness :
    ∃ r, DRV_MEMORY_SetupXfer 5 demoDriverNoErase demoWorld 0x10000 true 0 1 2
        SYS_MEDIA_GEOMETRY_TABLE_ERASE_ENTRY DRV_MEMORY_OPERATION_TYPE_ERASE DRV_IO_INTENT_WRITE
        = Outcome.returned r ∧
      r.isSuccess = false ∧
      (∀ j, (r.g j).currentBufObj = (demoDriverNoErase j).currentBufObj ∧
        (r.g j).bufferToken = (demoDriverNoErase j).bufferToken ∧
        (r.g j).transferMutex = (demoDriverNoErase j).transferMutex) ∧
      (r.w.nUnlock = demoWorld.nUnlock ∨
        (r.w.nUnlock = demoWorld.nUnlock + 1 ∧ r.w.nLock = demoWorld.nLock + 1 ∧
          demoWorld.lockOk demoWorld.nLock = true)) ∧
      r.w.cmdLog = demoWorld.cmdLog ∧ r.w.nPoll = demoWorld.nPoll ∧
      r.w.flash = demoWorld.flash ∧ r.w.ram = demoWorld.ram ∧
      r.w.handlerLog = demoWorld.handlerLog ∧
      r.commandHandle =
        (if true = true then some DRV_MEMORY_COMMAND_HANDLE_INVALID else none) :=
  C6_erase_without_sector_erase 5 demoDriverNoErase demoWorld 0x10000 true 0 1 2
    SYS_MEDIA_GEOMETRY_TABLE_ERASE_ENTRY DRV_IO_INTENT_WRITE (fun _ _ => rfl)

theorem callTransferHandler_log (w : World) (c : DRV_MEMORY_CLIENT_OBJECT)
    (e : DRV_MEMORY_EVENT) (h : Nat) :
    (w.callTransferHandler c e h).handlerLog = w.handlerLog ++ handlerCalls c e h := by
  unfold World.callTransferHandler handlerCalls
  split <;> simp

theorem StartXfer_init_sameCommand (d : DRV_MEMORY_OBJECT) :
    (DRV_MEMORY_StartXfer_init d).currentBufObj.commandHandle = d.currentBufObj.commandHandle ∧
    (DRV_MEMORY_StartXfer_init d).currentBufObj.hClient = d.currentBufObj.hClient ∧
    (DRV_MEMORY_StartXfer_init d).currentBufObj.status = DRV_MEMORY_COMMAND_IN_PROGRESS ∧
    (DRV_MEMORY_StartXfer_init d).clientObjPool = d.clientObjPool ∧
    (DRV_MEMORY_StartXfer_init d).transferMutex = d.transferMutex ∧
    (DRV_MEMORY_StartXfer_init d).bufferToken = d.bufferToken :=
  ⟨rfl, rfl, rfl, rfl, rfl, rfl⟩

theorem client_allocated (g : Driver) (p q : ClientPtr) (buffer blockStart nBlock : Nat)
    (opType : DRV_MEMORY_OPERATION_TYPE) :
    Driver.client (g.allocated p buffer blockStart nBlock opType) q = g.client q := by
  unfold Driver.client
  by_cases h : q.inst = (g.client p).drvIndex
  · rw [h, Driver.allocated_at]
  · rw [Driver.allocated_other _ _ _ _ _ _ _ h]

/-- The sequencer whose loop ends with the transfer status `ts`. -/
theorem StartXfer_finished (fuel : Nat) (g : Driver) (i : Nat) (w : World)
    (t : Nat × DRV_MEMORY_OBJECT × World) (ts : Nat) (dF : DRV_MEMORY_OBJECT) (wF : World)
    (htick : DRV_MEMORY_StartXfer_tick (DRV_MEMORY_StartXfer_init (g i)) w = some t)
    (hloop : DRV_MEMORY_StartXfer_loop fuel t.2.1 t.2.2 t.1 = Outcome.returned (some ts, dF, wF)) :
    DRV_MEMORY_StartXfer fuel g i w = DRV_MEMORY_StartXfer_finish g i dF wF ts ∧
    (DRV_MEMORY_StartXfer_init (g i)).SameCommand dF ∧ w.SameOS wF := by
  have f1 := StartXfer_tick_frame _ _ _ htick
  have f2 := StartXfer_loop_frame _ _ _ _ _ _ _ hloop
  refine ⟨?_, SameCommand_trans f1.1 f2.1, SameOS_trans f1.2 f2.2⟩
  unfold DRV_MEMORY_StartXfer
  simp only [htick, hloop]

/-- The sequencer whose loop is left by `return false`. -/
theorem StartXfer_aborted (fuel : Nat) (g : Driver) (i : Nat) (w : World)
    (t : Nat × DRV_MEMORY_OBJECT × World) (dF : DRV_MEMORY_OBJECT) (wF : World)
    (htick : DRV_MEMORY_StartXfer_tick (DRV_MEMORY_StartXfer_init (g i)) w = some t)
    (hloop : DRV_MEMORY_StartXfer_loop fuel t.2.1 t.2.2 t.1 = Outcome.returned (none, dF, wF)) :
    DRV_MEMORY_StartXfer fuel g i w = Outcome.returned (false, Function.update g i dF, wF) ∧
    (DRV_MEMORY_StartXfer_init (g i)).SameCommand dF ∧ w.SameOS wF := by
  have f1 := StartXfer_tick_frame _ _ _ htick
  have f2 := StartXfer_loop_frame _ _ _ _ _ _ _ hloop
  refine ⟨?_, SameCommand_trans f1.1 f2.1, SameOS_trans f1.2 f2.2⟩
  unfold DRV_MEMORY_StartXfer
  simp only [htick, hloop]

/-- C9. A command that passed admission and whose tick sequence ends, without a
timer or wait failure, with the transfer status `ts`. If `ts` is Completed the
block operation returns `true`, the status of the command is Completed and the
handler of the client, if there is one, has been called exactly once, with the
command-complete event and the handle of this command. If `ts` is an error
status the operation returns `false`, the status of the command is
ErrorUnknown and the handler has been called exactly once with the
command-error event and the handle of this command. -/
theorem C9_sequencer_reports_final_result (fuel : Nat) (g : Driver) (w : World) (handle : Nat)
    (hasCommandHandle : Bool) (buffer blockStart nBlock geometry_type : Nat)
    (opType : DRV_MEMORY_OPERATION_TYPE) (io_intent : Nat) (p : ClientPtr)
    (t : Nat × DRV_MEMORY_OBJECT × World) (ts : Nat) (dF : DRV_MEMORY_OBJECT) (wF : World)
    (hvalid : DRV_MEMORY_DriverHandleValidate g handle = some p)
    (hintent : (g.client p).intent &&& io_intent ≠ 0)
    (hbuf : buffer ≠ 0 ∨ opType = DRV_MEMORY_OPERATION_TYPE_ERASE)
    (hn : nBlock ≠ 0)
    (hrange : blockStart + nBlock ≤
      ((g (g.client p).drvIndex).mediaGeometryTable geometry_type).numBlocks)
    (hlock : w.lockOk w.nLock = true)
    (hop : (g (g.client p).drvIndex).memoryDevice.hasSectorErase = true ∨
      opType ≠ DRV_MEMORY_OPERATION_TYPE_ERASE)
    (htick : DRV_MEMORY_StartXfer_tick
      (DRV_MEMORY_StartXfer_init (g.allocated p buffer blockStart nBlock
        (effectiveOpType (g (g.client p).drvIndex).memoryDevice.hasSectorErase opType)
        (g.client p).drvIndex))
      { w with nLock := w.nLock + 1 } = some t)
    (hloop : DRV_MEMORY_StartXfer_loop fuel t.2.1 t.2.2 t.1 = Outcome.returned (some ts, dF, wF)) :
    ∃ r, DRV_MEMORY_SetupXfer fuel g w handle hasCommandHandle buffer blockStart nBlock
        geometry_type opType io_intent = Outcome.returned r ∧
      (r.g (g.client p).drvIndex).currentBufObj.commandHandle =
        DRV_MEMORY_MAKE_HANDLE (g (g.client p).drvIndex).bufferToken (g.client p).drvIndex 0 ∧
      (ts = MEMORY_DEVICE_TRANSFER_COMPLETED →
        r.isSuccess = true ∧
        (r.g (g.client p).drvIndex).currentBufObj.status = DRV_MEMORY_COMMAND_COMPLETED ∧
        r.w.handlerLog = w.handlerLog ++ handlerCalls (g.client p)
          DRV_MEMORY_EVENT_COMMAND_COMPLETE
          (DRV_MEMORY_MAKE_HANDLE (g (g.client p).drvIndex).bufferToken
            (g.client p).drvIndex 0)) ∧
      (ts ≥ MEMORY_DEVICE_TRANSFER_ERROR_UNKNOWN →
        r.isSuccess = false ∧
        (r.g (g.client p).drvIndex).currentBufObj.status = DRV_MEMORY_COMMAND_ERROR_UNKNOWN ∧
        r.w.handlerLog = w.handlerLog ++ handlerCalls (g.client p)
          DRV_MEMORY_EVENT_COMMAND_ERROR
          (DRV_MEMORY_MAKE_HANDLE (g (g.client p).drvIndex).bufferToken
            (g.client p).drvIndex 0)) := by
  have hat := Driver.allocated_at g p buffer blockStart nBlock
    (effectiveOpType (g (g.client p).drvIndex).memoryDevice.hasSectorErase opType)
  obtain ⟨hS, hd, hw⟩ := StartXfer_finished fuel _ _ _ t ts dF wF htick hloop
  have hcl : dF.currentBufObj.hClient = some p := by
    rw [hd.hClient, (StartXfer_init_sameCommand _).2.1, hat]
  have hch : dF.currentBufObj.commandHandle =
      DRV_MEMORY_MAKE_HANDLE (g (g.client p).drvIndex).bufferToken (g.client p).drvIndex 0 := by
    rw [hd.commandHandle, (StartXfer_init_sameCommand _).1, hat]
  have hpool : dF.clientObjPool = (g (g.client p).drvIndex).clientObjPool := by
    rw [hd.clientObjPool, (StartXfer_init_sameCommand _).2.2.2.1, hat]
  have hlog : wF.handlerLog = w.handlerLog := hw.handlerLog
  have hadm := SetupXfer_admitted fuel g w handle hasCommandHandle buffer blockStart nBlock
    geometry_type opType io_intent p hvalid hintent hbuf hn hrange hlock hop
  rw [hadm, hS]
  unfold DRV_MEMORY_StartXfer_finish
  simp only [hcl]
  refine ⟨_, rfl, ?_, ?_, ?_⟩
  · simp only [OSAL_MUTEX_Unlock_transferMutex, Function.update_same]
    exact hch
  · intro hts
    refine ⟨?_, ?_, ?_⟩
    · simp only [hts, if_true]
    · simp only [OSAL_MUTEX_Unlock_transferMutex, Function.update_same, hts, if_true]
    · simp only [OSAL_MUTEX_Unlock_transferMutex, hts, if_true]
      rw [callTransferHandler_log, hlog, hch]
      rw [client_update_same_pool _ _ _ _ (by rw [Driver.allocated_at]; exact hpool)]
      rw [client_allocated]
  · intro hts
    have hne : ts ≠ MEMORY_DEVICE_TRANSFER_COMPLETED := by
      unfold MEMORY_DEVICE_TRANSFER_COMPLETED
      unfold MEMORY_DEVICE_TRANSFER_ERROR_UNKNOWN at hts
      omega
    refine ⟨?_, ?_, ?_⟩
    · simp only [hne, hts, if_true, if_false]
    · simp only [OSAL_MUTEX_Unlock_transferMutex, Function.update_same, hne, hts, if_true,
        if_false]
    · simp only [OSAL_MUTEX_Unlock_transferMutex, hne, hts, if_true, if_false]
      rw [callTransferHandler_log, hlog, hch]
      rw [client_update_same_pool _ _ _ _ (by rw [Driver.allocated_at]; exact hpool)]
      rw [client_allocated]

theorem StartXfer_wait_fails (d : DRV_MEMORY_OBJECT) (w : World) (h : WaitFails d w) :
    (DRV_MEMORY_StartXfer_wait d w).1 = false := by
  unfold DRV_MEMORY_StartXfer_wait
  rcases h with ⟨h1, h2, h3⟩ | ⟨h1, h2, h3, h4, h5⟩
  · rw [if_pos ⟨h1, h2⟩]
    dsimp only
    by_cases ht : w.timerOk w.nTimer = false
    · rw [if_pos ht]
    · rw [if_neg ht]
      have hp : w.pendOk w.nPend = false := by
        rcases h3 with h | h
        · exact absurd h ht
        · exact h
      rw [if_neg (by rw [hp]; exact Bool.false_ne_true)]
  · have hn : ¬ (d.isMemDevInterruptEnabled = false ∧ d.memDevStatusPollUs > 0) := by
      rintro ⟨-, h⟩; omega
    rw [if_neg hn, if_pos ⟨h1, h2⟩]
    dsimp only
    rw [h4]
    simp only [Bool.false_eq_true, if_false]
    rw [if_pos h3, h5]
    simp only [Bool.false_eq_true, if_false]

/-- C10. A command that passed admission and whose tick sequence reaches, after
`k` iterations of the loop, a Busy result in the state `d0`, `w0` where the
wait fails (the poll timer cannot be armed, or the wait on the completion
signal fails). Then the block operation returns `false`; no tick is executed
after the failure (command log and poll counter are those of `w0`); no handler
is called; the status of the command stays In Progress; and the transfer lock
taken by admission has been released. -/
theorem C10_wait_failure_aborts_sequencer (k fuel : Nat) (g : Driver) (w : World) (handle : Nat)
    (hasCommandHandle : Bool) (buffer blockStart nBlock geometry_type : Nat)
    (opType : DRV_MEMORY_OPERATION_TYPE) (io_intent : Nat) (p : ClientPtr)
    (t : Nat × DRV_MEMORY_OBJECT × World) (d0 : DRV_MEMORY_OBJECT) (w0 : World)
    (hvalid : DRV_MEMORY_DriverHandleValidate g handle = some p)
    (hintent : (g.client p).intent &&& io_intent ≠ 0)
    (hbuf : buffer ≠ 0 ∨ opType = DRV_MEMORY_OPERATION_TYPE_ERASE)
    (hn : nBlock ≠ 0)
    (hrange : blockStart + nBlock ≤
      ((g (g.client p).drvIndex).mediaGeometryTable geometry_type).numBlocks)
    (hlock : w.lockOk w.nLock = true)
    (hop : (g (g.client p).drvIndex).memoryDevice.hasSectorErase = true ∨
      opType ≠ DRV_MEMORY_OPERATION_TYPE_ERASE)
    (htick : DRV_MEMORY_StartXfer_tick
      (DRV_MEMORY_StartXfer_init (g.allocated p buffer blockStart nBlock
        (effectiveOpType (g (g.client p).drvIndex).memoryDevice.hasSectorErase opType)
        (g.client p).drvIndex))
      { w with nLock := w.nLock + 1 } = some t)
    (hreach : ∀ f, DRV_MEMORY_StartXfer_loop (f + k) t.2.1 t.2.2 t.1 =
      DRV_MEMORY_StartXfer_loop f d0 w0 MEMORY_DEVICE_TRANSFER_BUSY)
    (hfail : WaitFails d0 w0) :
    ∃ r, DRV_MEMORY_SetupXfer (fuel + 1 + k) g w handle hasCommandHandle buffer blockStart nBlock
        geometry_type opType io_intent = Outcome.returned r ∧
      r.isSuccess = false ∧
      r.w.cmdLog = w0.cmdLog ∧ r.w.nPoll = w0.nPoll ∧
      r.w.handlerLog = w.handlerLog ∧
      (r.g (g.client p).drvIndex).currentBufObj.status = DRV_MEMORY_COMMAND_IN_PROGRESS ∧
      (r.g (g.client p).drvIndex).transferMutex = (g (g.client p).drvIndex).transferMutex ∧
      r.w.nLock = w.nLock + 1 ∧ r.w.nUnlock = w.nUnlock + 1 := by
  have hat := Driver.allocated_at g p buffer blockStart nBlock
    (effectiveOpType (g (g.client p).drvIndex).memoryDevice.hasSectorErase opType)
  have hwf := StartXfer_wait_fails d0 w0 hfail
  have hloop : DRV_MEMORY_StartXfer_loop (fuel + 1 + k) t.2.1 t.2.2 t.1 =
      Outcome.returned (none, (DRV_MEMORY_StartXfer_wait d0 w0).2.1,
        (DRV_MEMORY_StartXfer_wait d0 w0).2.2) := by
    rw [hreach (fuel + 1), loop_succ, if_pos rfl, if_pos hwf]
  obtain ⟨hS, hd, hw⟩ := StartXfer_aborted (fuel + 1 + k) _ _ _ t _ _ htick hloop
  have hwait := (StartXfer_wait_frame d0 w0).2
  have hadm := SetupXfer_admitted (fuel + 1 + k) g w handle hasCommandHandle buffer blockStart
    nBlock geometry_type opType io_intent p hvalid hintent hbuf hn hrange hlock hop
  rw [hadm, hS]
  refine ⟨_, rfl, rfl, ?_, ?_, ?_, ?_, ?_, ?_, ?_⟩
  · exact hwait.cmdLog
  · exact hwait.nPoll
  · exact hw.handlerLog
  · simp only [OSAL_MUTEX_Unlock_transferMutex, Function.update_same]
    rw [hd.cmdStatus]; rfl
  · simp only [OSAL_MUTEX_Unlock_transferMutex, Function.update_same]
    rw [hd.transferMutex, (StartXfer_init_sameCommand _).2.2.2.2.1, hat]
    simp
  · exact hw.nLock
  · show (DRV_MEMORY_StartXfer_wait d0 w0).2.2.nUnlock + 1 = w.nUnlock + 1
    rw [hw.nUnlock]

/-- C9 at the concrete device that completes at once: one page written, the
operation returns `true`, the command is Completed and the handler 77 is called
once with the command-complete event and the handle 0x10000. -/
theorem C9_sequencer_reports_final_result_witness :
    ∃ r, DRV_MEMORY_SetupXfer 0 demoDriver demoWorldFast 0x10000 false 0x20002000 3 1
        SYS_MEDIA_GEOMETRY_TABLE_WRITE_ENTRY DRV_MEMORY_OPERATION_TYPE_WRITE DRV_IO_INTENT_WRITE
        = Outcome.returned r ∧
      r.isSuccess = true ∧
      (r.g 0).currentBufObj.status = DRV_MEMORY_COMMAND_COMPLETED ∧
      r.w.handlerLog = [HandlerCall.mk 77 DRV_MEMORY_EVENT_COMMAND_COMPLETE 0x10000 5] := by
  obtain ⟨r, h1, -, h3, -⟩ := C9_sequencer_reports_final_result 0 demoDriver demoWorldFast
    0x10000 false 0x20002000 3 1 SYS_MEDIA_GEOMETRY_TABLE_WRITE_ENTRY
    DRV_MEMORY_OPERATION_TYPE_WRITE DRV_IO_INTENT_WRITE ⟨0, 0⟩
    (demoFirstTick demoWorldFast 1) 1 (demoFirstTick demoWorldFast 1).2.1
    (demoFirstTick demoWorldFast 1).2.2
    demo_valid (by decide) (Or.inl (by decide)) (by decide) (by decide) rfl (Or.inl rfl)
    rfl rfl
  exact ⟨r, h1, (h3 rfl).1, (h3 rfl).2.1, (h3 rfl).2.2⟩

/-- C10 at the concrete device with an OS that cannot arm the poll timer: the
first page is issued, the poll says Busy, the sequencer gives up. -/
theorem C10_wait_failure_aborts_sequencer_witness :
    ∃ r, DRV_MEMORY_SetupXfer 1 demoDriver demoWorldNoTimer 0x10000 false 0x20002000 3 2
        SYS_MEDIA_GEOMETRY_TABLE_WRITE_ENTRY DRV_MEMORY_OPERATION_TYPE_WRITE DRV_IO_INTENT_WRITE
        = Outcome.returned r ∧
      r.isSuccess = false ∧
      r.w.cmdLog = [DevCall.pageWrite 9 0x20002000 768] ∧ r.w.nPoll = 1 ∧
      r.w.handlerLog = [] ∧
      (r.g 0).currentBufObj.status = DRV_MEMORY_COMMAND_IN_PROGRESS ∧
      (r.g 0).transferMutex = 0 ∧
      r.w.nLock = 1 ∧ r.w.nUnlock = 1 :=
  C10_wait_failure_aborts_sequencer 0 0 demoDriver demoWorldNoTimer
    0x10000 false 0x20002000 3 2 SYS_MEDIA_GEOMETRY_TABLE_WRITE_ENTRY
    DRV_MEMORY_OPERATION_TYPE_WRITE DRV_IO_INTENT_WRITE ⟨0, 0⟩
    (demoFirstTick demoWorldNoTimer 2) (demoFirstTick demoWorldNoTimer 2).2.1
    (demoFirstTick demoWorldNoTimer 2).2.2
    demo_valid (by decide) (Or.inl (by decide)) (by decide) (by decide) rfl (Or.inl rfl)
    rfl (fun _ => rfl) (Or.inl ⟨rfl, by decide, Or.inl rfl⟩)

theorem UPDATE_TOKEN_eq (t : Nat) (h1 : 1 ≤ t) (h2 : t < DRV_MEMORY_TOKEN_MAX) :
    DRV_MEMORY_UPDATE_TOKEN t = if t = 65534 then 1 else t + 1 := by
  unfold DRV_MEMORY_TOKEN_MAX at h2
  unfold DRV_MEMORY_UPDATE_TOKEN DRV_MEMORY_TOKEN_MAX u16
  dsimp only
  have e : (t + 1) % 65536 = t + 1 := by omega
  rw [e]
  by_cases h : t = 65534
  · rw [if_pos h, if_pos (by omega)]
  · rw [if_neg h, if_neg (by omega)]

theorem UPDATE_TOKEN_range (t : Nat) (h1 : 1 ≤ t) (h2 : t < DRV_MEMORY_TOKEN_MAX) :
    1 ≤ DRV_MEMORY_UPDATE_TOKEN t ∧ DRV_MEMORY_UPDATE_TOKEN t < DRV_MEMORY_TOKEN_MAX := by
  rw [UPDATE_TOKEN_eq t h1 h2]
  unfold DRV_MEMORY_TOKEN_MAX at h2 ⊢
  by_cases h : t = 65534
  · rw [if_pos h]; omega
  · rw [if_neg h]; omega

/-- The token after `n` updates: the tokens run through `1 .. 65534` in a
cycle. -/
theorem UPDATE_TOKEN_iterate (t : Nat) (h1 : 1 ≤ t) (h2 : t < DRV_MEMORY_TOKEN_MAX) :
    ∀ n, DRV_MEMORY_UPDATE_TOKEN^[n] t = (t - 1 + n) % 65534 + 1 := by
  unfold DRV_MEMORY_TOKEN_MAX at h2
  intro n
  induction n with
  | zero =>
    simp only [Function.iterate_zero, id, Nat.add_zero]
    omega
  | succ n ih =>
    rw [Function.iterate_succ_apply', ih]
    rw [UPDATE_TOKEN_eq _ (by omega) (by unfold DRV_MEMORY_TOKEN_MAX; omega)]
    by_cases h : (t - 1 + n) % 65534 + 1 = 65534
    · rw [if_pos h]; omega
    · rw [if_neg h]; omega

theorem MAKE_HANDLE_low (token drvIndex : Nat) :
    (DRV_MEMORY_MAKE_HANDLE token drvIndex 0).testBit 0 = false := by
  unfold DRV_MEMORY_MAKE_HANDLE u32
  simp [Nat.testBit_or, Nat.testBit_mod_two_pow, Nat.testBit_shiftLeft,
    show (4294967296 : Nat) = 2 ^ 32 from rfl]
  rw [Nat.shiftLeft_eq, Nat.shiftLeft_eq]
  norm_num
  constructor <;> omega

theorem MAKE_HANDLE_ne_invalid (token drvIndex : Nat) :
    DRV_MEMORY_MAKE_HANDLE token drvIndex 0 ≠ DRV_MEMORY_COMMAND_HANDLE_INVALID := by
  intro h
  have h1 := MAKE_HANDLE_low token drvIndex
  rw [h] at h1
  revert h1
  decide

/-- The token field of a command handle is the token it was made from. -/
theorem MAKE_HANDLE_token (token drvIndex : Nat) (ht : token < 65536) (hi : drvIndex < 256) :
    DRV_MEMORY_MAKE_HANDLE token drvIndex 0 >>> 16 = token := by
  unfold DRV_MEMORY_MAKE_HANDLE u32
  apply Nat.eq_of_testBit_eq
  intro j
  simp only [Nat.testBit_shiftRight, Nat.testBit_or, Nat.zero_testBit, Bool.or_false,
    show (4294967296 : Nat) = 2 ^ 32 from rfl, Nat.testBit_mod_two_pow, Nat.testBit_shiftLeft]
  have h1 : decide (16 + j ≥ 16) = true := by simp
  have h2 : 16 + j - 16 = j := by omega
  rw [h1, h2]
  by_cases hj : j < 16
  · have h3 : drvIndex.testBit (16 + j - 8) = false := by
      apply Nat.testBit_lt_two_pow
      calc drvIndex < 256 := hi
        _ = 2 ^ 8 := rfl
        _ ≤ 2 ^ (16 + j - 8) := Nat.pow_le_pow_right (by decide) (by omega)
    simp [hj, h3]
    intro _
    omega
  · have h3 : token.testBit j = false := by
      apply Nat.testBit_lt_two_pow
      calc token < 65536 := ht
        _ = 2 ^ 16 := rfl
        _ ≤ 2 ^ j := Nat.pow_le_pow_right (by decide) (by omega)
    have h4 : drvIndex.testBit (16 + j - 8) = false := by
      apply Nat.testBit_lt_two_pow
      calc drvIndex < 256 := hi
        _ = 2 ^ 8 := rfl
        _ ≤ 2 ^ (16 + j - 8) := Nat.pow_le_pow_right (by decide) (by omega)
    simp [h3, h4]

/-- C13: every value that `DRV_MEMORY_UPDATE_TOKEN` produces, starting from
the initial token `1`, lies in `[1, DRV_MEMORY_TOKEN_MAX)`, the update of the
last token `DRV_MEMORY_TOKEN_MAX - 1` is `1` again, and the command handle that
`DRV_MEMORY_AllocateBufferObject` builds is never
`DRV_MEMORY_COMMAND_HANDLE_INVALID`, whatever the state of the driver. -/
theorem C13_token_stays_in_range :
    (∀ n, 1 ≤ DRV_MEMORY_UPDATE_TOKEN^[n] 1
      ∧ DRV_MEMORY_UPDATE_TOKEN^[n] 1 < DRV_MEMORY_TOKEN_MAX)
    ∧ DRV_MEMORY_UPDATE_TOKEN (DRV_MEMORY_TOKEN_MAX - 1) = 1
    ∧ (∀ (g : Driver) (clientObj : ClientPtr) (buffer blockStart nBlocks : Nat)
        (opType : DRV_MEMORY_OPERATION_TYPE),
        (DRV_MEMORY_AllocateBufferObject g clientObj buffer blockStart nBlocks opType).2
          ≠ DRV_MEMORY_COMMAND_HANDLE_INVALID) := by
  refine ⟨?_, by decide, ?_⟩
  · intro n
    rw [UPDATE_TOKEN_iterate 1 (le_refl 1) (by decide)]
    unfold DRV_MEMORY_TOKEN_MAX
    omega
  · intro g clientObj buffer blockStart nBlocks opType
    exact MAKE_HANDLE_ne_invalid _ _

/-- C15: `DRV_MEMORY_DriverHandleValidate` returns the client object in slot
`handle & 0xFF` of instance `(handle & 0xFF00) >> 8` exactly when the handle is
neither `DRV_HANDLE_INVALID` nor `0`, the instance field is below
`DRV_MEMORY_INSTANCES_NUMBER`, the slot field is below `nClientsMax` of that
instance, the slot is in use, the handle stored in the slot is the given
handle, and the status of the driver object named by the slot's `drvIndex` is
`SYS_STATUS_READY`; it returns `NULL` exactly when one of these fails. -/
theorem C15_handle_validation (g : Driver) (handle : Nat) :
    (DRV_MEMORY_DriverHandleValidate g handle
        = some ⟨u8 ((handle &&& DRV_MEMORY_INSTANCE_INDEX_MASK) >>> 8),
            u8 (handle &&& DRV_MEMORY_INDEX_MASK)⟩
      ↔ (handle ≠ DRV_HANDLE_INVALID ∧ handle ≠ 0
        ∧ u8 ((handle &&& DRV_MEMORY_INSTANCE_INDEX_MASK) >>> 8) < DRV_MEMORY_INSTANCES_NUMBER
        ∧ u8 (handle &&& DRV_MEMORY_INDEX_MASK)
            < (g (u8 ((handle &&& DRV_MEMORY_INSTANCE_INDEX_MASK) >>> 8))).nClientsMax
        ∧ ((g (u8 ((handle &&& DRV_MEMORY_INSTANCE_INDEX_MASK) >>> 8))).clientObjPool
            (u8 (handle &&& DRV_MEMORY_INDEX_MASK))).inUse = true
        ∧ ((g (u8 ((handle &&& DRV_MEMORY_INSTANCE_INDEX_MASK) >>> 8))).clientObjPool
            (u8 (handle &&& DRV_MEMORY_INDEX_MASK))).clientHandle = handle
        ∧ (g ((g (u8 ((handle &&& DRV_MEMORY_INSTANCE_INDEX_MASK) >>> 8))).clientObjPool
            (u8 (handle &&& DRV_MEMORY_INDEX_MASK))).drvIndex).status = SYS_STATUS_READY))
    ∧ (DRV_MEMORY_DriverHandleValidate g handle = none
      ↔ ¬ (handle ≠ DRV_HANDLE_INVALID ∧ handle ≠ 0
        ∧ u8 ((handle &&& DRV_MEMORY_INSTANCE_INDEX_MASK) >>> 8) < DRV_MEMORY_INSTANCES_NUMBER
        ∧ u8 (handle &&& DRV_MEMORY_INDEX_MASK)
            < (g (u8 ((handle &&& DRV_MEMORY_INSTANCE_INDEX_MASK) >>> 8))).nClientsMax
        ∧ ((g (u8 ((handle &&& DRV_MEMORY_INSTANCE_INDEX_MASK) >>> 8))).clientObjPool
            (u8 (handle &&& DRV_MEMORY_INDEX_MASK))).inUse = true
        ∧ ((g (u8 ((handle &&& DRV_MEMORY_INSTANCE_INDEX_MASK) >>> 8))).clientObjPool
            (u8 (handle &&& DRV_MEMORY_INDEX_MASK))).clientHandle = handle
        ∧ (g ((g (u8 ((handle &&& DRV_MEMORY_INSTANCE_INDEX_MASK) >>> 8))).clientObjPool
            (u8 (handle &&& DRV_MEMORY_INDEX_MASK))).drvIndex).status
              = SYS_STATUS_READY)) := by
  unfold DRV_MEMORY_DriverHandleValidate
  generalize u8 ((handle &&& DRV_MEMORY_INSTANCE_INDEX_MASK) >>> 8) = inst
  generalize u8 (handle &&& DRV_MEMORY_INDEX_MASK) = slot
  dsimp only
  by_cases h1 : handle ≠ DRV_HANDLE_INVALID ∧ handle ≠ 0
  · rw [if_pos h1]
    by_cases h2 : inst ≥ DRV_MEMORY_INSTANCES_NUMBER
    · rw [if_pos h2]
      have : ¬ inst < DRV_MEMORY_INSTANCES_NUMBER := by omega
      simp [this]
    · rw [if_neg h2]
      by_cases h3 : slot ≥ (g inst).nClientsMax
      · rw [if_pos h3]
        have : ¬ slot < (g inst).nClientsMax := by omega
        simp [this]
      · rw [if_neg h3]
        by_cases h4 : ((g inst).clientObjPool slot).clientHandle ≠ handle
            ∨ ((g inst).clientObjPool slot).inUse = false
        · rw [if_pos h4]
          rcases h4 with h4 | h4
          · simp [h4]
          · simp [h4]
        · rw [if_neg h4]
          have h5 : ((g inst).clientObjPool slot).clientHandle = handle := by
            by_contra h; exact h4 (Or.inl h)
          have h6 : ((g inst).clientObjPool slot).inUse = true := by
            cases h : ((g inst).clientObjPool slot).inUse
            · exact absurd (Or.inr h) h4
            · rfl
          by_cases h7 : (g ((g inst).clientObjPool slot).drvIndex).status ≠ SYS_STATUS_READY
          · rw [if_pos h7]
            simp [h7]
          · rw [if_neg h7]
            have h8 : (g ((g inst).clientObjPool slot).drvIndex).status = SYS_STATUS_READY := by
              by_contra h; exact h7 h
            have h2a : inst < DRV_MEMORY_INSTANCES_NUMBER := by omega
            have h3a : slot < (g inst).nClientsMax := by omega
            simp [h1.1, h1.2, h2a, h3a, h5, h6, h8]
  · rw [if_neg h1]
    constructor
    · constructor
      · intro h; cases h
      · intro h; exact absurd ⟨h.1, h.2.1⟩ h1
    · constructor
      · intro _ h; exact h1 ⟨h.1, h.2.1⟩
      · intro _; rfl

theorem SameHandle_of_init {d d' : DRV_MEMORY_OBJECT}
    (h : (DRV_MEMORY_StartXfer_init d).SameCommand d') : d.SameHandle d' :=
  ⟨h.commandHandle, h.hClient, h.opType, h.clientObjPool, h.nClientsMax, h.bufferToken,
    h.transferMutex, h.status, h.memoryDevice, h.mediaGeometryTable⟩

/-- What a returning sequencer leaves alone: the other instances, the handle,
client and kind of the command, the client pool, the token, the lock, the
configuration, the oracles of the environment and the lock counters. The
command is no longer queued, and it is Completed when the sequencer returns
`true`. -/
theorem StartXfer_frame (fuel : Nat) (g : Driver) (i : Nat) (w : World)
    (r : Bool × Driver × World)
    (h : DRV_MEMORY_StartXfer fuel g i w = Outcome.returned r) :
    (∀ j, j ≠ i → r.2.1 j = g j) ∧ (g i).SameHandle (r.2.1 i) ∧ w.SameOracles r.2.2 ∧
    r.2.2.nLock = w.nLock ∧ r.2.2.nUnlock = w.nUnlock ∧
    (r.2.1 i).currentBufObj.status ≠ DRV_MEMORY_COMMAND_QUEUED ∧
    (r.1 = true → (r.2.1 i).currentBufObj.status = DRV_MEMORY_COMMAND_COMPLETED) := by
  cases htick : DRV_MEMORY_StartXfer_tick (DRV_MEMORY_StartXfer_init (g i)) w with
  | none =>
    unfold DRV_MEMORY_StartXfer at h
    simp only [htick] at h
    cases h
  | some t =>
    cases hloop : DRV_MEMORY_StartXfer_loop fuel t.2.1 t.2.2 t.1 with
    | outOfFuel =>
      unfold DRV_MEMORY_StartXfer at h
      simp only [htick, hloop] at h
      cases h
    | undefinedBehaviour =>
      unfold DRV_MEMORY_StartXfer at h
      simp only [htick, hloop] at h
      cases h
    | returned x =>
      obtain ⟨o, dF, wF⟩ := x
      cases o with
      | none =>
        obtain ⟨hS, hd, hw⟩ := StartXfer_aborted fuel g i w t dF wF htick hloop
        rw [hS] at h
        cases h
        refine ⟨fun j hj => Function.update_noteq hj _ _, ?_, hw.toSameOracles, hw.nLock,
          hw.nUnlock, ?_, ?_⟩
        · simp only [Function.update_same]
          exact SameHandle_of_init hd
        · simp only [Function.update_same]
          rw [hd.cmdStatus]
          simp [DRV_MEMORY_StartXfer_init]
        · intro hh; cases hh
      | some ts =>
        obtain ⟨hS, hd, hw⟩ := StartXfer_finished fuel g i w t ts dF wF htick hloop
        rw [hS] at h
        unfold DRV_MEMORY_StartXfer_finish at h
        cases hcl : dF.currentBufObj.hClient with
        | none =>
          simp only [hcl] at h
          cases h
        | some p =>
          simp only [hcl] at h
          cases h
          have hh := SameHandle_of_init hd
          refine ⟨fun j hj => Function.update_noteq hj _ _, ?_, ?_, ?_, ?_, ?_, ?_⟩
          · simp only [Function.update_same]
            exact ⟨hh.commandHandle, hcl.symm.trans hh.hClient, hh.opType, hh.clientObjPool, hh.nClientsMax,
              hh.bufferToken, hh.transferMutex, hh.status, hh.memoryDevice,
              hh.mediaGeometryTable⟩
          · exact SameOracles_trans hw.toSameOracles (callTransferHandler_same _ _ _ _)
          · exact (callTransferHandler_os _ _ _ _).1.trans hw.nLock
          · exact (callTransferHandler_os _ _ _ _).2.1.trans hw.nUnlock
          · simp only [Function.update_same]
            by_cases h1 : ts = MEMORY_DEVICE_TRANSFER_COMPLETED
            · simp [h1]
            · by_cases h2 : ts ≥ MEMORY_DEVICE_TRANSFER_ERROR_UNKNOWN
              · simp [h1, h2]
              · simp only [h1, h2, if_false]
                rw [hd.cmdStatus]
                simp [DRV_MEMORY_StartXfer_init]
          · simp only [Function.update_same]
            by_cases h1 : ts = MEMORY_DEVICE_TRANSFER_COMPLETED
            · simp [h1]
            · by_cases h2 : ts ≥ MEMORY_DEVICE_TRANSFER_ERROR_UNKNOWN
              · simp [h1, h2]
              · simp [h1, h2]

theorem SetupXfer_lock_failed (fuel : Nat) (g : Driver) (w : World) (handle : Nat)
    (hasCommandHandle : Bool) (buffer blockStart nBlock geometry_type : Nat)
    (opType : DRV_MEMORY_OPERATION_TYPE) (io_intent : Nat) (p : ClientPtr)
    (ha : Admissible g handle buffer blockStart nBlock geometry_type opType io_intent p)
    (hlock : w.lockOk w.nLock = false) :
    DRV_MEMORY_SetupXfer fuel g w handle hasCommandHandle buffer blockStart nBlock geometry_type
        opType io_intent =
      Outcome.returned ⟨false, g, { w with nLock := w.nLock + 1 },
        if hasCommandHandle = true then some DRV_MEMORY_COMMAND_HANDLE_INVALID else none⟩ := by
  have hb : ¬ (buffer = 0 ∧ opType ≠ DRV_MEMORY_OPERATION_TYPE_ERASE) := by
    rintro ⟨h1, h2⟩; rcases ha.buffer with h | h
    · exact h h1
    · exact h2 h
  have hr : ¬ (nBlock = 0 ∨ blockStart + nBlock >
      ((g (g.client p).drvIndex).mediaGeometryTable geometry_type).numBlocks) := by
    rintro (h | h)
    · exact ha.count h
    · have := ha.range; omega
  unfold DRV_MEMORY_SetupXfer
  simp only [ha.valid, ha.intent, hb, hr, if_false, OSAL_MUTEX_Lock_transferMutex, hlock,
    Bool.false_eq_true]

theorem SetupXfer_erase_unsupported (fuel : Nat) (g : Driver) (w : World) (handle : Nat)
    (hasCommandHandle : Bool) (buffer blockStart nBlock geometry_type : Nat)
    (io_intent : Nat) (p : ClientPtr)
    (ha : Admissible g handle buffer blockStart nBlock geometry_type
      DRV_MEMORY_OPERATION_TYPE_ERASE io_intent p)
    (hlock : w.lockOk w.nLock = true)
    (hno : (g (g.client p).drvIndex).memoryDevice.hasSectorErase = false) :
    DRV_MEMORY_SetupXfer fuel g w handle hasCommandHandle buffer blockStart nBlock geometry_type
        DRV_MEMORY_OPERATION_TYPE_ERASE io_intent =
      Outcome.returned ⟨false,
        Function.update g (g.client p).drvIndex
          { g (g.client p).drvIndex with
            transferMutex := (g (g.client p).drvIndex).transferMutex + 1 - 1 },
        { w with nLock := w.nLock + 1, nUnlock := w.nUnlock + 1 },
        if hasCommandHandle = true then some DRV_MEMORY_COMMAND_HANDLE_INVALID else none⟩ := by
  have hr : ¬ (nBlock = 0 ∨ blockStart + nBlock >
      ((g (g.client p).drvIndex).mediaGeometryTable geometry_type).numBlocks) := by
    rintro (h | h)
    · exact ha.count h
    · have := ha.range; omega
  unfold DRV_MEMORY_SetupXfer
  simp only [ha.valid, ha.intent, hr, if_false, ne_eq, not_true_eq_false, and_false,
    OSAL_MUTEX_Lock_transferMutex, hlock, if_true, Function.update_same, hno, and_self,
    OSAL_MUTEX_Unlock_transferMutex, Function.update_idem]

/-- What an admitted request that returns has done: the handle given back is
the one in the descriptor, made from the token before the request; the token
has been updated once; the lock has been taken and released once; the other
instances, the client pool and the configuration are as before. -/
theorem SetupXfer_admitted_frame (fuel : Nat) (g : Driver) (w : World) (handle : Nat)
    (hasCommandHandle : Bool) (buffer blockStart nBlock geometry_type : Nat)
    (opType : DRV_MEMORY_OPERATION_TYPE) (io_intent : Nat) (p : ClientPtr)
    (ha : Admissible g handle buffer blockStart nBlock geometry_type opType io_intent p)
    (hlock : w.lockOk w.nLock = true)
    (hop : (g (g.client p).drvIndex).memoryDevice.hasSectorErase = true ∨
      opType ≠ DRV_MEMORY_OPERATION_TYPE_ERASE)
    (r : SetupResult)
    (h : DRV_MEMORY_SetupXfer fuel g w handle hasCommandHandle buffer blockStart nBlock
        geometry_type opType io_intent = Outcome.returned r) :
    r.commandHandle = (if hasCommandHandle = true then
        some (DRV_MEMORY_MAKE_HANDLE (g (g.client p).drvIndex).bufferToken
          (g.client p).drvIndex 0) else none) ∧
    (r.g (g.client p).drvIndex).currentBufObj.commandHandle =
      DRV_MEMORY_MAKE_HANDLE (g (g.client p).drvIndex).bufferToken (g.client p).drvIndex 0 ∧
    (r.g (g.client p).drvIndex).currentBufObj.hClient = some p ∧
    (r.g (g.client p).drvIndex).currentBufObj.opType =
      effectiveOpType (g (g.client p).drvIndex).memoryDevice.hasSectorErase opType ∧
    (r.g (g.client p).drvIndex).bufferToken =
      DRV_MEMORY_UPDATE_TOKEN (g (g.client p).drvIndex).bufferToken ∧
    (r.g (g.client p).drvIndex).currentBufObj.status ≠ DRV_MEMORY_COMMAND_QUEUED ∧
    (r.isSuccess = true →
      (r.g (g.client p).drvIndex).currentBufObj.status = DRV_MEMORY_COMMAND_COMPLETED) ∧
    (∀ j, (g j).SameConfig (r.g j)) ∧
    (∀ j, j ≠ (g.client p).drvIndex → r.g j = g j) ∧
    w.SameOracles r.w ∧ r.w.nLock = w.nLock + 1 ∧ r.w.nUnlock = w.nUnlock + 1 := by
  rw [SetupXfer_admitted fuel g w handle hasCommandHandle buffer blockStart nBlock
    geometry_type opType io_intent p ha.valid ha.intent ha.buffer ha.count ha.range hlock hop] at h
  have hat := Driver.allocated_at g p buffer blockStart nBlock
    (effectiveOpType (g (g.client p).drvIndex).memoryDevice.hasSectorErase opType)
  cases hS : DRV_MEMORY_StartXfer fuel (g.allocated p buffer blockStart nBlock
      (effectiveOpType (g (g.client p).drvIndex).memoryDevice.hasSectorErase opType))
      (g.client p).drvIndex { w with nLock := w.nLock + 1 } with
  | outOfFuel => rw [hS] at h; cases h
  | undefinedBehaviour => rw [hS] at h; cases h
  | returned x =>
    rw [hS] at h
    obtain ⟨f1, f2, f3, f4, f5, f6, f7⟩ := StartXfer_frame _ _ _ _ _ hS
    cases h
    simp only [OSAL_MUTEX_Unlock_transferMutex, Function.update_same]
    refine ⟨trivial, ?_, ?_, ?_, ?_, f6, f7, ?_, ?_, ?_, ?_, ?_⟩
    · rw [f2.commandHandle, hat]
    · rw [f2.hClient, hat]
    · rw [f2.opType, hat]
    · rw [f2.bufferToken, hat]
    · intro j
      by_cases hj : j = (g.client p).drvIndex
      · subst hj
        simp only [Function.update_same]
        refine ⟨?_, ?_, ?_, ?_, ?_, ?_⟩
        · rw [f2.clientObjPool, hat]
        · rw [f2.nClientsMax, hat]
        · rw [f2.transferMutex, hat]; simp
        · rw [f2.status, hat]
        · rw [f2.memoryDevice, hat]
        · rw [f2.mediaGeometryTable, hat]
      · rw [Function.update_noteq hj, f1 j hj, Driver.allocated_other _ _ _ _ _ _ _ hj]
        exact ⟨rfl, rfl, rfl, rfl, rfl, rfl⟩
    · intro j hj
      rw [Function.update_noteq hj, f1 j hj, Driver.allocated_other _ _ _ _ _ _ _ hj]
    · exact ⟨f3.1, f3.2, f3.3, f3.4, f3.5, f3.6, f3.7, f3.8⟩
    · exact f4
    · exact congrArg (· + 1) f5

theorem BlockOp.run_eq (op : BlockOp) (fuel : Nat) (g : Driver) (w : World) (handle : Nat)
    (hasCommandHandle : Bool) (buffer blockStart nBlock : Nat) :
    op.run fuel g w handle hasCommandHandle buffer blockStart nBlock =
      DRV_MEMORY_SetupXfer fuel g w handle (!op.isSync && hasCommandHandle)
        (op.bufferArg buffer) blockStart nBlock op.geometryClass op.opType op.requiredIntent := by
  cases op <;> cases hasCommandHandle <;> rfl

/-- A request that is not admitted returns `false` with the invalid command
handle; no descriptor, token, client or configuration has changed, and at most
the lock was taken or tried. -/
theorem SetupXfer_not_admitted (fuel : Nat) (g : Driver) (w : World) (handle : Nat)
    (hasCommandHandle : Bool) (buffer blockStart nBlock geometry_type : Nat)
    (opType : DRV_MEMORY_OPERATION_TYPE) (io_intent : Nat)
    (h : ¬ ∃ p, Admitted g w handle buffer blockStart nBlock geometry_type opType io_intent p) :
    ∃ r, DRV_MEMORY_SetupXfer fuel g w handle hasCommandHandle buffer blockStart nBlock
        geometry_type opType io_intent = Outcome.returned r ∧
      r.isSuccess = false ∧
      r.commandHandle =
        (if hasCommandHandle = true then some DRV_MEMORY_COMMAND_HANDLE_INVALID else none) ∧
      (∀ j, (r.g j).currentBufObj = (g j).currentBufObj ∧
        (r.g j).bufferToken = (g j).bufferToken ∧ (g j).SameConfig (r.g j)) ∧
      w.SameOracles r.w ∧ r.w.cmdLog = w.cmdLog ∧ r.w.flash = w.flash ∧ r.w.ram = w.ram ∧
      r.w.handlerLog = w.handlerLog := by
  have refl : ∀ j, (g j).currentBufObj = (g j).currentBufObj ∧
      (g j).bufferToken = (g j).bufferToken ∧ (g j).SameConfig (g j) :=
    fun j => ⟨rfl, rfl, ⟨rfl, rfl, rfl, rfl, rfl, rfl⟩⟩
  by_cases hrej : DRV_MEMORY_DriverHandleValidate g handle = none ∨
      ∃ p, DRV_MEMORY_DriverHandleValidate g handle = some p ∧
        ((g.client p).intent &&& io_intent = 0 ∨
         (buffer = 0 ∧ opType ≠ DRV_MEMORY_OPERATION_TYPE_ERASE) ∨
         nBlock = 0 ∨
         blockStart + nBlock >
           ((g (g.client p).drvIndex).mediaGeometryTable geometry_type).numBlocks)
  · exact ⟨_, SetupXfer_rejected _ _ _ _ _ _ _ _ _ _ _ hrej, rfl, rfl, refl,
      SameOracles_refl w, rfl, rfl, rfl, rfl⟩
  · cases hv : DRV_MEMORY_DriverHandleValidate g handle with
    | none => exact absurd (Or.inl hv) hrej
    | some p =>
      have ha : Admissible g handle buffer blockStart nBlock geometry_type opType io_intent p := by
        refine ⟨hv, fun h1 => hrej (Or.inr ⟨p, hv, Or.inl h1⟩), ?_, ?_, ?_⟩
        · by_cases hb : buffer = 0
          · by_cases ho : opType = DRV_MEMORY_OPERATION_TYPE_ERASE
            · exact Or.inr ho
            · exact absurd (Or.inr ⟨p, hv, Or.inr (Or.inl ⟨hb, ho⟩)⟩) hrej
          · exact Or.inl hb
        · exact fun h1 => hrej (Or.inr ⟨p, hv, Or.inr (Or.inr (Or.inl h1))⟩)
        · by_contra h1
          exact hrej (Or.inr ⟨p, hv, Or.inr (Or.inr (Or.inr (by omega)))⟩)
      cases hl : w.lockOk w.nLock with
      | false =>
        exact ⟨_, SetupXfer_lock_failed _ _ _ _ _ _ _ _ _ _ _ p ha hl, rfl, rfl, refl,
          ⟨rfl, rfl, rfl, rfl, rfl, rfl, rfl, rfl⟩, rfl, rfl, rfl, rfl⟩
      | true =>
        have hop : ¬ ((g (g.client p).drvIndex).memoryDevice.hasSectorErase = true ∨
            opType ≠ DRV_MEMORY_OPERATION_TYPE_ERASE) := fun h1 => h ⟨p, ha, hl, h1⟩
        have ho : opType = DRV_MEMORY_OPERATION_TYPE_ERASE := by
          by_contra h1; exact hop (Or.inr h1)
        have hse : (g (g.client p).drvIndex).memoryDevice.hasSectorErase = false := by
          cases hh : (g (g.client p).drvIndex).memoryDevice.hasSectorErase
          · rfl
          · exact absurd (Or.inl hh) hop
        subst ho
        refine ⟨_, SetupXfer_erase_unsupported _ _ _ _ _ _ _ _ _ _ p ha hl hse, rfl, rfl, ?_,
          ⟨rfl, rfl, rfl, rfl, rfl, rfl, rfl, rfl⟩, rfl, rfl, rfl, rfl⟩
        intro j
        by_cases hj : j = (g.client p).drvIndex
        · subst hj
          simp only [Function.update_same]
          exact ⟨trivial, trivial, ⟨rfl, rfl, by simp, rfl, rfl, rfl⟩⟩
        · simp only [Function.update_noteq hj]
          exact ⟨trivial, trivial, ⟨rfl, rfl, rfl, rfl, rfl, rfl⟩⟩

theorem Rejected_of_eq {o : Outcome SetupResult} {g : Driver} {w : World} {c : Option Nat}
    (h : o = Outcome.returned ⟨false, g, w, c⟩) : o.Rejected g w :=
  ⟨_, h, rfl, rfl, rfl⟩

/-- A block operation through a valid handle whose client's intent shares no bit
with the direction the operation requires is refused at once. -/
theorem run_intent_rejected (op : BlockOp) (fuel : Nat) (g : Driver) (w : World) (handle : Nat)
    (hasCommandHandle : Bool) (buffer blockStart nBlock : Nat) (p : ClientPtr)
    (hvalid : DRV_MEMORY_DriverHandleValidate g handle = some p)
    (h : (g.client p).intent &&& op.requiredIntent = 0) :
    (op.run fuel g w handle hasCommandHandle buffer blockStart nBlock).Rejected g w := by
  rw [BlockOp.run_eq]
  exact Rejected_of_eq (SetupXfer_rejected _ _ _ _ _ _ _ _ _ _ _ (Or.inr ⟨p, hvalid, Or.inl h⟩))

/-- A request that passes every check before the lock calls the lock once. -/
theorem SetupXfer_admissible_locks (fuel : Nat) (g : Driver) (w : World) (handle : Nat)
    (hasCommandHandle : Bool) (buffer blockStart nBlock geometry_type : Nat)
    (opType : DRV_MEMORY_OPERATION_TYPE) (io_intent : Nat) (p : ClientPtr)
    (ha : Admissible g handle buffer blockStart nBlock geometry_type opType io_intent p)
    (r : SetupResult)
    (h : DRV_MEMORY_SetupXfer fuel g w handle hasCommandHandle buffer blockStart nBlock
        geometry_type opType io_intent = Outcome.returned r) :
    r.w.nLock = w.nLock + 1 := by
  cases hl : w.lockOk w.nLock with
  | false =>
    rw [SetupXfer_lock_failed _ _ _ _ _ _ _ _ _ _ _ p ha hl] at h
    cases h; rfl
  | true =>
    by_cases hop : (g (g.client p).drvIndex).memoryDevice.hasSectorErase = true ∨
        opType ≠ DRV_MEMORY_OPERATION_TYPE_ERASE
    · exact (SetupXfer_admitted_frame _ _ _ _ _ _ _ _ _ _ _ p ha hl hop r h).2.2.2.2.2.2.2.2.2.2.1
    · have ho : opType = DRV_MEMORY_OPERATION_TYPE_ERASE := by
        by_contra h1; exact hop (Or.inr h1)
      have hse : (g (g.client p).drvIndex).memoryDevice.hasSectorErase = false := by
        cases hh : (g (g.client p).drvIndex).memoryDevice.hasSectorErase
        · rfl
        · exact absurd (Or.inl hh) hop
      subst ho
      rw [SetupXfer_erase_unsupported _ _ _ _ _ _ _ _ _ _ p ha hl hse] at h
      cases h; rfl

/-- C11: a block operation through a valid handle is refused at once, with
`false` and nothing changed, when the intent of the client shares no bit with
the direction the operation requires (Read for Read and SyncRead, Write for
Write, Erase, EraseWrite and their synchronous variants). When the buffer, the
block count and the range are acceptable, the operation goes on to take the
transfer lock exactly when the intent shares a bit with the required direction.
A client opened for reading only has every write, erase and erase-write
refused; a client opened for writing only has every read refused. -/
theorem C11_intent_check (op : BlockOp) (fuel : Nat) (g : Driver) (w : World) (handle : Nat)
    (hasCommandHandle : Bool) (buffer blockStart nBlock : Nat) (p : ClientPtr)
    (hvalid : DRV_MEMORY_DriverHandleValidate g handle = some p) :
    ((g.client p).intent &&& op.requiredIntent = 0 →
      (op.run fuel g w handle hasCommandHandle buffer blockStart nBlock).Rejected g w) ∧
    ((op.bufferArg buffer ≠ 0 ∨ op.opType = DRV_MEMORY_OPERATION_TYPE_ERASE) →
      nBlock ≠ 0 →
      blockStart + nBlock ≤
        ((g (g.client p).drvIndex).mediaGeometryTable op.geometryClass).numBlocks →
      ∀ r, op.run fuel g w handle hasCommandHandle buffer blockStart nBlock
          = Outcome.returned r →
        (r.w.nLock = w.nLock + 1 ↔ (g.client p).intent &&& op.requiredIntent ≠ 0)) ∧
    ((g.client p).intent = DRV_IO_INTENT_READ → op ≠ BlockOp.read → op ≠ BlockOp.syncRead →
      (op.run fuel g w handle hasCommandHandle buffer blockStart nBlock).Rejected g w) ∧
    ((g.client p).intent = DRV_IO_INTENT_WRITE → (op = BlockOp.read ∨ op = BlockOp.syncRead) →
      (op.run fuel g w handle hasCommandHandle buffer blockStart nBlock).Rejected g w) := by
  refine ⟨run_intent_rejected op fuel g w handle hasCommandHandle buffer blockStart nBlock p
    hvalid, ?_, ?_, ?_⟩
  · intro hb hn hr r hrun
    by_cases hi : (g.client p).intent &&& op.requiredIntent = 0
    · obtain ⟨r', h1, -, -, h4⟩ := run_intent_rejected op fuel g w handle hasCommandHandle
        buffer blockStart nBlock p hvalid hi
      rw [hrun] at h1
      cases h1
      rw [h4]
      constructor
      · intro h; omega
      · intro h; exact absurd hi h
    · rw [BlockOp.run_eq] at hrun
      have := SetupXfer_admissible_locks _ _ _ _ _ _ _ _ _ _ _ p ⟨hvalid, hi, hb, hn, hr⟩ r hrun
      exact ⟨fun _ => hi, fun _ => this⟩
  · intro hi h1 h2
    apply run_intent_rejected op fuel g w handle hasCommandHandle buffer blockStart nBlock p
      hvalid
    rw [hi]
    cases op <;> first | rfl | exact absurd rfl h1 | exact absurd rfl h2
  · intro hi h1
    apply run_intent_rejected op fuel g w handle hasCommandHandle buffer blockStart nBlock p
      hvalid
    rw [hi]
    rcases h1 with h1 | h1 <;> subst h1 <;> rfl

/-- C11 at the concrete device opened for reading only: an erase-write of two
pages is refused. -/
theorem C11_intent_check_witness :
    (BlockOp.eraseWrite.run 3 demoDriverReadOnly demoWorld 0x10000 true 0x20002000 3 2).Rejected
      demoDriverReadOnly demoWorld :=
  (C11_intent_check BlockOp.eraseWrite 3 demoDriverReadOnly demoWorld 0x10000 true 0x20002000 3 2
    ⟨0, 0⟩ (by decide)).2.2.1 rfl (by decide) (by decide)

/-- C12: a Read, Write or EraseWrite request (synchronous or not) with a `NULL`
buffer is refused at once, with `false` and nothing changed, whatever its other
arguments. An Erase request, which passes `NULL` for the buffer, through a
valid handle with the Write intent, a block count of at least one and a range
inside the erase geometry, on a device with a sector-erase primitive and with
the lock obtained, is not refused: the command descriptor holds an Erase
command under a fresh, valid handle, the token has been updated and the lock
has been taken once. -/
theorem C12_null_buffer (op : BlockOp) (fuel : Nat) (g : Driver) (w : World) (handle : Nat)
    (hasCommandHandle : Bool) (blockStart nBlock : Nat) :
    (op.opType ≠ DRV_MEMORY_OPERATION_TYPE_ERASE →
      (op.run fuel g w handle hasCommandHandle 0 blockStart nBlock).Rejected g w) ∧
    (op.opType = DRV_MEMORY_OPERATION_TYPE_ERASE →
      ∀ p, DRV_MEMORY_DriverHandleValidate g handle = some p →
      (g.client p).intent &&& DRV_IO_INTENT_WRITE ≠ 0 →
      nBlock ≠ 0 →
      blockStart + nBlock ≤ ((g (g.client p).drvIndex).mediaGeometryTable
        SYS_MEDIA_GEOMETRY_TABLE_ERASE_ENTRY).numBlocks →
      w.lockOk w.nLock = true →
      (g (g.client p).drvIndex).memoryDevice.hasSectorErase = true →
      ¬ (op.run fuel g w handle hasCommandHandle 0 blockStart nBlock).Rejected g w ∧
      ∀ r, op.run fuel g w handle hasCommandHandle 0 blockStart nBlock = Outcome.returned r →
        (r.g (g.client p).drvIndex).currentBufObj.opType = DRV_MEMORY_OPERATION_TYPE_ERASE ∧
        (r.g (g.client p).drvIndex).currentBufObj.commandHandle =
          DRV_MEMORY_MAKE_HANDLE (g (g.client p).drvIndex).bufferToken (g.client p).drvIndex 0 ∧
        (r.g (g.client p).drvIndex).currentBufObj.commandHandle
          ≠ DRV_MEMORY_COMMAND_HANDLE_INVALID ∧
        (r.g (g.client p).drvIndex).currentBufObj.status ≠ DRV_MEMORY_COMMAND_QUEUED ∧
        (r.g (g.client p).drvIndex).bufferToken =
          DRV_MEMORY_UPDATE_TOKEN (g (g.client p).drvIndex).bufferToken ∧
        r.w.nLock = w.nLock + 1 ∧ r.w.nUnlock = w.nUnlock + 1) := by
  constructor
  · intro hop
    rw [BlockOp.run_eq]
    have hb : op.bufferArg 0 = 0 := by cases op <;> rfl
    rw [hb]
    cases hv : DRV_MEMORY_DriverHandleValidate g handle with
    | none => exact Rejected_of_eq (SetupXfer_rejected _ _ _ _ _ _ _ _ _ _ _ (Or.inl hv))
    | some p =>
      exact Rejected_of_eq (SetupXfer_rejected _ _ _ _ _ _ _ _ _ _ _
        (Or.inr ⟨p, hv, Or.inr (Or.inl ⟨rfl, hop⟩)⟩))
  · intro hop p hv hi hn hr hl hse
    have hint : op.requiredIntent = DRV_IO_INTENT_WRITE := by
      cases op <;> first | rfl | cases hop
    have hgeo : op.geometryClass = SYS_MEDIA_GEOMETRY_TABLE_ERASE_ENTRY := by
      cases op <;> first | rfl | cases hop
    have ha : Admissible g handle (op.bufferArg 0) blockStart nBlock op.geometryClass op.opType
        op.requiredIntent p :=
      ⟨hv, by rw [hint]; exact hi, Or.inr hop, hn, by rw [hgeo]; exact hr⟩
    have key : ∀ r, op.run fuel g w handle hasCommandHandle 0 blockStart nBlock
        = Outcome.returned r → _ := fun r hrun =>
      SetupXfer_admitted_frame _ _ _ _ _ _ _ _ _ _ _ p ha hl (Or.inl hse) r
        (by rw [← BlockOp.run_eq]; exact hrun)
    constructor
    · rintro ⟨r, h1, -, -, h4⟩
      have := (key r h1).2.2.2.2.2.2.2.2.2.2.1
      rw [h4] at this
      omega
    · intro r hrun
      obtain ⟨-, k2, -, k4, k5, k6, -, -, -, -, k11, k12⟩ := key r hrun
      refine ⟨?_, k2, ?_, k6, k5, k11, k12⟩
      · rw [k4, hse, hop]; rfl
      · rw [k2]; exact MAKE_HANDLE_ne_invalid _ _

/-- C16: an asynchronous block operation that is given a command-handle
pointer and returns. When the request is refused (invalid handle, intent, `NULL`
buffer, block count, range, lock not obtained, or an Erase on a device without
a sector-erase primitive) the function returns `false` and the handle given
back is `DRV_MEMORY_COMMAND_HANDLE_INVALID`. When the request is admitted the
handle given back is the one stored in the command descriptor, it is the
handle made from the token before the request, and it is not the invalid
handle: this holds whether the function returns `true` or `false`. -/
theorem C16_command_handle_output (op : BlockOp) (fuel : Nat) (g : Driver) (w : World)
    (handle buffer blockStart nBlock : Nat) (r : SetupResult)
    (hasync : op.isSync = false)
    (hrun : op.run fuel g w handle true buffer blockStart nBlock = Outcome.returned r) :
    ((DRV_MEMORY_DriverHandleValidate g handle = none ∨
      ∃ p, DRV_MEMORY_DriverHandleValidate g handle = some p ∧
        ((g.client p).intent &&& op.requiredIntent = 0 ∨
         (op.bufferArg buffer = 0 ∧ op.opType ≠ DRV_MEMORY_OPERATION_TYPE_ERASE) ∨
         nBlock = 0 ∨
         blockStart + nBlock >
           ((g (g.client p).drvIndex).mediaGeometryTable op.geometryClass).numBlocks ∨
         w.lockOk w.nLock = false ∨
         ((g (g.client p).drvIndex).memoryDevice.hasSectorErase = false ∧
           op.opType = DRV_MEMORY_OPERATION_TYPE_ERASE))) →
      r.isSuccess = false ∧ r.commandHandle = some DRV_MEMORY_COMMAND_HANDLE_INVALID) ∧
    (∀ p, Admitted g w handle (op.bufferArg buffer) blockStart nBlock op.geometryClass op.opType
        op.requiredIntent p →
      r.commandHandle = some (r.g (g.client p).drvIndex).currentBufObj.commandHandle ∧
      (r.g (g.client p).drvIndex).currentBufObj.commandHandle =
        DRV_MEMORY_MAKE_HANDLE (g (g.client p).drvIndex).bufferToken (g.client p).drvIndex 0 ∧
      (r.g (g.client p).drvIndex).currentBufObj.commandHandle
        ≠ DRV_MEMORY_COMMAND_HANDLE_INVALID) := by
  rw [BlockOp.run_eq, hasync] at hrun
  constructor
  · intro hrej
    have hna : ¬ ∃ p, Admitted g w handle (op.bufferArg buffer) blockStart nBlock
        op.geometryClass op.opType op.requiredIntent p := by
      rintro ⟨p, ha, hl, hop⟩
      rcases hrej with h | ⟨q, hq, h⟩
      · rw [ha.valid] at h; cases h
      · have e : q = p := by
          have := ha.valid; rw [hq] at this; exact Option.some.inj this
        subst e
        rcases h with h | ⟨h1, h2⟩ | h | h | h | ⟨h1, h2⟩
        · exact ha.intent h
        · rcases ha.buffer with h3 | h3
          · exact h3 h1
          · exact h2 h3
        · exact ha.count h
        · have := ha.range; omega
        · rw [hl] at h; cases h
        · rcases hop with h3 | h3
          · rw [h1] at h3; cases h3
          · exact h3 h2
    obtain ⟨r', h1, h2, h3, -⟩ := SetupXfer_not_admitted fuel g w handle
      (!false && true) (op.bufferArg buffer) blockStart nBlock op.geometryClass op.opType
      op.requiredIntent hna
    rw [hrun] at h1
    cases h1
    exact ⟨h2, h3⟩
  · rintro p ⟨ha, hl, hop⟩
    obtain ⟨k1, k2, -⟩ := SetupXfer_admitted_frame _ _ _ _ _ _ _ _ _ _ _ p ha hl hop r hrun
    refine ⟨?_, k2, ?_⟩
    · rw [k1, k2]; rfl
    · rw [k2]; exact MAKE_HANDLE_ne_invalid _ _

/-- C12 at the concrete device: a write of two pages from a `NULL` buffer is
refused; an erase of sector 1 is not, it returns `true` after one sector-erase
command. -/
theorem C12_null_buffer_witness :
    (BlockOp.write.run 3 demoDriver demoWorldFast 0x10000 true 0 1 1).Rejected
      demoDriver demoWorldFast ∧
    ¬ (BlockOp.erase.run 0 demoDriver demoWorldFast 0x10000 true 0 1 1).Rejected
      demoDriver demoWorldFast ∧
    ∃ r, BlockOp.erase.run 0 demoDriver demoWorldFast 0x10000 true 0 1 1 = Outcome.returned r ∧
      r.isSuccess = true ∧ r.w.cmdLog = [DevCall.sectorErase 9 4096] ∧
      (r.g 0).currentBufObj.opType = DRV_MEMORY_OPERATION_TYPE_ERASE ∧
      (r.g 0).currentBufObj.commandHandle = 0x10000 :=
  ⟨(C12_null_buffer BlockOp.write 3 demoDriver demoWorldFast 0x10000 true 1 1).1 (by decide),
    ((C12_null_buffer BlockOp.erase 0 demoDriver demoWorldFast 0x10000 true 1 1).2 rfl ⟨0, 0⟩
      demo_valid (by decide) (by decide) (by decide) rfl rfl).1,
    ⟨_, rfl, rfl, rfl,
      (((C12_null_buffer BlockOp.erase 0 demoDriver demoWorldFast 0x10000 true 1 1).2 rfl ⟨0, 0⟩
        demo_valid (by decide) (by decide) (by decide) rfl rfl).2 _ rfl).1,
      (((C12_null_buffer BlockOp.erase 0 demoDriver demoWorldFast 0x10000 true 1 1).2 rfl ⟨0, 0⟩
        demo_valid (by decide) (by decide) (by decide) rfl rfl).2 _ rfl).2.1⟩⟩

/-- C16 at the concrete device whose status poll reports an error: the write of
one page returns `false`, and the handle given back is the handle of the
command in the descriptor, `0x10000`. -/
theorem C16_command_handle_output_witness :
    ∃ r, BlockOp.write.run 0 demoDriver demoWorldBroken 0x10000 true 0x20002000 3 1
        = Outcome.returned r ∧
      r.isSuccess = false ∧
      r.commandHandle = some (r.g 0).currentBufObj.commandHandle ∧
      (r.g 0).currentBufObj.commandHandle = 0x10000 ∧
      (r.g 0).currentBufObj.commandHandle ≠ DRV_MEMORY_COMMAND_HANDLE_INVALID :=
  ⟨_, rfl, rfl,
    (C16_command_handle_output BlockOp.write 0 demoDriver demoWorldBroken 0x10000 0x20002000 3 1
      _ rfl rfl).2 ⟨0, 0⟩
      ⟨⟨demo_valid, by decide, Or.inl (by decide), by decide, by decide⟩, rfl, Or.inl rfl⟩⟩

theorem OnlyPageWrites_of_eq {w w' : World} (h : w'.cmdLog = w.cmdLog) : OnlyPageWrites w w' :=
  ⟨[], by simp [h], by simp⟩

theorem OnlyPageWrites_trans {a b c : World} (h1 : OnlyPageWrites a b)
    (h2 : OnlyPageWrites b c) : OnlyPageWrites a c := by
  obtain ⟨l1, e1, p1⟩ := h1
  obtain ⟨l2, e2, p2⟩ := h2
  refine ⟨l1 ++ l2, by rw [e2, e1, List.append_assoc], ?_⟩
  intro x hx
  rcases List.mem_append.mp hx with h | h
  · exact p1 x h
  · exact p2 x h

theorem devPageWrite_only (w : World) (h data a : Nat) :
    OnlyPageWrites w (w.devPageWrite h data a).2 := by
  refine ⟨[DevCall.pageWrite h data a], ?_, ?_⟩
  · unfold World.devPageWrite
    dsimp only
    split <;> rfl
  · intro c hc
    exact ⟨h, data, a, List.mem_singleton.mp hc⟩

theorem HandleWrite_MEM_STATUS_only (d : DRV_MEMORY_OBJECT) (w : World) :
    OnlyPageWrites w (DRV_MEMORY_HandleWrite_MEM_STATUS d w).2.2 := by
  apply OnlyPageWrites_of_eq
  unfold DRV_MEMORY_HandleWrite_MEM_STATUS
  dsimp only
  split
  · split <;> rfl
  · rfl

theorem HandleWrite_MEM_only (d : DRV_MEMORY_OBJECT) (w : World) :
    OnlyPageWrites w (DRV_MEMORY_HandleWrite_MEM d w).2.2 := by
  unfold DRV_MEMORY_HandleWrite_MEM
  dsimp only
  split
  · exact OnlyPageWrites_trans (devPageWrite_only w _ _ _) (HandleWrite_MEM_STATUS_only _ _)
  · exact devPageWrite_only w _ _ _

theorem HandleWrite_only (d : DRV_MEMORY_OBJECT) (w : World) (data bs n : Nat) :
    OnlyPageWrites w (DRV_MEMORY_HandleWrite d w data bs n).2.2 := by
  unfold DRV_MEMORY_HandleWrite
  cases d.writeState
  · exact HandleWrite_MEM_only _ _
  · exact HandleWrite_MEM_only _ _
  · exact HandleWrite_MEM_STATUS_only _ _

theorem StartXfer_tick_only (d : DRV_MEMORY_OBJECT) (w : World)
    (hop : d.currentBufObj.opType = DRV_MEMORY_OPERATION_TYPE_WRITE)
    (t : Nat × DRV_MEMORY_OBJECT × World) (h : DRV_MEMORY_StartXfer_tick d w = some t) :
    OnlyPageWrites w t.2.2 := by
  unfold DRV_MEMORY_StartXfer_tick gMemoryXferFuncPtr at h
  simp only [hop] at h
  cases h
  exact HandleWrite_only _ _ _ _ _

theorem StartXfer_loop_only : ∀ (fuel : Nat) (d : DRV_MEMORY_OBJECT) (w : World) (ts : Nat)
    (o : Option Nat) (d' : DRV_MEMORY_OBJECT) (w' : World),
    d.currentBufObj.opType = DRV_MEMORY_OPERATION_TYPE_WRITE →
    DRV_MEMORY_StartXfer_loop fuel d w ts = Outcome.returned (o, d', w') →
    OnlyPageWrites w w' := by
  intro fuel
  induction fuel with
  | zero =>
    intro d w ts o d' w' _ h
    rw [loop_zero] at h
    by_cases hb : ts = MEMORY_DEVICE_TRANSFER_BUSY
    · rw [if_pos hb] at h; cases h
    · rw [if_neg hb] at h; cases h; exact OnlyPageWrites_of_eq rfl
  | succ fuel ih =>
    intro d w ts o d' w' hop h
    rw [loop_succ] at h
    by_cases hb : ts = MEMORY_DEVICE_TRANSFER_BUSY
    · rw [if_pos hb] at h
      have hdw := StartXfer_wait_sameCommand d w
      have hww := OnlyPageWrites_of_eq (StartXfer_wait_frame d w).2.cmdLog
      by_cases hf : (DRV_MEMORY_StartXfer_wait d w).1 = false
      · rw [if_pos hf] at h; cases h; exact hww
      · rw [if_neg hf] at h
        cases ht : DRV_MEMORY_StartXfer_tick (DRV_MEMORY_StartXfer_wait d w).2.1
            (DRV_MEMORY_StartXfer_wait d w).2.2 with
        | none => rw [ht] at h; cases h
        | some t =>
          rw [ht] at h
          have hop1 : (DRV_MEMORY_StartXfer_wait d w).2.1.currentBufObj.opType
              = DRV_MEMORY_OPERATION_TYPE_WRITE := by rw [hdw.opType]; exact hop
          have h1 := StartXfer_tick_only _ _ hop1 _ ht
          have hop2 : t.2.1.currentBufObj.opType = DRV_MEMORY_OPERATION_TYPE_WRITE := by
            rw [(StartXfer_tick_frame _ _ _ ht).1.opType]; exact hop1
          exact OnlyPageWrites_trans hww (OnlyPageWrites_trans h1 (ih _ _ _ _ _ _ hop2 h))
    · rw [if_neg hb] at h; cases h; exact OnlyPageWrites_of_eq rfl

theorem StartXfer_only (fuel : Nat) (g : Driver) (i : Nat) (w : World)
    (hop : (g i).currentBufObj.opType = DRV_MEMORY_OPERATION_TYPE_WRITE)
    (r : Bool × Driver × World)
    (h : DRV_MEMORY_StartXfer fuel g i w = Outcome.returned r) :
    OnlyPageWrites w r.2.2 := by
  have hop0 : (DRV_MEMORY_StartXfer_init (g i)).currentBufObj.opType
      = DRV_MEMORY_OPERATION_TYPE_WRITE := hop
  cases htick : DRV_MEMORY_StartXfer_tick (DRV_MEMORY_StartXfer_init (g i)) w with
  | none =>
    unfold DRV_MEMORY_StartXfer at h
    simp only [htick] at h
    cases h
  | some t =>
    have h1 := StartXfer_tick_only _ _ hop0 _ htick
    have hop1 : t.2.1.currentBufObj.opType = DRV_MEMORY_OPERATION_TYPE_WRITE := by
      rw [(StartXfer_tick_frame _ _ _ htick).1.opType]; exact hop0
    cases hloop : DRV_MEMORY_StartXfer_loop fuel t.2.1 t.2.2 t.1 with
    | outOfFuel =>
      unfold DRV_MEMORY_StartXfer at h
      simp only [htick, hloop] at h
      cases h
    | undefinedBehaviour =>
      unfold DRV_MEMORY_StartXfer at h
      simp only [htick, hloop] at h
      cases h
    | returned x =>
      obtain ⟨o, dF, wF⟩ := x
      have h2 := StartXfer_loop_only _ _ _ _ _ _ _ hop1 hloop
      cases o with
      | none =>
        rw [(StartXfer_aborted fuel g i w t dF wF htick hloop).1] at h
        cases h
        exact OnlyPageWrites_trans h1 h2
      | some ts =>
        rw [(StartXfer_finished fuel g i w t ts dF wF htick hloop).1] at h
        unfold DRV_MEMORY_StartXfer_finish at h
        cases hcl : dF.currentBufObj.hClient with
        | none => simp only [hcl] at h; cases h
        | some p =>
          simp only [hcl] at h
          cases h
          exact OnlyPageWrites_trans h1 (OnlyPageWrites_trans h2
            (OnlyPageWrites_of_eq (callTransferHandler_dev _ _ _ _).1))

theorem admissible_or_rejected (g : Driver) (handle buffer blockStart nBlock geometry_type : Nat)
    (opType : DRV_MEMORY_OPERATION_TYPE) (io_intent : Nat) :
    (DRV_MEMORY_DriverHandleValidate g handle = none ∨
      ∃ p, DRV_MEMORY_DriverHandleValidate g handle = some p ∧
        ((g.client p).intent &&& io_intent = 0 ∨
         (buffer = 0 ∧ opType ≠ DRV_MEMORY_OPERATION_TYPE_ERASE) ∨
         nBlock = 0 ∨
         blockStart + nBlock >
           ((g (g.client p).drvIndex).mediaGeometryTable geometry_type).numBlocks)) ∨
    ∃ p, Admissible g handle buffer blockStart nBlock geometry_type opType io_intent p := by
  cases hv : DRV_MEMORY_DriverHandleValidate g handle with
  | none => exact Or.inl (Or.inl rfl)
  | some p =>
    by_cases h1 : (g.client p).intent &&& io_intent = 0
    · exact Or.inl (Or.inr ⟨p, rfl, Or.inl h1⟩)
    by_cases h2 : buffer = 0 ∧ opType ≠ DRV_MEMORY_OPERATION_TYPE_ERASE
    · exact Or.inl (Or.inr ⟨p, rfl, Or.inr (Or.inl h2)⟩)
    by_cases h3 : nBlock = 0
    · exact Or.inl (Or.inr ⟨p, rfl, Or.inr (Or.inr (Or.inl h3))⟩)
    by_cases h4 : blockStart + nBlock >
        ((g (g.client p).drvIndex).mediaGeometryTable geometry_type).numBlocks
    · exact Or.inl (Or.inr ⟨p, rfl, Or.inr (Or.inr (Or.inr h4))⟩)
    refine Or.inr ⟨p, hv, h1, ?_, h3, by omega⟩
    by_cases hb : buffer = 0
    · by_cases ho : opType = DRV_MEMORY_OPERATION_TYPE_ERASE
      · exact Or.inr ho
      · exact absurd ⟨hb, ho⟩ h2
    · exact Or.inl hb

theorem SetupXfer_eraseWrite_eq_write (fuel : Nat) (g : Driver) (w : World) (handle : Nat)
    (hasCommandHandle : Bool) (buffer blockStart nBlock geometry_type io_intent : Nat)
    (hno : ∀ p, DRV_MEMORY_DriverHandleValidate g handle = some p →
      (g (g.client p).drvIndex).memoryDevice.hasSectorErase = false) :
    DRV_MEMORY_SetupXfer fuel g w handle hasCommandHandle buffer blockStart nBlock geometry_type
        DRV_MEMORY_OPERATION_TYPE_ERASE_WRITE io_intent =
      DRV_MEMORY_SetupXfer fuel g w handle hasCommandHandle buffer blockStart nBlock geometry_type
        DRV_MEMORY_OPERATION_TYPE_WRITE io_intent := by
  rcases admissible_or_rejected g handle buffer blockStart nBlock geometry_type
    DRV_MEMORY_OPERATION_TYPE_ERASE_WRITE io_intent with hrej | ⟨p, ha⟩
  · have hrej2 : DRV_MEMORY_DriverHandleValidate g handle = none ∨
        ∃ p, DRV_MEMORY_DriverHandleValidate g handle = some p ∧
          ((g.client p).intent &&& io_intent = 0 ∨
           (buffer = 0 ∧ DRV_MEMORY_OPERATION_TYPE_WRITE ≠ DRV_MEMORY_OPERATION_TYPE_ERASE) ∨
           nBlock = 0 ∨
           blockStart + nBlock >
             ((g (g.client p).drvIndex).mediaGeometryTable geometry_type).numBlocks) := by
      rcases hrej with h | ⟨p, hp, h⟩
      · exact Or.inl h
      · refine Or.inr ⟨p, hp, ?_⟩
        rcases h with h | ⟨h, -⟩ | h | h
        · exact Or.inl h
        · exact Or.inr (Or.inl ⟨h, by decide⟩)
        · exact Or.inr (Or.inr (Or.inl h))
        · exact Or.inr (Or.inr (Or.inr h))
    rw [SetupXfer_rejected _ _ _ _ _ _ _ _ _ _ _ hrej, SetupXfer_rejected _ _ _ _ _ _ _ _ _ _ _ hrej2]
  · have hb : buffer ≠ 0 := by
      rcases ha.buffer with h | h
      · exact h
      · cases h
    have ha2 : Admissible g handle buffer blockStart nBlock geometry_type
        DRV_MEMORY_OPERATION_TYPE_WRITE io_intent p :=
      ⟨ha.valid, ha.intent, Or.inl hb, ha.count, ha.range⟩
    cases hl : w.lockOk w.nLock with
    | false =>
      rw [SetupXfer_lock_failed _ _ _ _ _ _ _ _ _ _ _ p ha hl,
        SetupXfer_lock_failed _ _ _ _ _ _ _ _ _ _ _ p ha2 hl]
    | true =>
      rw [SetupXfer_admitted fuel g w handle hasCommandHandle buffer blockStart nBlock
          geometry_type _ io_intent p ha.valid ha.intent ha.buffer ha.count ha.range hl
          (Or.inr (by decide)),
        SetupXfer_admitted fuel g w handle hasCommandHandle buffer blockStart nBlock
          geometry_type _ io_intent p ha2.valid ha2.intent ha2.buffer ha2.count ha2.range hl
          (Or.inr (by decide)), hno p ha.valid]
      rfl

/-- C14: on a device without a sector-erase primitive, `DRV_MEMORY_EraseWrite`
has exactly the outcome of `DRV_MEMORY_Write` with the same handle, buffer,
`blockStart` and `nBlock` (return value, driver table, environment with its
command log, handle given back), for every fuel; so has
`DRV_MEMORY_SyncEraseWrite` that of `DRV_MEMORY_SyncWrite`. When the erase-write
returns, the device commands issued are page writes only (no read, no sector
erase), and when it was admitted the command descriptor records the operation
type Write. -/
theorem C14_erase_write_without_sector_erase (fuel : Nat) (g : Driver) (w : World)
    (handle : Nat) (hasCommandHandle : Bool) (buffer blockStart nBlock : Nat)
    (hno : ∀ p, DRV_MEMORY_DriverHandleValidate g handle = some p →
      (g (g.client p).drvIndex).memoryDevice.hasSectorErase = false) :
    DRV_MEMORY_EraseWrite fuel g w handle hasCommandHandle buffer blockStart nBlock =
      DRV_MEMORY_Write fuel g w handle hasCommandHandle buffer blockStart nBlock ∧
    DRV_MEMORY_SyncEraseWrite fuel g w handle buffer blockStart nBlock =
      DRV_MEMORY_SyncWrite fuel g w handle buffer blockStart nBlock ∧
    ∀ r, DRV_MEMORY_EraseWrite fuel g w handle hasCommandHandle buffer blockStart nBlock
        = Outcome.returned r →
      OnlyPageWrites w r.w ∧
      ∀ p, Admitted g w handle buffer blockStart nBlock SYS_MEDIA_GEOMETRY_TABLE_WRITE_ENTRY
          DRV_MEMORY_OPERATION_TYPE_ERASE_WRITE DRV_IO_INTENT_WRITE p →
        (r.g (g.client p).drvIndex).currentBufObj.opType = DRV_MEMORY_OPERATION_TYPE_WRITE := by
  refine ⟨SetupXfer_eraseWrite_eq_write _ _ _ _ _ _ _ _ _ _ hno,
    SetupXfer_eraseWrite_eq_write _ _ _ _ _ _ _ _ _ _ hno, ?_⟩
  intro r hrun
  unfold DRV_MEMORY_EraseWrite at hrun
  have hop : ∀ p, Admitted g w handle buffer blockStart nBlock
      SYS_MEDIA_GEOMETRY_TABLE_WRITE_ENTRY DRV_MEMORY_OPERATION_TYPE_ERASE_WRITE
      DRV_IO_INTENT_WRITE p →
      (r.g (g.client p).drvIndex).currentBufObj.opType = DRV_MEMORY_OPERATION_TYPE_WRITE := by
    rintro p ⟨ha, hl, hse⟩
    rw [(SetupXfer_admitted_frame _ _ _ _ _ _ _ _ _ _ _ p ha hl hse r hrun).2.2.2.1,
      hno p ha.valid]
    rfl
  refine ⟨?_, hop⟩
  by_cases hadm : ∃ p, Admitted g w handle buffer blockStart nBlock
      SYS_MEDIA_GEOMETRY_TABLE_WRITE_ENTRY DRV_MEMORY_OPERATION_TYPE_ERASE_WRITE
      DRV_IO_INTENT_WRITE p
  · obtain ⟨p, ha, hl, hse⟩ := hadm
    rw [SetupXfer_admitted fuel g w handle hasCommandHandle buffer blockStart nBlock
      _ _ _ p ha.valid ha.intent ha.buffer ha.count ha.range hl hse, hno p ha.valid] at hrun
    cases hS : DRV_MEMORY_StartXfer fuel (g.allocated p buffer blockStart nBlock
        (effectiveOpType false DRV_MEMORY_OPERATION_TYPE_ERASE_WRITE))
        (g.client p).drvIndex { w with nLock := w.nLock + 1 } with
    | outOfFuel => rw [hS] at hrun; cases hrun
    | undefinedBehaviour => rw [hS] at hrun; cases hrun
    | returned x =>
      rw [hS] at hrun
      cases hrun
      have := StartXfer_only _ _ _ _ (by rw [Driver.allocated_at]; rfl) _ hS
      exact OnlyPageWrites_trans (OnlyPageWrites_of_eq rfl) this
  · obtain ⟨r', h1, -, -, -, -, h6, -⟩ := SetupXfer_not_admitted fuel g w handle
      hasCommandHandle buffer blockStart nBlock _ _ _ hadm
    rw [hrun] at h1
    cases h1
    exact OnlyPageWrites_of_eq h6

/-- C14 at the concrete device without sector erase: the erase-write of pages
3 and 4 returns `true` after the two page writes of the plain write, the
descriptor holds a Write command. -/
theorem C14_erase_write_without_sector_erase_witness :
    ∃ r, DRV_MEMORY_EraseWrite 1 demoDriverNoErase demoWorldFast 0x10000 true 0x20002000 3 2
        = Outcome.returned r ∧
      DRV_MEMORY_Write 1 demoDriverNoErase demoWorldFast 0x10000 true 0x20002000 3 2
        = Outcome.returned r ∧
      r.isSuccess = true ∧
      r.w.cmdLog = [DevCall.pageWrite 9 0x20002000 768, DevCall.pageWrite 9 0x20002100 1024] ∧
      (r.g 0).currentBufObj.opType = DRV_MEMORY_OPERATION_TYPE_WRITE :=
  ⟨_, rfl,
    (C14_erase_write_without_sector_erase 1 demoDriverNoErase demoWorldFast 0x10000 true
      0x20002000 3 2 (fun _ _ => rfl)).1.symm.trans rfl,
    rfl, rfl,
    ((C14_erase_write_without_sector_erase 1 demoDriverNoErase demoWorldFast 0x10000 true
      0x20002000 3 2 (fun _ _ => rfl)).2.2 _ rfl).2 ⟨0, 0⟩
      ⟨⟨by decide, by decide, Or.inl (by decide), by decide, by decide⟩, rfl, Or.inr (by decide)⟩⟩

/-- A handle that validates names its own slot, which is in use. -/
theorem Validate_some (g : Driver) (handle : Nat) (p : ClientPtr)
    (h : DRV_MEMORY_DriverHandleValidate g handle = some p) :
    p = ⟨u8 ((handle &&& DRV_MEMORY_INSTANCE_INDEX_MASK) >>> 8),
      u8 (handle &&& DRV_MEMORY_INDEX_MASK)⟩ ∧ (g.client p).inUse = true := by
  unfold DRV_MEMORY_DriverHandleValidate at h
  by_cases h1 : handle ≠ DRV_HANDLE_INVALID ∧ handle ≠ 0
  · rw [if_pos h1] at h
    dsimp only at h
    by_cases h2 : u8 ((handle &&& DRV_MEMORY_INSTANCE_INDEX_MASK) >>> 8)
        ≥ DRV_MEMORY_INSTANCES_NUMBER
    · rw [if_pos h2] at h; cases h
    · rw [if_neg h2] at h
      by_cases h3 : u8 (handle &&& DRV_MEMORY_INDEX_MASK)
          ≥ (g (u8 ((handle &&& DRV_MEMORY_INSTANCE_INDEX_MASK) >>> 8))).nClientsMax
      · rw [if_pos h3] at h; cases h
      · rw [if_neg h3] at h
        by_cases h4 : ((g (u8 ((handle &&& DRV_MEMORY_INSTANCE_INDEX_MASK) >>> 8))).clientObjPool
            (u8 (handle &&& DRV_MEMORY_INDEX_MASK))).clientHandle ≠ handle
            ∨ ((g (u8 ((handle &&& DRV_MEMORY_INSTANCE_INDEX_MASK) >>> 8))).clientObjPool
              (u8 (handle &&& DRV_MEMORY_INDEX_MASK))).inUse = false
        · rw [if_pos h4] at h; cases h
        · rw [if_neg h4] at h
          by_cases h5 : (g ((g (u8 ((handle &&& DRV_MEMORY_INSTANCE_INDEX_MASK) >>> 8))).clientObjPool
              (u8 (handle &&& DRV_MEMORY_INDEX_MASK))).drvIndex).status ≠ SYS_STATUS_READY
          · rw [if_pos h5] at h; cases h
          · rw [if_neg h5] at h
            cases h
            refine ⟨rfl, ?_⟩
            unfold Driver.client
            cases hu : ((g (u8 ((handle &&& DRV_MEMORY_INSTANCE_INDEX_MASK) >>> 8))).clientObjPool
              (u8 (handle &&& DRV_MEMORY_INDEX_MASK))).inUse
            · exact absurd (Or.inr hu) h4
            · rfl
  · rw [if_neg h1] at h; cases h

/-- A handle whose slot is not in use does not validate. -/
theorem Validate_not_inUse (g : Driver) (handle : Nat)
    (h : ((g (u8 ((handle &&& DRV_MEMORY_INSTANCE_INDEX_MASK) >>> 8))).clientObjPool
      (u8 (handle &&& DRV_MEMORY_INDEX_MASK))).inUse = false) :
    DRV_MEMORY_DriverHandleValidate g handle = none := by
  cases hv : DRV_MEMORY_DriverHandleValidate g handle with
  | none => rfl
  | some p =>
    obtain ⟨h1, h2⟩ := Validate_some g handle p hv
    subst h1
    unfold Driver.client at h2
    rw [h] at h2
    cases h2

theorem Close_locked_at (g : Driver) (i : Nat) (p : ClientPtr) :
    ((DRV_MEMORY_Close_locked g i p p.inst).clientObjPool p.slot).inUse = false ∧
    (DRV_MEMORY_Close_locked g i p i).isExclusive = false ∧
    (DRV_MEMORY_Close_locked g i p i).numClients = dec8 (g i).numClients ∧
    (DRV_MEMORY_Close_locked g i p i).clientMutex = (g i).clientMutex := by
  unfold DRV_MEMORY_Close_locked
  obtain ⟨a, s⟩ := p
  dsimp only
  by_cases hi : i = a
  · subst hi
    simp only [Function.update_same, and_self]
  · simp only [Function.update_same, Function.update_noteq hi, and_self]

/-- `DRV_MEMORY_Close` on a valid handle with the client lock obtained. -/
theorem Close_valid (g : Driver) (w : World) (handle : Nat) (p : ClientPtr)
    (hv : DRV_MEMORY_DriverHandleValidate g handle = some p)
    (hl : w.lockOk w.nLock = true) :
    (DRV_MEMORY_Close g w handle).2 = { w with nLock := w.nLock + 1, nUnlock := w.nUnlock + 1 } ∧
    (((DRV_MEMORY_Close g w handle).1 p.inst).clientObjPool p.slot).inUse = false ∧
    ((DRV_MEMORY_Close g w handle).1 (g.client p).drvIndex).isExclusive = false ∧
    ((DRV_MEMORY_Close g w handle).1 (g.client p).drvIndex).numClients =
      dec8 (g (g.client p).drvIndex).numClients ∧
    ((DRV_MEMORY_Close g w handle).1 (g.client p).drvIndex).clientMutex =
      (g (g.client p).drvIndex).clientMutex := by
  have e : DRV_MEMORY_Close g w handle = OSAL_MUTEX_Unlock_clientMutex
      (DRV_MEMORY_Close_locked (Function.update g (g.client p).drvIndex
        { g (g.client p).drvIndex with
          clientMutex := (g (g.client p).drvIndex).clientMutex + 1 })
        (g.client p).drvIndex p) (g.client p).drvIndex { w with nLock := w.nLock + 1 } := by
    unfold DRV_MEMORY_Close
    simp only [hv, OSAL_MUTEX_Lock_clientMutex, hl, if_true]
  rw [e]
  generalize (g.client p).drvIndex = i
  obtain ⟨h1, h2, h3, h4⟩ := Close_locked_at (Function.update g i
    { g i with clientMutex := (g i).clientMutex + 1 }) i p
  unfold OSAL_MUTEX_Unlock_clientMutex
  refine ⟨rfl, ?_, ?_, ?_, ?_⟩
  · by_cases hi : p.inst = i
    · rw [hi] at h1 ⊢
      simp only [Function.update_same]
      exact h1
    · simp only [Function.update_noteq hi]
      exact h1
  · simp only [Function.update_same]
    exact h2
  · simp only [Function.update_same]
    rw [h3, Function.update_same]
  · simp only [Function.update_same]
    rw [h4, Function.update_same]
    simp

theorem Close_invalid (g : Driver) (w : World) (handle : Nat)
    (hv : DRV_MEMORY_DriverHandleValidate g handle = none) :
    DRV_MEMORY_Close g w handle = (g, w) := by
  unfold DRV_MEMORY_Close
  simp only [hv]

/-- C17: `DRV_MEMORY_Close` on a handle that validates, with the client lock
obtained, marks the client's slot not in use, clears `isExclusive` of the
client's driver object and decrements its `numClients` (by one when it is at
least one). Afterwards the handle does not validate: a second
`DRV_MEMORY_Close` changes nothing, and every block operation through it is
refused with `false` and nothing changed. On a handle that does not validate
`DRV_MEMORY_Close` changes nothing; when the client lock is not obtained it
changes nothing but the count of lock calls. -/
theorem C17_close_releases_client (g : Driver) (w : World) (handle : Nat) :
    (∀ p, DRV_MEMORY_DriverHandleValidate g handle = some p → w.lockOk w.nLock = true →
      (Driver.client (DRV_MEMORY_Close g w handle).1 p).inUse = false ∧
      ((DRV_MEMORY_Close g w handle).1 (g.client p).drvIndex).isExclusive = false ∧
      ((DRV_MEMORY_Close g w handle).1 (g.client p).drvIndex).numClients =
        dec8 (g (g.client p).drvIndex).numClients ∧
      (1 ≤ (g (g.client p).drvIndex).numClients →
        ((DRV_MEMORY_Close g w handle).1 (g.client p).drvIndex).numClients + 1 =
          (g (g.client p).drvIndex).numClients) ∧
      DRV_MEMORY_DriverHandleValidate (DRV_MEMORY_Close g w handle).1 handle = none ∧
      DRV_MEMORY_Close (DRV_MEMORY_Close g w handle).1 (DRV_MEMORY_Close g w handle).2 handle =
        DRV_MEMORY_Close g w handle ∧
      ∀ (op : BlockOp) (fuel : Nat) (hasCommandHandle : Bool) (buffer blockStart nBlock : Nat),
        (op.run fuel (DRV_MEMORY_Close g w handle).1 (DRV_MEMORY_Close g w handle).2 handle
          hasCommandHandle buffer blockStart nBlock).Rejected
          (DRV_MEMORY_Close g w handle).1 (DRV_MEMORY_Close g w handle).2) ∧
    (DRV_MEMORY_DriverHandleValidate g handle = none → DRV_MEMORY_Close g w handle = (g, w)) ∧
    (∀ p, DRV_MEMORY_DriverHandleValidate g handle = some p → w.lockOk w.nLock = false →
      DRV_MEMORY_Close g w handle = (g, { w with nLock := w.nLock + 1 })) := by
  refine ⟨?_, ?_, ?_⟩
  · intro p hv hl
    obtain ⟨-, h2, h3, h4, -⟩ := Close_valid g w handle p hv hl
    have hp := (Validate_some g handle p hv).1
    have hnone : DRV_MEMORY_DriverHandleValidate (DRV_MEMORY_Close g w handle).1 handle
        = none := by
      apply Validate_not_inUse
      rw [hp] at h2
      exact h2
    refine ⟨h2, h3, h4, ?_, hnone, ?_, ?_⟩
    · intro h1
      rw [h4]
      unfold dec8
      rw [if_neg (by omega)]
      omega
    · rw [Close_invalid _ _ _ hnone]
    · intro op fuel hasCommandHandle buffer blockStart nBlock
      rw [BlockOp.run_eq]
      exact Rejected_of_eq (SetupXfer_rejected _ _ _ _ _ _ _ _ _ _ _ (Or.inl hnone))
  · exact Close_invalid g w handle
  · intro p hv hl
    unfold DRV_MEMORY_Close
    simp only [hv, OSAL_MUTEX_Lock_clientMutex, hl, Bool.false_eq_true, if_false]

/-- C17 at the concrete device: after `DRV_MEMORY_Close` of its one client the
slot is free, no client is counted, and the handle does not validate. -/
theorem C17_close_releases_client_witness :
    (Driver.client (DRV_MEMORY_Close demoDriver demoWorld 0x10000).1 ⟨0, 0⟩).inUse = false ∧
    ((DRV_MEMORY_Close demoDriver demoWorld 0x10000).1 0).isExclusive = false ∧
    ((DRV_MEMORY_Close demoDriver demoWorld 0x10000).1 0).numClients = 0 ∧
    DRV_MEMORY_DriverHandleValidate (DRV_MEMORY_Close demoDriver demoWorld 0x10000).1 0x10000
      = none :=
  ⟨((C17_close_releases_client demoDriver demoWorld 0x10000).1 ⟨0, 0⟩ demo_valid rfl).1,
    ((C17_close_releases_client demoDriver demoWorld 0x10000).1 ⟨0, 0⟩ demo_valid rfl).2.1,
    ((C17_close_releases_client demoDriver demoWorld 0x10000).1 ⟨0, 0⟩ demo_valid rfl).2.2.1,
    ((C17_close_releases_client demoDriver demoWorld 0x10000).1 ⟨0, 0⟩ demo_valid rfl).2.2.2.2.1⟩

theorem Extends_of_eq {w w' : World} (h : w'.cmdLog = w.cmdLog) : w.Extends w' :=
  ⟨[], by simp [h]⟩

theorem Extends_trans {a b c : World} (h1 : a.Extends b) (h2 : b.Extends c) : a.Extends c := by
  obtain ⟨l1, e1⟩ := h1
  obtain ⟨l2, e2⟩ := h2
  exact ⟨l1 ++ l2, by rw [e2, e1, List.append_assoc]⟩

theorem devSectorErase_log (w : World) (h a : Nat) :
    (w.devSectorErase h a).2.cmdLog = w.cmdLog ++ [DevCall.sectorErase h a] := by
  unfold World.devSectorErase
  dsimp only
  split <;> rfl

theorem devRead_log (w : World) (h data n a : Nat) :
    (w.devRead h data n a).2.cmdLog = w.cmdLog ++ [DevCall.read h data n a] := by
  unfold World.devRead
  dsimp only
  split <;> rfl

theorem HandleErase_CMD_STATUS_log (d : DRV_MEMORY_OBJECT) (w : World) :
    (DRV_MEMORY_HandleErase_CMD_STATUS d w).2.2.cmdLog = w.cmdLog := by
  unfold DRV_MEMORY_HandleErase_CMD_STATUS
  dsimp only
  split
  · split <;> rfl
  · rfl

theorem HandleErase_extends (d : DRV_MEMORY_OBJECT) (w : World) (data bs n : Nat) :
    w.Extends (DRV_MEMORY_HandleErase d w data bs n).2.2 := by
  have cmd : ∀ d : DRV_MEMORY_OBJECT, w.Extends (DRV_MEMORY_HandleErase_CMD d w).2.2 := by
    intro d
    unfold DRV_MEMORY_HandleErase_CMD
    dsimp only
    split
    · exact ⟨_, (HandleErase_CMD_STATUS_log _ _).trans (devSectorErase_log w _ _)⟩
    · exact ⟨_, devSectorErase_log w _ _⟩
  unfold DRV_MEMORY_HandleErase
  cases d.eraseState
  · exact cmd _
  · exact cmd _
  · exact Extends_of_eq (HandleErase_CMD_STATUS_log _ _)

theorem HandleEraseWrite_ERASE_SECTOR_extends (d : DRV_MEMORY_OBJECT) (w : World) :
    w.Extends (DRV_MEMORY_HandleEraseWrite_ERASE_SECTOR d w).2.2 := by
  unfold DRV_MEMORY_HandleEraseWrite_ERASE_SECTOR
  dsimp only
  split
  · exact HandleErase_extends _ _ _ _ _
  · exact HandleErase_extends _ _ _ _ _

/-- The ReadSector state entered with the read machine in its Init state: the
first device command of the tick is the read of the whole sector into the
scratch buffer. -/
theorem HandleEraseWrite_READ_SECTOR_first (d : DRV_MEMORY_OBJECT) (w : World)
    (hr : d.readState = DRV_MEMORY_READ_INIT) :
    ∃ l, (DRV_MEMORY_HandleEraseWrite_READ_SECTOR d w).2.2.cmdLog =
      w.cmdLog ++ DevCall.read d.memDevHandle d.ewBuffer d.eraseBlockSize
        (u32 (u32 (u32 (d.sectorNumber * d.eraseBlockSize) * (d.mediaGeometryTable 0).blockSize)
          + d.blockStartAddress)) :: l := by
  unfold DRV_MEMORY_HandleEraseWrite_READ_SECTOR DRV_MEMORY_HandleRead
  rw [hr]
  dsimp only
  unfold DRV_MEMORY_HandleRead_MEM
  dsimp only
  split
  · unfold DRV_MEMORY_HandleRead_MEM_STATUS World.devTransferStatusGet
    dsimp only
    split
    · obtain ⟨l, hl⟩ := HandleEraseWrite_ERASE_SECTOR_extends
        { d with readState := DRV_MEMORY_READ_MEM_STATUS,
                 blockOffsetInSector := u32 (d.blockOffsetInSector * d.writeBlockSize),
                 ewState := DRV_MEMORY_EW_ERASE_SECTOR }
        (World.memcpy
          { (w.devRead d.memDevHandle d.ewBuffer d.eraseBlockSize
              (u32 (u32 (u32 (d.sectorNumber * d.eraseBlockSize) *
                (d.mediaGeometryTable 0).blockSize) + d.blockStartAddress))).2 with
            nPoll := (w.devRead d.memDevHandle d.ewBuffer d.eraseBlockSize
              (u32 (u32 (u32 (d.sectorNumber * d.eraseBlockSize) *
                (d.mediaGeometryTable 0).blockSize) + d.blockStartAddress))).2.nPoll + 1 }
          (d.ewBuffer + u32 (d.blockOffsetInSector * d.writeBlockSize)) d.currentBufObj.buffer
          (u32 (d.nBlocksToWrite * d.writeBlockSize)))
      refine ⟨l, ?_⟩
      rw [hl]
      show (w.devRead _ _ _ _).2.cmdLog ++ l = _
      rw [devRead_log]
      simp
    · exact ⟨[], by rw [List.append_cons, List.append_nil]; exact devRead_log w _ _ _ _⟩
  · exact ⟨[], by rw [List.append_cons, List.append_nil]; exact devRead_log w _ _ _ _⟩

/-- The Init state of the erase-write machine, with its arithmetic done. -/
theorem HandleEraseWrite_INIT_eq (d : DRV_MEMORY_OBJECT) (w : World) (pps : Nat)
    (hp : pps ≠ 0) :
    DRV_MEMORY_HandleEraseWrite_INIT d w pps =
      if d.currentBufObj.blockStart % pps = 0 ∧ pps ≤ d.currentBufObj.nBlocks then
        (MEMORY_DEVICE_TRANSFER_BUSY,
          { d.ewInit pps with
            writePtr := d.currentBufObj.buffer, ewState := DRV_MEMORY_EW_ERASE_SECTOR }, w)
      else
        DRV_MEMORY_HandleEraseWrite_READ_SECTOR
          { d.ewInit pps with
            writePtr := d.ewBuffer, ewState := DRV_MEMORY_EW_READ_SECTOR } w := by
  have hlt : d.currentBufObj.blockStart % pps < pps := Nat.mod_lt _ (Nat.pos_of_ne_zero hp)
  have hsub : sub32 pps (d.currentBufObj.blockStart % pps)
      = pps - d.currentBufObj.blockStart % pps := by
    unfold sub32
    rw [if_pos (Nat.le_of_lt hlt)]
  unfold DRV_MEMORY_HandleEraseWrite_INIT DRV_MEMORY_OBJECT.ewInit
  dsimp only
  rw [hsub]
  by_cases h1 : d.currentBufObj.nBlocks < pps - d.currentBufObj.blockStart % pps
  · rw [if_pos h1]
    dsimp only
    have hne : d.currentBufObj.nBlocks ≠ pps := by omega
    have hc : ¬ (d.currentBufObj.blockStart % pps = 0 ∧ pps ≤ d.currentBufObj.nBlocks) := by
      omega
    rw [if_pos hne, if_neg hc, Nat.min_eq_right (Nat.le_of_lt h1)]
  · rw [if_neg h1]
    dsimp only
    rw [Nat.min_eq_left (Nat.le_of_not_lt h1)]
    by_cases h2 : d.currentBufObj.blockStart % pps = 0
    · have hc : d.currentBufObj.blockStart % pps = 0 ∧ pps ≤ d.currentBufObj.nBlocks := by
        omega
      rw [if_neg (by omega), if_pos hc]
    · have hc : ¬ (d.currentBufObj.blockStart % pps = 0 ∧ pps ≤ d.currentBufObj.nBlocks) :=
        fun h => h2 h.1
      rw [if_pos (by omega), if_neg hc]

/-- C20: one tick of `DRV_MEMORY_HandleEraseWrite` in the state
`DRV_MEMORY_EW_INIT`, with `pagesPerSector = (uint8_t)(eraseBlockSize /
writeBlockSize)` not 0. When the page offset `blockStart % pagesPerSector` of
the command is 0 and its block count is at least `pagesPerSector`, the tick
returns Busy with the write pointer at the caller's buffer and the state
`DRV_MEMORY_EW_ERASE_SECTOR`, and the environment is untouched (no read). In
every other case, and so for a request shorter than a sector or not aligned to
one, the write pointer is the scratch buffer, the state is
`DRV_MEMORY_EW_READ_SECTOR` and the tick goes on as that state: its first
device command is the read of the sector into the scratch buffer. -/
theorem C20_erase_write_init_path (d : DRV_MEMORY_OBJECT) (w : World) (data blockStart nBlocks : Nat)
    (hs : d.ewState = DRV_MEMORY_EW_INIT) (hw : d.writeBlockSize ≠ 0)
    (hp : u8 (d.eraseBlockSize / d.writeBlockSize) ≠ 0) :
    ((d.currentBufObj.blockStart % u8 (d.eraseBlockSize / d.writeBlockSize) = 0 ∧
        u8 (d.eraseBlockSize / d.writeBlockSize) ≤ d.currentBufObj.nBlocks) →
      DRV_MEMORY_HandleEraseWrite d w data blockStart nBlocks =
        some (MEMORY_DEVICE_TRANSFER_BUSY,
          { d.ewInit (u8 (d.eraseBlockSize / d.writeBlockSize)) with
            writePtr := d.currentBufObj.buffer, ewState := DRV_MEMORY_EW_ERASE_SECTOR }, w)) ∧
    (¬ (d.currentBufObj.blockStart % u8 (d.eraseBlockSize / d.writeBlockSize) = 0 ∧
        u8 (d.eraseBlockSize / d.writeBlockSize) ≤ d.currentBufObj.nBlocks) →
      DRV_MEMORY_HandleEraseWrite d w data blockStart nBlocks =
        some (DRV_MEMORY_HandleEraseWrite_READ_SECTOR
          { d.ewInit (u8 (d.eraseBlockSize / d.writeBlockSize)) with
            writePtr := d.ewBuffer, ewState := DRV_MEMORY_EW_READ_SECTOR } w) ∧
      ∃ t l, DRV_MEMORY_HandleEraseWrite d w data blockStart nBlocks = some t ∧
        t.2.2.cmdLog = w.cmdLog ++ DevCall.read d.memDevHandle d.ewBuffer d.eraseBlockSize
          (u32 (u32 (u32 (d.currentBufObj.blockStart / u8 (d.eraseBlockSize / d.writeBlockSize)
            * d.eraseBlockSize) * (d.mediaGeometryTable 0).blockSize)
            + d.blockStartAddress)) :: l) := by
  have e : DRV_MEMORY_HandleEraseWrite d w data blockStart nBlocks =
      some (DRV_MEMORY_HandleEraseWrite_INIT d w (u8 (d.eraseBlockSize / d.writeBlockSize))) := by
    unfold DRV_MEMORY_HandleEraseWrite
    rw [if_neg hw, hs]
    dsimp only
    rw [if_neg hp]
  rw [e, HandleEraseWrite_INIT_eq d w _ hp]
  constructor
  · intro hc
    rw [if_pos hc]
  · intro hc
    rw [if_neg hc]
    obtain ⟨l, hl⟩ := HandleEraseWrite_READ_SECTOR_first
      { d.ewInit (u8 (d.eraseBlockSize / d.writeBlockSize)) with
        writePtr := d.ewBuffer, ewState := DRV_MEMORY_EW_READ_SECTOR } w rfl
    exact ⟨rfl, _, l, rfl, hl⟩

/-- C20 at the concrete device (16 pages in a sector): the request of one whole
sector from page 16 takes the direct path; the request of 10 pages from page 3
takes the read-modify-write path and first reads sector 0. -/
theorem C20_erase_write_init_path_witness :
    DRV_MEMORY_HandleEraseWrite (demoEwObj 16 16) demoWorld 0 0 0 =
      some (MEMORY_DEVICE_TRANSFER_BUSY,
        { (demoEwObj 16 16).ewInit 16 with
          writePtr := 0x20002000, ewState := DRV_MEMORY_EW_ERASE_SECTOR }, demoWorld) ∧
    ∃ t l, DRV_MEMORY_HandleEraseWrite (demoEwObj 3 10) demoWorld 0 0 0 = some t ∧
      t.2.2.cmdLog = DevCall.read 9 0x20000000 4096 0 :: l :=
  ⟨(C20_erase_write_init_path (demoEwObj 16 16) demoWorld 0 0 0 rfl (by decide)
      (by decide)).1 (by decide),
    ((C20_erase_write_init_path (demoEwObj 3 10) demoWorld 0 0 0 rfl (by decide)
      (by decide)).2 (by decide)).2⟩

theorem AcceptedStep_frame {i : Nat} {g : Driver} {w : World} {g' : Driver} {w' : World}
    (h : AcceptedStep i g w g' w') :
    (g' i).bufferToken = DRV_MEMORY_UPDATE_TOKEN (g i).bufferToken ∧
    (g' i).currentBufObj.commandHandle = DRV_MEMORY_MAKE_HANDLE (g i).bufferToken i 0 ∧
    (g' i).currentBufObj.status ≠ DRV_MEMORY_COMMAND_QUEUED ∧
    (∀ j, (g j).SameConfig (g' j)) ∧ w.SameOracles w' := by
  obtain ⟨fuel, handle, hch, buffer, bs, n, gt, op, it, p, r, ⟨ha, hl, hop⟩, hi, hrun, hg, hw⟩ := h
  subst hg hw hi
  obtain ⟨-, k2, -, -, k5, k6, -, k8, -, k10, -⟩ :=
    SetupXfer_admitted_frame _ _ _ _ _ _ _ _ _ _ _ p ha hl hop r hrun
  exact ⟨k5, k2, k6, k8, k10⟩

theorem AcceptedSteps_token (i : Nat) : ∀ (k : Nat) (g : Driver) (w : World) (g' : Driver)
    (w' : World), AcceptedSteps i k g w g' w' →
    (g' i).bufferToken = DRV_MEMORY_UPDATE_TOKEN^[k] (g i).bufferToken := by
  intro k
  induction k with
  | zero =>
    rintro g w g' w' ⟨hg, -⟩
    rw [hg]; rfl
  | succ k ih =>
    rintro g w g' w' ⟨g1, w1, h1, h2⟩
    rw [ih _ _ _ _ h2, (AcceptedStep_frame h1).1, Function.iterate_succ_apply]

/-- The handle of the command in the descriptor after `k + 1` accepted commands
is made from the token `k` updates after the first. -/
theorem AcceptedSteps_handle (i : Nat) : ∀ (k : Nat) (g : Driver) (w : World) (g' : Driver)
    (w' : World), AcceptedSteps i (k + 1) g w g' w' →
    (g' i).currentBufObj.commandHandle =
      DRV_MEMORY_MAKE_HANDLE (DRV_MEMORY_UPDATE_TOKEN^[k] (g i).bufferToken) i 0 := by
  intro k
  induction k with
  | zero =>
    rintro g w g' w' ⟨g1, w1, h1, hg, -⟩
    rw [hg, (AcceptedStep_frame h1).2.1]; rfl
  | succ k ih =>
    rintro g w g' w' ⟨g1, w1, h1, h2⟩
    rw [ih _ _ _ _ h2, (AcceptedStep_frame h1).1, Function.iterate_succ_apply]

/-- `DRV_MEMORY_CommandStatusGet` through a valid handle with the lock
obtained. -/
theorem CommandStatusGet_valid (g : Driver) (w : World) (handle commandHandle : Nat)
    (q : ClientPtr) (hv : DRV_MEMORY_DriverHandleValidate g handle = some q)
    (hl : w.lockOk w.nLock = true) :
    (DRV_MEMORY_CommandStatusGet g w handle commandHandle).1 =
      if (g (g.client q).drvIndex).currentBufObj.commandHandle = commandHandle then
        (g (g.client q).drvIndex).currentBufObj.status
      else DRV_MEMORY_COMMAND_ERROR_UNKNOWN := by
  unfold DRV_MEMORY_CommandStatusGet
  simp only [hv, OSAL_MUTEX_Lock_transferMutex, hl, if_true, Function.update_same]

/-- `DRV_MEMORY_CommandStatusGet` answers Unknown for every command handle
that is not the one in the descriptor of the client's instance. -/
theorem CommandStatusGet_other (g : Driver) (w : World) (handle commandHandle : Nat)
    (h : ∀ q, DRV_MEMORY_DriverHandleValidate g handle = some q →
      (g (g.client q).drvIndex).currentBufObj.commandHandle ≠ commandHandle) :
    (DRV_MEMORY_CommandStatusGet g w handle commandHandle).1 =
      DRV_MEMORY_COMMAND_ERROR_UNKNOWN := by
  cases hv : DRV_MEMORY_DriverHandleValidate g handle with
  | none =>
    unfold DRV_MEMORY_CommandStatusGet
    simp only [hv]
  | some q =>
    cases hl : w.lockOk w.nLock with
    | true => rw [CommandStatusGet_valid g w handle commandHandle q hv hl, if_neg (h q hv)]
    | false =>
      unfold DRV_MEMORY_CommandStatusGet
      simp only [hv, OSAL_MUTEX_Lock_transferMutex, hl, Bool.false_eq_true, if_false]

theorem Validate_congr (g g' : Driver) (handle : Nat) (h : ∀ j, (g j).SameConfig (g' j)) :
    DRV_MEMORY_DriverHandleValidate g' handle = DRV_MEMORY_DriverHandleValidate g handle := by
  unfold DRV_MEMORY_DriverHandleValidate
  simp only [(h _).nClientsMax, (h _).clientObjPool, (h _).status]

theorem client_congr (g g' : Driver) (p : ClientPtr) (h : ∀ j, (g j).SameConfig (g' j)) :
    g'.client p = g.client p := by
  unfold Driver.client
  rw [(h _).clientObjPool]

/-- From a state that is ready for a write, a write of one page is an accepted
command that ends Completed in a state that is ready again. -/
theorem WriteReady.advance {g : Driver} {w : World} {handle : Nat} {p : ClientPtr} {i : Nat}
    (h : WriteReady g w handle p i) :
    ∃ g' w', AcceptedStep i g w g' w' ∧ WriteReady g' w' handle p i ∧
      (g' i).currentBufObj.status = DRV_MEMORY_COMMAND_COMPLETED := by
  have hi := h.inst
  subst hi
  have ha : Admissible g handle 1 0 1 SYS_MEDIA_GEOMETRY_TABLE_WRITE_ENTRY
      DRV_MEMORY_OPERATION_TYPE_WRITE DRV_IO_INTENT_WRITE p :=
    ⟨h.valid, h.intent, Or.inl (by decide), by decide, by have := h.room; omega⟩
  have hadm : Admitted g w handle 1 0 1 SYS_MEDIA_GEOMETRY_TABLE_WRITE_ENTRY
      DRV_MEMORY_OPERATION_TYPE_WRITE DRV_IO_INTENT_WRITE p :=
    ⟨ha, h.lock _, Or.inr (by decide)⟩
  have hat := Driver.allocated_at g p 1 0 1 DRV_MEMORY_OPERATION_TYPE_WRITE
  have heff : effectiveOpType (g (g.client p).drvIndex).memoryDevice.hasSectorErase
      DRV_MEMORY_OPERATION_TYPE_WRITE = DRV_MEMORY_OPERATION_TYPE_WRITE := by
    simp [effectiveOpType]
  have hc1 : World.Cooperative { w with nLock := w.nLock + 1 } :=
    ⟨h.coop.accept, h.coop.tstatus, h.coop.timerOk, h.coop.pendOk⟩
  obtain ⟨n, hrun⟩ := StartXfer_write
    (g.allocated p 1 0 1 DRV_MEMORY_OPERATION_TYPE_WRITE)
    (g.client p).drvIndex { w with nLock := w.nLock + 1 } p
    (by rw [hat]) (by rw [hat]) (by rw [hat]) (by rw [hat]; exact (by decide : 1 < 4294967296)) hc1
  obtain ⟨gS, wS, hS, -⟩ := hrun 0
  have hsetup := SetupXfer_admitted (0 + n) g w handle false 1 0 1
    SYS_MEDIA_GEOMETRY_TABLE_WRITE_ENTRY DRV_MEMORY_OPERATION_TYPE_WRITE DRV_IO_INTENT_WRITE p
    ha.valid ha.intent ha.buffer ha.count ha.range (h.lock _) (Or.inr (by decide))
  rw [heff, hS] at hsetup
  obtain ⟨-, -, -, -, -, -, k7, k8, -, k10, -⟩ :=
    SetupXfer_admitted_frame _ _ _ _ _ _ _ _ _ _ _ p ha (h.lock _) (Or.inr (by decide)) _ hsetup
  refine ⟨_, _, ⟨0 + n, handle, false, 1, 0, 1, _, _, _, p, _, hadm, rfl, hsetup, rfl, rfl⟩,
    ?_, k7 rfl⟩
  refine ⟨?_, ?_, ?_, ?_, h.coop.of_same k10, ?_⟩
  · rw [Validate_congr _ _ _ k8]; exact h.valid
  · rw [client_congr _ _ _ k8]
  · rw [client_congr _ _ _ k8]; exact h.intent
  · rw [(k8 _).mediaGeometryTable]; exact h.room
  · intro m; rw [k10.lockOk]; exact h.lock m

/-- From a state that is ready for a write there is a sequence of accepted
commands of every length, the last of which ends Completed. -/
theorem WriteReady.steps {handle : Nat} {p : ClientPtr} {i : Nat} : ∀ (k : Nat) {g : Driver}
    {w : World}, WriteReady g w handle p i →
    ∃ g' w', AcceptedSteps i k g w g' w' ∧ WriteReady g' w' handle p i ∧
      (1 ≤ k → (g' i).currentBufObj.status = DRV_MEMORY_COMMAND_COMPLETED) := by
  intro k
  induction k with
  | zero =>
    intro g w h
    exact ⟨g, w, ⟨rfl, rfl⟩, h, fun hk => absurd hk (by decide)⟩
  | succ k ih =>
    intro g w h
    obtain ⟨g1, w1, s1, r1, c1⟩ := h.advance
    obtain ⟨g2, w2, s2, r2, c2⟩ := ih r1
    refine ⟨g2, w2, ⟨g1, w1, s1, s2⟩, r2, fun _ => ?_⟩
    cases k with
    | zero =>
      obtain ⟨hg, -⟩ := s2
      rw [hg]; exact c1
    | succ k => exact c2 (Nat.succ_pos k)

theorem demoWorldFast_cooperative : demoWorldFast.Cooperative :=
  ⟨fun _ => rfl, fun _ => ⟨0, rfl, fun _ hj => absurd hj (Nat.not_lt_zero _)⟩, fun _ => rfl,
    fun _ => rfl⟩

theorem demo_writeReady : WriteReady demoDriver demoWorldFast 0x10000 ⟨0, 0⟩ 0 :=
  ⟨demo_valid, rfl, by decide, by decide, demoWorldFast_cooperative, fun _ => rfl⟩

/-- C7, counterexample: on the concrete device a first accepted command gets
the handle `0x10000`; there is a sequence of 65534 further accepted commands
after which `DRV_MEMORY_CommandStatusGet` with that handle, long superseded,
answers Completed, the status of the newest command, and not Unknown: the
token has wrapped and the newest command carries the handle `0x10000` again. -/
theorem C7_superseded_handle_counterexample :
    ∃ g1 w1 g2 w2, AcceptedStep 0 demoDriver demoWorldFast g1 w1 ∧
      (g1 0).currentBufObj.commandHandle = 0x10000 ∧
      AcceptedSteps 0 65534 g1 w1 g2 w2 ∧
      (g2 0).currentBufObj.status = DRV_MEMORY_COMMAND_COMPLETED ∧
      (DRV_MEMORY_CommandStatusGet g2 w2 0x10000 0x10000).1 = DRV_MEMORY_COMMAND_COMPLETED ∧
      (DRV_MEMORY_CommandStatusGet g2 w2 0x10000 0x10000).1
        ≠ DRV_MEMORY_COMMAND_ERROR_UNKNOWN := by
  obtain ⟨g1, w1, s1, r1, -⟩ := demo_writeReady.advance
  obtain ⟨g2, w2, s2, r2, c2⟩ := WriteReady.steps 65534 r1
  have f1 := AcceptedStep_frame s1
  have h1 : (g1 0).currentBufObj.commandHandle = 0x10000 := by rw [f1.2.1]; rfl
  have t1 : (g1 0).bufferToken = 2 := by rw [f1.1]; rfl
  have h2 : (g2 0).currentBufObj.commandHandle = 0x10000 := by
    rw [AcceptedSteps_handle 0 65533 g1 w1 g2 w2 s2, t1,
      UPDATE_TOKEN_iterate 2 (by decide) (by decide)]
    rfl
  have hs : (DRV_MEMORY_CommandStatusGet g2 w2 0x10000 0x10000).1
      = DRV_MEMORY_COMMAND_COMPLETED := by
    rw [CommandStatusGet_valid g2 w2 0x10000 0x10000 ⟨0, 0⟩ r2.valid (r2.lock _), r2.inst,
      if_pos h2]
    exact c2 (by decide)
  refine ⟨g1, w1, g2, w2, s1, h1, s2, c2 (by decide), hs, ?_⟩
  rw [hs]
  decide

/-- C7, amended: a first command is accepted on the instance `i`, whose token
is in its range `[1, DRV_MEMORY_TOKEN_MAX)`, and then `m` further commands are
accepted on that instance, `m` not a multiple of `DRV_MEMORY_TOKEN_MAX - 1`
(so for every `m` from 1 to 65533). Then `DRV_MEMORY_CommandStatusGet`, called
through any handle that is invalid or belongs to a client of the instance,
with the handle of the first command, answers
`DRV_MEMORY_COMMAND_ERROR_UNKNOWN`. -/
theorem C7_superseded_handle_unknown (i m : Nat) (g0 : Driver) (w0 : World) (g1 : Driver)
    (w1 : World) (g2 : Driver) (w2 w : World) (handle : Nat)
    (hi : i < 256)
    (ht1 : 1 ≤ (g0 i).bufferToken) (ht2 : (g0 i).bufferToken < DRV_MEMORY_TOKEN_MAX)
    (h1 : AcceptedStep i g0 w0 g1 w1)
    (h2 : AcceptedSteps i m g1 w1 g2 w2)
    (hm : m % (DRV_MEMORY_TOKEN_MAX - 1) ≠ 0)
    (hinst : ∀ q, DRV_MEMORY_DriverHandleValidate g2 handle = some q →
      (g2.client q).drvIndex = i) :
    (DRV_MEMORY_CommandStatusGet g2 w handle (g1 i).currentBufObj.commandHandle).1 =
      DRV_MEMORY_COMMAND_ERROR_UNKNOWN := by
  apply CommandStatusGet_other
  intro q hq
  rw [hinst q hq]
  have f1 := AcceptedStep_frame h1
  unfold DRV_MEMORY_TOKEN_MAX at ht2 hm
  cases m with
  | zero => exact absurd rfl hm
  | succ k =>
    rw [AcceptedSteps_handle i k g1 w1 g2 w2 h2, f1.1, f1.2.1, ← Function.iterate_succ_apply,
      UPDATE_TOKEN_iterate _ ht1 (by unfold DRV_MEMORY_TOKEN_MAX; exact ht2)]
    intro he
    have e1 := MAKE_HANDLE_token (((g0 i).bufferToken - 1 + (k + 1)) % 65534 + 1) i
      (by omega) hi
    have e2 := MAKE_HANDLE_token (g0 i).bufferToken i (by omega) hi
    rw [he, e2] at e1
    omega

/-- C7 at the concrete device: the handle of a first command is answered with
Unknown after one further command. -/
theorem C7_superseded_handle_unknown_witness :
    ∃ g1 w1 g2 w2, AcceptedStep 0 demoDriver demoWorldFast g1 w1 ∧
      AcceptedSteps 0 1 g1 w1 g2 w2 ∧
      (DRV_MEMORY_CommandStatusGet g2 w2 0x10000 (g1 0).currentBufObj.commandHandle).1 =
        DRV_MEMORY_COMMAND_ERROR_UNKNOWN := by
  obtain ⟨g1, w1, s1, r1, -⟩ := demo_writeReady.advance
  obtain ⟨g2, w2, s2, r2, -⟩ := WriteReady.steps 1 r1
  exact ⟨g1, w1, g2, w2, s1, s2,
    C7_superseded_handle_unknown 0 1 demoDriver demoWorldFast g1 w1 g2 w2 w2 0x10000
      (by decide) (by decide) (by decide) s1 s2 (by decide)
      (fun q hq => by
        have := r2.valid
        rw [hq] at this
        cases this
        exact r2.inst)⟩

theorem Reaches_refl (t : Nat × DRV_MEMORY_OBJECT × World) : Reaches t t := ⟨0, fun _ => rfl⟩

theorem Reaches_trans {a b c : Nat × DRV_MEMORY_OBJECT × World} (h1 : Reaches a b)
    (h2 : Reaches b c) : Reaches a c := by
  obtain ⟨n1, e1⟩ := h1
  obtain ⟨n2, e2⟩ := h2
  refine ⟨n2 + n1, fun fuel => ?_⟩
  rw [← Nat.add_assoc, e1, e2]

theorem SameMem_refl (w : World) : w.SameMem w := ⟨SameOS_refl w, rfl, rfl, rfl⟩

theorem SameMem_trans {a b c : World} (h1 : a.SameMem b) (h2 : b.SameMem c) : a.SameMem c :=
  ⟨SameOS_trans h1.toSameOS h2.toSameOS, h2.flash.trans h1.flash, h2.cmdLog.trans h1.cmdLog,
    h2.ram.trans h1.ram⟩

theorem Waited.sameMem {w w' : World} (h : w.Waited w') : w.SameMem w' :=
  ⟨Waited.sameOS h, h.flash, h.cmdLog, h.ram⟩

/-- A Busy tick result is followed by a wait and the next tick. -/
theorem Reaches_busy (d : DRV_MEMORY_OBJECT) (w : World)
    (ht : ∀ n, w.timerOk n = true) (hp : ∀ n, w.pendOk n = true)
    (t : Nat × DRV_MEMORY_OBJECT × World)
    (htick : DRV_MEMORY_StartXfer_tick (DRV_MEMORY_StartXfer_wait d w).2.1
      (DRV_MEMORY_StartXfer_wait d w).2.2 = some t) :
    Reaches (MEMORY_DEVICE_TRANSFER_BUSY, d, w) t :=
  ⟨1, fun fuel => loop_busy_step fuel d w ht hp t htick⟩

/-- The polls of a state in which a tick starts with the status poll: after the
Busy polls the loop is at the tick that sees the poll answered Completed. `Q`
is the tick in that state. -/
theorem poll_run (Q : DRV_MEMORY_OBJECT → World → Nat × DRV_MEMORY_OBJECT × World)
    (d : DRV_MEMORY_OBJECT)
    (hbusy : ∀ b w, w.tstatus w.nPoll = MEMORY_DEVICE_TRANSFER_BUSY →
      Q { d with isTransferDone := b } w =
        (MEMORY_DEVICE_TRANSFER_BUSY, { d with isTransferDone := b },
          { w with nPoll := w.nPoll + 1 }))
    (htick : ∀ b w, DRV_MEMORY_StartXfer_tick { d with isTransferDone := b } w =
      some (Q { d with isTransferDone := b } w)) :
    ∀ (k : Nat) (b0 : Bool) (w : World), w.Cooperative →
      w.tstatus (w.nPoll + k) = MEMORY_DEVICE_TRANSFER_COMPLETED →
      (∀ j, j < k → w.tstatus (w.nPoll + j) = MEMORY_DEVICE_TRANSFER_BUSY) →
      ∃ b w1, w.SameMem w1 ∧ w1.tstatus w1.nPoll = MEMORY_DEVICE_TRANSFER_COMPLETED ∧
        Reaches (Q { d with isTransferDone := b0 } w) (Q { d with isTransferDone := b } w1) := by
  intro k
  induction k with
  | zero =>
    intro b0 w _ h1 _
    exact ⟨b0, w, SameMem_refl w, by simpa using h1, Reaches_refl _⟩
  | succ k ih =>
    intro b0 w hc h1 h0
    have hb : w.tstatus w.nPoll = MEMORY_DEVICE_TRANSFER_BUSY := h0 0 (Nat.succ_pos k)
    obtain ⟨_, ⟨b1, hd⟩, hw⟩ := StartXfer_wait_ok { d with isTransferDone := b0 }
      { w with nPoll := w.nPoll + 1 } hc.timerOk hc.pendOk
    have hc1 : World.Cooperative { w with nPoll := w.nPoll + 1 } :=
      ⟨hc.accept, hc.tstatus, hc.timerOk, hc.pendOk⟩
    have hcW := hc1.of_same hw.toSameOracles
    generalize hwW : (DRV_MEMORY_StartXfer_wait { d with isTransferDone := b0 }
      { w with nPoll := w.nPoll + 1 }).2.2 = wW at hw hcW
    obtain ⟨b, w1, m1, c1, r1⟩ := ih b1 wW hcW
      (by rw [hw.tstatus, hw.nPoll]; simpa [Nat.add_assoc, Nat.add_comm 1 k] using h1)
      (by
        intro j hj
        rw [hw.tstatus, hw.nPoll]
        simpa [Nat.add_assoc, Nat.add_comm 1 j] using h0 (j + 1) (Nat.succ_lt_succ hj))
    refine ⟨b, w1, ?_, c1, ?_⟩
    · refine SameMem_trans ?_ (SameMem_trans (Waited.sameMem hw) m1)
      exact ⟨⟨⟨rfl, rfl, rfl, rfl, rfl, rfl, rfl, rfl⟩, rfl, rfl, rfl⟩, rfl, rfl, rfl⟩
    · rw [hbusy b0 w hb]
      refine Reaches_trans (Reaches_busy _ _ hc1.timerOk hc1.pendOk _ ?_) r1
      rw [hwW, hd]
      exact htick b1 wW

theorem World.SameMem.mem_eq {w w' : World} (h : w.SameMem w') : w'.mem = w.mem := by
  unfold World.mem
  rw [h.cmdLog, h.flash, h.ram]

theorem World.SameMem.coop {w w' : World} (h : w.SameMem w') (hc : w.Cooperative) : w'.Cooperative :=
  hc.of_same h.toSameOracles

/-- The tick of an erase-write command is the tick of the erase-write machine. -/
theorem tick_ew (d : DRV_MEMORY_OBJECT) (w : World)
    (hop : d.currentBufObj.opType = DRV_MEMORY_OPERATION_TYPE_ERASE_WRITE) :
    DRV_MEMORY_StartXfer_tick d w = DRV_MEMORY_HandleEraseWrite d w d.currentBufObj.buffer
      d.currentBufObj.blockStart d.currentBufObj.nBlocks := by
  unfold DRV_MEMORY_StartXfer_tick gMemoryXferFuncPtr
  rw [hop]

theorem tick_ew_erase (d : DRV_MEMORY_OBJECT) (w : World)
    (hop : d.currentBufObj.opType = DRV_MEMORY_OPERATION_TYPE_ERASE_WRITE)
    (hw : d.writeBlockSize ≠ 0) (hs : d.ewState = DRV_MEMORY_EW_ERASE_SECTOR) :
    DRV_MEMORY_StartXfer_tick d w = some (DRV_MEMORY_HandleEraseWrite_ERASE_SECTOR d w) := by
  rw [tick_ew d w hop]
  unfold DRV_MEMORY_HandleEraseWrite
  rw [if_neg hw, hs]

theorem tick_ew_read (d : DRV_MEMORY_OBJECT) (w : World)
    (hop : d.currentBufObj.opType = DRV_MEMORY_OPERATION_TYPE_ERASE_WRITE)
    (hw : d.writeBlockSize ≠ 0) (hs : d.ewState = DRV_MEMORY_EW_READ_SECTOR) :
    DRV_MEMORY_StartXfer_tick d w = some (DRV_MEMORY_HandleEraseWrite_READ_SECTOR d w) := by
  rw [tick_ew d w hop]
  unfold DRV_MEMORY_HandleEraseWrite
  rw [if_neg hw, hs]

theorem tick_ew_write (d : DRV_MEMORY_OBJECT) (w : World)
    (hop : d.currentBufObj.opType = DRV_MEMORY_OPERATION_TYPE_ERASE_WRITE)
    (hw : d.writeBlockSize ≠ 0) (hs : d.ewState = DRV_MEMORY_EW_WRITE_SECTOR) :
    DRV_MEMORY_StartXfer_tick d w = some (DRV_MEMORY_HandleEraseWrite_WRITE_SECTOR d w
      (u8 (d.eraseBlockSize / d.writeBlockSize))) := by
  rw [tick_ew d w hop]
  unfold DRV_MEMORY_HandleEraseWrite
  rw [if_neg hw, hs]

theorem tick_ew_init (d : DRV_MEMORY_OBJECT) (w : World)
    (hop : d.currentBufObj.opType = DRV_MEMORY_OPERATION_TYPE_ERASE_WRITE)
    (hw : d.writeBlockSize ≠ 0) (hp : u8 (d.eraseBlockSize / d.writeBlockSize) ≠ 0)
    (hs : d.ewState = DRV_MEMORY_EW_INIT) :
    DRV_MEMORY_StartXfer_tick d w = some (DRV_MEMORY_HandleEraseWrite_INIT d w
      (u8 (d.eraseBlockSize / d.writeBlockSize))) := by
  rw [tick_ew d w hop]
  unfold DRV_MEMORY_HandleEraseWrite
  rw [if_neg hw, hs]
  dsimp only
  rw [if_neg hp]

/-- The EraseSector state entered with the erase machine in its Init state, on
a cooperative device: the sector is erased and, after the polls, the tick
returns Busy in the WriteSector state. -/
theorem erase_phase (d : DRV_MEMORY_OBJECT) (w : World)
    (hop : d.currentBufObj.opType = DRV_MEMORY_OPERATION_TYPE_ERASE_WRITE)
    (hw : d.writeBlockSize ≠ 0) (hs : d.ewState = DRV_MEMORY_EW_ERASE_SECTOR)
    (he : d.eraseState = DRV_MEMORY_ERASE_INIT) (hc : w.Cooperative) :
    ∃ b w', Reaches (DRV_MEMORY_HandleEraseWrite_ERASE_SECTOR d w)
        (MEMORY_DEVICE_TRANSFER_BUSY,
          { d with
            blockAddress := u32 (u32 (d.sectorNumber * d.eraseBlockSize) + d.blockStartAddress),
            nBlocks := 0, eraseState := DRV_MEMORY_ERASE_CMD_STATUS, isTransferDone := b,
            ewState := DRV_MEMORY_EW_WRITE_SECTOR }, w') ∧
      w'.mem = w.mem.erase w.devSectorSize d.memDevHandle
        (u32 (u32 (d.sectorNumber * d.eraseBlockSize) + d.blockStartAddress)) ∧
      w.SameOS w' := by
  generalize hd1 : ({ d with
      blockAddress := u32 (u32 (d.sectorNumber * d.eraseBlockSize) + d.blockStartAddress),
      nBlocks := 1, eraseState := DRV_MEMORY_ERASE_CMD_STATUS } : DRV_MEMORY_OBJECT) = d1
  generalize hw1 : (w.devSectorErase d.memDevHandle
      (u32 (u32 (d.sectorNumber * d.eraseBlockSize) + d.blockStartAddress))).2 = w1
  have hacc : (w.devSectorErase d.memDevHandle
      (u32 (u32 (d.sectorNumber * d.eraseBlockSize) + d.blockStartAddress))).1 = true := by
    simp [World.devSectorErase, hc.accept]
  have hm1 : w1.mem = w.mem.erase w.devSectorSize d.memDevHandle
      (u32 (u32 (d.sectorNumber * d.eraseBlockSize) + d.blockStartAddress)) := by
    subst hw1
    simp [World.devSectorErase, hc.accept, World.mem, Mem.erase]
  have hos1 : w.SameOS w1 := by subst hw1; exact devSectorErase_sameOS _ _ _
  have hc1 : w1.Cooperative := hc.of_same hos1.toSameOracles
  have e0 : DRV_MEMORY_HandleEraseWrite_ERASE_SECTOR d w =
      DRV_MEMORY_HandleEraseWrite_ERASE_SECTOR { d1 with isTransferDone := false } w1 := by
    subst hd1 hw1
    unfold DRV_MEMORY_HandleEraseWrite_ERASE_SECTOR DRV_MEMORY_HandleErase
    rw [he]
    dsimp only
    unfold DRV_MEMORY_HandleErase_CMD
    dsimp only
    rw [if_pos hacc]
  have hop1 : d1.currentBufObj.opType = DRV_MEMORY_OPERATION_TYPE_ERASE_WRITE := by
    subst hd1; exact hop
  have hw1' : d1.writeBlockSize ≠ 0 := by subst hd1; exact hw
  have hs1 : d1.ewState = DRV_MEMORY_EW_ERASE_SECTOR := by subst hd1; exact hs
  have he1 : d1.eraseState = DRV_MEMORY_ERASE_CMD_STATUS := by subst hd1; rfl
  have hn1 : d1.nBlocks = 1 := by subst hd1; rfl
  obtain ⟨k, hk1, hk0⟩ := hc1.tstatus w1.nPoll
  obtain ⟨b, w2, m2, c2, r2⟩ := poll_run
    (fun d w => DRV_MEMORY_HandleEraseWrite_ERASE_SECTOR d w) d1
    (by
      intro b w hb
      simp [DRV_MEMORY_HandleEraseWrite_ERASE_SECTOR, DRV_MEMORY_HandleErase, he1,
        DRV_MEMORY_HandleErase_CMD_STATUS, World.devTransferStatusGet, hb,
        MEMORY_DEVICE_TRANSFER_BUSY, MEMORY_DEVICE_TRANSFER_COMPLETED])
    (fun b w => tick_ew_erase _ w hop1 hw1' hs1) k false w1 hc1 hk1 hk0
  refine ⟨b, { w2 with nPoll := w2.nPoll + 1 }, ?_, ?_, ?_⟩
  · rw [e0]
    refine Reaches_trans r2 ?_
    have : DRV_MEMORY_HandleEraseWrite_ERASE_SECTOR { d1 with isTransferDone := b } w2 =
        (MEMORY_DEVICE_TRANSFER_BUSY,
          { d with
            blockAddress := u32 (u32 (d.sectorNumber * d.eraseBlockSize) + d.blockStartAddress),
            nBlocks := 0, eraseState := DRV_MEMORY_ERASE_CMD_STATUS, isTransferDone := b,
            ewState := DRV_MEMORY_EW_WRITE_SECTOR }, { w2 with nPoll := w2.nPoll + 1 }) := by
      subst hd1
      simp [DRV_MEMORY_HandleEraseWrite_ERASE_SECTOR, DRV_MEMORY_HandleErase,
        DRV_MEMORY_HandleErase_CMD_STATUS, World.devTransferStatusGet, c2, dec32]
    rw [this]
    exact Reaches_refl _
  · show w2.mem = _
    rw [m2.mem_eq, hm1]
  · exact SameOS_trans hos1 (SameOS_trans m2.toSameOS
      ⟨⟨rfl, rfl, rfl, rfl, rfl, rfl, rfl, rfl⟩, rfl, rfl, rfl⟩)

/-- The ReadSector state entered with the read machine in its Init state, on a
cooperative device: the sector is read into the scratch buffer and, after the
polls, the pages of the request are copied over it; the tick goes on in the
EraseSector state. -/
theorem read_phase (d : DRV_MEMORY_OBJECT) (w : World)
    (hop : d.currentBufObj.opType = DRV_MEMORY_OPERATION_TYPE_ERASE_WRITE)
    (hw : d.writeBlockSize ≠ 0) (hs : d.ewState = DRV_MEMORY_EW_READ_SECTOR)
    (hr : d.readState = DRV_MEMORY_READ_INIT) (hc : w.Cooperative) :
    ∃ b w', Reaches (DRV_MEMORY_HandleEraseWrite_READ_SECTOR d w)
        (DRV_MEMORY_HandleEraseWrite_ERASE_SECTOR
          { d with
            readState := DRV_MEMORY_READ_MEM_STATUS, isTransferDone := b,
            blockOffsetInSector := u32 (d.blockOffsetInSector * d.writeBlockSize),
            ewState := DRV_MEMORY_EW_ERASE_SECTOR } w') ∧
      w'.mem = (w.mem.read d.memDevHandle d.ewBuffer d.eraseBlockSize
          (u32 (u32 (u32 (d.sectorNumber * d.eraseBlockSize) * (d.mediaGeometryTable 0).blockSize)
            + d.blockStartAddress))).copy
          (d.ewBuffer + u32 (d.blockOffsetInSector * d.writeBlockSize)) d.currentBufObj.buffer
          (u32 (d.nBlocksToWrite * d.writeBlockSize)) ∧
      w.SameOS w' := by
  generalize hd1 : ({ d with readState := DRV_MEMORY_READ_MEM_STATUS } : DRV_MEMORY_OBJECT) = d1
  generalize hA : u32 (u32 (u32 (d.sectorNumber * d.eraseBlockSize) *
    (d.mediaGeometryTable 0).blockSize) + d.blockStartAddress) = A
  generalize hw1 : (w.devRead d.memDevHandle d.ewBuffer d.eraseBlockSize A).2 = w1
  have hacc : (w.devRead d.memDevHandle d.ewBuffer d.eraseBlockSize A).1 = true := by
    simp [World.devRead, hc.accept]
  have hm1 : w1.mem = w.mem.read d.memDevHandle d.ewBuffer d.eraseBlockSize A := by
    subst hw1
    simp [World.devRead, hc.accept, World.mem, Mem.read]
  have hos1 : w.SameOS w1 := by subst hw1; exact devRead_sameOS _ _ _ _ _
  have hc1 : w1.Cooperative := hc.of_same hos1.toSameOracles
  have e0 : DRV_MEMORY_HandleEraseWrite_READ_SECTOR d w =
      DRV_MEMORY_HandleEraseWrite_READ_SECTOR { d1 with isTransferDone := d.isTransferDone }
        w1 := by
    subst hd1 hw1 hA
    unfold DRV_MEMORY_HandleEraseWrite_READ_SECTOR DRV_MEMORY_HandleRead
    rw [hr]
    dsimp only
    unfold DRV_MEMORY_HandleRead_MEM
    dsimp only
    rw [if_pos hacc]
  have hop1 : d1.currentBufObj.opType = DRV_MEMORY_OPERATION_TYPE_ERASE_WRITE := by
    subst hd1; exact hop
  have hw1' : d1.writeBlockSize ≠ 0 := by subst hd1; exact hw
  have hs1 : d1.ewState = DRV_MEMORY_EW_READ_SECTOR := by subst hd1; exact hs
  have hr1 : d1.readState = DRV_MEMORY_READ_MEM_STATUS := by subst hd1; rfl
  obtain ⟨k, hk1, hk0⟩ := hc1.tstatus w1.nPoll
  obtain ⟨b, w2, m2, c2, r2⟩ := poll_run
    (fun d w => DRV_MEMORY_HandleEraseWrite_READ_SECTOR d w) d1
    (by
      intro b w hb
      simp [DRV_MEMORY_HandleEraseWrite_READ_SECTOR, DRV_MEMORY_HandleRead, hr1,
        DRV_MEMORY_HandleRead_MEM_STATUS, World.devTransferStatusGet, hb,
        MEMORY_DEVICE_TRANSFER_BUSY, MEMORY_DEVICE_TRANSFER_COMPLETED])
    (fun b w => tick_ew_read _ w hop1 hw1' hs1) k d.isTransferDone w1 hc1 hk1 hk0
  refine ⟨b, World.memcpy { w2 with nPoll := w2.nPoll + 1 }
    (d.ewBuffer + u32 (d.blockOffsetInSector * d.writeBlockSize)) d.currentBufObj.buffer
    (u32 (d.nBlocksToWrite * d.writeBlockSize)), ?_, ?_, ?_⟩
  · rw [e0]
    refine Reaches_trans r2 ?_
    have : DRV_MEMORY_HandleEraseWrite_READ_SECTOR { d1 with isTransferDone := b } w2 =
        DRV_MEMORY_HandleEraseWrite_ERASE_SECTOR
          { d with
            readState := DRV_MEMORY_READ_MEM_STATUS, isTransferDone := b,
            blockOffsetInSector := u32 (d.blockOffsetInSector * d.writeBlockSize),
            ewState := DRV_MEMORY_EW_ERASE_SECTOR }
          (World.memcpy { w2 with nPoll := w2.nPoll + 1 }
            (d.ewBuffer + u32 (d.blockOffsetInSector * d.writeBlockSize)) d.currentBufObj.buffer
            (u32 (d.nBlocksToWrite * d.writeBlockSize))) := by
      subst hd1
      simp [DRV_MEMORY_HandleEraseWrite_READ_SECTOR, DRV_MEMORY_HandleRead,
        DRV_MEMORY_HandleRead_MEM_STATUS, World.devTransferStatusGet, c2]
    rw [this]
    exact Reaches_refl _
  · have e := m2.mem_eq
    rw [hm1] at e
    unfold World.mem at e
    injection e with e1 e2 e3
    simp only [World.mem, World.memcpy, Mem.copy, Mem.read] at e1 e2 e3 ⊢
    rw [e1, e2, e3]
  · exact SameOS_trans hos1 (SameOS_trans m2.toSameOS
      ⟨⟨rfl, rfl, rfl, rfl, rfl, rfl, rfl, rfl⟩, rfl, rfl, rfl⟩)

theorem WRITE_SECTOR_eq (d : DRV_MEMORY_OBJECT) (w : World) (pps : Nat) :
    DRV_MEMORY_HandleEraseWrite_WRITE_SECTOR d w pps =
      ewWritePost (DRV_MEMORY_HandleWrite d w d.writePtr (u32 (d.sectorNumber * pps)) pps) :=
  rfl

theorem SameEw_refl (d : DRV_MEMORY_OBJECT) : d.SameEw d :=
  ⟨SameCommand_refl d, rfl, rfl, rfl, rfl, rfl⟩

theorem SameEw_trans {a b c : DRV_MEMORY_OBJECT} (h1 : a.SameEw b) (h2 : b.SameEw c) :
    a.SameEw c :=
  ⟨SameCommand_trans h1.toSameCommand h2.toSameCommand,
    h2.memDevHandle.trans h1.memDevHandle, h2.writeBlockSize.trans h1.writeBlockSize,
    h2.eraseBlockSize.trans h1.eraseBlockSize, h2.blockStartAddress.trans h1.blockStartAddress,
    h2.ewBuffer.trans h1.ewBuffer⟩

/-- The WriteSector state entered with the write machine in its Init state, on
a cooperative device: after a wait, `pagesPerSector` pages are written from the
write pointer, and the loop is at the end of the tick that saw the last page
Completed. -/
theorem write_phase (d : DRV_MEMORY_OBJECT) (w : World)
    (hop : d.currentBufObj.opType = DRV_MEMORY_OPERATION_TYPE_ERASE_WRITE)
    (hw : d.writeBlockSize ≠ 0) (hp : u8 (d.eraseBlockSize / d.writeBlockSize) ≠ 0)
    (hs : d.ewState = DRV_MEMORY_EW_WRITE_SECTOR)
    (hws : d.writeState = DRV_MEMORY_WRITE_INIT) (hc : w.Cooperative) :
    ∃ dW wW, Reaches (MEMORY_DEVICE_TRANSFER_BUSY, d, w)
        (ewWritePost (MEMORY_DEVICE_TRANSFER_COMPLETED, dW, wW)) ∧
      wW.mem = w.mem.pages w.devPageSize d.memDevHandle d.writeBlockSize
        (u8 (d.eraseBlockSize / d.writeBlockSize)) d.writePtr
        (u32 (u32 (u32 (d.sectorNumber * u8 (d.eraseBlockSize / d.writeBlockSize))
          * d.writeBlockSize) + d.blockStartAddress)) ∧
      w.SameOS wW ∧ d.SameEw dW ∧ dW.currentBufObj = d.currentBufObj ∧
      dW.nBlocksToWrite = d.nBlocksToWrite := by
  generalize hpps : u8 (d.eraseBlockSize / d.writeBlockSize) = pps at hp
  have hpps256 : pps < 256 := by rw [← hpps]; unfold u8; omega
  obtain ⟨r, hr⟩ : ∃ r, pps = r + 1 := ⟨pps - 1, by omega⟩
  generalize hA : u32 (u32 (u32 (d.sectorNumber * pps) * d.writeBlockSize)
    + d.blockStartAddress) = A
  -- the wait before the tick
  obtain ⟨_, ⟨b0, hdw⟩, hww⟩ := StartXfer_wait_ok d w hc.timerOk hc.pendOk
  generalize hw0 : (DRV_MEMORY_StartXfer_wait d w).2.2 = w0 at hww
  have hc0 : w0.Cooperative := hc.of_same hww.toSameOracles
  -- the state after the Init and Issue parts of the tick
  generalize hd2 : ({ d with
      blockAddress := A, nBlocks := r + 1, writeState := DRV_MEMORY_WRITE_MEM_STATUS,
      isTransferDone := false } : DRV_MEMORY_OBJECT) = d2
  generalize hw2 : w0.withDev (w0.cmdLog ++ [DevCall.pageWrite d.memDevHandle d.writePtr A])
      (fun a => if A ≤ a ∧ a < A + w0.devPageSize then w0.ram (d.writePtr + (a - A))
        else w0.flash a)
      w0.nPoll w0.nTimer w0.nPend w0.nIsr = w2
  have hc2 : w2.Cooperative := by
    subst hw2; exact ⟨hc0.accept, hc0.tstatus, hc0.timerOk, hc0.pendOk⟩
  have htick : DRV_MEMORY_StartXfer_tick (DRV_MEMORY_StartXfer_wait d w).2.1 w0
      = some (ewWritePost (DRV_MEMORY_HandleWrite_MEM_STATUS d2 w2)) := by
    rw [hdw, tick_ew_write { d with isTransferDone := b0 } w0 hop hw hs, WRITE_SECTOR_eq]
    subst hd2 hw2 hA
    simp [DRV_MEMORY_HandleWrite, hws, DRV_MEMORY_HandleWrite_MEM, World.devPageWrite,
      hc0.accept, hr, hpps, World.withDev]
  have hM2 : d2.currentBufObj.opType = DRV_MEMORY_OPERATION_TYPE_ERASE_WRITE ∧
      d2.writeBlockSize ≠ 0 ∧ d2.ewState = DRV_MEMORY_EW_WRITE_SECTOR := by
    subst hd2; exact ⟨hop, hw, hs⟩
  obtain ⟨k, hk1, hk0⟩ := hc2.tstatus w2.nPoll
  obtain ⟨n, b, np, nt, nq, ni, hrun⟩ := write_run ewWritePost
    (fun d => d.currentBufObj.opType = DRV_MEMORY_OPERATION_TYPE_ERASE_WRITE ∧
      d.writeBlockSize ≠ 0 ∧ d.ewState = DRV_MEMORY_EW_WRITE_SECTOR)
    (fun r hr => by
      unfold ewWritePost
      rw [if_neg (by rw [hr]; decide)])
    (fun _ _ _ _ _ _ h => h)
    (fun d w hm hs => by
      rw [tick_ew_write _ _ hm.1 hm.2.1 hm.2.2, WRITE_SECTOR_eq]
      unfold DRV_MEMORY_HandleWrite
      rw [hs])
    (fun d w hm hs => by
      rw [tick_ew_write _ _ hm.1 hm.2.1 hm.2.2, WRITE_SECTOR_eq]
      unfold DRV_MEMORY_HandleWrite
      rw [hs])
    r k d2 w2 hc2 hM2 (by subst hd2; rfl) (by subst hd2; rfl) (by omega) hk1 hk0
  refine ⟨d2.withWrite 0 (pagesCursor d2.writeBlockSize r d2.writePtr d2.blockAddress).2
      (pagesCursor d2.writeBlockSize r d2.writePtr d2.blockAddress).1
      DRV_MEMORY_WRITE_MEM_STATUS b,
    w2.withDev
      (pagesLog d2.memDevHandle d2.writeBlockSize r
        (d2.writePtr + d2.writeBlockSize) (u32 (d2.blockAddress + d2.writeBlockSize)) w2.cmdLog)
      (pagesFlash w2.devPageSize d2.writeBlockSize w2.ram r
        (d2.writePtr + d2.writeBlockSize) (u32 (d2.blockAddress + d2.writeBlockSize)) w2.flash)
      np nt nq ni, ?_, ?_, ?_, ?_, ?_, ?_⟩
  · exact Reaches_trans (Reaches_busy d w hc.timerOk hc.pendOk _ (by rw [hw0]; exact htick))
      ⟨n, hrun⟩
  · subst hw2 hd2
    simp only [World.mem, World.withDev, Mem.pages, hr, pagesLog, pagesFlash,
      hww.cmdLog, hww.flash, hww.ram, hww.devPageSize]
  · subst hw2
    exact ⟨⟨hww.devPageSize, hww.devSectorSize, hww.accept, hww.tstatus, hww.timerOk,
      hww.pendOk, hww.lockOk, hww.isr⟩, hww.nLock, hww.nUnlock, hww.handlerLog⟩
  · subst hd2
    exact ⟨⟨rfl, rfl, rfl, rfl, rfl, rfl, rfl, rfl, rfl, rfl, rfl, rfl, rfl⟩, rfl, rfl, rfl,
      rfl, rfl⟩
  · subst hd2; rfl
  · subst hd2; rfl

/-- The erase of a sector followed by the writing of its pages. -/
theorem erase_write_phases (d : DRV_MEMORY_OBJECT) (w : World)
    (hop : d.currentBufObj.opType = DRV_MEMORY_OPERATION_TYPE_ERASE_WRITE)
    (hw : d.writeBlockSize ≠ 0) (hp : u8 (d.eraseBlockSize / d.writeBlockSize) ≠ 0)
    (hs : d.ewState = DRV_MEMORY_EW_ERASE_SECTOR)
    (he : d.eraseState = DRV_MEMORY_ERASE_INIT)
    (hws : d.writeState = DRV_MEMORY_WRITE_INIT) (hc : w.Cooperative) :
    ∃ dW wW, Reaches (DRV_MEMORY_HandleEraseWrite_ERASE_SECTOR d w)
        (ewWritePost (MEMORY_DEVICE_TRANSFER_COMPLETED, dW, wW)) ∧
      wW.mem = (w.mem.erase w.devSectorSize d.memDevHandle
          (u32 (u32 (d.sectorNumber * d.eraseBlockSize) + d.blockStartAddress))).pages
        w.devPageSize d.memDevHandle d.writeBlockSize
        (u8 (d.eraseBlockSize / d.writeBlockSize)) d.writePtr
        (u32 (u32 (u32 (d.sectorNumber * u8 (d.eraseBlockSize / d.writeBlockSize))
          * d.writeBlockSize) + d.blockStartAddress)) ∧
      w.SameOS wW ∧ d.SameEw dW ∧ dW.currentBufObj = d.currentBufObj ∧
      dW.nBlocksToWrite = d.nBlocksToWrite := by
  obtain ⟨b, w1, r1, m1, o1⟩ := erase_phase d w hop hw hs he hc
  obtain ⟨dW, wW, r2, m2, o2, e2, c2, n2⟩ := write_phase
    { d with
      blockAddress := u32 (u32 (d.sectorNumber * d.eraseBlockSize) + d.blockStartAddress),
      nBlocks := 0, eraseState := DRV_MEMORY_ERASE_CMD_STATUS, isTransferDone := b,
      ewState := DRV_MEMORY_EW_WRITE_SECTOR } w1 hop hw hp rfl hws
    (hc.of_same o1.toSameOracles)
  refine ⟨dW, wW, Reaches_trans r1 r2, ?_, SameOS_trans o1 o2, ?_, c2, n2⟩
  · rw [m2, m1, o1.devPageSize]
  · exact ⟨⟨e2.commandHandle, e2.hClient, e2.opType, e2.cmdStatus, e2.clientObjPool,
      e2.nClientsMax, e2.bufferToken, e2.transferMutex, e2.status, e2.memoryDevice,
      e2.mediaGeometryTable, e2.isMemDevInterruptEnabled, e2.memDevStatusPollUs⟩,
      e2.memDevHandle, e2.writeBlockSize, e2.eraseBlockSize, e2.blockStartAddress, e2.ewBuffer⟩

/-- One sector of an erase-write, from the tick in the Init state to the end of
the tick that saw the last page of the sector Completed. -/
theorem ew_sector (d : DRV_MEMORY_OBJECT) (w : World)
    (hop : d.currentBufObj.opType = DRV_MEMORY_OPERATION_TYPE_ERASE_WRITE)
    (hw : d.writeBlockSize ≠ 0) (hp : u8 (d.eraseBlockSize / d.writeBlockSize) ≠ 0)
    (hs : d.ewState = DRV_MEMORY_EW_INIT) (hc : w.Cooperative) :
    ∃ t dW wW, DRV_MEMORY_StartXfer_tick d w = some t ∧
      Reaches t (ewWritePost (MEMORY_DEVICE_TRANSFER_COMPLETED, dW, wW)) ∧
      wW.mem = ewSectorMem d w.devPageSize w.devSectorSize d.currentBufObj.buffer
        d.currentBufObj.blockStart d.currentBufObj.nBlocks w.mem ∧
      w.SameOS wW ∧ d.SameEw dW ∧ dW.currentBufObj = d.currentBufObj ∧
      dW.nBlocksToWrite = min (u8 (d.eraseBlockSize / d.writeBlockSize)
        - d.currentBufObj.blockStart % u8 (d.eraseBlockSize / d.writeBlockSize))
        d.currentBufObj.nBlocks := by
  have htick := tick_ew_init d w hop hw hp hs
  rw [HandleEraseWrite_INIT_eq d w _ hp] at htick
  by_cases hdir : d.currentBufObj.blockStart % u8 (d.eraseBlockSize / d.writeBlockSize) = 0 ∧
      u8 (d.eraseBlockSize / d.writeBlockSize) ≤ d.currentBufObj.nBlocks
  · rw [if_pos hdir] at htick
    -- the direct path: a wait, then the EraseSector state
    obtain ⟨_, ⟨b0, hdw⟩, hww⟩ := StartXfer_wait_ok
      { d.ewInit (u8 (d.eraseBlockSize / d.writeBlockSize)) with
        writePtr := d.currentBufObj.buffer, ewState := DRV_MEMORY_EW_ERASE_SECTOR } w
      hc.timerOk hc.pendOk
    generalize hw0 : (DRV_MEMORY_StartXfer_wait
      { d.ewInit (u8 (d.eraseBlockSize / d.writeBlockSize)) with
        writePtr := d.currentBufObj.buffer, ewState := DRV_MEMORY_EW_ERASE_SECTOR } w).2.2
      = w0 at hww
    obtain ⟨dW, wW, r2, m2, o2, e2, c2, n2⟩ := erase_write_phases
      { d.ewInit (u8 (d.eraseBlockSize / d.writeBlockSize)) with
        writePtr := d.currentBufObj.buffer, ewState := DRV_MEMORY_EW_ERASE_SECTOR,
        isTransferDone := b0 } w0 hop hw hp rfl rfl rfl (hc.of_same hww.toSameOracles)
    refine ⟨_, dW, wW, htick, ?_, ?_, SameOS_trans (Waited.sameOS hww) o2, ?_, c2, ?_⟩
    · refine Reaches_trans (Reaches_busy _ _ hc.timerOk hc.pendOk _ ?_) r2
      rw [hw0, hdw]
      exact tick_ew_erase _ _ hop hw rfl
    · rw [m2, (Waited.sameMem hww).mem_eq, hww.devSectorSize, hww.devPageSize]
      unfold ewSectorMem DRV_MEMORY_OBJECT.ewInit
      simp only [if_pos hdir]
    · exact ⟨⟨e2.commandHandle, e2.hClient, e2.opType, e2.cmdStatus, e2.clientObjPool,
        e2.nClientsMax, e2.bufferToken, e2.transferMutex, e2.status, e2.memoryDevice,
        e2.mediaGeometryTable, e2.isMemDevInterruptEnabled, e2.memDevStatusPollUs⟩,
        e2.memDevHandle, e2.writeBlockSize, e2.eraseBlockSize, e2.blockStartAddress,
        e2.ewBuffer⟩
    · rw [n2]; rfl
  · rw [if_neg hdir] at htick
    -- the read-modify-write path
    obtain ⟨b1, w1, r1, m1, o1⟩ := read_phase
      { d.ewInit (u8 (d.eraseBlockSize / d.writeBlockSize)) with
        writePtr := d.ewBuffer, ewState := DRV_MEMORY_EW_READ_SECTOR } w hop hw rfl rfl hc
    obtain ⟨dW, wW, r2, m2, o2, e2, c2, n2⟩ := erase_write_phases
      { d.ewInit (u8 (d.eraseBlockSize / d.writeBlockSize)) with
        writePtr := d.ewBuffer,
        readState := DRV_MEMORY_READ_MEM_STATUS, isTransferDone := b1,
        blockOffsetInSector := u32 (d.currentBufObj.blockStart
          % u8 (d.eraseBlockSize / d.writeBlockSize) * d.writeBlockSize),
        ewState := DRV_MEMORY_EW_ERASE_SECTOR } w1 hop hw hp rfl rfl rfl
      (hc.of_same o1.toSameOracles)
    refine ⟨_, dW, wW, htick, Reaches_trans r1 r2, ?_, SameOS_trans o1 o2, ?_, c2, ?_⟩
    · rw [m2, m1, o1.devSectorSize, o1.devPageSize]
      unfold ewSectorMem DRV_MEMORY_OBJECT.ewInit
      simp only [if_neg hdir]
    · exact ⟨⟨e2.commandHandle, e2.hClient, e2.opType, e2.cmdStatus, e2.clientObjPool,
        e2.nClientsMax, e2.bufferToken, e2.transferMutex, e2.status, e2.memoryDevice,
        e2.mediaGeometryTable, e2.isMemDevInterruptEnabled, e2.memDevStatusPollUs⟩,
        e2.memDevHandle, e2.writeBlockSize, e2.eraseBlockSize, e2.blockStartAddress,
        e2.ewBuffer⟩
    · rw [n2]; rfl

theorem ewSectorMem_congr {d d' : DRV_MEMORY_OBJECT} (h : d.SameEw d') (ps ss B bs n : Nat)
    (m : Mem) : ewSectorMem d' ps ss B bs n m = ewSectorMem d ps ss B bs n m := by
  unfold ewSectorMem
  rw [h.memDevHandle, h.writeBlockSize, h.eraseBlockSize, h.blockStartAddress, h.ewBuffer,
    h.mediaGeometryTable]

theorem ewMem_congr {d d' : DRV_MEMORY_OBJECT} (h : d.SameEw d') (ps ss : Nat) :
    ∀ (k B bs n : Nat) (m : Mem), ewMem d' ps ss k B bs n m = ewMem d ps ss k B bs n m := by
  intro k
  induction k with
  | zero => intro B bs n m; rfl
  | succ k ih =>
    intro B bs n m
    unfold ewMem
    rw [ewSectorMem_congr h, h.writeBlockSize, h.eraseBlockSize]
    split
    · rfl
    · exact ih _ _ _ _

/-- The erase-write machine from its first tick to its last, on a cooperative
device: sector after sector the memory is changed as `ewMem` says, and the last
tick returns Completed. -/
theorem ew_run : ∀ (k : Nat) (d : DRV_MEMORY_OBJECT) (w : World),
    d.currentBufObj.opType = DRV_MEMORY_OPERATION_TYPE_ERASE_WRITE →
    d.writeBlockSize ≠ 0 → u8 (d.eraseBlockSize / d.writeBlockSize) ≠ 0 →
    d.ewState = DRV_MEMORY_EW_INIT → w.Cooperative →
    1 ≤ d.currentBufObj.nBlocks → d.currentBufObj.nBlocks ≤ k →
    ∃ t dF wF, DRV_MEMORY_StartXfer_tick d w = some t ∧
      Reaches t (MEMORY_DEVICE_TRANSFER_COMPLETED, dF, wF) ∧
      wF.mem = ewMem d w.devPageSize w.devSectorSize k d.currentBufObj.buffer
        d.currentBufObj.blockStart d.currentBufObj.nBlocks w.mem ∧
      w.SameOS wF ∧ d.SameEw dF := by
  intro k
  induction k with
  | zero =>
    intro d w _ _ _ _ _ h1 h2
    omega
  | succ k ih =>
    intro d w hop hw hp hs hc h1 h2
    obtain ⟨t, dW, wW, htick, r1, m1, o1, e1, c1, n1⟩ := ew_sector d w hop hw hp hs hc
    have hlt : d.currentBufObj.blockStart % u8 (d.eraseBlockSize / d.writeBlockSize)
        < u8 (d.eraseBlockSize / d.writeBlockSize) := Nat.mod_lt _ (Nat.pos_of_ne_zero hp)
    have hpost : ewWritePost (MEMORY_DEVICE_TRANSFER_COMPLETED, dW, wW) =
        if sub32 d.currentBufObj.nBlocks dW.nBlocksToWrite = 0 then
          (MEMORY_DEVICE_TRANSFER_COMPLETED, dW, wW)
        else
          (MEMORY_DEVICE_TRANSFER_BUSY,
            { dW with
              currentBufObj := { dW.currentBufObj with
                nBlocks := sub32 d.currentBufObj.nBlocks dW.nBlocksToWrite,
                blockStart := u32 (d.currentBufObj.blockStart + dW.nBlocksToWrite),
                buffer := d.currentBufObj.buffer
                  + u32 (dW.nBlocksToWrite * d.writeBlockSize) },
              ewState := DRV_MEMORY_EW_INIT }, wW) := by
      unfold ewWritePost
      simp only [if_true, c1, e1.writeBlockSize]
    rw [hpost] at r1
    by_cases hlast : sub32 d.currentBufObj.nBlocks dW.nBlocksToWrite = 0
    · rw [if_pos hlast] at r1
      refine ⟨t, dW, wW, htick, r1, ?_, o1, e1⟩
      rw [m1]
      unfold ewMem
      rw [n1] at hlast
      rw [if_pos hlast]
    · rw [if_neg hlast] at r1
      generalize hdN : ({ dW with
          currentBufObj := { dW.currentBufObj with
            nBlocks := sub32 d.currentBufObj.nBlocks dW.nBlocksToWrite,
            blockStart := u32 (d.currentBufObj.blockStart + dW.nBlocksToWrite),
            buffer := d.currentBufObj.buffer + u32 (dW.nBlocksToWrite * d.writeBlockSize) },
          ewState := DRV_MEMORY_EW_INIT } : DRV_MEMORY_OBJECT) = dN at r1
      have hcW : wW.Cooperative := hc.of_same o1.toSameOracles
      obtain ⟨_, ⟨b0, hdw⟩, hww⟩ := StartXfer_wait_ok dN wW hcW.timerOk hcW.pendOk
      generalize hw0 : (DRV_MEMORY_StartXfer_wait dN wW).2.2 = w0 at hww
      have eN : d.SameEw { dN with isTransferDone := b0 } := by
        subst hdN
        exact ⟨⟨e1.commandHandle, by rw [← e1.hClient], by rw [← e1.opType],
          by rw [← e1.cmdStatus], e1.clientObjPool,
          e1.nClientsMax, e1.bufferToken, e1.transferMutex, e1.status, e1.memoryDevice,
          e1.mediaGeometryTable, e1.isMemDevInterruptEnabled, e1.memDevStatusPollUs⟩,
          e1.memDevHandle, e1.writeBlockSize, e1.eraseBlockSize, e1.blockStartAddress,
          e1.ewBuffer⟩
      have hsub : sub32 d.currentBufObj.nBlocks dW.nBlocksToWrite
          = d.currentBufObj.nBlocks - dW.nBlocksToWrite := by
        unfold sub32
        rw [if_pos (by rw [n1]; exact Nat.min_le_right _ _)]
      have hntw : 1 ≤ dW.nBlocksToWrite := by
        rw [n1]
        exact Nat.le_min.mpr ⟨by omega, h1⟩
      obtain ⟨t', dF, wF, htick', r2, m2, o2, e2⟩ := ih { dN with isTransferDone := b0 } w0
        (by rw [eN.opType]; exact hop) (by rw [eN.writeBlockSize]; exact hw)
        (by rw [eN.writeBlockSize, eN.eraseBlockSize]; exact hp) (by subst hdN; rfl)
        (hcW.of_same hww.toSameOracles)
        (by subst hdN; show 1 ≤ sub32 _ _; omega)
        (by subst hdN; show sub32 _ _ ≤ k; omega)
      refine ⟨t, dF, wF, htick, ?_, ?_, ?_, SameEw_trans eN e2⟩
      · refine Reaches_trans r1 (Reaches_trans (Reaches_busy _ _ hcW.timerOk hcW.pendOk _ ?_) r2)
        rw [hw0, hdw]
        exact htick'
      · rw [m2, ewMem_congr eN, (Waited.sameMem hww).mem_eq, m1, hww.devPageSize,
          hww.devSectorSize, o1.devPageSize, o1.devSectorSize]
        conv_rhs => unfold ewMem
        rw [n1] at hlast
        rw [if_neg hlast]
        subst hdN
        simp only [n1]
      · exact SameOS_trans o1 (SameOS_trans (Waited.sameOS hww) o2)

theorem ewSectorMem_fields (d d' : DRV_MEMORY_OBJECT)
    (h1 : d'.memDevHandle = d.memDevHandle) (h2 : d'.writeBlockSize = d.writeBlockSize)
    (h3 : d'.eraseBlockSize = d.eraseBlockSize) (h4 : d'.blockStartAddress = d.blockStartAddress)
    (h5 : d'.ewBuffer = d.ewBuffer) (h6 : d'.mediaGeometryTable = d.mediaGeometryTable)
    (ps ss B bs n : Nat) (m : Mem) :
    ewSectorMem d' ps ss B bs n m = ewSectorMem d ps ss B bs n m := by
  unfold ewSectorMem
  rw [h1, h2, h3, h4, h5, h6]

theorem ewMem_fields (d d' : DRV_MEMORY_OBJECT)
    (h1 : d'.memDevHandle = d.memDevHandle) (h2 : d'.writeBlockSize = d.writeBlockSize)
    (h3 : d'.eraseBlockSize = d.eraseBlockSize) (h4 : d'.blockStartAddress = d.blockStartAddress)
    (h5 : d'.ewBuffer = d.ewBuffer) (h6 : d'.mediaGeometryTable = d.mediaGeometryTable)
    (ps ss : Nat) :
    ∀ (k B bs n : Nat) (m : Mem), ewMem d' ps ss k B bs n m = ewMem d ps ss k B bs n m := by
  intro k
  induction k with
  | zero => intro B bs n m; rfl
  | succ k ih =>
    intro B bs n m
    unfold ewMem
    rw [ewSectorMem_fields d d' h1 h2 h3 h4 h5 h6, h2, h3]
    split
    · rfl
    · exact ih _ _ _ _

/-- The sequencer on an erase-write command, with a cooperative device and OS:
it returns `true` after the memory has been changed as `ewMem` says. -/
theorem StartXfer_eraseWrite (g : Driver) (i : Nat) (w : World) (p : ClientPtr)
    (hop : (g i).currentBufObj.opType = DRV_MEMORY_OPERATION_TYPE_ERASE_WRITE)
    (hcl : (g i).currentBufObj.hClient = some p)
    (hw : (g i).writeBlockSize ≠ 0)
    (hp : u8 ((g i).eraseBlockSize / (g i).writeBlockSize) ≠ 0)
    (hn : 1 ≤ (g i).currentBufObj.nBlocks) (hc : w.Cooperative) :
    ∃ n, ∀ fuel, ∃ g' w', DRV_MEMORY_StartXfer (fuel + n) g i w = Outcome.returned (true, g', w') ∧
      w'.mem = ewMem (g i) w.devPageSize w.devSectorSize (g i).currentBufObj.nBlocks
        (g i).currentBufObj.buffer (g i).currentBufObj.blockStart (g i).currentBufObj.nBlocks
        w.mem := by
  obtain ⟨t, dF, wF, htick, ⟨n, hrun⟩, m1, -, e1⟩ := ew_run (g i).currentBufObj.nBlocks
    (DRV_MEMORY_StartXfer_init (g i)) w hop hw hp rfl hc hn (Nat.le_refl _)
  refine ⟨n, fun fuel => ?_⟩
  have hrun' := hrun fuel
  unfold loopT at hrun'
  rw [loop_done fuel _ _ MEMORY_DEVICE_TRANSFER_COMPLETED (by decide)] at hrun'
  have hcl' : dF.currentBufObj.hClient = some p := by rw [e1.hClient]; exact hcl
  unfold DRV_MEMORY_StartXfer
  simp only [htick, hrun']
  simp only [DRV_MEMORY_StartXfer_finish, hcl', if_true]
  refine ⟨_, _, rfl, ?_⟩
  unfold World.mem
  rw [(callTransferHandler_dev _ _ _ _).1, (callTransferHandler_dev _ _ _ _).2.1,
    (callTransferHandler_dev _ _ _ _).2.2.1]
  exact m1.trans (ewMem_fields (g i) (DRV_MEMORY_StartXfer_init (g i)) rfl rfl rfl rfl rfl rfl
    _ _ _ _ _ _ _)

/-- An erase-write request that passes admission on a device with a
sector-erase primitive, with a cooperative device and OS: given enough fuel,
`DRV_MEMORY_SetupXfer` returns `true`, and the memory has been changed as
`ewMem` says. -/
theorem SetupXfer_eraseWrite (g : Driver) (w : World) (handle : Nat)
    (hasCommandHandle : Bool) (buffer blockStart nBlock geometry_type io_intent : Nat)
    (p : ClientPtr)
    (ha : Admissible g handle buffer blockStart nBlock geometry_type
      DRV_MEMORY_OPERATION_TYPE_ERASE_WRITE io_intent p)
    (hlock : w.lockOk w.nLock = true)
    (hse : (g (g.client p).drvIndex).memoryDevice.hasSectorErase = true)
    (hw : (g (g.client p).drvIndex).writeBlockSize ≠ 0)
    (hp : u8 ((g (g.client p).drvIndex).eraseBlockSize
      / (g (g.client p).drvIndex).writeBlockSize) ≠ 0)
    (hc : w.Cooperative) :
    ∃ fuel0, ∀ fuel, fuel0 ≤ fuel → ∃ r,
      DRV_MEMORY_SetupXfer fuel g w handle hasCommandHandle buffer blockStart nBlock
        geometry_type DRV_MEMORY_OPERATION_TYPE_ERASE_WRITE io_intent = Outcome.returned r ∧
      r.isSuccess = true ∧
      r.w.mem = ewMem (g (g.client p).drvIndex) w.devPageSize w.devSectorSize nBlock buffer
        blockStart nBlock w.mem := by
  have hat := Driver.allocated_at g p buffer blockStart nBlock
    DRV_MEMORY_OPERATION_TYPE_ERASE_WRITE
  have heff : effectiveOpType (g (g.client p).drvIndex).memoryDevice.hasSectorErase
      DRV_MEMORY_OPERATION_TYPE_ERASE_WRITE = DRV_MEMORY_OPERATION_TYPE_ERASE_WRITE := by
    simp [effectiveOpType, hse]
  have hc1 : World.Cooperative { w with nLock := w.nLock + 1 } :=
    ⟨hc.accept, hc.tstatus, hc.timerOk, hc.pendOk⟩
  obtain ⟨n, hrun⟩ := StartXfer_eraseWrite
    (g.allocated p buffer blockStart nBlock DRV_MEMORY_OPERATION_TYPE_ERASE_WRITE)
    (g.client p).drvIndex { w with nLock := w.nLock + 1 } p
    (by rw [hat]) (by rw [hat]) (by rw [hat]; exact hw) (by rw [hat]; exact hp)
    (by rw [hat]; exact Nat.pos_of_ne_zero ha.count) hc1
  refine ⟨n, fun fuel hf => ?_⟩
  obtain ⟨g', w', hS, hm⟩ := hrun (fuel - n)
  rw [Nat.sub_add_cancel hf] at hS
  rw [SetupXfer_admitted fuel g w handle hasCommandHandle buffer blockStart nBlock _ _ _ p
    ha.valid ha.intent ha.buffer ha.count ha.range hlock (Or.inl hse), heff, hS]
  refine ⟨_, rfl, rfl, ?_⟩
  show w'.mem = _
  rw [hm, hat]
  exact ewMem_fields (g (g.client p).drvIndex)
    { g (g.client p).drvIndex with
      transferMutex := (g (g.client p).drvIndex).transferMutex + 1,
      currentBufObj :=
        { commandHandle := DRV_MEMORY_MAKE_HANDLE (g (g.client p).drvIndex).bufferToken
            (g.client p).drvIndex 0,
          hClient := some p, buffer := buffer, blockStart := blockStart, nBlocks := nBlock,
          opType := DRV_MEMORY_OPERATION_TYPE_ERASE_WRITE, status := DRV_MEMORY_COMMAND_QUEUED },
      bufferToken := DRV_MEMORY_UPDATE_TOKEN (g (g.client p).drvIndex).bufferToken }
    rfl rfl rfl rfl rfl rfl _ _ _ _ _ _ _

theorem Mem.pages_log (m : Mem) (ps hdl wbs k ptr addr : Nat) :
    (m.pages ps hdl wbs k ptr addr).log = pagesLog hdl wbs k ptr addr m.log := rfl

/-- The commands of the first sector of a request, as the machine issues
them. -/
theorem ewSectorMem_log (d : DRV_MEMORY_OBJECT) (ps ss B bs n : Nat) (m : Mem)
    (hp : u8 (d.eraseBlockSize / d.writeBlockSize) ≠ 0) (hbs : bs < 4294967296) :
    (ewSectorMem d ps ss B bs n m).log =
      m.log ++ ewSectorCmds d B bs n (bs / u8 (d.eraseBlockSize / d.writeBlockSize)) := by
  generalize hP : u8 (d.eraseBlockSize / d.writeBlockSize) = P at hp
  have hdm := Nat.div_add_mod bs P
  have hqP : bs / P * P = P * (bs / P) := Nat.mul_comm _ _
  have hq1 : (bs / P + 1) * P = bs / P * P + P := by rw [Nat.add_mul, Nat.one_mul]
  have hlt : bs % P < P := Nat.mod_lt _ (Nat.pos_of_ne_zero hp)
  have hcov : (bs ≤ bs / P * P ∧ (bs / P + 1) * P ≤ bs + n) ↔ (bs % P = 0 ∧ P ≤ n) := by
    constructor
    · rintro ⟨h1, h2⟩; constructor <;> omega
    · rintro ⟨h1, h2⟩; constructor <;> omega
  have hu : u32 (bs / P * P) = bs / P * P := by unfold u32; omega
  unfold ewSectorMem ewSectorCmds
  simp only [hP, Mem.pages_log]
  rw [pagesLog_eq _ _ _ _ _ _ (by unfold u32; omega), hu]
  by_cases hdir : bs % P = 0 ∧ P ≤ n
  · rw [if_pos hdir, if_pos hdir, if_pos (hcov.mpr hdir)]
    simp only [Mem.erase, List.nil_append, List.append_assoc, List.singleton_append]
    congr 2
    apply List.map_congr_left
    intro k _
    rw [if_pos (hcov.mpr hdir)]
    have e1 : bs / P * P + k - bs = k := by omega
    have e2 : (bs / P * P + k) * d.writeBlockSize
        = bs / P * P * d.writeBlockSize + k * d.writeBlockSize := Nat.add_mul _ _ _
    rw [e1, e2]
    congr 1
    unfold u32; omega
  · rw [if_neg hdir, if_neg hdir, if_neg (fun h => hdir (hcov.mp h))]
    simp only [Mem.erase, Mem.copy, Mem.read, List.append_assoc, List.singleton_append,
      List.cons_append, List.nil_append]
    congr 3
    apply List.map_congr_left
    intro k _
    rw [if_neg (fun h => hdir (hcov.mp h))]
    have e2 : (bs / P * P + k) * d.writeBlockSize
        = bs / P * P * d.writeBlockSize + k * d.writeBlockSize := Nat.add_mul _ _ _
    rw [e2]
    congr 1
    unfold u32; omega

/-- The commands of a sector past the first are the same for the request and
for what remains of it after its first `t` pages. -/
theorem ewSectorCmds_shift (d : DRV_MEMORY_OBJECT) (B bs n t s : Nat) (ht : t ≤ n)
    (hs : bs + t ≤ s * u8 (d.eraseBlockSize / d.writeBlockSize)) :
    ewSectorCmds d (B + t * d.writeBlockSize) (bs + t) (n - t) s = ewSectorCmds d B bs n s := by
  generalize hP : u8 (d.eraseBlockSize / d.writeBlockSize) = P at hs
  have hcov : (bs + t ≤ s * P ∧ (s + 1) * P ≤ bs + t + (n - t)) ↔
      (bs ≤ s * P ∧ (s + 1) * P ≤ bs + n) := by
    constructor
    · rintro ⟨h1, h2⟩; constructor <;> omega
    · rintro ⟨h1, h2⟩; constructor <;> omega
  unfold ewSectorCmds
  simp only [hP]
  by_cases hc : bs ≤ s * P ∧ (s + 1) * P ≤ bs + n
  · rw [if_pos hc, if_pos (hcov.mpr hc)]
    congr 2
    apply List.map_congr_left
    intro k _
    rw [if_pos hc, if_pos (hcov.mpr hc)]
    congr 1
    have e : s * P + k - bs = t + (s * P + k - (bs + t)) := by omega
    rw [e, Nat.add_mul, Nat.add_assoc]
  · rw [if_neg hc, if_neg (fun h => hc (hcov.mp h))]
    congr 2
    apply List.map_congr_left
    intro k _
    rw [if_neg hc, if_neg (fun h => hc (hcov.mp h))]

/-- The commands of an erase-write, as the machine issues them sector after
sector, are the commands of the touched sectors in ascending order. -/
theorem ewMem_log (d : DRV_MEMORY_OBJECT) (ps ss : Nat)
    (hp : u8 (d.eraseBlockSize / d.writeBlockSize) ≠ 0)
    (hPW : u8 (d.eraseBlockSize / d.writeBlockSize) * d.writeBlockSize < 4294967296) :
    ∀ (k B bs n : Nat) (m : Mem), 1 ≤ n → n ≤ k → bs + n < 4294967296 →
      (ewMem d ps ss k B bs n m).log = m.log ++ ewCmds d B bs n := by
  generalize hP : u8 (d.eraseBlockSize / d.writeBlockSize) = P at hp hPW
  intro k
  induction k with
  | zero => intro B bs n m h1 h2; omega
  | succ k ih =>
    intro B bs n m h1 h2 h3
    have hdm := Nat.div_add_mod bs P
    have hqP : bs / P * P = P * (bs / P) := Nat.mul_comm _ _
    have hq1 : (bs / P + 1) * P = bs / P * P + P := by rw [Nat.add_mul, Nat.one_mul]
    have hlt : bs % P < P := Nat.mod_lt _ (Nat.pos_of_ne_zero hp)
    have hPpos : 0 < P := Nat.pos_of_ne_zero hp
    have hsub : sub32 n (min (P - bs % P) n) = n - min (P - bs % P) n := by
      unfold sub32
      rw [if_pos (Nat.min_le_right _ _)]
    have hsec := ewSectorMem_log d ps ss B bs n m (by rw [hP]; exact hp) (by omega)
    rw [hP] at hsec
    unfold ewMem
    simp only [hP, hsub]
    by_cases hlast : n - min (P - bs % P) n = 0
    · rw [if_pos hlast, hsec]
      congr 1
      unfold ewCmds
      simp only [hP]
      have hs1 : (bs + n - 1) / P = bs / P :=
        Nat.div_eq_of_lt_le (by omega) (by omega)
      rw [hs1, Nat.sub_self]
      have hr : List.range (0 + 1) = [0] := rfl
      rw [hr, List.flatMap_cons, List.flatMap_nil, List.append_nil, Nat.add_zero]
    · rw [if_neg hlast]
      have hntw : min (P - bs % P) n = P - bs % P := by omega
      rw [hntw] at hlast ⊢
      have hle : (P - bs % P) * d.writeBlockSize ≤ P * d.writeBlockSize :=
        Nat.mul_le_mul_right _ (Nat.sub_le _ _)
      have hu1 : u32 ((P - bs % P) * d.writeBlockSize) = (P - bs % P) * d.writeBlockSize := by
        unfold u32; omega
      have hu2 : u32 (bs + (P - bs % P)) = bs + (P - bs % P) := by unfold u32; omega
      rw [hu1, hu2, ih _ _ _ _ (by omega) (by omega) (by omega), hsec, List.append_assoc]
      congr 1
      -- the sectors of the request are its first sector and those of the rest
      have hbs' : bs + (P - bs % P) = (bs / P + 1) * P := by omega
      have hq' : (bs + (P - bs % P)) / P = bs / P + 1 := by
        rw [hbs']; exact Nat.mul_div_cancel _ hPpos
      have hend : bs + (P - bs % P) + (n - (P - bs % P)) - 1 = bs + n - 1 := by omega
      have hs1 : bs / P + 1 ≤ (bs + n - 1) / P :=
        (Nat.le_div_iff_mul_le hPpos).mpr (by omega)
      unfold ewCmds
      simp only [hP]
      rw [hq', hend]
      have hlen : (bs + n - 1) / P - bs / P + 1 = ((bs + n - 1) / P - (bs / P + 1) + 1) + 1 := by
        omega
      conv_rhs =>
        rw [hlen, List.range_succ_eq_map, List.flatMap_cons, List.flatMap_map, Nat.add_zero]
      congr 1
      apply List.flatMap_congr
      intro j _
      have := ewSectorCmds_shift d B bs n (P - bs % P) (bs / P + 1 + j) (by omega)
        (by
          rw [hP, hbs']
          exact Nat.mul_le_mul_right _ (by omega))
      rw [this]
      congr 1
      simp only [Nat.succ_eq_add_one]
      omega

theorem pps_mul_le (d : DRV_MEMORY_OBJECT) :
    u8 (d.eraseBlockSize / d.writeBlockSize) * d.writeBlockSize ≤ d.eraseBlockSize := by
  have h1 : u8 (d.eraseBlockSize / d.writeBlockSize) ≤ d.eraseBlockSize / d.writeBlockSize := by
    unfold u8; exact Nat.mod_le _ _
  exact Nat.le_trans (Nat.mul_le_mul_right _ h1) (Nat.div_mul_le_self _ _)

/-- C19: an erase-write request of `nBlock >= 1` pages from page `blockStart`
that passes admission, with `pagesPerSector = (uint8_t)(eraseBlockSize /
writeBlockSize)` at least 1, on a device that accepts every command and
completes it after finitely many Busy polls (and an OS that never fails a timer
or a wait): with enough fuel `DRV_MEMORY_EraseWrite` returns `true`, and the
commands given to the device are, for the sectors `blockStart / pagesPerSector`
to `(blockStart + nBlock - 1) / pagesPerSector` in ascending order: a read of
the sector into the scratch buffer exactly when the request does not cover the
whole sector, then one sector erase, then exactly `pagesPerSector` page writes
for the pages `sector * pagesPerSector` and following. -/
theorem C19_erase_write_sector_phases (g : Driver) (w : World) (handle : Nat)
    (hasCommandHandle : Bool) (sourceBuffer blockStart nBlock : Nat) (p : ClientPtr)
    (hvalid : DRV_MEMORY_DriverHandleValidate g handle = some p)
    (hintent : (g.client p).intent &&& DRV_IO_INTENT_WRITE ≠ 0)
    (hbuf : sourceBuffer ≠ 0)
    (hn : 1 ≤ nBlock)
    (hrange : blockStart + nBlock ≤ ((g (g.client p).drvIndex).mediaGeometryTable
      SYS_MEDIA_GEOMETRY_TABLE_WRITE_ENTRY).numBlocks)
    (h32 : blockStart + nBlock < 4294967296)
    (hebs : (g (g.client p).drvIndex).eraseBlockSize < 4294967296)
    (hlock : w.lockOk w.nLock = true)
    (hse : (g (g.client p).drvIndex).memoryDevice.hasSectorErase = true)
    (hw : (g (g.client p).drvIndex).writeBlockSize ≠ 0)
    (hp : 1 ≤ u8 ((g (g.client p).drvIndex).eraseBlockSize
      / (g (g.client p).drvIndex).writeBlockSize))
    (hcoop : w.Cooperative) :
    ∃ fuel0, ∀ fuel, fuel0 ≤ fuel → ∃ r,
      DRV_MEMORY_EraseWrite fuel g w handle hasCommandHandle sourceBuffer blockStart nBlock =
        Outcome.returned r ∧
      r.isSuccess = true ∧
      r.w.cmdLog = w.cmdLog ++ ewCmds (g (g.client p).drvIndex) sourceBuffer blockStart nBlock := by
  have hp' : u8 ((g (g.client p).drvIndex).eraseBlockSize
      / (g (g.client p).drvIndex).writeBlockSize) ≠ 0 := by omega
  obtain ⟨fuel0, hrun⟩ := SetupXfer_eraseWrite g w handle hasCommandHandle sourceBuffer blockStart
    nBlock SYS_MEDIA_GEOMETRY_TABLE_WRITE_ENTRY DRV_IO_INTENT_WRITE p
    ⟨hvalid, hintent, Or.inl hbuf, by omega, hrange⟩ hlock hse hw hp' hcoop
  refine ⟨fuel0, fun fuel hf => ?_⟩
  obtain ⟨r, h1, h2, h3⟩ := hrun fuel hf
  refine ⟨r, h1, h2, ?_⟩
  have hlog := congrArg Mem.log h3
  rw [ewMem_log _ _ _ hp' (Nat.lt_of_le_of_lt (pps_mul_le _) hebs) _ _ _ _ _ hn (Nat.le_refl _)
    h32] at hlog
  exact hlog

/-- C19 at the concrete device (16 pages in a sector): the erase-write of 10
pages from page 3 gives the device one read of sector 0, one erase of sector 0
and 16 page writes from the scratch buffer. -/
theorem C19_erase_write_sector_phases_witness :
    ∃ fuel0, ∀ fuel, fuel0 ≤ fuel → ∃ r,
      DRV_MEMORY_EraseWrite fuel demoDriver demoWorld 0x10000 true 0x20002000 3 10 =
        Outcome.returned r ∧
      r.isSuccess = true ∧
      r.w.cmdLog = DevCall.read 9 0x20000000 4096 0 :: DevCall.sectorErase 9 0 ::
        (List.range 16).map (fun k => DevCall.pageWrite 9 (0x20000000 + k * 256) (k * 256)) :=
  C19_erase_write_sector_phases demoDriver demoWorld 0x10000 true 0x20002000 3 10 ⟨0, 0⟩
    demo_valid (by decide) (by decide) (by decide) (by decide) (by decide) (by decide) rfl rfl
    (by decide) (by decide) demoWorld_cooperative

/-- The stored bytes after `k` page writes of pages as large as the write
block, with no wrap of the 32-bit address: the `k` pages hold the bytes of the
buffer. -/
theorem pagesFlash_eq (wbs : Nat) (ram : Nat → Nat) : ∀ (k ptr addr : Nat) (flash : Nat → Nat),
    addr < 4294967296 → addr + k * wbs ≤ 4294967296 →
    pagesFlash wbs wbs ram k ptr addr flash =
      fun a => if addr ≤ a ∧ a < addr + k * wbs then ram (ptr + (a - addr)) else flash a := by
  intro k
  induction k with
  | zero =>
    intro ptr addr flash _ _
    funext a
    rw [if_neg (by omega)]
    rfl
  | succ k ih =>
    intro ptr addr flash h1 h2
    have hk : (k + 1) * wbs = k * wbs + wbs := by rw [Nat.add_mul, Nat.one_mul]
    rw [pagesFlash]
    by_cases hk0 : k = 0
    · subst hk0
      funext a
      simp only [pagesFlash, Nat.zero_add, Nat.one_mul]
    · have hkw : wbs ≤ k * wbs := Nat.le_mul_of_pos_left _ (Nat.pos_of_ne_zero hk0)
      have hu : u32 (addr + wbs) = addr + wbs := by
        unfold u32
        by_cases hw0 : wbs = 0
        · subst hw0; omega
        · omega
      rw [hu, ih _ _ _ (by omega) (by omega)]
      funext a
      by_cases c1 : addr + wbs ≤ a ∧ a < addr + wbs + k * wbs
      · rw [if_pos c1, if_pos (by omega)]
        congr 1
        omega
      · rw [if_neg c1]
        by_cases c2 : addr ≤ a ∧ a < addr + wbs
        · rw [if_pos c2, if_pos (by omega)]
        · rw [if_neg c2, if_neg (by omega)]

theorem u32_of_lt {x : Nat} (h : x < 4294967296) : u32 x = x := Nat.mod_eq_of_lt h

/-- The memory after the erase-write of the first sector of a request, on a
device whose pages are as large as the write block: the pages of the request in
that sector hold the caller's data, the bytes below the first page of the
sector as the driver counts it are untouched, and so is the RAM outside the
scratch buffer. -/
theorem ewSectorMem_flash (d : DRV_MEMORY_OBJECT) (ss B bs n : Nat) (m : Mem)
    (hp : u8 (d.eraseBlockSize / d.writeBlockSize) ≠ 0)
    (hn : 1 ≤ n)
    (hebs : d.eraseBlockSize < 4294967296)
    (hfit : d.blockStartAddress
      + (bs / u8 (d.eraseBlockSize / d.writeBlockSize) + 1) * d.eraseBlockSize ≤ 4294967296)
    (hdis : B + n * d.writeBlockSize ≤ d.ewBuffer ∨ d.ewBuffer + d.eraseBlockSize ≤ B) :
    (∀ a, d.blockStartAddress + bs * d.writeBlockSize ≤ a →
      a < d.blockStartAddress
        + (bs + min (u8 (d.eraseBlockSize / d.writeBlockSize)
            - bs % u8 (d.eraseBlockSize / d.writeBlockSize)) n) * d.writeBlockSize →
      (ewSectorMem d d.writeBlockSize ss B bs n m).flash a =
        m.ram (B + (a - (d.blockStartAddress + bs * d.writeBlockSize)))) ∧
    (∀ a, a < d.blockStartAddress
        + bs / u8 (d.eraseBlockSize / d.writeBlockSize)
          * u8 (d.eraseBlockSize / d.writeBlockSize) * d.writeBlockSize →
      (ewSectorMem d d.writeBlockSize ss B bs n m).flash a = m.flash a) ∧
    (∀ x, ¬ (d.ewBuffer ≤ x ∧ x < d.ewBuffer + d.eraseBlockSize) →
      (ewSectorMem d d.writeBlockSize ss B bs n m).ram x = m.ram x) := by
  have hPW := pps_mul_le d
  have hWpos : 0 < d.writeBlockSize := by
    rcases Nat.eq_zero_or_pos d.writeBlockSize with h | h
    · rw [h, Nat.div_zero] at hp; exact absurd rfl hp
    · exact h
  unfold ewSectorMem
  simp only []
  generalize u8 (d.eraseBlockSize / d.writeBlockSize) = P at hp hfit hPW ⊢
  generalize d.writeBlockSize = W at hfit hPW hdis hWpos ⊢
  generalize d.eraseBlockSize = E at hfit hPW hdis hebs ⊢
  generalize d.blockStartAddress = base at hfit ⊢
  generalize d.ewBuffer = ewBuf at hdis ⊢
  generalize (d.mediaGeometryTable 0).blockSize = rbs
  generalize d.memDevHandle = hdl
  have hPpos : 0 < P := Nat.pos_of_ne_zero hp
  have hdm := Nat.div_add_mod bs P
  have hr : bs % P < P := Nat.mod_lt _ hPpos
  generalize bs / P = q at hfit hdm ⊢
  generalize bs % P = r at hdm hr ⊢
  subst hdm
  have ht1 : min (P - r) n ≤ P - r := Nat.min_le_left _ _
  have ht2 : min (P - r) n ≤ n := Nat.min_le_right _ _
  have ht3 : 1 ≤ min (P - r) n := by omega
  have htc : r = 0 ∧ P ≤ n → min (P - r) n = P := by omega
  generalize min (P - r) n = t at ht1 ht2 ht3 htc ⊢
  have h1 : (P * q + r) * W = q * P * W + r * W := by ring
  have h2 : (P * q + r + t) * W = q * P * W + r * W + t * W := by ring
  have h3 : q * P * W ≤ q * E := by
    rw [Nat.mul_assoc]; exact Nat.mul_le_mul_left _ hPW
  have h4 : r * W + t * W ≤ P * W := by
    rw [← Nat.add_mul]; exact Nat.mul_le_mul_right _ (by omega)
  have h5 : (q + 1) * E = q * E + E := by ring
  have h6 : t * W ≤ n * W := Nat.mul_le_mul_right _ ht2
  have h7 : q * P ≤ q * P * W := Nat.le_mul_of_pos_right _ hWpos
  have h8 : t ≤ t * W := Nat.le_mul_of_pos_right _ hWpos
  rw [h1, h2]
  have e1 : u32 (q * E) = q * E := u32_of_lt (by omega)
  have e2 : u32 (q * E + base) = q * E + base := u32_of_lt (by omega)
  have e3 : u32 (q * P) = q * P := u32_of_lt (by omega)
  have e4 : u32 (q * P * W) = q * P * W := u32_of_lt (by omega)
  have e5 : u32 (q * P * W + base) = q * P * W + base := u32_of_lt (by omega)
  have e6 : u32 (r * W) = r * W := u32_of_lt (by omega)
  have e7 : u32 (t * W) = t * W := u32_of_lt (by omega)
  simp only [e1, e2, e3, e4, e5, e6, e7, Mem.pages, Mem.erase, Mem.read, Mem.copy]
  rw [pagesFlash_eq _ _ _ _ _ _ (by omega) (by omega)]
  by_cases hcov : r = 0 ∧ P ≤ n
  · have htP := htc hcov
    obtain ⟨hr0, hPn⟩ := hcov
    subst hr0
    subst htP
    simp only [hPn, and_self, if_true, Nat.zero_mul, Nat.add_zero] 
    refine ⟨fun a ha1 ha2 => ?_, fun a ha => ?_, fun x _ => trivial⟩
    · rw [if_pos (by omega)]
      congr 2
      omega
    · rw [if_neg (by omega), if_neg (by omega)]
  · simp only [hcov, if_false]
    refine ⟨fun a ha1 ha2 => ?_, fun a ha => ?_, fun x hx => ?_⟩
    · rw [if_pos (by omega), if_pos (by omega), if_neg (by omega)]
      congr 1
      omega
    · rw [if_neg (by omega), if_neg (by omega)]
    · rw [if_neg (by omega), if_neg hx]

/-- The memory after an erase-write, on a device whose pages are as large as
the write block, when no address wraps and the caller's data lie outside the
scratch buffer: the requested pages hold the caller's data, the bytes below the
first page of the first sector as the driver counts it are untouched, and so is
the RAM outside the scratch buffer. -/
theorem ewMem_flash (d : DRV_MEMORY_OBJECT) (ss : Nat)
    (hp : u8 (d.eraseBlockSize / d.writeBlockSize) ≠ 0)
    (hebs : d.eraseBlockSize < 4294967296) :
    ∀ (k B bs n : Nat) (m : Mem), 1 ≤ n → n ≤ k → bs + n < 4294967296 →
      d.blockStartAddress
        + ((bs + n - 1) / u8 (d.eraseBlockSize / d.writeBlockSize) + 1) * d.eraseBlockSize
          ≤ 4294967296 →
      (B + n * d.writeBlockSize ≤ d.ewBuffer ∨ d.ewBuffer + d.eraseBlockSize ≤ B) →
      (∀ a, d.blockStartAddress + bs * d.writeBlockSize ≤ a →
        a < d.blockStartAddress + (bs + n) * d.writeBlockSize →
        (ewMem d d.writeBlockSize ss k B bs n m).flash a =
          m.ram (B + (a - (d.blockStartAddress + bs * d.writeBlockSize)))) ∧
      (∀ a, a < d.blockStartAddress
          + bs / u8 (d.eraseBlockSize / d.writeBlockSize)
            * u8 (d.eraseBlockSize / d.writeBlockSize) * d.writeBlockSize →
        (ewMem d d.writeBlockSize ss k B bs n m).flash a = m.flash a) ∧
      (∀ x, ¬ (d.ewBuffer ≤ x ∧ x < d.ewBuffer + d.eraseBlockSize) →
        (ewMem d d.writeBlockSize ss k B bs n m).ram x = m.ram x) := by
  have hPW := pps_mul_le d
  intro k
  induction k with
  | zero => intro B bs n m h1 h2; omega
  | succ k ih =>
    intro B bs n m h1 h2 h3 hfit hdis
    have hPpos : 0 < u8 (d.eraseBlockSize / d.writeBlockSize) := Nat.pos_of_ne_zero hp
    have hmono : bs / u8 (d.eraseBlockSize / d.writeBlockSize)
        ≤ (bs + n - 1) / u8 (d.eraseBlockSize / d.writeBlockSize) :=
      Nat.div_le_div_right (by omega)
    have hfit1 : d.blockStartAddress
        + (bs / u8 (d.eraseBlockSize / d.writeBlockSize) + 1) * d.eraseBlockSize
          ≤ 4294967296 :=
      Nat.le_trans (Nat.add_le_add_left (Nat.mul_le_mul_right _ (by omega)) _) hfit
    have hsec := ewSectorMem_flash d ss B bs n m hp h1 hebs hfit1 hdis
    have hsub : sub32 n (min (u8 (d.eraseBlockSize / d.writeBlockSize)
        - bs % u8 (d.eraseBlockSize / d.writeBlockSize)) n)
        = n - min (u8 (d.eraseBlockSize / d.writeBlockSize)
        - bs % u8 (d.eraseBlockSize / d.writeBlockSize)) n := by
      unfold sub32
      rw [if_pos (Nat.min_le_right _ _)]
    unfold ewMem
    simp only [hsub]
    generalize ewSectorMem d d.writeBlockSize ss B bs n m = m1 at hsec ⊢
    generalize hP : u8 (d.eraseBlockSize / d.writeBlockSize) = P at *
    generalize hW : d.writeBlockSize = W at *
    generalize hE : d.eraseBlockSize = E at *
    generalize hb : d.blockStartAddress = base at *
    generalize he : d.ewBuffer = ewBuf at *
    have hdm := Nat.div_add_mod bs P
    have hqP : bs / P * P = P * (bs / P) := Nat.mul_comm _ _
    have hlt : bs % P < P := Nat.mod_lt _ hPpos
    by_cases hlast : n - min (P - bs % P) n = 0
    · rw [if_pos hlast]
      have hntw : min (P - bs % P) n = n := by omega
      rw [hntw] at hsec
      exact hsec
    · rw [if_neg hlast]
      have hntw : min (P - bs % P) n = P - bs % P := by omega
      rw [hntw] at hlast hsec ⊢
      have hle : (P - bs % P) * W ≤ P * W := Nat.mul_le_mul_right _ (Nat.sub_le _ _)
      have hu1 : u32 ((P - bs % P) * W) = (P - bs % P) * W := u32_of_lt (by omega)
      have hu2 : u32 (bs + (P - bs % P)) = bs + (P - bs % P) := u32_of_lt (by omega)
      have hbs' : bs + (P - bs % P) = (bs / P + 1) * P := by
        rw [Nat.add_mul, Nat.one_mul]; omega
      have hq' : (bs + (P - bs % P)) / P = bs / P + 1 := by
        rw [hbs']; exact Nat.mul_div_cancel _ hPpos
      have hend : bs + (P - bs % P) + (n - (P - bs % P)) - 1 = bs + n - 1 := by omega
      have hend2 : bs + (P - bs % P) + (n - (P - bs % P)) = bs + n := by omega
      have hsplit : (P - bs % P) * W + (n - (P - bs % P)) * W = n * W := by
        rw [← Nat.add_mul]; congr 1; omega
      have hmul : (bs + (P - bs % P)) * W = bs * W + (P - bs % P) * W := Nat.add_mul _ _ _
      have hmul2 : (bs + n) * W = bs * W + n * W := Nat.add_mul _ _ _
      have hfloor : bs / P * P * W ≤ bs * W := Nat.mul_le_mul_right _ (by omega)
      rw [hu1, hu2]
      obtain ⟨ia, ib, ic⟩ := ih (B + (P - bs % P) * W) (bs + (P - bs % P)) (n - (P - bs % P)) m1
        (by omega) (by omega) (by omega) (by rw [hend]; exact hfit) (by omega)
      rw [hq', ← hbs'] at ib
      rw [hend2] at ia
      obtain ⟨sa, sb, sc⟩ := hsec
      refine ⟨fun a ha1 ha2 => ?_, fun a ha => ?_, fun x hx => ?_⟩
      · by_cases hlow : a < base + (bs + (P - bs % P)) * W
        · rw [ib a hlow]
          exact sa a ha1 hlow
        · rw [ia a (by omega) ha2, sc _ (by omega)]
          congr 1
          omega
      · rw [ib a (by omega)]
        exact sb a ha
      · rw [ic x hx]
        exact sc x hx

/-- The erase-write of the first sector of a request leaves every byte outside
the requested pages as it was, when the read block is one byte, the erase block
is exactly `pagesPerSector` write blocks, and the pages and sectors of the
device are the write and erase blocks. -/
theorem ewSectorMem_frame (d : DRV_MEMORY_OBJECT) (B bs n : Nat) (m : Mem)
    (hp : u8 (d.eraseBlockSize / d.writeBlockSize) ≠ 0)
    (hn : 1 ≤ n)
    (hebs : d.eraseBlockSize < 4294967296)
    (hrbs : (d.mediaGeometryTable 0).blockSize = 1)
    (hexact : u8 (d.eraseBlockSize / d.writeBlockSize) * d.writeBlockSize = d.eraseBlockSize)
    (hfit : d.blockStartAddress
      + (bs / u8 (d.eraseBlockSize / d.writeBlockSize) + 1) * d.eraseBlockSize ≤ 4294967296) :
    ∀ a, ¬ (d.blockStartAddress + bs * d.writeBlockSize ≤ a ∧
      a < d.blockStartAddress
        + (bs + min (u8 (d.eraseBlockSize / d.writeBlockSize)
            - bs % u8 (d.eraseBlockSize / d.writeBlockSize)) n) * d.writeBlockSize) →
      (ewSectorMem d d.writeBlockSize d.eraseBlockSize B bs n m).flash a = m.flash a := by
  have hWpos : 0 < d.writeBlockSize := by
    rcases Nat.eq_zero_or_pos d.writeBlockSize with h | h
    · rw [h, Nat.div_zero] at hp; exact absurd rfl hp
    · exact h
  unfold ewSectorMem
  simp only [hrbs, Nat.mul_one]
  generalize u8 (d.eraseBlockSize / d.writeBlockSize) = P at hp hfit hexact ⊢
  generalize d.writeBlockSize = W at hfit hexact hWpos ⊢
  generalize d.eraseBlockSize = E at hfit hexact hebs ⊢
  generalize d.blockStartAddress = base at hfit ⊢
  generalize d.ewBuffer = ewBuf
  generalize d.memDevHandle = hdl
  have hPpos : 0 < P := Nat.pos_of_ne_zero hp
  have hdm := Nat.div_add_mod bs P
  have hr : bs % P < P := Nat.mod_lt _ hPpos
  generalize bs / P = q at hfit hdm ⊢
  generalize bs % P = r at hdm hr ⊢
  subst hdm
  have ht1 : min (P - r) n ≤ P - r := Nat.min_le_left _ _
  have ht2 : min (P - r) n ≤ n := Nat.min_le_right _ _
  have ht3 : 1 ≤ min (P - r) n := by omega
  have htc : r = 0 ∧ P ≤ n → min (P - r) n = P := by omega
  generalize min (P - r) n = t at ht1 ht2 ht3 htc ⊢
  have h1 : (P * q + r) * W = q * P * W + r * W := by ring
  have h2 : (P * q + r + t) * W = q * P * W + r * W + t * W := by ring
  have h3 : q * P * W = q * E := by rw [Nat.mul_assoc, hexact]
  have h4 : r * W + t * W ≤ P * W := by
    rw [← Nat.add_mul]; exact Nat.mul_le_mul_right _ (by omega)
  have h5 : (q + 1) * E = q * E + E := by ring
  have h7 : q * P ≤ q * P * W := Nat.le_mul_of_pos_right _ hWpos
  have h8 : t ≤ t * W := Nat.le_mul_of_pos_right _ hWpos
  rw [h1, h2]
  have e1 : u32 (q * E) = q * E := u32_of_lt (by omega)
  have e2 : u32 (q * E + base) = q * E + base := u32_of_lt (by omega)
  have e3 : u32 (q * P) = q * P := u32_of_lt (by omega)
  have e4 : u32 (q * P * W) = q * P * W := u32_of_lt (by omega)
  have e5 : u32 (q * P * W + base) = q * P * W + base := u32_of_lt (by omega)
  have e6 : u32 (r * W) = r * W := u32_of_lt (by omega)
  have e7 : u32 (t * W) = t * W := u32_of_lt (by omega)
  simp only [e1, e2, e3, e4, e5, e6, e7, Mem.pages, Mem.erase, Mem.read, Mem.copy]
  rw [pagesFlash_eq _ _ _ _ _ _ (by omega) (by omega)]
  intro a ha
  by_cases hcov : r = 0 ∧ P ≤ n
  · have htP := htc hcov
    obtain ⟨hr0, hPn⟩ := hcov
    subst hr0
    subst htP
    simp only [hPn, and_self, if_true, Nat.zero_mul, Nat.add_zero] at ha ⊢
    rw [if_neg (by omega), if_neg (by omega)]
  · simp only [hcov, if_false]
    by_cases hin : q * P * W + base ≤ a ∧ a < q * P * W + base + P * W
    · rw [if_pos hin, if_neg (by omega), if_pos (by omega)]
      congr 1
      omega
    · rw [if_neg hin, if_neg (by omega)]

/-- An erase-write leaves every byte outside the requested pages as it was,
when the read block is one byte, the erase block is exactly `pagesPerSector`
write blocks, the pages and sectors of the device are the write and erase
blocks, and no address wraps. -/
theorem ewMem_frame (d : DRV_MEMORY_OBJECT)
    (hp : u8 (d.eraseBlockSize / d.writeBlockSize) ≠ 0)
    (hebs : d.eraseBlockSize < 4294967296)
    (hrbs : (d.mediaGeometryTable 0).blockSize = 1)
    (hexact : u8 (d.eraseBlockSize / d.writeBlockSize) * d.writeBlockSize = d.eraseBlockSize) :
    ∀ (k B bs n : Nat) (m : Mem), 1 ≤ n → n ≤ k → bs + n < 4294967296 →
      d.blockStartAddress
        + ((bs + n - 1) / u8 (d.eraseBlockSize / d.writeBlockSize) + 1) * d.eraseBlockSize
          ≤ 4294967296 →
      ∀ a, ¬ (d.blockStartAddress + bs * d.writeBlockSize ≤ a ∧
          a < d.blockStartAddress + (bs + n) * d.writeBlockSize) →
        (ewMem d d.writeBlockSize d.eraseBlockSize k B bs n m).flash a = m.flash a := by
  intro k
  induction k with
  | zero => intro B bs n m h1 h2; omega
  | succ k ih =>
    intro B bs n m h1 h2 h3 hfit a ha
    have hPpos : 0 < u8 (d.eraseBlockSize / d.writeBlockSize) := Nat.pos_of_ne_zero hp
    have hmono : bs / u8 (d.eraseBlockSize / d.writeBlockSize)
        ≤ (bs + n - 1) / u8 (d.eraseBlockSize / d.writeBlockSize) :=
      Nat.div_le_div_right (by omega)
    have hfit1 : d.blockStartAddress
        + (bs / u8 (d.eraseBlockSize / d.writeBlockSize) + 1) * d.eraseBlockSize
          ≤ 4294967296 :=
      Nat.le_trans (Nat.add_le_add_left (Nat.mul_le_mul_right _ (by omega)) _) hfit
    have hsec := ewSectorMem_frame d B bs n m hp h1 hebs hrbs hexact hfit1 a
    have hsub : sub32 n (min (u8 (d.eraseBlockSize / d.writeBlockSize)
        - bs % u8 (d.eraseBlockSize / d.writeBlockSize)) n)
        = n - min (u8 (d.eraseBlockSize / d.writeBlockSize)
        - bs % u8 (d.eraseBlockSize / d.writeBlockSize)) n := by
      unfold sub32
      rw [if_pos (Nat.min_le_right _ _)]
    unfold ewMem
    simp only [hsub]
    generalize ewSectorMem d d.writeBlockSize d.eraseBlockSize B bs n m = m1 at hsec ⊢
    have hPW : u8 (d.eraseBlockSize / d.writeBlockSize) * d.writeBlockSize < 4294967296 := by
      rw [hexact]; exact hebs
    clear hexact hrbs
    generalize hP : u8 (d.eraseBlockSize / d.writeBlockSize) = P at *
    generalize hW : d.writeBlockSize = W at *
    generalize hE : d.eraseBlockSize = E at *
    generalize hb : d.blockStartAddress = base at *
    have hdm := Nat.div_add_mod bs P
    have hlt : bs % P < P := Nat.mod_lt _ hPpos
    by_cases hlast : n - min (P - bs % P) n = 0
    · rw [if_pos hlast]
      have hntw : min (P - bs % P) n = n := by omega
      rw [hntw] at hsec
      exact hsec ha
    · rw [if_neg hlast]
      have hntw : min (P - bs % P) n = P - bs % P := by omega
      rw [hntw] at hlast hsec ⊢
      have hle : (P - bs % P) * W ≤ P * W := Nat.mul_le_mul_right _ (Nat.sub_le _ _)
      have hu1 : u32 ((P - bs % P) * W) = (P - bs % P) * W := u32_of_lt (by omega)
      have hu2 : u32 (bs + (P - bs % P)) = bs + (P - bs % P) := u32_of_lt (by omega)
      have hend : bs + (P - bs % P) + (n - (P - bs % P)) - 1 = bs + n - 1 := by omega
      have hend2 : bs + (P - bs % P) + (n - (P - bs % P)) = bs + n := by omega
      have hmul : (bs + (P - bs % P)) * W = bs * W + (P - bs % P) * W := Nat.add_mul _ _ _
      have hmul2 : (bs + n) * W = bs * W + n * W := Nat.add_mul _ _ _
      have hnW : (P - bs % P) * W ≤ n * W := Nat.mul_le_mul_right _ (by omega)
      rw [hu1, hu2]
      have ia := ih (B + (P - bs % P) * W) (bs + (P - bs % P)) (n - (P - bs % P)) m1
        (by omega) (by omega) (by omega) (by rw [hend]; exact hfit) a
      rw [hend2] at ia
      rw [ia (by omega)]
      exact hsec (by omega)

/-- C3: an erase-write request of `nBlock >= 1` pages from page `blockStart`
that passes admission, on the flash model (a device that accepts every command
and completes it after finitely many Busy polls, whose page is the write block;
an OS that never fails a timer or a wait), with `pagesPerSector` not zero, the
touched sectors inside the 32-bit address space and the caller's data outside
the scratch buffer of the driver: with enough fuel `DRV_MEMORY_EraseWrite`
returns `true`, and afterwards every device byte of the requested range
`[blockStart * writeBlockSize, (blockStart + nBlock) * writeBlockSize)` of the
media holds the byte of the caller's buffer at the same offset. -/
theorem C3_erase_write_stores_input (g : Driver) (w : World) (handle : Nat)
    (hasCommandHandle : Bool) (sourceBuffer blockStart nBlock : Nat) (p : ClientPtr)
    (hvalid : DRV_MEMORY_DriverHandleValidate g handle = some p)
    (hintent : (g.client p).intent &&& DRV_IO_INTENT_WRITE ≠ 0)
    (hbuf : sourceBuffer ≠ 0)
    (hn : 1 ≤ nBlock)
    (hrange : blockStart + nBlock ≤ ((g (g.client p).drvIndex).mediaGeometryTable
      SYS_MEDIA_GEOMETRY_TABLE_WRITE_ENTRY).numBlocks)
    (h32 : blockStart + nBlock < 4294967296)
    (hebs : (g (g.client p).drvIndex).eraseBlockSize < 4294967296)
    (hlock : w.lockOk w.nLock = true)
    (hse : (g (g.client p).drvIndex).memoryDevice.hasSectorErase = true)
    (hp : 1 ≤ u8 ((g (g.client p).drvIndex).eraseBlockSize
      / (g (g.client p).drvIndex).writeBlockSize))
    (hpage : w.devPageSize = (g (g.client p).drvIndex).writeBlockSize)
    (hfit : (g (g.client p).drvIndex).blockStartAddress
      + ((blockStart + nBlock - 1) / u8 ((g (g.client p).drvIndex).eraseBlockSize
          / (g (g.client p).drvIndex).writeBlockSize) + 1)
        * (g (g.client p).drvIndex).eraseBlockSize ≤ 4294967296)
    (hdis : sourceBuffer + nBlock * (g (g.client p).drvIndex).writeBlockSize
        ≤ (g (g.client p).drvIndex).ewBuffer ∨
      (g (g.client p).drvIndex).ewBuffer + (g (g.client p).drvIndex).eraseBlockSize
        ≤ sourceBuffer)
    (hcoop : w.Cooperative) :
    ∃ fuel0, ∀ fuel, fuel0 ≤ fuel → ∃ r,
      DRV_MEMORY_EraseWrite fuel g w handle hasCommandHandle sourceBuffer blockStart nBlock =
        Outcome.returned r ∧
      r.isSuccess = true ∧
      ∀ a, (g (g.client p).drvIndex).blockStartAddress
            + blockStart * (g (g.client p).drvIndex).writeBlockSize ≤ a →
        a < (g (g.client p).drvIndex).blockStartAddress
            + (blockStart + nBlock) * (g (g.client p).drvIndex).writeBlockSize →
        r.w.flash a = w.ram (sourceBuffer + (a - ((g (g.client p).drvIndex).blockStartAddress
            + blockStart * (g (g.client p).drvIndex).writeBlockSize))) := by
  have hp' : u8 ((g (g.client p).drvIndex).eraseBlockSize
      / (g (g.client p).drvIndex).writeBlockSize) ≠ 0 := by omega
  have hw : (g (g.client p).drvIndex).writeBlockSize ≠ 0 := by
    intro h
    rw [h, Nat.div_zero] at hp'
    exact hp' rfl
  obtain ⟨fuel0, hrun⟩ := SetupXfer_eraseWrite g w handle hasCommandHandle sourceBuffer blockStart
    nBlock SYS_MEDIA_GEOMETRY_TABLE_WRITE_ENTRY DRV_IO_INTENT_WRITE p
    ⟨hvalid, hintent, Or.inl hbuf, by omega, hrange⟩ hlock hse hw hp' hcoop
  refine ⟨fuel0, fun fuel hf => ?_⟩
  obtain ⟨r, h1, h2, h3⟩ := hrun fuel hf
  refine ⟨r, h1, h2, fun a ha1 ha2 => ?_⟩
  have hfl := congrArg Mem.flash h3
  rw [hpage] at hfl
  have := (ewMem_flash _ w.devSectorSize hp' hebs nBlock sourceBuffer blockStart nBlock w.mem hn
    (Nat.le_refl _) h32 hfit hdis).1 a ha1 ha2
  rw [← hfl] at this
  exact this

/-- C3 at the concrete device (write block 256, erase block 4096): after the
erase-write of 10 pages from page 3, bytes 768..3327 of sector 0 hold the 2560
bytes of the caller's buffer, and bytes 0..767 and 3328..4095 are as before. -/
theorem C3_erase_write_stores_input_witness :
    ∃ fuel0, ∀ fuel, fuel0 ≤ fuel → ∃ r,
      DRV_MEMORY_EraseWrite fuel demoDriver demoWorld 0x10000 true 0x20002000 3 10 =
        Outcome.returned r ∧
      r.isSuccess = true ∧
      (∀ a, 768 ≤ a → a < 3328 → r.w.flash a = demoWorld.ram (0x20002000 + (a - 768))) ∧
      (∀ a, a < 768 ∨ (3328 ≤ a ∧ a < 4096) → r.w.flash a = demoWorld.flash a) := by
  obtain ⟨f1, h1⟩ := C3_erase_write_stores_input demoDriver demoWorld 0x10000 true 0x20002000
    3 10 ⟨0, 0⟩ demo_valid (by decide) (by decide) (by decide) (by decide) (by decide)
    (by decide) rfl rfl (by decide) rfl (by decide) (by decide) demoWorld_cooperative
  obtain ⟨f2, h2⟩ := SetupXfer_eraseWrite demoDriver demoWorld 0x10000 true 0x20002000 3 10
    SYS_MEDIA_GEOMETRY_TABLE_WRITE_ENTRY DRV_IO_INTENT_WRITE ⟨0, 0⟩
    ⟨demo_valid, by decide, Or.inl (by decide), by decide, by decide⟩ rfl rfl (by decide)
    (by decide) demoWorld_cooperative
  refine ⟨max f1 f2, fun fuel hf => ?_⟩
  obtain ⟨r, e1, s1, hin⟩ := h1 fuel (Nat.le_trans (Nat.le_max_left _ _) hf)
  obtain ⟨r', e2, -, hmem⟩ := h2 fuel (Nat.le_trans (Nat.le_max_right _ _) hf)
  have hr : r' = r := Outcome.returned.inj (e2.symm.trans e1)
  subst hr
  refine ⟨_, e1, s1, hin, fun a ha => ?_⟩
  have hfl := congrArg Mem.flash hmem
  have := ewMem_frame demoObj (by decide) (by decide) rfl (by decide) 10 0x20002000 3 10
    demoWorld.mem (by decide) (by decide) (by decide) (by decide) a
    (by show ¬ (768 ≤ a ∧ a < 3328); omega)
  exact (congrFun hfl a).trans this

theorem demoRead2_valid : DRV_MEMORY_DriverHandleValidate demoDriverRead2 0x10000 = some ⟨0, 0⟩ := by
  decide

/-- C2, evaluated on the device with a 2-byte read block: the erase-write of
pages 19 and 20 (bytes 4864..5375, inside sector 1) returns `true`, and byte
4096 of sector 1, outside the requested range, held 80 before and holds 160
afterwards, the byte that was stored at 8192: the sector was read from
`sectorNumber * eraseBlockSize * readBlockSize`. -/
theorem C2_erase_write_frame_read_block_2 :
    ∃ fuel0, ∀ fuel, fuel0 ≤ fuel → ∃ r,
      DRV_MEMORY_EraseWrite fuel demoDriverRead2 demoWorld 0x10000 true 0x20002000 19 2 =
        Outcome.returned r ∧
      r.isSuccess = true ∧
      demoWorld.flash 4096 = 80 ∧ demoWorld.flash 8192 = 160 ∧ r.w.flash 4096 = 160 := by
  obtain ⟨f, h⟩ := SetupXfer_eraseWrite demoDriverRead2 demoWorld 0x10000 true 0x20002000 19 2
    SYS_MEDIA_GEOMETRY_TABLE_WRITE_ENTRY DRV_IO_INTENT_WRITE ⟨0, 0⟩
    ⟨demoRead2_valid, by decide, Or.inl (by decide), by decide, by decide⟩ rfl rfl (by decide)
    (by decide) demoWorld_cooperative
  refine ⟨f, fun fuel hf => ?_⟩
  obtain ⟨r, e, s, hmem⟩ := h fuel hf
  refine ⟨r, e, s, rfl, rfl, ?_⟩
  have hfl := congrFun (congrArg Mem.flash hmem) 4096
  exact hfl.trans (by decide)

/-- A tick of the read machine in its Init state whose read command is
accepted. -/
theorem HandleRead_INIT_accepted (d : DRV_MEMORY_OBJECT) (w : World) (data blockStart nBlocks : Nat)
    (hs : d.readState = DRV_MEMORY_READ_INIT) (hacc : w.accept w.cmdLog.length = true) :
    DRV_MEMORY_HandleRead d w data blockStart nBlocks =
      (w.tstatus w.nPoll, { d with readState := DRV_MEMORY_READ_MEM_STATUS },
        { w with
          cmdLog := w.cmdLog ++ [DevCall.read d.memDevHandle data nBlocks
            (u32 (u32 (blockStart * (d.mediaGeometryTable 0).blockSize) + d.blockStartAddress))],
          ram := fun a =>
            if data ≤ a ∧ a < data + nBlocks then
              w.flash (u32 (u32 (blockStart * (d.mediaGeometryTable 0).blockSize)
                + d.blockStartAddress) + (a - data))
            else w.ram a,
          nPoll := w.nPoll + 1 }) := by
  unfold DRV_MEMORY_HandleRead
  rw [hs]
  simp [DRV_MEMORY_HandleRead_MEM, World.devRead, hacc, DRV_MEMORY_HandleRead_MEM_STATUS,
    World.devTransferStatusGet]

/-- A tick of the read machine in its PollStatus state. -/
theorem HandleRead_MEM_STATUS_eq (d : DRV_MEMORY_OBJECT) (w : World) (data blockStart nBlocks : Nat)
    (hs : d.readState = DRV_MEMORY_READ_MEM_STATUS) :
    DRV_MEMORY_HandleRead d w data blockStart nBlocks =
      (w.tstatus w.nPoll, d, { w with nPoll := w.nPoll + 1 }) := by
  unfold DRV_MEMORY_HandleRead
  rw [hs]
  rfl

/-- C25: the ticks of the read machine for one command, from the Init state,
when the device accepts the read command. Tick number `k + 1` returns the
answer of the device to status poll number `k + 1`, verbatim; after it the
machine is in the PollStatus state, the device has been given exactly one
command since the first tick began, the read of `nBlocks` blocks into `data`
at the 32-bit address `blockStart * readBlockSize + blockStartAddress`, issued
in the first tick, and its status has been polled `k + 1` times. -/
theorem C25_read_issued_once_then_polled (d : DRV_MEMORY_OBJECT) (w : World)
    (data blockStart nBlocks : Nat)
    (hs : d.readState = DRV_MEMORY_READ_INIT) (hacc : w.accept w.cmdLog.length = true) (k : Nat) :
    readTicks data blockStart nBlocks k d w =
      (w.tstatus (w.nPoll + k), { d with readState := DRV_MEMORY_READ_MEM_STATUS },
        { w with
          cmdLog := w.cmdLog ++ [DevCall.read d.memDevHandle data nBlocks
            (u32 (u32 (blockStart * (d.mediaGeometryTable 0).blockSize) + d.blockStartAddress))],
          ram := fun a =>
            if data ≤ a ∧ a < data + nBlocks then
              w.flash (u32 (u32 (blockStart * (d.mediaGeometryTable 0).blockSize)
                + d.blockStartAddress) + (a - data))
            else w.ram a,
          nPoll := w.nPoll + k + 1 }) := by
  induction k with
  | zero => exact HandleRead_INIT_accepted d w data blockStart nBlocks hs hacc
  | succ k ih =>
    rw [readTicks, ih, HandleRead_MEM_STATUS_eq _ _ _ _ _ rfl]
    rfl

/-- C25 at the concrete device: the third tick of a read of 100 bytes from
byte 5 returns the third answer of the device, Busy; one read command has been
given, at address 5, and three polls made. -/
theorem C25_read_issued_once_then_polled_witness :
    (readTicks 0x20002000 5 100 2 demoObj demoWorld).1 = MEMORY_DEVICE_TRANSFER_BUSY ∧
    (readTicks 0x20002000 5 100 2 demoObj demoWorld).2.1.readState = DRV_MEMORY_READ_MEM_STATUS ∧
    (readTicks 0x20002000 5 100 2 demoObj demoWorld).2.2.cmdLog =
      [DevCall.read 9 0x20002000 100 5] ∧
    (readTicks 0x20002000 5 100 2 demoObj demoWorld).2.2.nPoll = 3 := by
  rw [C25_read_issued_once_then_polled demoObj demoWorld 0x20002000 5 100 rfl rfl 2]
  exact ⟨rfl, rfl, rfl, rfl⟩

/-- C26: a tick of the read machine that issues the read command (it starts in
the Init or the IssueRead state) to a device that rejects it: the tick returns
`MEMORY_DEVICE_TRANSFER_ERROR_UNKNOWN`, the machine is left in the IssueRead
state and not in PollStatus, the status of the device has not been polled, and
neither the RAM nor the stored bytes have changed. -/
theorem C26_read_rejected_reports_error (d : DRV_MEMORY_OBJECT) (w : World)
    (data blockStart nBlocks : Nat)
    (hs : d.readState ≠ DRV_MEMORY_READ_MEM_STATUS)
    (hrej : w.accept w.cmdLog.length = false) :
    (DRV_MEMORY_HandleRead d w data blockStart nBlocks).1 = MEMORY_DEVICE_TRANSFER_ERROR_UNKNOWN ∧
    (DRV_MEMORY_HandleRead d w data blockStart nBlocks).2.1.readState = DRV_MEMORY_READ_MEM ∧
    (DRV_MEMORY_HandleRead d w data blockStart nBlocks).2.1.readState
      ≠ DRV_MEMORY_READ_MEM_STATUS ∧
    (DRV_MEMORY_HandleRead d w data blockStart nBlocks).2.2.nPoll = w.nPoll ∧
    (DRV_MEMORY_HandleRead d w data blockStart nBlocks).2.2.ram = w.ram ∧
    (DRV_MEMORY_HandleRead d w data blockStart nBlocks).2.2.flash = w.flash := by
  unfold DRV_MEMORY_HandleRead
  cases h : d.readState with
  | DRV_MEMORY_READ_INIT =>
    simp [DRV_MEMORY_HandleRead_MEM, World.devRead, hrej]
  | DRV_MEMORY_READ_MEM =>
    simp [DRV_MEMORY_HandleRead_MEM, World.devRead, hrej, h]
  | DRV_MEMORY_READ_MEM_STATUS => exact absurd h hs

/-- C26 at the concrete device, with a device that rejects the read. -/
theorem C26_read_rejected_reports_error_witness :
    (DRV_MEMORY_HandleRead demoObj demoWorldReject 0x20002000 5 100).1 =
      MEMORY_DEVICE_TRANSFER_ERROR_UNKNOWN ∧
    (DRV_MEMORY_HandleRead demoObj demoWorldReject 0x20002000 5 100).2.1.readState =
      DRV_MEMORY_READ_MEM ∧
    (DRV_MEMORY_HandleRead demoObj demoWorldReject 0x20002000 5 100).2.2.nPoll = 0 :=
  have h := C26_read_rejected_reports_error demoObj demoWorldReject 0x20002000 5 100
    (by decide) rfl
  ⟨h.1, h.2.1, h.2.2.2.1⟩

/-- A tick of the write machine in its PollStatus state. -/
theorem HandleWrite_MEM_STATUS_eq (d : DRV_MEMORY_OBJECT) (w : World) :
    DRV_MEMORY_HandleWrite_MEM_STATUS d w =
      if w.tstatus w.nPoll = MEMORY_DEVICE_TRANSFER_COMPLETED then
        if dec32 d.nBlocks ≠ 0 then
          (MEMORY_DEVICE_TRANSFER_BUSY,
            { d with
              nBlocks := dec32 d.nBlocks,
              blockAddress := u32 (d.blockAddress + d.writeBlockSize),
              writePtr := d.writePtr + d.writeBlockSize,
              writeState := DRV_MEMORY_WRITE_MEM }, { w with nPoll := w.nPoll + 1 })
        else
          (MEMORY_DEVICE_TRANSFER_COMPLETED, { d with nBlocks := dec32 d.nBlocks },
            { w with nPoll := w.nPoll + 1 })
      else (w.tstatus w.nPoll, d, { w with nPoll := w.nPoll + 1 }) := by
  unfold DRV_MEMORY_HandleWrite_MEM_STATUS World.devTransferStatusGet
  by_cases h1 : w.tstatus w.nPoll = MEMORY_DEVICE_TRANSFER_COMPLETED
  · by_cases h2 : dec32 d.nBlocks ≠ 0
    · simp only [h1, h2, if_true, ne_eq, not_false_eq_true]
    · simp only [h1, h2, if_true, if_false, ne_eq]
  · simp only [h1, if_false]

/-- C28: a tick of the write machine after Init (it starts in the IssuePage or
the PollStatus state). The tick gives the device one `page_write`, from the
buffer cursor at the page address, when it starts in IssuePage, and no command
when it starts in PollStatus. When the `page_write` is rejected the tick
returns `MEMORY_DEVICE_TRANSFER_ERROR_UNKNOWN` without a poll, and the page
address, the buffer cursor and the remaining page count are unchanged. When
the status poll answers anything but Completed (Busy or an error) the tick
returns that answer, the three are unchanged and the machine is in PollStatus.
When the poll answers Completed and pages remain, the tick returns Busy, the
page address (a `uint32_t`) and the buffer cursor have advanced by exactly
`writeBlockSize`, and the machine is in IssuePage: only then is the next page
issued. When the poll answers Completed and no page remains the tick returns
Completed with the page address and the buffer cursor unchanged. -/
theorem C28_write_cursor_advances_on_completed (d : DRV_MEMORY_OBJECT) (w : World)
    (data blockStart nBlocks : Nat) (r : Nat × DRV_MEMORY_OBJECT × World)
    (hs : d.writeState ≠ DRV_MEMORY_WRITE_INIT)
    (hr : r = DRV_MEMORY_HandleWrite d w data blockStart nBlocks) :
    (r.2.2.cmdLog =
      if d.writeState = DRV_MEMORY_WRITE_MEM then
        w.cmdLog ++ [DevCall.pageWrite d.memDevHandle d.writePtr d.blockAddress]
      else w.cmdLog) ∧
    (d.writeState = DRV_MEMORY_WRITE_MEM → w.accept w.cmdLog.length = false →
      r.1 = MEMORY_DEVICE_TRANSFER_ERROR_UNKNOWN ∧ r.2.2.nPoll = w.nPoll ∧
      r.2.1.blockAddress = d.blockAddress ∧ r.2.1.writePtr = d.writePtr ∧
      r.2.1.nBlocks = d.nBlocks ∧ r.2.1.writeState = DRV_MEMORY_WRITE_MEM) ∧
    (d.writeState = DRV_MEMORY_WRITE_MEM_STATUS ∨ w.accept w.cmdLog.length = true →
      r.2.2.nPoll = w.nPoll + 1 ∧
      (w.tstatus w.nPoll ≠ MEMORY_DEVICE_TRANSFER_COMPLETED →
        r.1 = w.tstatus w.nPoll ∧
        r.2.1.blockAddress = d.blockAddress ∧ r.2.1.writePtr = d.writePtr ∧
        r.2.1.nBlocks = d.nBlocks ∧ r.2.1.writeState = DRV_MEMORY_WRITE_MEM_STATUS) ∧
      (w.tstatus w.nPoll = MEMORY_DEVICE_TRANSFER_COMPLETED → dec32 d.nBlocks ≠ 0 →
        r.1 = MEMORY_DEVICE_TRANSFER_BUSY ∧
        r.2.1.blockAddress = u32 (d.blockAddress + d.writeBlockSize) ∧
        r.2.1.writePtr = d.writePtr + d.writeBlockSize ∧
        r.2.1.nBlocks = dec32 d.nBlocks ∧ r.2.1.writeState = DRV_MEMORY_WRITE_MEM) ∧
      (w.tstatus w.nPoll = MEMORY_DEVICE_TRANSFER_COMPLETED → dec32 d.nBlocks = 0 →
        r.1 = MEMORY_DEVICE_TRANSFER_COMPLETED ∧
        r.2.1.blockAddress = d.blockAddress ∧ r.2.1.writePtr = d.writePtr ∧
        r.2.1.nBlocks = 0 ∧ r.2.1.writeState = DRV_MEMORY_WRITE_MEM_STATUS)) := by
  subst hr
  unfold DRV_MEMORY_HandleWrite
  cases h : d.writeState with
  | DRV_MEMORY_WRITE_INIT => exact absurd h hs
  | DRV_MEMORY_WRITE_MEM_STATUS =>
    have hne : ¬ (DRV_MEMORY_WRITE_MEM_STATUS = DRV_MEMORY_WRITE_MEM) := by decide
    simp only [HandleWrite_MEM_STATUS_eq]
    by_cases h1 : w.tstatus w.nPoll = MEMORY_DEVICE_TRANSFER_COMPLETED
    · by_cases h2 : dec32 d.nBlocks ≠ 0
      · rw [if_pos h1, if_pos h2]
        exact ⟨(if_neg (by decide)).symm, fun h0 => absurd h0 hne,
          fun _ => ⟨rfl, fun h0 => absurd h1 h0, fun _ _ => ⟨rfl, rfl, rfl, rfl, rfl⟩,
            fun _ h0 => absurd h0 h2⟩⟩
      · rw [if_pos h1, if_neg h2]
        exact ⟨(if_neg (by decide)).symm, fun h0 => absurd h0 hne,
          fun _ => ⟨rfl, fun h0 => absurd h1 h0, fun _ h0 => absurd h0 h2,
            fun _ h0 => ⟨rfl, rfl, rfl, h0, h⟩⟩⟩
    · rw [if_neg h1]
      exact ⟨(if_neg (by decide)).symm, fun h0 => absurd h0 hne,
        fun _ => ⟨rfl, fun _ => ⟨rfl, rfl, rfl, rfl, h⟩, fun h0 => absurd h0 h1,
          fun h0 => absurd h0 h1⟩⟩
  | DRV_MEMORY_WRITE_MEM =>
    unfold DRV_MEMORY_HandleWrite_MEM
    by_cases hacc : w.accept w.cmdLog.length = true
    · have e : (w.devPageWrite d.memDevHandle d.writePtr d.blockAddress) =
          (true, { w with
            cmdLog := w.cmdLog ++ [DevCall.pageWrite d.memDevHandle d.writePtr d.blockAddress],
            flash := fun a =>
              if d.blockAddress ≤ a ∧ a < d.blockAddress + w.devPageSize then
                w.ram (d.writePtr + (a - d.blockAddress))
              else w.flash a }) := by
        simp [World.devPageWrite, hacc]
      have hnr : ¬ w.accept w.cmdLog.length = false := by rw [hacc]; decide
      simp only [e, if_true, HandleWrite_MEM_STATUS_eq]
      by_cases h1 : w.tstatus w.nPoll = MEMORY_DEVICE_TRANSFER_COMPLETED
      · by_cases h2 : dec32 d.nBlocks ≠ 0
        · rw [if_pos h1, if_pos h2]
          exact ⟨(by simp), fun _ h0 => absurd h0 hnr,
            fun _ => ⟨rfl, fun h0 => absurd h1 h0, fun _ _ => ⟨rfl, rfl, rfl, rfl, rfl⟩,
              fun _ h0 => absurd h0 h2⟩⟩
        · rw [if_pos h1, if_neg h2]
          exact ⟨(by simp), fun _ h0 => absurd h0 hnr,
            fun _ => ⟨rfl, fun h0 => absurd h1 h0, fun _ h0 => absurd h0 h2,
              fun _ h0 => ⟨rfl, rfl, rfl, h0, rfl⟩⟩⟩
      · rw [if_neg h1]
        exact ⟨(by simp), fun _ h0 => absurd h0 hnr,
          fun _ => ⟨rfl, fun _ => ⟨rfl, rfl, rfl, rfl, rfl⟩, fun h0 => absurd h0 h1,
            fun h0 => absurd h0 h1⟩⟩
    · have hrej : w.accept w.cmdLog.length = false := by
        cases hx : w.accept w.cmdLog.length
        · rfl
        · exact absurd hx hacc
      have e : (w.devPageWrite d.memDevHandle d.writePtr d.blockAddress) =
          (false, { w with
            cmdLog := w.cmdLog ++ [DevCall.pageWrite d.memDevHandle d.writePtr d.blockAddress] }) := by
        simp [World.devPageWrite, hrej]
      simp only [e, Bool.false_eq_true, if_false]
      refine ⟨(by simp), fun _ _ => by simp [h], fun h0 => ?_⟩
      rcases h0 with h0 | h0
      · cases h0
      · exact absurd h0 hacc

/-- C28 at the concrete device: in the IssuePage state with three pages left,
on a device that accepts the page and reports Completed, the tick issues one
page and advances the page address from 768 to 1024. -/
theorem C28_write_cursor_advances_on_completed_witness :
    (DRV_MEMORY_HandleWrite
      { demoObj with writeState := DRV_MEMORY_WRITE_MEM, nBlocks := 3, blockAddress := 768,
                     writePtr := 0x20002000 } demoWorldFast 0 0 0).1 = MEMORY_DEVICE_TRANSFER_BUSY ∧
    (DRV_MEMORY_HandleWrite
      { demoObj with writeState := DRV_MEMORY_WRITE_MEM, nBlocks := 3, blockAddress := 768,
                     writePtr := 0x20002000 } demoWorldFast 0 0 0).2.1.blockAddress = 1024 ∧
    (DRV_MEMORY_HandleWrite
      { demoObj with writeState := DRV_MEMORY_WRITE_MEM, nBlocks := 3, blockAddress := 768,
                     writePtr := 0x20002000 } demoWorldFast 0 0 0).2.2.cmdLog =
      [DevCall.pageWrite 9 0x20002000 768] :=
  have h := C28_write_cursor_advances_on_completed
    { demoObj with writeState := DRV_MEMORY_WRITE_MEM, nBlocks := 3, blockAddress := 768,
                   writePtr := 0x20002000 } demoWorldFast 0 0 0 _ (by decide) rfl
  ⟨(h.2.2 (Or.inr rfl)).2.2.1 rfl (by decide) |>.1,
    (h.2.2 (Or.inr rfl)).2.2.1 rfl (by decide) |>.2.1, h.1⟩

/-- A tick of the write machine leaves the command descriptor, the number of
pages of the sector, the write block size and the erase-write state alone. -/
theorem HandleWrite_keeps (d : DRV_MEMORY_OBJECT) (w : World) (data blockStart nBlocks : Nat) :
    (DRV_MEMORY_HandleWrite d w data blockStart nBlocks).2.1.currentBufObj = d.currentBufObj ∧
    (DRV_MEMORY_HandleWrite d w data blockStart nBlocks).2.1.nBlocksToWrite = d.nBlocksToWrite ∧
    (DRV_MEMORY_HandleWrite d w data blockStart nBlocks).2.1.writeBlockSize = d.writeBlockSize ∧
    (DRV_MEMORY_HandleWrite d w data blockStart nBlocks).2.1.ewState = d.ewState := by
  have hS : ∀ (d : DRV_MEMORY_OBJECT) (w : World),
      (DRV_MEMORY_HandleWrite_MEM_STATUS d w).2.1.currentBufObj = d.currentBufObj ∧
      (DRV_MEMORY_HandleWrite_MEM_STATUS d w).2.1.nBlocksToWrite = d.nBlocksToWrite ∧
      (DRV_MEMORY_HandleWrite_MEM_STATUS d w).2.1.writeBlockSize = d.writeBlockSize ∧
      (DRV_MEMORY_HandleWrite_MEM_STATUS d w).2.1.ewState = d.ewState := by
    intro d w
    rw [HandleWrite_MEM_STATUS_eq]
    by_cases h1 : w.tstatus w.nPoll = MEMORY_DEVICE_TRANSFER_COMPLETED
    · by_cases h2 : dec32 d.nBlocks ≠ 0
      · rw [if_pos h1, if_pos h2]; exact ⟨rfl, rfl, rfl, rfl⟩
      · rw [if_pos h1, if_neg h2]; exact ⟨rfl, rfl, rfl, rfl⟩
    · rw [if_neg h1]; exact ⟨rfl, rfl, rfl, rfl⟩
  have hM : ∀ (d : DRV_MEMORY_OBJECT) (w : World),
      (DRV_MEMORY_HandleWrite_MEM d w).2.1.currentBufObj = d.currentBufObj ∧
      (DRV_MEMORY_HandleWrite_MEM d w).2.1.nBlocksToWrite = d.nBlocksToWrite ∧
      (DRV_MEMORY_HandleWrite_MEM d w).2.1.writeBlockSize = d.writeBlockSize ∧
      (DRV_MEMORY_HandleWrite_MEM d w).2.1.ewState = d.ewState := by
    intro d w
    unfold DRV_MEMORY_HandleWrite_MEM
    by_cases hacc : (w.devPageWrite d.memDevHandle d.writePtr d.blockAddress).1 = true
    · simp only [hacc, if_true]
      exact hS _ _
    · simp only [hacc, if_false]
      exact ⟨rfl, rfl, rfl, rfl⟩
  unfold DRV_MEMORY_HandleWrite
  cases d.writeState with
  | DRV_MEMORY_WRITE_INIT => exact hM _ _
  | DRV_MEMORY_WRITE_MEM => exact hM _ _
  | DRV_MEMORY_WRITE_MEM_STATUS => exact hS _ _

/-- C24, counterexample: the erase-write of 20 pages from page 3 on the
concrete device (16 pages in a sector, a device that reports Completed at
once). After 16 ticks the machine is in the WriteSector state with the block
cursor at 3, the buffer cursor at `0x20002000` and 20 blocks remaining. The
next tick sees the last page of the sector Completed and returns Busy in the
Init state with 7 blocks remaining, the block cursor at 16 and the buffer
cursor `13 * 256` bytes further: the cursors have advanced by the 13 pages of
the request that lie in the sector, not by one sector (16 blocks, 4096
bytes). -/
theorem C24_write_sector_completion_counterexample :
    ∃ r0 r, ticks 15 (DRV_MEMORY_StartXfer_init (demoEwObj 3 20)) demoWorldFast = some r0 ∧
      r0.2.1.ewState = DRV_MEMORY_EW_WRITE_SECTOR ∧
      r0.2.1.currentBufObj.blockStart = 3 ∧ r0.2.1.currentBufObj.buffer = 0x20002000 ∧
      r0.2.1.currentBufObj.nBlocks = 20 ∧
      (DRV_MEMORY_HandleWrite r0.2.1 r0.2.2 r0.2.1.writePtr
        (u32 (r0.2.1.sectorNumber * 16)) 16).1 = MEMORY_DEVICE_TRANSFER_COMPLETED ∧
      DRV_MEMORY_StartXfer_tick r0.2.1 r0.2.2 = some r ∧
      r.1 = MEMORY_DEVICE_TRANSFER_BUSY ∧ r.2.1.ewState = DRV_MEMORY_EW_INIT ∧
      r.2.1.currentBufObj.nBlocks = 7 ∧
      r.2.1.currentBufObj.blockStart = 16 ∧ r.2.1.currentBufObj.blockStart ≠ 3 + 16 ∧
      r.2.1.currentBufObj.buffer = 0x20002000 + 13 * 256 ∧
      r.2.1.currentBufObj.buffer ≠ 0x20002000 + 4096 :=
  ⟨_, _, rfl, rfl, rfl, rfl, rfl, rfl, rfl, rfl, rfl, rfl, rfl, by decide, rfl, by decide⟩

/-- C24, amended: the tick of the WriteSector state in which the write machine
reports Completed, with `nBlocksToWrite` (the pages of the request that lie in
this sector) not above the remaining block count, as the Init state leaves it.
If the two are equal the tick reports Completed and the descriptor is left as
it is. Otherwise the tick reports Busy in the Init state, the remaining block
count is lowered by `nBlocksToWrite`, the block cursor (a `uint32_t`) is
advanced by `nBlocksToWrite` and the buffer cursor by
`nBlocksToWrite * writeBlockSize` bytes; that is one sector, `pagesPerSector`
blocks and `eraseBlockSize` bytes, when `nBlocksToWrite` is `pagesPerSector`
and the erase block is `pagesPerSector` write blocks. -/
theorem C24_write_sector_completion (d : DRV_MEMORY_OBJECT) (w : World) (pagesPerSector : Nat)
    (r : Nat × DRV_MEMORY_OBJECT × World)
    (hr : r = DRV_MEMORY_HandleEraseWrite_WRITE_SECTOR d w pagesPerSector)
    (hcomp : (DRV_MEMORY_HandleWrite d w d.writePtr (u32 (d.sectorNumber * pagesPerSector))
      pagesPerSector).1 = MEMORY_DEVICE_TRANSFER_COMPLETED)
    (hle : d.nBlocksToWrite ≤ d.currentBufObj.nBlocks) :
    (d.currentBufObj.nBlocks = d.nBlocksToWrite →
      r.1 = MEMORY_DEVICE_TRANSFER_COMPLETED ∧ r.2.1.currentBufObj = d.currentBufObj ∧
      r.2.1.ewState = d.ewState) ∧
    (d.nBlocksToWrite < d.currentBufObj.nBlocks →
      r.1 = MEMORY_DEVICE_TRANSFER_BUSY ∧ r.2.1.ewState = DRV_MEMORY_EW_INIT ∧
      r.2.1.currentBufObj.nBlocks = d.currentBufObj.nBlocks - d.nBlocksToWrite ∧
      r.2.1.currentBufObj.blockStart = u32 (d.currentBufObj.blockStart + d.nBlocksToWrite) ∧
      r.2.1.currentBufObj.buffer =
        d.currentBufObj.buffer + u32 (d.nBlocksToWrite * d.writeBlockSize) ∧
      (d.nBlocksToWrite = pagesPerSector →
        pagesPerSector * d.writeBlockSize = d.eraseBlockSize → d.eraseBlockSize < 4294967296 →
        r.2.1.currentBufObj.blockStart = u32 (d.currentBufObj.blockStart + pagesPerSector) ∧
        r.2.1.currentBufObj.buffer = d.currentBufObj.buffer + d.eraseBlockSize)) := by
  subst hr
  obtain ⟨k1, k2, k3, k4⟩ := HandleWrite_keeps d w d.writePtr (u32 (d.sectorNumber * pagesPerSector))
    pagesPerSector
  unfold DRV_MEMORY_HandleEraseWrite_WRITE_SECTOR
  simp only [hcomp, if_true, k1, k2, k3]
  have hsub : sub32 d.currentBufObj.nBlocks d.nBlocksToWrite
      = d.currentBufObj.nBlocks - d.nBlocksToWrite := by
    unfold sub32; rw [if_pos hle]
  rw [hsub]
  constructor
  · intro he
    rw [if_pos (by omega)]
    exact ⟨hcomp, k1, k4⟩
  · intro hlt
    rw [if_neg (by omega)]
    refine ⟨rfl, rfl, rfl, rfl, rfl, fun e1 e2 e3 => ⟨?_, ?_⟩⟩
    · show u32 (d.currentBufObj.blockStart + d.nBlocksToWrite) = _
      rw [e1]
    · show d.currentBufObj.buffer + u32 (d.nBlocksToWrite * d.writeBlockSize) = _
      rw [e1, e2, u32_of_lt e3]

/-- C24 at the concrete device, in the state of the counterexample: the tick
that sees the last page of sector 0 Completed returns Busy in the Init state,
with the cursors advanced by the 13 pages written for the request. -/
theorem C24_write_sector_completion_witness :
    ∃ r0, ticks 15 (DRV_MEMORY_StartXfer_init (demoEwObj 3 20)) demoWorldFast = some r0 ∧
      (DRV_MEMORY_HandleEraseWrite_WRITE_SECTOR r0.2.1 r0.2.2 16).1
        = MEMORY_DEVICE_TRANSFER_BUSY ∧
      (DRV_MEMORY_HandleEraseWrite_WRITE_SECTOR r0.2.1 r0.2.2 16).2.1.ewState
        = DRV_MEMORY_EW_INIT ∧
      (DRV_MEMORY_HandleEraseWrite_WRITE_SECTOR r0.2.1 r0.2.2 16).2.1.currentBufObj.nBlocks
        = 20 - 13 ∧
      (DRV_MEMORY_HandleEraseWrite_WRITE_SECTOR r0.2.1 r0.2.2 16).2.1.currentBufObj.blockStart
        = u32 (3 + 13) :=
  ⟨_, rfl,
    ((C24_write_sector_completion _ _ 16 _ rfl (by rfl) (by decide)).2 (by decide)).1,
    ((C24_write_sector_completion _ _ 16 _ rfl (by rfl) (by decide)).2 (by decide)).2.1,
    ((C24_write_sector_completion _ _ 16 _ rfl (by rfl) (by decide)).2 (by decide)).2.2.1,
    ((C24_write_sector_completion _ _ 16 _ rfl (by rfl) (by decide)).2 (by decide)).2.2.2.1⟩

/-- C30, evaluated on the device with write block 256 and erase block 65536:
the write block is positive and the erase block is 256 write blocks, yet the
`uint8_t` value `pagesPerSector` is 0 and not 256, a tick of the erase-write
machine in its Init state divides by zero, and so does every
`DRV_MEMORY_EraseWrite` that passes admission, whatever the fuel. -/
theorem C30_pages_per_sector_wraps_to_zero :
    0 < demoObjBlock64K.writeBlockSize ∧
    demoObjBlock64K.eraseBlockSize = 256 * demoObjBlock64K.writeBlockSize ∧
    demoObjBlock64K.eraseBlockSize / demoObjBlock64K.writeBlockSize = 256 ∧
    u8 (demoObjBlock64K.eraseBlockSize / demoObjBlock64K.writeBlockSize) = 0 ∧
    (∀ w data blockStart nBlocks,
      DRV_MEMORY_HandleEraseWrite demoObjBlock64K w data blockStart nBlocks = none) ∧
    (∀ fuel, DRV_MEMORY_EraseWrite fuel demoDriverBlock64K demoWorld 0x10000 true 0x20002000 3 10
      = Outcome.undefinedBehaviour) :=
  ⟨by decide, rfl, rfl, rfl, fun _ _ _ _ => rfl, fun _ => rfl⟩

/-- C22, evaluated on the device with a 2-byte read block: the erase-write of
pages 19 and 20 (inside sector 1, whose byte address is 4096) returns `true`,
and the commands given to the device are a read of 4096 bytes at address 8192,
not 4096, then the erase of the sector at 4096 and the 16 page writes of that
sector from the scratch buffer. -/
theorem C22_read_sector_address_read_block_2 :
    ∃ fuel0, ∀ fuel, fuel0 ≤ fuel → ∃ r,
      DRV_MEMORY_EraseWrite fuel demoDriverRead2 demoWorld 0x10000 true 0x20002000 19 2 =
        Outcome.returned r ∧
      r.isSuccess = true ∧
      demoObjRead2.blockStartAddress + 19 / 16 * demoObjRead2.eraseBlockSize = 4096 ∧
      r.w.cmdLog = DevCall.read 9 0x20000000 4096 8192 :: DevCall.sectorErase 9 4096 ::
        (List.range 16).map (fun k =>
          DevCall.pageWrite 9 (0x20000000 + k * 256) (4096 + k * 256)) := by
  obtain ⟨f, h⟩ := SetupXfer_eraseWrite demoDriverRead2 demoWorld 0x10000 true 0x20002000 19 2
    SYS_MEDIA_GEOMETRY_TABLE_WRITE_ENTRY DRV_IO_INTENT_WRITE ⟨0, 0⟩
    ⟨demoRead2_valid, by decide, Or.inl (by decide), by decide, by decide⟩ rfl rfl (by decide)
    (by decide) demoWorld_cooperative
  refine ⟨f, fun fuel hf => ?_⟩
  obtain ⟨r, e, s, hmem⟩ := h fuel hf
  refine ⟨r, e, s, rfl, ?_⟩
  have hlog := congrArg Mem.log hmem
  have hl := ewMem_log demoObjRead2 256 4096 (by decide) (by decide) 2 0x20002000 19 2
    demoWorld.mem (by decide) (Nat.le_refl _) (by decide)
  exact hlog.trans hl

/-- C23: an erase-write command in the Init state of its machine whose first
sector is not covered by the request (the read-modify-write path), with
`pagesPerSector` not zero, on a device that accepts every command and
completes it after finitely many Busy polls. The tick issues the sector read
and, after the polls, the tick that sees the read Completed goes on into the
EraseSector state with the scratch buffer holding, at every offset `x` below
`eraseBlockSize`: inside `[pageOffset * writeBlockSize, pageOffset *
writeBlockSize + nBlocksToWrite * writeBlockSize)` the byte at the same offset
from the caller's buffer cursor, as the RAM holds it when the copy is made; and
elsewhere the byte the read delivered, the stored byte at offset `x` from the
address of the read. When the caller's data lie outside the scratch buffer the
copied bytes are those the caller supplied. Here `pageOffset = blockStart mod
pagesPerSector` and `nBlocksToWrite = min (pagesPerSector - pageOffset)
nBlocks`. -/
theorem C23_scratch_holds_sector_with_overlay (d : DRV_MEMORY_OBJECT) (w : World)
    (hop : d.currentBufObj.opType = DRV_MEMORY_OPERATION_TYPE_ERASE_WRITE)
    (hp : u8 (d.eraseBlockSize / d.writeBlockSize) ≠ 0)
    (hs : d.ewState = DRV_MEMORY_EW_INIT) (hc : w.Cooperative)
    (hrmw : ¬ (d.currentBufObj.blockStart % u8 (d.eraseBlockSize / d.writeBlockSize) = 0 ∧
      u8 (d.eraseBlockSize / d.writeBlockSize) ≤ d.currentBufObj.nBlocks))
    (hebs : d.eraseBlockSize < 4294967296) :
    ∃ t dE wE, DRV_MEMORY_StartXfer_tick d w = some t ∧
      Reaches t (DRV_MEMORY_HandleEraseWrite_ERASE_SECTOR dE wE) ∧
      dE.ewState = DRV_MEMORY_EW_ERASE_SECTOR ∧ dE.eraseState = DRV_MEMORY_ERASE_INIT ∧
      (∀ x, x < d.eraseBlockSize →
        wE.ram (d.ewBuffer + x) =
          if d.currentBufObj.blockStart % u8 (d.eraseBlockSize / d.writeBlockSize)
                * d.writeBlockSize ≤ x ∧
              x < d.currentBufObj.blockStart % u8 (d.eraseBlockSize / d.writeBlockSize)
                  * d.writeBlockSize
                + min (u8 (d.eraseBlockSize / d.writeBlockSize)
                    - d.currentBufObj.blockStart % u8 (d.eraseBlockSize / d.writeBlockSize))
                    d.currentBufObj.nBlocks * d.writeBlockSize then
            (w.mem.read d.memDevHandle d.ewBuffer d.eraseBlockSize
              (u32 (u32 (u32 (d.currentBufObj.blockStart
                / u8 (d.eraseBlockSize / d.writeBlockSize) * d.eraseBlockSize)
                * (d.mediaGeometryTable 0).blockSize) + d.blockStartAddress))).ram
              (d.currentBufObj.buffer + (x - d.currentBufObj.blockStart
                % u8 (d.eraseBlockSize / d.writeBlockSize) * d.writeBlockSize))
          else
            w.flash (u32 (u32 (u32 (d.currentBufObj.blockStart
                / u8 (d.eraseBlockSize / d.writeBlockSize) * d.eraseBlockSize)
                * (d.mediaGeometryTable 0).blockSize) + d.blockStartAddress) + x)) ∧
      (d.currentBufObj.buffer + d.currentBufObj.nBlocks * d.writeBlockSize ≤ d.ewBuffer ∨
          d.ewBuffer + d.eraseBlockSize ≤ d.currentBufObj.buffer →
        ∀ x, d.currentBufObj.blockStart % u8 (d.eraseBlockSize / d.writeBlockSize)
              * d.writeBlockSize ≤ x →
          x < d.currentBufObj.blockStart % u8 (d.eraseBlockSize / d.writeBlockSize)
                * d.writeBlockSize
              + min (u8 (d.eraseBlockSize / d.writeBlockSize)
                  - d.currentBufObj.blockStart % u8 (d.eraseBlockSize / d.writeBlockSize))
                  d.currentBufObj.nBlocks * d.writeBlockSize →
          wE.ram (d.ewBuffer + x) =
            w.ram (d.currentBufObj.buffer + (x - d.currentBufObj.blockStart
              % u8 (d.eraseBlockSize / d.writeBlockSize) * d.writeBlockSize))) := by
  have hw : d.writeBlockSize ≠ 0 := by
    intro h
    rw [h, Nat.div_zero] at hp
    exact hp rfl
  have hPW := pps_mul_le d
  have htick := tick_ew_init d w hop hw hp hs
  rw [HandleEraseWrite_INIT_eq d w _ hp, if_neg hrmw] at htick
  obtain ⟨b1, w1, r1, m1, -⟩ := read_phase
    { d.ewInit (u8 (d.eraseBlockSize / d.writeBlockSize)) with
      writePtr := d.ewBuffer, ewState := DRV_MEMORY_EW_READ_SECTOR } w hop hw rfl rfl hc
  refine ⟨_, _, w1, htick, r1, rfl, rfl, ?_⟩
  have hram := congrArg Mem.ram m1
  have hram' : w1.ram = _ := hram
  rw [hram']
  simp only [DRV_MEMORY_OBJECT.ewInit, Mem.copy, Mem.read, World.mem]
  generalize u32 (u32 (u32 (d.currentBufObj.blockStart
      / u8 (d.eraseBlockSize / d.writeBlockSize) * d.eraseBlockSize)
      * (d.mediaGeometryTable 0).blockSize) + d.blockStartAddress) = A
  generalize u8 (d.eraseBlockSize / d.writeBlockSize) = P at hp hPW ⊢
  have hlt : d.currentBufObj.blockStart % P < P := Nat.mod_lt _ (Nat.pos_of_ne_zero hp)
  generalize d.currentBufObj.blockStart % P = off at hlt ⊢
  have ht1 : min (P - off) d.currentBufObj.nBlocks ≤ P - off := Nat.min_le_left _ _
  have ht2 : min (P - off) d.currentBufObj.nBlocks ≤ d.currentBufObj.nBlocks :=
    Nat.min_le_right _ _
  generalize min (P - off) d.currentBufObj.nBlocks = t at ht1 ht2 ⊢
  have h4 : off * d.writeBlockSize + t * d.writeBlockSize ≤ P * d.writeBlockSize := by
    rw [← Nat.add_mul]; exact Nat.mul_le_mul_right _ (by omega)
  have h6 : t * d.writeBlockSize ≤ d.currentBufObj.nBlocks * d.writeBlockSize :=
    Nat.mul_le_mul_right _ ht2
  have e6 : u32 (off * d.writeBlockSize) = off * d.writeBlockSize := u32_of_lt (by omega)
  have e7 : u32 (t * d.writeBlockSize) = t * d.writeBlockSize := u32_of_lt (by omega)
  rw [e6, e7]
  generalize off * d.writeBlockSize = oW at h4 ⊢
  generalize t * d.writeBlockSize = tW at h4 h6 ⊢
  generalize d.currentBufObj.nBlocks * d.writeBlockSize = nW at h6 ⊢
  refine ⟨fun x hx => ?_, fun hdis x hx1 hx2 => ?_⟩
  · by_cases hin : oW ≤ x ∧ x < oW + tW
    · rw [if_pos hin, if_pos (by omega)]
      have hy : d.currentBufObj.buffer + (d.ewBuffer + x - (d.ewBuffer + oW))
          = d.currentBufObj.buffer + (x - oW) := by omega
      rw [hy]
    · rw [if_neg hin, if_neg (by omega), if_pos (by omega)]
      congr 1
      omega
  · rw [if_pos (by omega), if_neg (by omega)]
    congr 1
    omega

/-- C23 at the concrete device: the erase-write of 10 pages from page 3. When
the read of sector 0 has completed the scratch buffer holds the caller's 2560
bytes at offsets 768..3327 and the stored bytes of the sector elsewhere. -/
theorem C23_scratch_holds_sector_with_overlay_witness :
    ∃ t dE wE,
      DRV_MEMORY_StartXfer_tick (DRV_MEMORY_StartXfer_init (demoEwObj 3 10)) demoWorld = some t ∧
      Reaches t (DRV_MEMORY_HandleEraseWrite_ERASE_SECTOR dE wE) ∧
      (∀ x, 768 ≤ x → x < 3328 →
        wE.ram (0x20000000 + x) = demoWorld.ram (0x20002000 + (x - 768))) ∧
      (∀ x, x < 768 ∨ 3328 ≤ x → x < 4096 → wE.ram (0x20000000 + x) = demoWorld.flash x) := by
  obtain ⟨t, dE, wE, h1, h2, -, -, h5, h6⟩ := C23_scratch_holds_sector_with_overlay
    (DRV_MEMORY_StartXfer_init (demoEwObj 3 10)) demoWorld rfl (by decide) rfl
    demoWorld_cooperative (by decide) (by decide)
  refine ⟨t, dE, wE, h1, h2, fun x hx1 hx2 => h6 (Or.inr (by decide)) x hx1 hx2,
    fun x hx1 hx2 => ?_⟩
  have h : wE.ram (0x20000000 + x) =
      if 768 ≤ x ∧ x < 768 + 2560 then
        (demoWorld.mem.read 9 0x20000000 4096 0).ram (0x20002000 + (x - 768))
      else demoWorld.flash (0 + x) := h5 x hx2
  rw [if_neg (by omega), Nat.zero_add] at h
  exact h

/-- An erase-write of whole sectors from a sector boundary leaves the RAM as it
was. -/
theorem ewMem_ram_aligned (d : DRV_MEMORY_OBJECT) (ps ss : Nat)
    (hp : u8 (d.eraseBlockSize / d.writeBlockSize) ≠ 0) :
    ∀ (k B bs n : Nat) (m : Mem), 1 ≤ n → n ≤ k → bs + n < 4294967296 →
      bs % u8 (d.eraseBlockSize / d.writeBlockSize) = 0 →
      n % u8 (d.eraseBlockSize / d.writeBlockSize) = 0 →
      (ewMem d ps ss k B bs n m).ram = m.ram := by
  generalize hP : u8 (d.eraseBlockSize / d.writeBlockSize) = P at hp
  intro k
  induction k with
  | zero => intro B bs n m h1 h2; omega
  | succ k ih =>
    intro B bs n m h1 h2 h3 ha hm
    have hPpos : 0 < P := Nat.pos_of_ne_zero hp
    have hPn : P ≤ n := Nat.le_of_dvd (by omega) (Nat.dvd_of_mod_eq_zero hm)
    have hsec : (ewSectorMem d ps ss B bs n m).ram = m.ram := by
      unfold ewSectorMem
      simp only [hP, ha, hPn, and_self, if_true]
      rfl
    have hntw : min (P - bs % P) n = P := by rw [ha]; omega
    have hsub : sub32 n P = n - P := by
      unfold sub32; rw [if_pos hPn]
    unfold ewMem
    simp only [hP, hntw, hsub]
    by_cases hlast : n - P = 0
    · rw [if_pos hlast]; exact hsec
    · rw [if_neg hlast]
      have hu2 : u32 (bs + P) = bs + P := u32_of_lt (by omega)
      rw [hu2, ih _ _ _ _ (by omega) (by omega) (by omega)
        (by rw [Nat.add_mod_right]; exact ha)
        (by
          have := Nat.sub_add_cancel hPn
          have h5 : (n - P + P) % P = 0 := by rw [this]; exact hm
          rw [Nat.add_mod_right] at h5
          exact h5)]
      exact hsec

/-- The device commands of an erase-write of whole sectors from a sector
boundary: for each sector one erase and `pagesPerSector` page writes from the
caller's buffer. -/
theorem ewCmds_aligned (d : DRV_MEMORY_OBJECT) (B bs n : Nat)
    (hp : u8 (d.eraseBlockSize / d.writeBlockSize) ≠ 0) (hn : 1 ≤ n)
    (ha : bs % u8 (d.eraseBlockSize / d.writeBlockSize) = 0)
    (hm : n % u8 (d.eraseBlockSize / d.writeBlockSize) = 0) :
    ewCmds d B bs n =
      (List.range (n / u8 (d.eraseBlockSize / d.writeBlockSize))).flatMap (fun j =>
        DevCall.sectorErase d.memDevHandle
          (u32 (u32 ((bs / u8 (d.eraseBlockSize / d.writeBlockSize) + j) * d.eraseBlockSize)
            + d.blockStartAddress))
        :: (List.range (u8 (d.eraseBlockSize / d.writeBlockSize))).map (fun k =>
          DevCall.pageWrite d.memDevHandle
            (B + (j * u8 (d.eraseBlockSize / d.writeBlockSize) + k) * d.writeBlockSize)
            (u32 (d.blockStartAddress
              + (bs + j * u8 (d.eraseBlockSize / d.writeBlockSize) + k) * d.writeBlockSize)))) := by
  unfold ewCmds ewSectorCmds
  generalize u8 (d.eraseBlockSize / d.writeBlockSize) = P at hp ha hm ⊢
  have hPpos : 0 < P := Nat.pos_of_ne_zero hp
  have hbs := Nat.div_add_mod bs P
  have hnn := Nat.div_add_mod n P
  rw [ha, Nat.add_zero] at hbs
  rw [hm, Nat.add_zero] at hnn
  have hcount : (bs + n - 1) / P - bs / P + 1 = n / P := by
    generalize bs / P = q at hbs
    generalize n / P = c at hnn
    have hc1 : 1 ≤ c := by
      rcases Nat.eq_zero_or_pos c with h | h
      · rw [h, Nat.mul_zero] at hnn; omega
      · exact h
    have hq : (bs + n - 1) / P = q + c - 1 := by
      apply Nat.div_eq_of_lt_le
      · have : (q + c - 1) * P + P = P * q + P * c := by
          have h0 : (q + c - 1 + 1) * P = P * q + P * c := by
            rw [Nat.sub_add_cancel (by omega), Nat.add_mul, Nat.mul_comm q, Nat.mul_comm c]
          rw [Nat.add_mul, Nat.one_mul] at h0
          exact h0
        omega
      · have : (q + c - 1 + 1) * P = P * q + P * c := by
          rw [Nat.sub_add_cancel (by omega), Nat.add_mul, Nat.mul_comm q, Nat.mul_comm c]
        omega
    omega
  rw [hcount]
  apply List.flatMap_congr
  intro j hj
  have hj' : j < n / P := List.mem_range.mp hj
  have h1 : (bs / P + j) * P = bs + j * P := by
    rw [Nat.add_mul, Nat.mul_comm (bs / P), hbs]
  have h2 : (bs / P + j + 1) * P = bs + j * P + P := by
    rw [Nat.add_mul, h1, Nat.one_mul]
  have h3 : j * P + P ≤ n := by
    have : (j + 1) * P ≤ n / P * P := Nat.mul_le_mul_right _ hj'
    rw [Nat.add_mul, Nat.one_mul, Nat.mul_comm (n / P), hnn] at this
    exact this
  have hcov : bs ≤ (bs / P + j) * P ∧ (bs / P + j + 1) * P ≤ bs + n := by
    rw [h1, h2]; omega
  simp only [if_pos hcov, List.nil_append]
  congr 1
  apply List.map_congr_left
  intro k _
  rw [h1]
  congr 3
  omega

/-- C21: an erase-write request that passes admission, from a page `blockStart`
that is a multiple of `pagesPerSector`, for a count `nBlock >= 1` that is a
multiple of `pagesPerSector` (not zero), on a device that accepts every command
and completes it after finitely many Busy polls. With enough fuel
`DRV_MEMORY_EraseWrite` returns `true`; the commands given to the device are,
for each of the `nBlock / pagesPerSector` sectors in ascending order, one
sector erase and `pagesPerSector` page writes, each page from its place in the
caller's buffer; no read is among them; and the RAM, the scratch buffer
included, is as it was before the call. -/
theorem C21_aligned_request_takes_direct_path (g : Driver) (w : World) (handle : Nat)
    (hasCommandHandle : Bool) (sourceBuffer blockStart nBlock : Nat) (p : ClientPtr)
    (hvalid : DRV_MEMORY_DriverHandleValidate g handle = some p)
    (hintent : (g.client p).intent &&& DRV_IO_INTENT_WRITE ≠ 0)
    (hbuf : sourceBuffer ≠ 0)
    (hn : 1 ≤ nBlock)
    (hrange : blockStart + nBlock ≤ ((g (g.client p).drvIndex).mediaGeometryTable
      SYS_MEDIA_GEOMETRY_TABLE_WRITE_ENTRY).numBlocks)
    (h32 : blockStart + nBlock < 4294967296)
    (hebs : (g (g.client p).drvIndex).eraseBlockSize < 4294967296)
    (hlock : w.lockOk w.nLock = true)
    (hse : (g (g.client p).drvIndex).memoryDevice.hasSectorErase = true)
    (hp : 1 ≤ u8 ((g (g.client p).drvIndex).eraseBlockSize
      / (g (g.client p).drvIndex).writeBlockSize))
    (halign : blockStart % u8 ((g (g.client p).drvIndex).eraseBlockSize
      / (g (g.client p).drvIndex).writeBlockSize) = 0)
    (hmult : nBlock % u8 ((g (g.client p).drvIndex).eraseBlockSize
      / (g (g.client p).drvIndex).writeBlockSize) = 0)
    (hcoop : w.Cooperative) :
    ∃ fuel0, ∀ fuel, fuel0 ≤ fuel → ∃ r,
      DRV_MEMORY_EraseWrite fuel g w handle hasCommandHandle sourceBuffer blockStart nBlock =
        Outcome.returned r ∧
      r.isSuccess = true ∧
      r.w.cmdLog = w.cmdLog ++
        (List.range (nBlock / u8 ((g (g.client p).drvIndex).eraseBlockSize
            / (g (g.client p).drvIndex).writeBlockSize))).flatMap (fun j =>
          DevCall.sectorErase (g (g.client p).drvIndex).memDevHandle
            (u32 (u32 ((blockStart / u8 ((g (g.client p).drvIndex).eraseBlockSize
                / (g (g.client p).drvIndex).writeBlockSize) + j)
              * (g (g.client p).drvIndex).eraseBlockSize)
              + (g (g.client p).drvIndex).blockStartAddress))
          :: (List.range (u8 ((g (g.client p).drvIndex).eraseBlockSize
              / (g (g.client p).drvIndex).writeBlockSize))).map (fun k =>
            DevCall.pageWrite (g (g.client p).drvIndex).memDevHandle
              (sourceBuffer + (j * u8 ((g (g.client p).drvIndex).eraseBlockSize
                  / (g (g.client p).drvIndex).writeBlockSize) + k)
                * (g (g.client p).drvIndex).writeBlockSize)
              (u32 ((g (g.client p).drvIndex).blockStartAddress
                + (blockStart + j * u8 ((g (g.client p).drvIndex).eraseBlockSize
                    / (g (g.client p).drvIndex).writeBlockSize) + k)
                  * (g (g.client p).drvIndex).writeBlockSize)))) ∧
      (∀ h b n a, DevCall.read h b n a ∉ r.w.cmdLog.drop w.cmdLog.length) ∧
      r.w.ram = w.ram := by
  have hp' : u8 ((g (g.client p).drvIndex).eraseBlockSize
      / (g (g.client p).drvIndex).writeBlockSize) ≠ 0 := by omega
  have hw : (g (g.client p).drvIndex).writeBlockSize ≠ 0 := by
    intro h
    rw [h, Nat.div_zero] at hp'
    exact hp' rfl
  have hPW := Nat.lt_of_le_of_lt (pps_mul_le (g (g.client p).drvIndex)) hebs
  obtain ⟨fuel0, hrun⟩ := SetupXfer_eraseWrite g w handle hasCommandHandle sourceBuffer blockStart
    nBlock SYS_MEDIA_GEOMETRY_TABLE_WRITE_ENTRY DRV_IO_INTENT_WRITE p
    ⟨hvalid, hintent, Or.inl hbuf, by omega, hrange⟩ hlock hse hw hp' hcoop
  refine ⟨fuel0, fun fuel hf => ?_⟩
  obtain ⟨r, h1, h2, h3⟩ := hrun fuel hf
  have hlog : r.w.cmdLog = _ := congrArg Mem.log h3
  rw [ewMem_log _ _ _ hp' hPW _ _ _ _ _ hn (Nat.le_refl _) h32,
    ewCmds_aligned _ _ _ _ hp' hn halign hmult] at hlog
  have hram : r.w.ram = _ := congrArg Mem.ram h3
  rw [ewMem_ram_aligned _ _ _ hp' _ _ _ _ _ hn (Nat.le_refl _) h32 halign hmult] at hram
  refine ⟨r, h1, h2, hlog, ?_, hram⟩
  intro h b n a hmem
  have hl : w.mem.log = w.cmdLog := rfl
  rw [hlog, hl, List.drop_left] at hmem
  simp only [List.mem_flatMap, List.mem_cons, List.mem_map, List.mem_range] at hmem
  obtain ⟨j, -, hj | ⟨k, -, hk⟩⟩ := hmem
  · cases hj
  · cases hk

/-- C21 at the concrete device (16 pages in a sector): the erase-write of the
32 pages of sectors 1 and 2 gives the device, twice, one sector erase and 16
page writes from the caller's buffer, and no read; the RAM is unchanged. -/
theorem C21_aligned_request_takes_direct_path_witness :
    ∃ fuel0, ∀ fuel, fuel0 ≤ fuel → ∃ r,
      DRV_MEMORY_EraseWrite fuel demoDriver demoWorld 0x10000 true 0x20002000 16 32 =
        Outcome.returned r ∧
      r.isSuccess = true ∧
      r.w.cmdLog =
        (DevCall.sectorErase 9 4096 :: (List.range 16).map (fun k =>
          DevCall.pageWrite 9 (0x20002000 + k * 256) (4096 + k * 256)))
        ++ (DevCall.sectorErase 9 8192 :: (List.range 16).map (fun k =>
          DevCall.pageWrite 9 (0x20003000 + k * 256) (8192 + k * 256))) ∧
      (∀ h b n a, DevCall.read h b n a ∉ r.w.cmdLog.drop 0) ∧
      r.w.ram = demoWorld.ram := by
  obtain ⟨f, h⟩ := C21_aligned_request_takes_direct_path demoDriver demoWorld 0x10000 true
    0x20002000 16 32 ⟨0, 0⟩ demo_valid (by decide) (by decide) (by decide) (by decide)
    (by decide) (by decide) rfl rfl (by decide) (by decide) (by decide) demoWorld_cooperative
  refine ⟨f, fun fuel hf => ?_⟩
  obtain ⟨r, h1, h2, h3, h4, h5⟩ := h fuel hf
  exact ⟨r, h1, h2, h3.trans (by decide), h4, h5⟩

theorem erasesLog_eq (hdl ebs : Nat) : ∀ k addr log, addr < 4294967296 →
    erasesLog hdl ebs k addr log =
      log ++ (List.range k).map (fun j => DevCall.sectorErase hdl (u32 (addr + j * ebs))) := by
  intro k
  induction k with
  | zero => intro addr log _; simp [erasesLog]
  | succ k ih =>
    intro addr log h
    rw [erasesLog, ih _ _ (by unfold u32; omega), List.range_succ_eq_map]
    simp only [List.map_cons, List.map_map, List.append_assoc, List.singleton_append,
      Nat.zero_mul, Nat.add_zero]
    have h0 : u32 addr = addr := by unfold u32; omega
    rw [h0]
    congr 2
    apply List.map_congr_left
    intro j _
    simp only [Function.comp_apply]
    congr 1
    unfold u32
    have : addr + j.succ * ebs = addr + ebs + j * ebs := by rw [Nat.succ_mul]; omega
    rw [this, Nat.mod_add_mod]

/-- The tick of an erase command is the tick of the erase machine. -/
theorem tick_erase (d : DRV_MEMORY_OBJECT) (w : World)
    (hop : d.currentBufObj.opType = DRV_MEMORY_OPERATION_TYPE_ERASE) :
    DRV_MEMORY_StartXfer_tick d w = some (DRV_MEMORY_HandleErase d w d.currentBufObj.buffer
      d.currentBufObj.blockStart d.currentBufObj.nBlocks) := by
  unfold DRV_MEMORY_StartXfer_tick gMemoryXferFuncPtr
  rw [hop]

/-- A tick of the erase machine in its PollStatus state. -/
theorem HandleErase_CMD_STATUS_eq (d : DRV_MEMORY_OBJECT) (w : World) :
    DRV_MEMORY_HandleErase_CMD_STATUS d w =
      if w.tstatus w.nPoll = MEMORY_DEVICE_TRANSFER_COMPLETED then
        if dec32 d.nBlocks ≠ 0 then
          (MEMORY_DEVICE_TRANSFER_BUSY,
            { d with
              nBlocks := dec32 d.nBlocks,
              blockAddress := u32 (d.blockAddress + d.eraseBlockSize),
              eraseState := DRV_MEMORY_ERASE_CMD }, { w with nPoll := w.nPoll + 1 })
        else
          (MEMORY_DEVICE_TRANSFER_COMPLETED, { d with nBlocks := dec32 d.nBlocks },
            { w with nPoll := w.nPoll + 1 })
      else (w.tstatus w.nPoll, d, { w with nPoll := w.nPoll + 1 }) := by
  unfold DRV_MEMORY_HandleErase_CMD_STATUS World.devTransferStatusGet
  by_cases h1 : w.tstatus w.nPoll = MEMORY_DEVICE_TRANSFER_COMPLETED
  · by_cases h2 : dec32 d.nBlocks ≠ 0
    · simp only [h1, h2, if_true, ne_eq, not_false_eq_true]
    · simp only [h1, h2, if_true, if_false, ne_eq]
  · simp only [h1, if_false]

/-- The erase machine from the tick that issues a sector erase with `r + 1`
sectors left to its last Completed poll, on a cooperative device: `r + 1`
sectors are erased, one after the other. -/
theorem erase_run : ∀ (r : Nat) (d : DRV_MEMORY_OBJECT) (w : World),
    d.currentBufObj.opType = DRV_MEMORY_OPERATION_TYPE_ERASE → w.Cooperative →
    d.eraseState = DRV_MEMORY_ERASE_CMD → d.nBlocks = r + 1 → r + 1 < 4294967296 →
    ∃ dF wF, Reaches (DRV_MEMORY_HandleErase_CMD d w) (MEMORY_DEVICE_TRANSFER_COMPLETED, dF, wF) ∧
      wF.cmdLog = erasesLog d.memDevHandle d.eraseBlockSize (r + 1) d.blockAddress w.cmdLog := by
  intro r
  induction r with
  | zero =>
    intro d w hop hc he hn _
    generalize hd1 : ({ d with eraseState := DRV_MEMORY_ERASE_CMD_STATUS } : DRV_MEMORY_OBJECT)
      = d1
    generalize hw1 : (w.devSectorErase d.memDevHandle d.blockAddress).2 = w1
    have hacc : (w.devSectorErase d.memDevHandle d.blockAddress).1 = true := by
      simp [World.devSectorErase, hc.accept]
    have hl1 : w1.cmdLog = w.cmdLog ++ [DevCall.sectorErase d.memDevHandle d.blockAddress] := by
      subst hw1
      simp [World.devSectorErase, hc.accept]
    have hos1 : w.SameOS w1 := by subst hw1; exact devSectorErase_sameOS _ _ _
    have hc1 : w1.Cooperative := hc.of_same hos1.toSameOracles
    have e0 : DRV_MEMORY_HandleErase_CMD d w =
        DRV_MEMORY_HandleErase_CMD_STATUS { d1 with isTransferDone := false } w1 := by
      subst hd1 hw1
      unfold DRV_MEMORY_HandleErase_CMD
      dsimp only
      rw [if_pos hacc]
    have hop1 : d1.currentBufObj.opType = DRV_MEMORY_OPERATION_TYPE_ERASE := by
      subst hd1; exact hop
    have he1 : d1.eraseState = DRV_MEMORY_ERASE_CMD_STATUS := by subst hd1; rfl
    have hn1 : d1.nBlocks = 1 := by subst hd1; exact hn
    obtain ⟨k, hk1, hk0⟩ := hc1.tstatus w1.nPoll
    obtain ⟨b, w2, m2, c2, r2⟩ := poll_run
      (fun d w => DRV_MEMORY_HandleErase_CMD_STATUS d w) d1
      (by
        intro b w hb
        show DRV_MEMORY_HandleErase_CMD_STATUS _ _ = _
        rw [HandleErase_CMD_STATUS_eq, if_neg (by rw [hb]; decide), hb])
      (fun b w => by
        rw [tick_erase ({ d1 with isTransferDone := b } : DRV_MEMORY_OBJECT) w hop1]
        unfold DRV_MEMORY_HandleErase
        simp only [he1]) k false w1 hc1 hk1 hk0
    refine ⟨{ d1 with isTransferDone := b, nBlocks := dec32 d1.nBlocks },
      { w2 with nPoll := w2.nPoll + 1 }, ?_, ?_⟩
    · rw [e0]
      refine Reaches_trans r2 ?_
      have hz : ¬ dec32 ({ d1 with isTransferDone := b } : DRV_MEMORY_OBJECT).nBlocks ≠ 0 := by
        show ¬ dec32 d1.nBlocks ≠ 0
        rw [hn1]; decide
      show Reaches (DRV_MEMORY_HandleErase_CMD_STATUS _ _) _
      rw [HandleErase_CMD_STATUS_eq, if_pos c2, if_neg hz]
      exact Reaches_refl _
    · show w2.cmdLog = _
      rw [m2.cmdLog, hl1]
      rfl
  | succ r ih =>
    intro d w hop hc he hn hr
    generalize hd1 : ({ d with eraseState := DRV_MEMORY_ERASE_CMD_STATUS } : DRV_MEMORY_OBJECT)
      = d1
    generalize hw1 : (w.devSectorErase d.memDevHandle d.blockAddress).2 = w1
    have hacc : (w.devSectorErase d.memDevHandle d.blockAddress).1 = true := by
      simp [World.devSectorErase, hc.accept]
    have hl1 : w1.cmdLog = w.cmdLog ++ [DevCall.sectorErase d.memDevHandle d.blockAddress] := by
      subst hw1
      simp [World.devSectorErase, hc.accept]
    have hos1 : w.SameOS w1 := by subst hw1; exact devSectorErase_sameOS _ _ _
    have hc1 : w1.Cooperative := hc.of_same hos1.toSameOracles
    have e0 : DRV_MEMORY_HandleErase_CMD d w =
        DRV_MEMORY_HandleErase_CMD_STATUS { d1 with isTransferDone := false } w1 := by
      subst hd1 hw1
      unfold DRV_MEMORY_HandleErase_CMD
      dsimp only
      rw [if_pos hacc]
    have hop1 : d1.currentBufObj.opType = DRV_MEMORY_OPERATION_TYPE_ERASE := by
      subst hd1; exact hop
    have he1 : d1.eraseState = DRV_MEMORY_ERASE_CMD_STATUS := by subst hd1; rfl
    have hn1 : d1.nBlocks = r + 1 + 1 := by subst hd1; exact hn
    have ha1 : d1.blockAddress = d.blockAddress := by subst hd1; rfl
    have hh1 : d1.memDevHandle = d.memDevHandle := by subst hd1; rfl
    have hE1 : d1.eraseBlockSize = d.eraseBlockSize := by subst hd1; rfl
    obtain ⟨k, hk1, hk0⟩ := hc1.tstatus w1.nPoll
    obtain ⟨b, w2, m2, c2, r2⟩ := poll_run
      (fun d w => DRV_MEMORY_HandleErase_CMD_STATUS d w) d1
      (by
        intro b w hb
        show DRV_MEMORY_HandleErase_CMD_STATUS _ _ = _
        rw [HandleErase_CMD_STATUS_eq, if_neg (by rw [hb]; decide), hb])
      (fun b w => by
        rw [tick_erase ({ d1 with isTransferDone := b } : DRV_MEMORY_OBJECT) w hop1]
        unfold DRV_MEMORY_HandleErase
        simp only [he1]) k false w1 hc1 hk1 hk0
    have hc2 : w2.Cooperative := m2.coop hc1
    have hdec : dec32 d1.nBlocks = r + 1 := by
      rw [hn1]; unfold dec32; rw [if_neg (by omega)]; omega
    -- the tick that sees Completed returns Busy in the IssueCmd state
    generalize hd2 : ({ d1 with
        isTransferDone := b, nBlocks := r + 1,
        blockAddress := u32 (d1.blockAddress + d1.eraseBlockSize),
        eraseState := DRV_MEMORY_ERASE_CMD } : DRV_MEMORY_OBJECT) = d2
    have e2 : DRV_MEMORY_HandleErase_CMD_STATUS { d1 with isTransferDone := b } w2 =
        (MEMORY_DEVICE_TRANSFER_BUSY, d2, { w2 with nPoll := w2.nPoll + 1 }) := by
      have hnz : dec32 ({ d1 with isTransferDone := b } : DRV_MEMORY_OBJECT).nBlocks ≠ 0 := by
        show dec32 d1.nBlocks ≠ 0
        rw [hdec]; omega
      subst hd2
      rw [HandleErase_CMD_STATUS_eq, if_pos c2, if_pos hnz]
      show (_, _, _) = (_, _, _)
      simp only [hdec]
    have hc2' : World.Cooperative { w2 with nPoll := w2.nPoll + 1 } :=
      ⟨hc2.accept, hc2.tstatus, hc2.timerOk, hc2.pendOk⟩
    obtain ⟨_, ⟨b0, hdw⟩, hww⟩ := StartXfer_wait_ok d2 { w2 with nPoll := w2.nPoll + 1 }
      hc2'.timerOk hc2'.pendOk
    generalize hw3 : (DRV_MEMORY_StartXfer_wait d2 { w2 with nPoll := w2.nPoll + 1 }).2.2 = w3
      at hww
    have hc3 : w3.Cooperative := hc2'.of_same hww.toSameOracles
    have hop2 : d2.currentBufObj.opType = DRV_MEMORY_OPERATION_TYPE_ERASE := by
      subst hd2; exact hop1
    obtain ⟨dF, wF, r3, l3⟩ := ih { d2 with isTransferDone := b0 } w3 hop2 hc3
      (by subst hd2; rfl) (by subst hd2; rfl) (by omega)
    refine ⟨dF, wF, ?_, ?_⟩
    · rw [e0]
      refine Reaches_trans r2 ?_
      show Reaches (DRV_MEMORY_HandleErase_CMD_STATUS _ _) _
      rw [e2]
      refine Reaches_trans (Reaches_busy _ _ hc2'.timerOk hc2'.pendOk _ ?_) r3
      rw [hw3, hdw, tick_erase ({ d2 with isTransferDone := b0 } : DRV_MEMORY_OBJECT) w3 hop2]
      unfold DRV_MEMORY_HandleErase
      have he2 : d2.eraseState = DRV_MEMORY_ERASE_CMD := by subst hd2; rfl
      simp only [he2]
    · rw [l3, hww.cmdLog]
      show erasesLog _ _ _ _ w2.cmdLog = _
      rw [m2.cmdLog, hl1]
      subst hd2
      show erasesLog d1.memDevHandle d1.eraseBlockSize (r + 1)
        (u32 (d1.blockAddress + d1.eraseBlockSize)) _ = _
      rw [hh1, hE1, ha1]
      rfl

/-- The sequencer on an Erase command, with a cooperative device and OS: it
returns `true` after the sectors of the request have been erased. -/
theorem StartXfer_erase (g : Driver) (i : Nat) (w : World) (p : ClientPtr)
    (hop : (g i).currentBufObj.opType = DRV_MEMORY_OPERATION_TYPE_ERASE)
    (hcl : (g i).currentBufObj.hClient = some p)
    (hn : 1 ≤ (g i).currentBufObj.nBlocks) (hn32 : (g i).currentBufObj.nBlocks < 4294967296)
    (hc : w.Cooperative) :
    ∃ n, ∀ fuel, ∃ g' w', DRV_MEMORY_StartXfer (fuel + n) g i w = Outcome.returned (true, g', w') ∧
      w'.cmdLog = erasesLog (g i).memDevHandle (g i).eraseBlockSize (g i).currentBufObj.nBlocks
        (u32 (u32 ((g i).currentBufObj.blockStart * (g i).eraseBlockSize)
          + (g i).blockStartAddress)) w.cmdLog := by
  obtain ⟨r, hr⟩ : ∃ r, (g i).currentBufObj.nBlocks = r + 1 := ⟨_, (Nat.sub_add_cancel hn).symm⟩
  have htick : DRV_MEMORY_StartXfer_tick (DRV_MEMORY_StartXfer_init (g i)) w =
      some (DRV_MEMORY_HandleErase_CMD
        { DRV_MEMORY_StartXfer_init (g i) with
          blockAddress := u32 (u32 ((g i).currentBufObj.blockStart * (g i).eraseBlockSize)
            + (g i).blockStartAddress),
          nBlocks := (g i).currentBufObj.nBlocks,
          eraseState := DRV_MEMORY_ERASE_CMD } w) := by
    rw [tick_erase (DRV_MEMORY_StartXfer_init (g i)) w hop]
    rfl
  obtain ⟨dF, wF, ⟨n, hrun⟩, hlog⟩ := erase_run r
    { DRV_MEMORY_StartXfer_init (g i) with
      blockAddress := u32 (u32 ((g i).currentBufObj.blockStart * (g i).eraseBlockSize)
        + (g i).blockStartAddress),
      nBlocks := (g i).currentBufObj.nBlocks,
      eraseState := DRV_MEMORY_ERASE_CMD } w hop hc rfl hr (by omega)
  refine ⟨n, fun fuel => ?_⟩
  have hrun' := hrun fuel
  unfold loopT at hrun'
  rw [loop_done fuel _ _ MEMORY_DEVICE_TRANSFER_COMPLETED (by decide)] at hrun'
  obtain ⟨hS, hsc, -⟩ := StartXfer_finished (fuel + n) g i w _ _ dF wF htick hrun'
  have hcl' : dF.currentBufObj.hClient = some p := by rw [hsc.hClient]; exact hcl
  rw [hS]
  simp only [DRV_MEMORY_StartXfer_finish, hcl', if_true]
  refine ⟨_, _, rfl, ?_⟩
  rw [(callTransferHandler_dev _ _ _ _).1, hlog, ← hr]
  rfl

theorem u32_lt (x : Nat) : u32 x < 4294967296 := Nat.mod_lt _ (by decide)

/-- An erase request that passes admission on a device with a sector-erase
primitive, with a cooperative device and OS: given enough fuel,
`DRV_MEMORY_SetupXfer` returns `true` after the sectors have been erased. -/
theorem SetupXfer_erase (g : Driver) (w : World) (handle : Nat)
    (hasCommandHandle : Bool) (buffer blockStart nBlock geometry_type io_intent : Nat)
    (p : ClientPtr)
    (ha : Admissible g handle buffer blockStart nBlock geometry_type
      DRV_MEMORY_OPERATION_TYPE_ERASE io_intent p)
    (hn32 : nBlock < 4294967296)
    (hlock : w.lockOk w.nLock = true)
    (hse : (g (g.client p).drvIndex).memoryDevice.hasSectorErase = true)
    (hc : w.Cooperative) :
    ∃ fuel0, ∀ fuel, fuel0 ≤ fuel → ∃ r,
      DRV_MEMORY_SetupXfer fuel g w handle hasCommandHandle buffer blockStart nBlock
        geometry_type DRV_MEMORY_OPERATION_TYPE_ERASE io_intent = Outcome.returned r ∧
      r.isSuccess = true ∧
      r.w.cmdLog = w.cmdLog ++ (List.range nBlock).map (fun j =>
        DevCall.sectorErase (g (g.client p).drvIndex).memDevHandle
          (u32 ((g (g.client p).drvIndex).blockStartAddress
            + (blockStart + j) * (g (g.client p).drvIndex).eraseBlockSize))) := by
  have hat := Driver.allocated_at g p buffer blockStart nBlock DRV_MEMORY_OPERATION_TYPE_ERASE
  have heff : effectiveOpType (g (g.client p).drvIndex).memoryDevice.hasSectorErase
      DRV_MEMORY_OPERATION_TYPE_ERASE = DRV_MEMORY_OPERATION_TYPE_ERASE := by
    simp [effectiveOpType]
  have hc1 : World.Cooperative { w with nLock := w.nLock + 1 } :=
    ⟨hc.accept, hc.tstatus, hc.timerOk, hc.pendOk⟩
  obtain ⟨n, hrun⟩ := StartXfer_erase
    (g.allocated p buffer blockStart nBlock DRV_MEMORY_OPERATION_TYPE_ERASE)
    (g.client p).drvIndex { w with nLock := w.nLock + 1 } p
    (by rw [hat]) (by rw [hat])
    (by rw [hat]; exact Nat.pos_of_ne_zero ha.count) (by rw [hat]; exact hn32) hc1
  refine ⟨n, fun fuel hf => ?_⟩
  obtain ⟨g', w', hS, hm⟩ := hrun (fuel - n)
  rw [Nat.sub_add_cancel hf] at hS
  rw [SetupXfer_admitted fuel g w handle hasCommandHandle buffer blockStart nBlock _ _ _ p
    ha.valid ha.intent ha.buffer ha.count ha.range hlock (Or.inl hse), heff, hS]
  refine ⟨_, rfl, rfl, ?_⟩
  show w'.cmdLog = _
  rw [hm, hat, erasesLog_eq _ _ _ _ _ (u32_lt _)]
  show w.cmdLog ++ _ = _
  congr 1
  apply List.map_congr_left
  intro j _
  congr 1
  show u32 (u32 (u32 (blockStart * (g (g.client p).drvIndex).eraseBlockSize)
    + (g (g.client p).drvIndex).blockStartAddress)
    + j * (g (g.client p).drvIndex).eraseBlockSize) = _
  unfold u32
  rw [Nat.mod_add_mod, Nat.add_assoc, Nat.mod_add_mod]
  congr 1
  rw [Nat.add_mul]
  omega

/-- C27: an Erase request of `nBlock >= 1` sectors from sector `blockStart`
that passes admission, on a device that accepts every sector-erase command and
completes it after finitely many Busy polls (and an OS that never fails a
timer or a wait). With enough fuel `DRV_MEMORY_Erase` returns `true` and the
commands given to the device are exactly `nBlock` sector erases, one after the
other, the `i`-th at the 32-bit address `blockStartAddress + (blockStart + i)
* eraseBlockSize`. A tick of the erase machine, after Init, that sees the poll
answered Completed returns Busy in the IssueCmd state with the address one
erase block further when sectors remain, and Completed when none remains; a
tick whose poll is answered otherwise returns that answer verbatim; a tick
whose sector erase is rejected returns `MEMORY_DEVICE_TRANSFER_ERROR_UNKNOWN`;
and the loop of the sequencer ends at once with any tick result that is not
Busy. -/
theorem C27_erase_one_sector_at_a_time (g : Driver) (w : World) (handle : Nat)
    (hasCommandHandle : Bool) (blockStart nBlock : Nat) (p : ClientPtr)
    (hvalid : DRV_MEMORY_DriverHandleValidate g handle = some p)
    (hintent : (g.client p).intent &&& DRV_IO_INTENT_WRITE ≠ 0)
    (hn : 1 ≤ nBlock) (hn32 : nBlock < 4294967296)
    (hrange : blockStart + nBlock ≤ ((g (g.client p).drvIndex).mediaGeometryTable
      SYS_MEDIA_GEOMETRY_TABLE_ERASE_ENTRY).numBlocks)
    (hlock : w.lockOk w.nLock = true)
    (hse : (g (g.client p).drvIndex).memoryDevice.hasSectorErase = true)
    (hcoop : w.Cooperative) :
    (∃ fuel0, ∀ fuel, fuel0 ≤ fuel → ∃ r,
      DRV_MEMORY_Erase fuel g w handle hasCommandHandle blockStart nBlock = Outcome.returned r ∧
      r.isSuccess = true ∧
      r.w.cmdLog = w.cmdLog ++ (List.range nBlock).map (fun i =>
        DevCall.sectorErase (g (g.client p).drvIndex).memDevHandle
          (u32 ((g (g.client p).drvIndex).blockStartAddress
            + (blockStart + i) * (g (g.client p).drvIndex).eraseBlockSize)))) ∧
    (∀ (d : DRV_MEMORY_OBJECT) (v : World) (data bs n : Nat),
      d.eraseState ≠ DRV_MEMORY_ERASE_INIT →
      (d.eraseState = DRV_MEMORY_ERASE_CMD_STATUS ∨ v.accept v.cmdLog.length = true) →
      (v.tstatus v.nPoll = MEMORY_DEVICE_TRANSFER_COMPLETED → dec32 d.nBlocks ≠ 0 →
        (DRV_MEMORY_HandleErase d v data bs n).1 = MEMORY_DEVICE_TRANSFER_BUSY ∧
        (DRV_MEMORY_HandleErase d v data bs n).2.1.eraseState = DRV_MEMORY_ERASE_CMD ∧
        (DRV_MEMORY_HandleErase d v data bs n).2.1.nBlocks = dec32 d.nBlocks ∧
        (DRV_MEMORY_HandleErase d v data bs n).2.1.blockAddress
          = u32 (d.blockAddress + d.eraseBlockSize)) ∧
      (v.tstatus v.nPoll = MEMORY_DEVICE_TRANSFER_COMPLETED → dec32 d.nBlocks = 0 →
        (DRV_MEMORY_HandleErase d v data bs n).1 = MEMORY_DEVICE_TRANSFER_COMPLETED) ∧
      (v.tstatus v.nPoll ≠ MEMORY_DEVICE_TRANSFER_COMPLETED →
        (DRV_MEMORY_HandleErase d v data bs n).1 = v.tstatus v.nPoll)) ∧
    (∀ (d : DRV_MEMORY_OBJECT) (v : World) (data bs n : Nat),
      d.eraseState ≠ DRV_MEMORY_ERASE_CMD_STATUS → v.accept v.cmdLog.length = false →
      (DRV_MEMORY_HandleErase d v data bs n).1 = MEMORY_DEVICE_TRANSFER_ERROR_UNKNOWN ∧
      (DRV_MEMORY_HandleErase d v data bs n).2.2.nPoll = v.nPoll) ∧
    (∀ (fuel : Nat) (d : DRV_MEMORY_OBJECT) (v : World) (ts : Nat),
      ts ≠ MEMORY_DEVICE_TRANSFER_BUSY →
      DRV_MEMORY_StartXfer_loop fuel d v ts = Outcome.returned (some ts, d, v)) := by
  have hS : ∀ (d : DRV_MEMORY_OBJECT) (v : World),
      (v.tstatus v.nPoll = MEMORY_DEVICE_TRANSFER_COMPLETED → dec32 d.nBlocks ≠ 0 →
        (DRV_MEMORY_HandleErase_CMD_STATUS d v).1 = MEMORY_DEVICE_TRANSFER_BUSY ∧
        (DRV_MEMORY_HandleErase_CMD_STATUS d v).2.1.eraseState = DRV_MEMORY_ERASE_CMD ∧
        (DRV_MEMORY_HandleErase_CMD_STATUS d v).2.1.nBlocks = dec32 d.nBlocks ∧
        (DRV_MEMORY_HandleErase_CMD_STATUS d v).2.1.blockAddress
          = u32 (d.blockAddress + d.eraseBlockSize)) ∧
      (v.tstatus v.nPoll = MEMORY_DEVICE_TRANSFER_COMPLETED → dec32 d.nBlocks = 0 →
        (DRV_MEMORY_HandleErase_CMD_STATUS d v).1 = MEMORY_DEVICE_TRANSFER_COMPLETED) ∧
      (v.tstatus v.nPoll ≠ MEMORY_DEVICE_TRANSFER_COMPLETED →
        (DRV_MEMORY_HandleErase_CMD_STATUS d v).1 = v.tstatus v.nPoll) := by
    intro d v
    rw [HandleErase_CMD_STATUS_eq]
    refine ⟨fun h1 h2 => ?_, fun h1 h2 => ?_, fun h1 => ?_⟩
    · rw [if_pos h1, if_pos h2]; exact ⟨rfl, rfl, rfl, rfl⟩
    · rw [if_pos h1, if_neg (not_not.mpr h2)]
    · rw [if_neg h1]
  refine ⟨?_, ?_, ?_, fun fuel d v ts h => loop_done fuel d v ts h⟩
  · exact SetupXfer_erase g w handle hasCommandHandle 0 blockStart nBlock
      SYS_MEDIA_GEOMETRY_TABLE_ERASE_ENTRY DRV_IO_INTENT_WRITE p
      ⟨hvalid, hintent, Or.inr rfl, by omega, hrange⟩ hn32 hlock hse hcoop
  · intro d v data bs n hs hpoll
    unfold DRV_MEMORY_HandleErase
    cases h : d.eraseState with
    | DRV_MEMORY_ERASE_INIT => exact absurd h hs
    | DRV_MEMORY_ERASE_CMD_STATUS => exact hS d v
    | DRV_MEMORY_ERASE_CMD =>
      have hacc : v.accept v.cmdLog.length = true := by
        rcases hpoll with h0 | h0
        · rw [h] at h0; cases h0
        · exact h0
      have e : (v.devSectorErase d.memDevHandle d.blockAddress) =
          (true, { v with
            cmdLog := v.cmdLog ++ [DevCall.sectorErase d.memDevHandle d.blockAddress],
            flash := fun a =>
              if d.blockAddress ≤ a ∧ a < d.blockAddress + v.devSectorSize then 0xFF
              else v.flash a }) := by
        simp [World.devSectorErase, hacc]
      simp only [DRV_MEMORY_HandleErase_CMD, e, if_true]
      exact hS { d with isTransferDone := false, eraseState := DRV_MEMORY_ERASE_CMD_STATUS }
        { v with
          cmdLog := v.cmdLog ++ [DevCall.sectorErase d.memDevHandle d.blockAddress],
          flash := fun a =>
            if d.blockAddress ≤ a ∧ a < d.blockAddress + v.devSectorSize then 0xFF
            else v.flash a }
  · intro d v data bs n hs hrej
    unfold DRV_MEMORY_HandleErase
    cases h : d.eraseState with
    | DRV_MEMORY_ERASE_CMD_STATUS => exact absurd h hs
    | DRV_MEMORY_ERASE_INIT =>
      simp [DRV_MEMORY_HandleErase_CMD, World.devSectorErase, hrej]
    | DRV_MEMORY_ERASE_CMD =>
      simp [DRV_MEMORY_HandleErase_CMD, World.devSectorErase, hrej]

/-- C27 at the concrete device: the erase of sectors 2, 3 and 4 gives the
device three sector erases, at 8192, 12288 and 16384. -/
theorem C27_erase_one_sector_at_a_time_witness :
    ∃ fuel0, ∀ fuel, fuel0 ≤ fuel → ∃ r,
      DRV_MEMORY_Erase fuel demoDriver demoWorld 0x10000 true 2 3 = Outcome.returned r ∧
      r.isSuccess = true ∧
      r.w.cmdLog = [DevCall.sectorErase 9 8192, DevCall.sectorErase 9 12288,
        DevCall.sectorErase 9 16384] :=
  (C27_erase_one_sector_at_a_time demoDriver demoWorld 0x10000 true 2 3 ⟨0, 0⟩ demo_valid
    (by decide) (by decide) (by decide) (by decide) rfl rfl demoWorld_cooperative).1

/-- A tick of the read machine neither reads nor writes the numeric cursors. -/
theorem HandleRead_withNums (d : DRV_MEMORY_OBJECT) (w : World) (x y z ba nb wp sn off ntw : Nat) :
    DRV_MEMORY_HandleRead (d.withNums ba nb wp sn off ntw) w x y z =
      ((DRV_MEMORY_HandleRead d w x y z).1,
        (DRV_MEMORY_HandleRead d w x y z).2.1.withNums ba nb wp sn off ntw,
        (DRV_MEMORY_HandleRead d w x y z).2.2) := by
  have hM : ∀ (d : DRV_MEMORY_OBJECT) (a : Nat),
      DRV_MEMORY_HandleRead_MEM (d.withNums ba nb wp sn off ntw) w x z a =
        ((DRV_MEMORY_HandleRead_MEM d w x z a).1,
          (DRV_MEMORY_HandleRead_MEM d w x z a).2.1.withNums ba nb wp sn off ntw,
          (DRV_MEMORY_HandleRead_MEM d w x z a).2.2) := by
    intro d a
    unfold DRV_MEMORY_HandleRead_MEM
    by_cases hacc : (w.devRead d.memDevHandle x z a).1 = true
    · have hacc' : (w.devRead (d.withNums ba nb wp sn off ntw).memDevHandle x z a).1 = true := hacc
      simp only [hacc, hacc', if_true]
      rfl
    · have hacc' : ¬ (w.devRead (d.withNums ba nb wp sn off ntw).memDevHandle x z a).1 = true :=
        hacc
      simp only [hacc, hacc', if_false]
      rfl
  unfold DRV_MEMORY_HandleRead
  have hs : (d.withNums ba nb wp sn off ntw).readState = d.readState := rfl
  rw [hs]
  cases d.readState with
  | DRV_MEMORY_READ_INIT =>
    exact hM { d with readState := DRV_MEMORY_READ_MEM }
      (u32 (u32 (y * (d.mediaGeometryTable 0).blockSize) + d.blockStartAddress))
  | DRV_MEMORY_READ_MEM => exact hM d 0
  | DRV_MEMORY_READ_MEM_STATUS => rfl

/-- A tick of the write machine neither reads nor writes the sector cursors of
the erase-write machine. -/
theorem HandleWrite_sector (d : DRV_MEMORY_OBJECT) (w : World) (x y z sn off ntw : Nat) :
    DRV_MEMORY_HandleWrite (d.withSector sn off ntw) w x y z =
      ((DRV_MEMORY_HandleWrite d w x y z).1,
        (DRV_MEMORY_HandleWrite d w x y z).2.1.withSector sn off ntw,
        (DRV_MEMORY_HandleWrite d w x y z).2.2) := by
  have hS : ∀ (d : DRV_MEMORY_OBJECT) (w : World),
      DRV_MEMORY_HandleWrite_MEM_STATUS (d.withSector sn off ntw) w =
        ((DRV_MEMORY_HandleWrite_MEM_STATUS d w).1,
          (DRV_MEMORY_HandleWrite_MEM_STATUS d w).2.1.withSector sn off ntw,
          (DRV_MEMORY_HandleWrite_MEM_STATUS d w).2.2) := by
    intro d w
    rw [HandleWrite_MEM_STATUS_eq, HandleWrite_MEM_STATUS_eq]
    have e : (d.withSector sn off ntw).nBlocks = d.nBlocks := rfl
    rw [e]
    by_cases h1 : w.tstatus w.nPoll = MEMORY_DEVICE_TRANSFER_COMPLETED
    · by_cases h2 : dec32 d.nBlocks ≠ 0
      · rw [if_pos h1, if_pos h2, if_pos h1, if_pos h2]; rfl
      · rw [if_pos h1, if_neg h2, if_pos h1, if_neg h2]; rfl
    · rw [if_neg h1, if_neg h1]
  have hM : ∀ (d : DRV_MEMORY_OBJECT),
      DRV_MEMORY_HandleWrite_MEM (d.withSector sn off ntw) w =
        ((DRV_MEMORY_HandleWrite_MEM d w).1,
          (DRV_MEMORY_HandleWrite_MEM d w).2.1.withSector sn off ntw,
          (DRV_MEMORY_HandleWrite_MEM d w).2.2) := by
    intro d
    unfold DRV_MEMORY_HandleWrite_MEM
    by_cases hacc : (w.devPageWrite d.memDevHandle d.writePtr d.blockAddress).1 = true
    · have hacc' : (w.devPageWrite (d.withSector sn off ntw).memDevHandle
          (d.withSector sn off ntw).writePtr (d.withSector sn off ntw).blockAddress).1 = true :=
        hacc
      simp only [hacc, hacc', if_true]
      exact hS { d with isTransferDone := false, writeState := DRV_MEMORY_WRITE_MEM_STATUS }
        (w.devPageWrite d.memDevHandle d.writePtr d.blockAddress).2
    · have hacc' : ¬ (w.devPageWrite (d.withSector sn off ntw).memDevHandle
          (d.withSector sn off ntw).writePtr (d.withSector sn off ntw).blockAddress).1 = true :=
        hacc
      simp only [hacc, hacc', if_false]
      rfl
  unfold DRV_MEMORY_HandleWrite
  have hs : (d.withSector sn off ntw).writeState = d.writeState := rfl
  rw [hs]
  cases d.writeState with
  | DRV_MEMORY_WRITE_INIT =>
    exact hM { d with
      blockAddress := u32 (u32 (y * d.writeBlockSize) + d.blockStartAddress),
      nBlocks := z, writePtr := x, writeState := DRV_MEMORY_WRITE_MEM }
  | DRV_MEMORY_WRITE_MEM => exact hM d
  | DRV_MEMORY_WRITE_MEM_STATUS => exact hS d w

/-- A tick of the write machine in its Init state overwrites the block
address, the remaining count and the write pointer before it reads them. -/
theorem HandleWrite_init (d : DRV_MEMORY_OBJECT) (w : World) (x y z ba nb wp : Nat)
    (hs : d.writeState = DRV_MEMORY_WRITE_INIT) :
    DRV_MEMORY_HandleWrite { d with blockAddress := ba, nBlocks := nb, writePtr := wp } w x y z =
      DRV_MEMORY_HandleWrite d w x y z := by
  unfold DRV_MEMORY_HandleWrite
  simp only [hs]

/-- A tick of the erase machine neither reads nor writes the write pointer and
the sector cursors of the erase-write machine. -/
theorem HandleErase_rest (d : DRV_MEMORY_OBJECT) (w : World) (x y z wp sn off ntw : Nat) :
    DRV_MEMORY_HandleErase (d.withPtrSector wp sn off ntw) w x y z =
      ((DRV_MEMORY_HandleErase d w x y z).1,
        (DRV_MEMORY_HandleErase d w x y z).2.1.withPtrSector wp sn off ntw,
        (DRV_MEMORY_HandleErase d w x y z).2.2) := by
  have hS : ∀ (d : DRV_MEMORY_OBJECT) (w : World),
      DRV_MEMORY_HandleErase_CMD_STATUS (d.withPtrSector wp sn off ntw) w =
        ((DRV_MEMORY_HandleErase_CMD_STATUS d w).1,
          (DRV_MEMORY_HandleErase_CMD_STATUS d w).2.1.withPtrSector wp sn off ntw,
          (DRV_MEMORY_HandleErase_CMD_STATUS d w).2.2) := by
    intro d w
    rw [HandleErase_CMD_STATUS_eq, HandleErase_CMD_STATUS_eq]
    have e : (d.withPtrSector wp sn off ntw).nBlocks = d.nBlocks := rfl
    rw [e]
    by_cases h1 : w.tstatus w.nPoll = MEMORY_DEVICE_TRANSFER_COMPLETED
    · by_cases h2 : dec32 d.nBlocks ≠ 0
      · rw [if_pos h1, if_pos h2, if_pos h1, if_pos h2]; rfl
      · rw [if_pos h1, if_neg h2, if_pos h1, if_neg h2]; rfl
    · rw [if_neg h1, if_neg h1]
  have hM : ∀ (d : DRV_MEMORY_OBJECT),
      DRV_MEMORY_HandleErase_CMD (d.withPtrSector wp sn off ntw) w =
        ((DRV_MEMORY_HandleErase_CMD d w).1,
          (DRV_MEMORY_HandleErase_CMD d w).2.1.withPtrSector wp sn off ntw,
          (DRV_MEMORY_HandleErase_CMD d w).2.2) := by
    intro d
    unfold DRV_MEMORY_HandleErase_CMD
    by_cases hacc : (w.devSectorErase d.memDevHandle d.blockAddress).1 = true
    · have hacc' : (w.devSectorErase (d.withPtrSector wp sn off ntw).memDevHandle
          (d.withPtrSector wp sn off ntw).blockAddress).1 = true := hacc
      simp only [hacc, hacc', if_true]
      exact hS { d with isTransferDone := false, eraseState := DRV_MEMORY_ERASE_CMD_STATUS }
        (w.devSectorErase d.memDevHandle d.blockAddress).2
    · have hacc' : ¬ (w.devSectorErase (d.withPtrSector wp sn off ntw).memDevHandle
          (d.withPtrSector wp sn off ntw).blockAddress).1 = true := hacc
      simp only [hacc, hacc', if_false]
      rfl
  unfold DRV_MEMORY_HandleErase
  have hs : (d.withPtrSector wp sn off ntw).eraseState = d.eraseState := rfl
  rw [hs]
  cases d.eraseState with
  | DRV_MEMORY_ERASE_INIT =>
    exact hM { d with
      blockAddress := u32 (u32 (y * d.eraseBlockSize) + d.blockStartAddress),
      nBlocks := z, eraseState := DRV_MEMORY_ERASE_CMD }
  | DRV_MEMORY_ERASE_CMD => exact hM d
  | DRV_MEMORY_ERASE_CMD_STATUS => exact hS d w

/-- A tick of the erase machine in its Init state overwrites the block address
and the remaining count before it reads them. -/
theorem HandleErase_init (d : DRV_MEMORY_OBJECT) (w : World) (x y z ba nb : Nat)
    (hs : d.eraseState = DRV_MEMORY_ERASE_INIT) :
    DRV_MEMORY_HandleErase (d.withAddr ba nb) w x y z = DRV_MEMORY_HandleErase d w x y z := by
  unfold DRV_MEMORY_HandleErase
  have e : (d.withAddr ba nb).eraseState = d.eraseState := rfl
  rw [e, hs]
  rfl

/-- A tick of the read machine neither reads nor writes the block address and
the remaining count. -/
theorem HandleRead_withAddr (d : DRV_MEMORY_OBJECT) (w : World) (x y z ba nb : Nat) :
    DRV_MEMORY_HandleRead (d.withAddr ba nb) w x y z =
      ((DRV_MEMORY_HandleRead d w x y z).1,
        (DRV_MEMORY_HandleRead d w x y z).2.1.withAddr ba nb,
        (DRV_MEMORY_HandleRead d w x y z).2.2) := by
  have hM : ∀ (d : DRV_MEMORY_OBJECT) (a : Nat),
      DRV_MEMORY_HandleRead_MEM (d.withAddr ba nb) w x z a =
        ((DRV_MEMORY_HandleRead_MEM d w x z a).1,
          (DRV_MEMORY_HandleRead_MEM d w x z a).2.1.withAddr ba nb,
          (DRV_MEMORY_HandleRead_MEM d w x z a).2.2) := by
    intro d a
    unfold DRV_MEMORY_HandleRead_MEM
    by_cases hacc : (w.devRead d.memDevHandle x z a).1 = true
    · have hacc' : (w.devRead (d.withAddr ba nb).memDevHandle x z a).1 = true := hacc
      simp only [hacc, hacc', if_true]
      rfl
    · have hacc' : ¬ (w.devRead (d.withAddr ba nb).memDevHandle x z a).1 = true := hacc
      simp only [hacc, hacc', if_false]
      rfl
  unfold DRV_MEMORY_HandleRead
  have hs : (d.withAddr ba nb).readState = d.readState := rfl
  rw [hs]
  cases d.readState with
  | DRV_MEMORY_READ_INIT =>
    exact hM { d with readState := DRV_MEMORY_READ_MEM }
      (u32 (u32 (y * (d.mediaGeometryTable 0).blockSize) + d.blockStartAddress))
  | DRV_MEMORY_READ_MEM => exact hM d 0
  | DRV_MEMORY_READ_MEM_STATUS => rfl

/-- A tick of the read machine changes, of the instance object, the read state
only. -/
theorem HandleRead_obj (d : DRV_MEMORY_OBJECT) (w : World) (x y z : Nat) :
    ∃ rs, (DRV_MEMORY_HandleRead d w x y z).2.1 = { d with readState := rs } := by
  have hM : ∀ (d0 : DRV_MEMORY_OBJECT) (a : Nat), (∃ rs, d0 = { d with readState := rs }) →
      ∃ rs, (DRV_MEMORY_HandleRead_MEM d0 w x z a).2.1 = { d with readState := rs } := by
    intro d0 a h
    obtain ⟨rs, rfl⟩ := h
    unfold DRV_MEMORY_HandleRead_MEM
    by_cases hacc : (w.devRead ({ d with readState := rs } : DRV_MEMORY_OBJECT).memDevHandle
        x z a).1 = true
    · simp only [hacc, if_true]
      exact ⟨DRV_MEMORY_READ_MEM_STATUS, rfl⟩
    · simp only [hacc, if_false]
      exact ⟨rs, rfl⟩
  unfold DRV_MEMORY_HandleRead
  cases hs : d.readState with
  | DRV_MEMORY_READ_INIT => exact hM _ _ ⟨DRV_MEMORY_READ_MEM, rfl⟩
  | DRV_MEMORY_READ_MEM => exact hM _ _ ⟨d.readState, rfl⟩
  | DRV_MEMORY_READ_MEM_STATUS => exact ⟨d.readState, rfl⟩

/-- The wait of the sequencer commutes with every change of the instance object
that leaves alone the three fields the wait reads. -/
theorem StartXfer_wait_comm (f : DRV_MEMORY_OBJECT → DRV_MEMORY_OBJECT)
    (h1 : ∀ d, (f d).isMemDevInterruptEnabled = d.isMemDevInterruptEnabled)
    (h2 : ∀ d, (f d).memDevStatusPollUs = d.memDevStatusPollUs)
    (h3 : ∀ d, (f d).isTransferDone = d.isTransferDone)
    (h4 : ∀ d b, f { d with isTransferDone := b } = { f d with isTransferDone := b })
    (d : DRV_MEMORY_OBJECT) (w : World) :
    DRV_MEMORY_StartXfer_wait (f d) w =
      ((DRV_MEMORY_StartXfer_wait d w).1, f (DRV_MEMORY_StartXfer_wait d w).2.1,
        (DRV_MEMORY_StartXfer_wait d w).2.2) := by
  have k1 : ((f d).isMemDevInterruptEnabled = false ∧ (f d).memDevStatusPollUs > 0) =
      (d.isMemDevInterruptEnabled = false ∧ d.memDevStatusPollUs > 0) := by rw [h1, h2]
  have k2 : ((f d).isMemDevInterruptEnabled = true ∧ (f d).memDevStatusPollUs = 0) =
      (d.isMemDevInterruptEnabled = true ∧ d.memDevStatusPollUs = 0) := by rw [h1, h2]
  unfold DRV_MEMORY_StartXfer_wait
  by_cases c1 : d.isMemDevInterruptEnabled = false ∧ d.memDevStatusPollUs > 0
  · rw [if_pos (k1 ▸ c1), if_pos c1]
    dsimp only
    by_cases ht : w.timerOk w.nTimer = false
    · rw [if_pos ht, if_pos ht]
    · rw [if_neg ht, if_neg ht]
      by_cases hp : w.pendOk w.nPend = true
      · rw [if_pos hp, if_pos hp]
      · rw [if_neg hp, if_neg hp]
  · rw [if_neg (k1 ▸ c1), if_neg c1]
    by_cases c2 : d.isMemDevInterruptEnabled = true ∧ d.memDevStatusPollUs = 0
    · rw [if_pos (k2 ▸ c2), if_pos c2]
      dsimp only
      by_cases hf : w.isr w.nIsr = true
      · rw [if_pos hf, if_pos hf]
        have e1 : ¬ (({ f d with isTransferDone := true } : DRV_MEMORY_OBJECT).isTransferDone
            = false) := by simp
        have e2 : ¬ (({ d with isTransferDone := true } : DRV_MEMORY_OBJECT).isTransferDone
            = false) := by simp
        rw [if_neg e1, if_neg e2]
        exact Prod.ext rfl (Prod.ext (h4 d true).symm rfl)
      · rw [if_neg hf, if_neg hf]
        by_cases hd : d.isTransferDone = false
        · rw [if_pos ((h3 d).trans hd), if_pos hd]
          by_cases hp : w.pendOk w.nPend = true
          · rw [if_pos hp, if_pos hp]
          · rw [if_neg hp, if_neg hp]
        · rw [if_neg (fun h => hd ((h3 d).symm.trans h)), if_neg hd]
    · rw [if_neg (k2 ▸ c2), if_neg c2]

theorem HandleWrite_withAddr (d : DRV_MEMORY_OBJECT) (w : World) (x y z ba nb : Nat)
    (hs : d.writeState = DRV_MEMORY_WRITE_INIT) :
    DRV_MEMORY_HandleWrite (d.withAddr ba nb) w x y z = DRV_MEMORY_HandleWrite d w x y z :=
  HandleWrite_init d w x y z ba nb d.writePtr hs

theorem HandleEraseWrite_ERASE_SECTOR_withAddr (d : DRV_MEMORY_OBJECT) (w : World) (ba nb : Nat)
    (he : d.eraseState = DRV_MEMORY_ERASE_INIT) :
    DRV_MEMORY_HandleEraseWrite_ERASE_SECTOR (d.withAddr ba nb) w =
      DRV_MEMORY_HandleEraseWrite_ERASE_SECTOR d w := by
  unfold DRV_MEMORY_HandleEraseWrite_ERASE_SECTOR
  have e2 : (d.withAddr ba nb).sectorNumber = d.sectorNumber := rfl
  rw [e2, HandleErase_init d w 0 d.sectorNumber 1 ba nb he]

theorem HandleEraseWrite_WRITE_SECTOR_withAddr (d : DRV_MEMORY_OBJECT) (w : World)
    (pps ba nb : Nat) (hw : d.writeState = DRV_MEMORY_WRITE_INIT) :
    DRV_MEMORY_HandleEraseWrite_WRITE_SECTOR (d.withAddr ba nb) w pps =
      DRV_MEMORY_HandleEraseWrite_WRITE_SECTOR d w pps := by
  unfold DRV_MEMORY_HandleEraseWrite_WRITE_SECTOR
  have e1 : (d.withAddr ba nb).writePtr = d.writePtr := rfl
  have e2 : (d.withAddr ba nb).sectorNumber = d.sectorNumber := rfl
  rw [e1, e2, HandleWrite_withAddr d w d.writePtr (u32 (d.sectorNumber * pps)) pps ba nb hw]

/-- The Read Sector state of the erase-write machine does not depend on the
block address and the remaining count while the erase machine is in its Init
state. -/
theorem HandleEraseWrite_READ_SECTOR_withAddr (d : DRV_MEMORY_OBJECT) (w : World) (ba nb : Nat)
    (he : d.eraseState = DRV_MEMORY_ERASE_INIT) (hw : d.writeState = DRV_MEMORY_WRITE_INIT) :
    (DRV_MEMORY_HandleEraseWrite_READ_SECTOR (d.withAddr ba nb) w).1 =
        (DRV_MEMORY_HandleEraseWrite_READ_SECTOR d w).1 ∧
      (DRV_MEMORY_HandleEraseWrite_READ_SECTOR (d.withAddr ba nb) w).2.2 =
        (DRV_MEMORY_HandleEraseWrite_READ_SECTOR d w).2.2 ∧
      EwInv (DRV_MEMORY_HandleEraseWrite_READ_SECTOR d w).2.1
        (DRV_MEMORY_HandleEraseWrite_READ_SECTOR (d.withAddr ba nb) w).2.1 := by
  unfold DRV_MEMORY_HandleEraseWrite_READ_SECTOR
  have e1 : (d.withAddr ba nb).ewBuffer = d.ewBuffer := rfl
  have e2 : (d.withAddr ba nb).sectorNumber = d.sectorNumber := rfl
  have e3 : (d.withAddr ba nb).eraseBlockSize = d.eraseBlockSize := rfl
  dsimp only
  rw [e1, e2, e3, HandleRead_withAddr]
  obtain ⟨rs, hrs⟩ := HandleRead_obj d w d.ewBuffer (u32 (d.sectorNumber * d.eraseBlockSize))
    d.eraseBlockSize
  generalize DRV_MEMORY_HandleRead d w d.ewBuffer (u32 (d.sectorNumber * d.eraseBlockSize))
    d.eraseBlockSize = r at hrs
  obtain ⟨s, d1, w1⟩ := r
  dsimp only at hrs ⊢
  subst hrs
  by_cases hc : s = MEMORY_DEVICE_TRANSFER_COMPLETED
  · rw [if_pos hc, if_pos hc]
    have hx := HandleEraseWrite_ERASE_SECTOR_withAddr
      { d with readState := rs,
               blockOffsetInSector := u32 (d.blockOffsetInSector * d.writeBlockSize),
               ewState := DRV_MEMORY_EW_ERASE_SECTOR }
      (w1.memcpy (d.ewBuffer + u32 (d.blockOffsetInSector * d.writeBlockSize))
        d.currentBufObj.buffer (u32 (d.nBlocksToWrite * d.writeBlockSize))) ba nb he
    exact ⟨congrArg (fun t => t.1) hx, congrArg (fun t => t.2.2) hx,
      Or.inl (congrArg (fun t => t.2.1) hx)⟩
  · rw [if_neg hc, if_neg hc]
    exact ⟨rfl, rfl, Or.inr ⟨he, hw, ba, nb, rfl⟩⟩

/-- The Init state of the erase-write machine with the number of pages for the
sector named. -/
theorem HandleEraseWrite_INIT_norm (d : DRV_MEMORY_OBJECT) (w : World) (pps : Nat) :
    ∃ n, n = (if d.currentBufObj.nBlocks < sub32 pps (d.currentBufObj.blockStart % pps) then
        d.currentBufObj.nBlocks else sub32 pps (d.currentBufObj.blockStart % pps)) ∧
      DRV_MEMORY_HandleEraseWrite_INIT d w pps =
      if n ≠ pps then
        DRV_MEMORY_HandleEraseWrite_READ_SECTOR
          { d with
            readState := DRV_MEMORY_READ_INIT,
            eraseState := DRV_MEMORY_ERASE_INIT,
            writeState := DRV_MEMORY_WRITE_INIT,
            sectorNumber := d.currentBufObj.blockStart / pps,
            blockOffsetInSector := d.currentBufObj.blockStart % pps,
            nBlocksToWrite := n,
            writePtr := d.ewBuffer,
            ewState := DRV_MEMORY_EW_READ_SECTOR } w
      else
        (MEMORY_DEVICE_TRANSFER_BUSY,
          { d with
            readState := DRV_MEMORY_READ_INIT,
            eraseState := DRV_MEMORY_ERASE_INIT,
            writeState := DRV_MEMORY_WRITE_INIT,
            sectorNumber := d.currentBufObj.blockStart / pps,
            blockOffsetInSector := d.currentBufObj.blockStart % pps,
            nBlocksToWrite := n,
            writePtr := d.currentBufObj.buffer,
            ewState := DRV_MEMORY_EW_ERASE_SECTOR }, w) := by
  unfold DRV_MEMORY_HandleEraseWrite_INIT
  dsimp only
  by_cases c : d.currentBufObj.nBlocks < sub32 pps (d.currentBufObj.blockStart % pps)
  · refine ⟨d.currentBufObj.nBlocks, by rw [if_pos c], ?_⟩
    rw [if_pos c]
  · refine ⟨sub32 pps (d.currentBufObj.blockStart % pps), by rw [if_neg c], ?_⟩
    rw [if_neg c]

/-- The Init state of the erase-write machine overwrites the write pointer and
the sector cursors before it reads them, and neither reads nor writes the
block address and the remaining count. -/
theorem HandleEraseWrite_INIT_withNums (d : DRV_MEMORY_OBJECT) (w : World)
    (pps ba nb wp sn off ntw : Nat) :
    (DRV_MEMORY_HandleEraseWrite_INIT (d.withNums ba nb wp sn off ntw) w pps).1 =
        (DRV_MEMORY_HandleEraseWrite_INIT d w pps).1 ∧
      (DRV_MEMORY_HandleEraseWrite_INIT (d.withNums ba nb wp sn off ntw) w pps).2.2 =
        (DRV_MEMORY_HandleEraseWrite_INIT d w pps).2.2 ∧
      EwInv (DRV_MEMORY_HandleEraseWrite_INIT d w pps).2.1
        (DRV_MEMORY_HandleEraseWrite_INIT (d.withNums ba nb wp sn off ntw) w pps).2.1 := by
  obtain ⟨n, hn, h⟩ := HandleEraseWrite_INIT_norm d w pps
  obtain ⟨n', hn', h'⟩ := HandleEraseWrite_INIT_norm (d.withNums ba nb wp sn off ntw) w pps
  have e : n' = n := hn'.trans hn.symm
  subst e
  rw [h, h']
  by_cases c : n' ≠ pps
  · rw [if_pos c, if_pos c]
    exact HandleEraseWrite_READ_SECTOR_withAddr
      { d with
        readState := DRV_MEMORY_READ_INIT,
        eraseState := DRV_MEMORY_ERASE_INIT,
        writeState := DRV_MEMORY_WRITE_INIT,
        sectorNumber := d.currentBufObj.blockStart / pps,
        blockOffsetInSector := d.currentBufObj.blockStart % pps,
        nBlocksToWrite := n',
        writePtr := d.ewBuffer,
        ewState := DRV_MEMORY_EW_READ_SECTOR } w ba nb rfl rfl
  · rw [if_neg c, if_neg c]
    exact ⟨rfl, rfl, Or.inr ⟨rfl, rfl, ba, nb, rfl⟩⟩

/-- A tick of the erase-write machine keeps the relation `EwInv`. -/
theorem HandleEraseWrite_EwInv (d d' : DRV_MEMORY_OBJECT) (w : World) (x y z : Nat)
    (h : EwInv d d') :
    (DRV_MEMORY_HandleEraseWrite d w x y z = none ∧
        DRV_MEMORY_HandleEraseWrite d' w x y z = none) ∨
      ∃ t t', DRV_MEMORY_HandleEraseWrite d w x y z = some t ∧
        DRV_MEMORY_HandleEraseWrite d' w x y z = some t' ∧
        t'.1 = t.1 ∧ t'.2.2 = t.2.2 ∧ EwInv t.2.1 t'.2.1 := by
  rcases h with h | ⟨he, hw, ba, nb, h⟩
  · subst h
    cases hr : DRV_MEMORY_HandleEraseWrite d' w x y z with
    | none => exact Or.inl ⟨rfl, rfl⟩
    | some t => exact Or.inr ⟨t, t, rfl, rfl, rfl, rfl, Or.inl rfl⟩
  · subst h
    unfold DRV_MEMORY_HandleEraseWrite
    have e1 : (d.withAddr ba nb).writeBlockSize = d.writeBlockSize := rfl
    have e2 : (d.withAddr ba nb).eraseBlockSize = d.eraseBlockSize := rfl
    have e3 : (d.withAddr ba nb).ewState = d.ewState := rfl
    rw [e1, e2, e3]
    by_cases hz : d.writeBlockSize = 0
    · rw [if_pos hz, if_pos hz]
      exact Or.inl ⟨rfl, rfl⟩
    · rw [if_neg hz, if_neg hz]
      dsimp only
      cases d.ewState with
      | DRV_MEMORY_EW_INIT =>
        dsimp only
        by_cases hp : u8 (d.eraseBlockSize / d.writeBlockSize) = 0
        · rw [if_pos hp, if_pos hp]
          exact Or.inl ⟨rfl, rfl⟩
        · rw [if_neg hp, if_neg hp]
          exact Or.inr ⟨_, _, rfl, rfl, HandleEraseWrite_INIT_withNums d w _ ba nb d.writePtr
            d.sectorNumber d.blockOffsetInSector d.nBlocksToWrite⟩
      | DRV_MEMORY_EW_READ_SECTOR =>
        exact Or.inr ⟨_, _, rfl, rfl, HandleEraseWrite_READ_SECTOR_withAddr d w ba nb he hw⟩
      | DRV_MEMORY_EW_ERASE_SECTOR =>
        refine Or.inr ⟨_, _, rfl, rfl, ?_⟩
        rw [HandleEraseWrite_ERASE_SECTOR_withAddr d w ba nb he]
        exact ⟨rfl, rfl, Or.inl rfl⟩
      | DRV_MEMORY_EW_WRITE_SECTOR =>
        refine Or.inr ⟨_, _, rfl, rfl, ?_⟩
        rw [HandleEraseWrite_WRITE_SECTOR_withAddr d w _ ba nb hw]
        exact ⟨rfl, rfl, Or.inl rfl⟩

theorem CursorInv_read {d d' : DRV_MEMORY_OBJECT}
    (h : d.currentBufObj.opType = DRV_MEMORY_OPERATION_TYPE_READ) :
    CursorInv d d' ↔ ∃ ba nb wp sn off ntw, d' = d.withNums ba nb wp sn off ntw := by
  unfold CursorInv
  rw [h]

theorem CursorInv_write {d d' : DRV_MEMORY_OBJECT}
    (h : d.currentBufObj.opType = DRV_MEMORY_OPERATION_TYPE_WRITE) :
    CursorInv d d' ↔ ∃ sn off ntw, d' = d.withSector sn off ntw := by
  unfold CursorInv
  rw [h]

theorem CursorInv_erase {d d' : DRV_MEMORY_OBJECT}
    (h : d.currentBufObj.opType = DRV_MEMORY_OPERATION_TYPE_ERASE) :
    CursorInv d d' ↔ ∃ wp sn off ntw, d' = d.withPtrSector wp sn off ntw := by
  unfold CursorInv
  rw [h]

theorem CursorInv_ew {d d' : DRV_MEMORY_OBJECT}
    (h : d.currentBufObj.opType = DRV_MEMORY_OPERATION_TYPE_ERASE_WRITE) :
    CursorInv d d' ↔ EwInv d d' := by
  unfold CursorInv
  rw [h]

theorem SameTicks_some {t t' : Nat × DRV_MEMORY_OBJECT × World} (h1 : t'.1 = t.1)
    (h2 : t'.2.2 = t.2.2) (h3 : CursorInv t.2.1 t'.2.1) : SameTicks (some t) (some t') := by
  unfold SameTicks
  exact ⟨h1, h2, h3⟩

theorem SameTicks_none : SameTicks none none := by
  unfold SameTicks
  exact True.intro

/-- A tick of the write machine from its Init state overwrites the block
address, the remaining count and the write pointer, and leaves the sector
cursors alone. -/
theorem HandleWrite_withNums (d : DRV_MEMORY_OBJECT) (w : World) (x y z ba nb wp sn off ntw : Nat)
    (hs : d.writeState = DRV_MEMORY_WRITE_INIT) :
    DRV_MEMORY_HandleWrite (d.withNums ba nb wp sn off ntw) w x y z =
      ((DRV_MEMORY_HandleWrite d w x y z).1,
        (DRV_MEMORY_HandleWrite d w x y z).2.1.withSector sn off ntw,
        (DRV_MEMORY_HandleWrite d w x y z).2.2) := by
  have e := HandleWrite_sector { d with blockAddress := ba, nBlocks := nb, writePtr := wp }
    w x y z sn off ntw
  rw [HandleWrite_init d w x y z ba nb wp hs] at e
  exact e

/-- A tick of the erase machine from its Init state overwrites the block
address and the remaining count, and leaves the write pointer and the sector
cursors alone. -/
theorem HandleErase_withNums (d : DRV_MEMORY_OBJECT) (w : World) (x y z ba nb wp sn off ntw : Nat)
    (hs : d.eraseState = DRV_MEMORY_ERASE_INIT) :
    DRV_MEMORY_HandleErase (d.withNums ba nb wp sn off ntw) w x y z =
      ((DRV_MEMORY_HandleErase d w x y z).1,
        (DRV_MEMORY_HandleErase d w x y z).2.1.withPtrSector wp sn off ntw,
        (DRV_MEMORY_HandleErase d w x y z).2.2) := by
  have e := HandleErase_rest (d.withAddr ba nb) w x y z wp sn off ntw
  rw [HandleErase_init d w x y z ba nb hs] at e
  exact e

/-- A tick of the erase-write machine from its Init state does not depend on
the numeric cursors. -/
theorem HandleEraseWrite_withNums (d : DRV_MEMORY_OBJECT) (w : World)
    (x y z ba nb wp sn off ntw : Nat) (hs : d.ewState = DRV_MEMORY_EW_INIT) :
    (DRV_MEMORY_HandleEraseWrite d w x y z = none ∧
        DRV_MEMORY_HandleEraseWrite (d.withNums ba nb wp sn off ntw) w x y z = none) ∨
      ∃ t t', DRV_MEMORY_HandleEraseWrite d w x y z = some t ∧
        DRV_MEMORY_HandleEraseWrite (d.withNums ba nb wp sn off ntw) w x y z = some t' ∧
        t'.1 = t.1 ∧ t'.2.2 = t.2.2 ∧ EwInv t.2.1 t'.2.1 := by
  unfold DRV_MEMORY_HandleEraseWrite
  have e1 : (d.withNums ba nb wp sn off ntw).writeBlockSize = d.writeBlockSize := rfl
  have e2 : (d.withNums ba nb wp sn off ntw).eraseBlockSize = d.eraseBlockSize := rfl
  have e3 : (d.withNums ba nb wp sn off ntw).ewState = d.ewState := rfl
  rw [e1, e2, e3, hs]
  by_cases hz : d.writeBlockSize = 0
  · rw [if_pos hz, if_pos hz]
    exact Or.inl ⟨rfl, rfl⟩
  · rw [if_neg hz, if_neg hz]
    dsimp only
    by_cases hp : u8 (d.eraseBlockSize / d.writeBlockSize) = 0
    · rw [if_pos hp, if_pos hp]
      exact Or.inl ⟨rfl, rfl⟩
    · rw [if_neg hp, if_neg hp]
      exact Or.inr ⟨_, _, rfl, rfl, HandleEraseWrite_INIT_withNums d w _ ba nb wp sn off ntw⟩

theorem SameTicks_of_ew {d d' : DRV_MEMORY_OBJECT} {w : World}
    (hop : d.currentBufObj.opType = DRV_MEMORY_OPERATION_TYPE_ERASE_WRITE)
    (hc : d'.currentBufObj = d.currentBufObj)
    (h : (DRV_MEMORY_HandleEraseWrite d w d.currentBufObj.buffer d.currentBufObj.blockStart
          d.currentBufObj.nBlocks = none ∧
        DRV_MEMORY_HandleEraseWrite d' w d.currentBufObj.buffer d.currentBufObj.blockStart
          d.currentBufObj.nBlocks = none) ∨
      ∃ t t', DRV_MEMORY_HandleEraseWrite d w d.currentBufObj.buffer d.currentBufObj.blockStart
          d.currentBufObj.nBlocks = some t ∧
        DRV_MEMORY_HandleEraseWrite d' w d.currentBufObj.buffer d.currentBufObj.blockStart
          d.currentBufObj.nBlocks = some t' ∧
        t'.1 = t.1 ∧ t'.2.2 = t.2.2 ∧ EwInv t.2.1 t'.2.1) :
    SameTicks (DRV_MEMORY_StartXfer_tick d w) (DRV_MEMORY_StartXfer_tick d' w) := by
  have ht : DRV_MEMORY_StartXfer_tick d w = DRV_MEMORY_HandleEraseWrite d w
      d.currentBufObj.buffer d.currentBufObj.blockStart d.currentBufObj.nBlocks := by
    unfold DRV_MEMORY_StartXfer_tick gMemoryXferFuncPtr
    rw [hop]
  have ht' : DRV_MEMORY_StartXfer_tick d' w = DRV_MEMORY_HandleEraseWrite d' w
      d.currentBufObj.buffer d.currentBufObj.blockStart d.currentBufObj.nBlocks := by
    unfold DRV_MEMORY_StartXfer_tick gMemoryXferFuncPtr
    rw [hc, hop]
  rcases h with ⟨h1, h2⟩ | ⟨t, t', h1, h2, h3, h4, h5⟩
  · rw [ht, ht', h1, h2]
    exact SameTicks_none
  · have hf := StartXfer_tick_frame d w t (ht.trans h1)
    rw [ht, ht', h1, h2]
    exact SameTicks_some h3 h4 ((CursorInv_ew (hf.1.opType.trans hop)).2 h5)

/-- A tick keeps the relation `CursorInv`, and gives the same status and the
same environment from both instance objects. -/
theorem tick_CursorInv (d d' : DRV_MEMORY_OBJECT) (w : World) (h : CursorInv d d') :
    SameTicks (DRV_MEMORY_StartXfer_tick d w) (DRV_MEMORY_StartXfer_tick d' w) := by
  cases hop : d.currentBufObj.opType with
  | DRV_MEMORY_OPERATION_TYPE_READ =>
    obtain ⟨ba, nb, wp, sn, off, ntw, rfl⟩ := (CursorInv_read hop).1 h
    have ht : DRV_MEMORY_StartXfer_tick d w = some (DRV_MEMORY_HandleRead d w
        d.currentBufObj.buffer d.currentBufObj.blockStart d.currentBufObj.nBlocks) := by
      unfold DRV_MEMORY_StartXfer_tick gMemoryXferFuncPtr
      rw [hop]
    have ht' : DRV_MEMORY_StartXfer_tick (d.withNums ba nb wp sn off ntw) w =
        some (DRV_MEMORY_HandleRead (d.withNums ba nb wp sn off ntw) w
          d.currentBufObj.buffer d.currentBufObj.blockStart d.currentBufObj.nBlocks) := by
      unfold DRV_MEMORY_StartXfer_tick gMemoryXferFuncPtr
      have e : (d.withNums ba nb wp sn off ntw).currentBufObj = d.currentBufObj := rfl
      rw [e, hop]
    have hf := StartXfer_tick_frame d w _ ht
    rw [ht, ht', HandleRead_withNums]
    exact SameTicks_some rfl rfl
      ((CursorInv_read (hf.1.opType.trans hop)).2 ⟨ba, nb, wp, sn, off, ntw, rfl⟩)
  | DRV_MEMORY_OPERATION_TYPE_WRITE =>
    obtain ⟨sn, off, ntw, rfl⟩ := (CursorInv_write hop).1 h
    have ht : DRV_MEMORY_StartXfer_tick d w = some (DRV_MEMORY_HandleWrite d w
        d.currentBufObj.buffer d.currentBufObj.blockStart d.currentBufObj.nBlocks) := by
      unfold DRV_MEMORY_StartXfer_tick gMemoryXferFuncPtr
      rw [hop]
    have ht' : DRV_MEMORY_StartXfer_tick (d.withSector sn off ntw) w =
        some (DRV_MEMORY_HandleWrite (d.withSector sn off ntw) w
          d.currentBufObj.buffer d.currentBufObj.blockStart d.currentBufObj.nBlocks) := by
      unfold DRV_MEMORY_StartXfer_tick gMemoryXferFuncPtr
      have e : (d.withSector sn off ntw).currentBufObj = d.currentBufObj := rfl
      rw [e, hop]
    have hf := StartXfer_tick_frame d w _ ht
    rw [ht, ht', HandleWrite_sector]
    exact SameTicks_some rfl rfl ((CursorInv_write (hf.1.opType.trans hop)).2 ⟨sn, off, ntw, rfl⟩)
  | DRV_MEMORY_OPERATION_TYPE_ERASE =>
    obtain ⟨wp, sn, off, ntw, rfl⟩ := (CursorInv_erase hop).1 h
    have ht : DRV_MEMORY_StartXfer_tick d w = some (DRV_MEMORY_HandleErase d w
        d.currentBufObj.buffer d.currentBufObj.blockStart d.currentBufObj.nBlocks) := by
      unfold DRV_MEMORY_StartXfer_tick gMemoryXferFuncPtr
      rw [hop]
    have ht' : DRV_MEMORY_StartXfer_tick (d.withPtrSector wp sn off ntw) w =
        some (DRV_MEMORY_HandleErase (d.withPtrSector wp sn off ntw) w
          d.currentBufObj.buffer d.currentBufObj.blockStart d.currentBufObj.nBlocks) := by
      unfold DRV_MEMORY_StartXfer_tick gMemoryXferFuncPtr
      have e : (d.withPtrSector wp sn off ntw).currentBufObj = d.currentBufObj := rfl
      rw [e, hop]
    have hf := StartXfer_tick_frame d w _ ht
    rw [ht, ht', HandleErase_rest]
    exact SameTicks_some rfl rfl
      ((CursorInv_erase (hf.1.opType.trans hop)).2 ⟨wp, sn, off, ntw, rfl⟩)
  | DRV_MEMORY_OPERATION_TYPE_ERASE_WRITE =>
    have hE := (CursorInv_ew hop).1 h
    have hc : d'.currentBufObj = d.currentBufObj := by
      rcases hE with h1 | ⟨-, -, ba, nb, h1⟩
      · rw [h1]
      · rw [h1]; rfl
    exact SameTicks_of_ew hop hc (HandleEraseWrite_EwInv d d' w _ _ _ hE)

/-- The first tick of a command, after the sequencer has reset the four
machines: from two instance objects that differ only in their sub-state
cursors it gives the same status and the same environment, and instance
objects related by `CursorInv`. -/
theorem tick_first (d d' : DRV_MEMORY_OBJECT) (w : World) (h : d.SameButCursors d') :
    SameTicks (DRV_MEMORY_StartXfer_tick (DRV_MEMORY_StartXfer_init d) w)
      (DRV_MEMORY_StartXfer_tick (DRV_MEMORY_StartXfer_init d') w) := by
  obtain ⟨rs, ws, es, ews, ba, nb, wp, sn, off, ntw, rfl⟩ := h
  have hi : DRV_MEMORY_StartXfer_init (d.withCursors rs ws es ews ba nb wp sn off ntw) =
      (DRV_MEMORY_StartXfer_init d).withNums ba nb wp sn off ntw := rfl
  rw [hi]
  have hw : (DRV_MEMORY_StartXfer_init d).writeState = DRV_MEMORY_WRITE_INIT := rfl
  have he : (DRV_MEMORY_StartXfer_init d).eraseState = DRV_MEMORY_ERASE_INIT := rfl
  have hew : (DRV_MEMORY_StartXfer_init d).ewState = DRV_MEMORY_EW_INIT := rfl
  generalize DRV_MEMORY_StartXfer_init d = D at hw he hew
  cases hop : D.currentBufObj.opType with
  | DRV_MEMORY_OPERATION_TYPE_READ =>
    exact tick_CursorInv D _ w ((CursorInv_read hop).2 ⟨ba, nb, wp, sn, off, ntw, rfl⟩)
  | DRV_MEMORY_OPERATION_TYPE_WRITE =>
    have ht : DRV_MEMORY_StartXfer_tick D w = some (DRV_MEMORY_HandleWrite D w
        D.currentBufObj.buffer D.currentBufObj.blockStart D.currentBufObj.nBlocks) := by
      unfold DRV_MEMORY_StartXfer_tick gMemoryXferFuncPtr
      rw [hop]
    have ht' : DRV_MEMORY_StartXfer_tick (D.withNums ba nb wp sn off ntw) w =
        some (DRV_MEMORY_HandleWrite (D.withNums ba nb wp sn off ntw) w
          D.currentBufObj.buffer D.currentBufObj.blockStart D.currentBufObj.nBlocks) := by
      unfold DRV_MEMORY_StartXfer_tick gMemoryXferFuncPtr
      have e : (D.withNums ba nb wp sn off ntw).currentBufObj = D.currentBufObj := rfl
      rw [e, hop]
    have hf := StartXfer_tick_frame D w _ ht
    rw [ht, ht', HandleWrite_withNums _ _ _ _ _ _ _ _ _ _ _ hw]
    exact SameTicks_some rfl rfl ((CursorInv_write (hf.1.opType.trans hop)).2 ⟨sn, off, ntw, rfl⟩)
  | DRV_MEMORY_OPERATION_TYPE_ERASE =>
    have ht : DRV_MEMORY_StartXfer_tick D w = some (DRV_MEMORY_HandleErase D w
        D.currentBufObj.buffer D.currentBufObj.blockStart D.currentBufObj.nBlocks) := by
      unfold DRV_MEMORY_StartXfer_tick gMemoryXferFuncPtr
      rw [hop]
    have ht' : DRV_MEMORY_StartXfer_tick (D.withNums ba nb wp sn off ntw) w =
        some (DRV_MEMORY_HandleErase (D.withNums ba nb wp sn off ntw) w
          D.currentBufObj.buffer D.currentBufObj.blockStart D.currentBufObj.nBlocks) := by
      unfold DRV_MEMORY_StartXfer_tick gMemoryXferFuncPtr
      have e : (D.withNums ba nb wp sn off ntw).currentBufObj = D.currentBufObj := rfl
      rw [e, hop]
    have hf := StartXfer_tick_frame D w _ ht
    rw [ht, ht', HandleErase_withNums _ _ _ _ _ _ _ _ _ _ _ he]
    exact SameTicks_some rfl rfl
      ((CursorInv_erase (hf.1.opType.trans hop)).2 ⟨wp, sn, off, ntw, rfl⟩)
  | DRV_MEMORY_OPERATION_TYPE_ERASE_WRITE =>
    exact SameTicks_of_ew hop rfl (HandleEraseWrite_withNums D w _ _ _ ba nb wp sn off ntw hew)

theorem SameTicks_cases {o o' : Option (Nat × DRV_MEMORY_OBJECT × World)} (h : SameTicks o o') :
    (o = none ∧ o' = none) ∨ ∃ t t', o = some t ∧ o' = some t' ∧
      t'.1 = t.1 ∧ t'.2.2 = t.2.2 ∧ CursorInv t.2.1 t'.2.1 := by
  cases o with
  | none =>
    cases o' with
    | none => exact Or.inl ⟨rfl, rfl⟩
    | some t' => unfold SameTicks at h; exact False.elim h
  | some t =>
    cases o' with
    | none => unfold SameTicks at h; exact False.elim h
    | some t' => unfold SameTicks at h; exact Or.inr ⟨t, t', rfl, rfl, h⟩

theorem Outcome.Same_cases {α : Type} {R : α → α → Prop} {o o' : Outcome α}
    (h : Outcome.Same R o o') :
    (∃ a a', o = Outcome.returned a ∧ o' = Outcome.returned a' ∧ R a a') ∨
      (o = Outcome.undefinedBehaviour ∧ o' = Outcome.undefinedBehaviour) ∨
      (o = Outcome.outOfFuel ∧ o' = Outcome.outOfFuel) := by
  cases o with
  | returned a =>
    cases o' with
    | returned a' => unfold Outcome.Same at h; exact Or.inl ⟨a, a', rfl, rfl, h⟩
    | undefinedBehaviour => unfold Outcome.Same at h; exact False.elim h
    | outOfFuel => unfold Outcome.Same at h; exact False.elim h
  | undefinedBehaviour =>
    cases o' with
    | returned a' => unfold Outcome.Same at h; exact False.elim h
    | undefinedBehaviour => exact Or.inr (Or.inl ⟨rfl, rfl⟩)
    | outOfFuel => unfold Outcome.Same at h; exact False.elim h
  | outOfFuel =>
    cases o' with
    | returned a' => unfold Outcome.Same at h; exact False.elim h
    | undefinedBehaviour => unfold Outcome.Same at h; exact False.elim h
    | outOfFuel => exact Or.inr (Or.inr ⟨rfl, rfl⟩)

theorem Outcome.Same_returned {α : Type} {R : α → α → Prop} {a a' : α} (h : R a a') :
    Outcome.Same R (Outcome.returned a) (Outcome.returned a') := by
  unfold Outcome.Same
  exact h

theorem Outcome.Same_undefined {α : Type} {R : α → α → Prop} :
    Outcome.Same R Outcome.undefinedBehaviour Outcome.undefinedBehaviour := by
  unfold Outcome.Same
  exact True.intro

theorem Outcome.Same_outOfFuel {α : Type} {R : α → α → Prop} :
    Outcome.Same R Outcome.outOfFuel Outcome.outOfFuel := by
  unfold Outcome.Same
  exact True.intro

theorem SameButCursors_refl (d : DRV_MEMORY_OBJECT) : d.SameButCursors d :=
  ⟨d.readState, d.writeState, d.eraseState, d.ewState, d.blockAddress, d.nBlocks, d.writePtr,
    d.sectorNumber, d.blockOffsetInSector, d.nBlocksToWrite, rfl⟩

theorem SameButCursors_sameConfig {d d' : DRV_MEMORY_OBJECT} (h : d.SameButCursors d') :
    d.SameConfig d' := by
  obtain ⟨rs, ws, es, ews, ba, nb, wp, sn, off, ntw, rfl⟩ := h
  exact ⟨rfl, rfl, rfl, rfl, rfl, rfl⟩

theorem SameButCursors_update {g g' : Driver} {d d' : DRV_MEMORY_OBJECT}
    (h : ∀ j, (g j).SameButCursors (g' j)) (hd : d.SameButCursors d') (i j : Nat) :
    (Function.update g i d j).SameButCursors (Function.update g' i d' j) := by
  by_cases hj : j = i
  · subst hj
    rw [Function.update_same, Function.update_same]
    exact hd
  · rw [Function.update_noteq hj, Function.update_noteq hj]
    exact h j

/-- Instance objects related by `CursorInv` differ only in the sub-state
cursors. -/
theorem CursorInv_sameButCursors {d d' : DRV_MEMORY_OBJECT} (h : CursorInv d d') :
    d.SameButCursors d' := by
  cases hop : d.currentBufObj.opType with
  | DRV_MEMORY_OPERATION_TYPE_READ =>
    obtain ⟨ba, nb, wp, sn, off, ntw, rfl⟩ := (CursorInv_read hop).1 h
    exact ⟨d.readState, d.writeState, d.eraseState, d.ewState, ba, nb, wp, sn, off, ntw, rfl⟩
  | DRV_MEMORY_OPERATION_TYPE_WRITE =>
    obtain ⟨sn, off, ntw, rfl⟩ := (CursorInv_write hop).1 h
    exact ⟨d.readState, d.writeState, d.eraseState, d.ewState, d.blockAddress, d.nBlocks,
      d.writePtr, sn, off, ntw, rfl⟩
  | DRV_MEMORY_OPERATION_TYPE_ERASE =>
    obtain ⟨wp, sn, off, ntw, rfl⟩ := (CursorInv_erase hop).1 h
    exact ⟨d.readState, d.writeState, d.eraseState, d.ewState, d.blockAddress, d.nBlocks,
      wp, sn, off, ntw, rfl⟩
  | DRV_MEMORY_OPERATION_TYPE_ERASE_WRITE =>
    rcases (CursorInv_ew hop).1 h with h1 | ⟨-, -, ba, nb, h1⟩
    · rw [h1]; exact SameButCursors_refl d
    · rw [h1]
      exact ⟨d.readState, d.writeState, d.eraseState, d.ewState, ba, nb, d.writePtr,
        d.sectorNumber, d.blockOffsetInSector, d.nBlocksToWrite, rfl⟩

/-- The wait of the sequencer keeps the relation `CursorInv`, and gives the same
answer and the same environment from both instance objects. -/
theorem wait_CursorInv (d d' : DRV_MEMORY_OBJECT) (w : World) (h : CursorInv d d') :
    (DRV_MEMORY_StartXfer_wait d' w).1 = (DRV_MEMORY_StartXfer_wait d w).1 ∧
      (DRV_MEMORY_StartXfer_wait d' w).2.2 = (DRV_MEMORY_StartXfer_wait d w).2.2 ∧
      CursorInv (DRV_MEMORY_StartXfer_wait d w).2.1 (DRV_MEMORY_StartXfer_wait d' w).2.1 := by
  have hk := (StartXfer_wait_sameCommand d w).opType
  cases hop : d.currentBufObj.opType with
  | DRV_MEMORY_OPERATION_TYPE_READ =>
    obtain ⟨ba, nb, wp, sn, off, ntw, rfl⟩ := (CursorInv_read hop).1 h
    have e : DRV_MEMORY_StartXfer_wait (d.withNums ba nb wp sn off ntw) w =
        ((DRV_MEMORY_StartXfer_wait d w).1,
          (DRV_MEMORY_StartXfer_wait d w).2.1.withNums ba nb wp sn off ntw,
          (DRV_MEMORY_StartXfer_wait d w).2.2) :=
      StartXfer_wait_comm (fun d => d.withNums ba nb wp sn off ntw) (fun _ => rfl)
        (fun _ => rfl) (fun _ => rfl) (fun _ _ => rfl) d w
    rw [e]
    exact ⟨rfl, rfl, (CursorInv_read (hk.trans hop)).2 ⟨ba, nb, wp, sn, off, ntw, rfl⟩⟩
  | DRV_MEMORY_OPERATION_TYPE_WRITE =>
    obtain ⟨sn, off, ntw, rfl⟩ := (CursorInv_write hop).1 h
    have e : DRV_MEMORY_StartXfer_wait (d.withSector sn off ntw) w =
        ((DRV_MEMORY_StartXfer_wait d w).1,
          (DRV_MEMORY_StartXfer_wait d w).2.1.withSector sn off ntw,
          (DRV_MEMORY_StartXfer_wait d w).2.2) :=
      StartXfer_wait_comm (fun d => d.withSector sn off ntw) (fun _ => rfl)
        (fun _ => rfl) (fun _ => rfl) (fun _ _ => rfl) d w
    rw [e]
    exact ⟨rfl, rfl, (CursorInv_write (hk.trans hop)).2 ⟨sn, off, ntw, rfl⟩⟩
  | DRV_MEMORY_OPERATION_TYPE_ERASE =>
    obtain ⟨wp, sn, off, ntw, rfl⟩ := (CursorInv_erase hop).1 h
    have e : DRV_MEMORY_StartXfer_wait (d.withPtrSector wp sn off ntw) w =
        ((DRV_MEMORY_StartXfer_wait d w).1,
          (DRV_MEMORY_StartXfer_wait d w).2.1.withPtrSector wp sn off ntw,
          (DRV_MEMORY_StartXfer_wait d w).2.2) :=
      StartXfer_wait_comm (fun d => d.withPtrSector wp sn off ntw) (fun _ => rfl)
        (fun _ => rfl) (fun _ => rfl) (fun _ _ => rfl) d w
    rw [e]
    exact ⟨rfl, rfl, (CursorInv_erase (hk.trans hop)).2 ⟨wp, sn, off, ntw, rfl⟩⟩
  | DRV_MEMORY_OPERATION_TYPE_ERASE_WRITE =>
    rcases (CursorInv_ew hop).1 h with h1 | ⟨he, hw, ba, nb, h1⟩
    · subst h1
      exact ⟨rfl, rfl, (CursorInv_ew (hk.trans hop)).2 (Or.inl rfl)⟩
    · subst h1
      have e : DRV_MEMORY_StartXfer_wait (d.withAddr ba nb) w =
          ((DRV_MEMORY_StartXfer_wait d w).1,
            (DRV_MEMORY_StartXfer_wait d w).2.1.withAddr ba nb,
            (DRV_MEMORY_StartXfer_wait d w).2.2) :=
        StartXfer_wait_comm (fun d => d.withAddr ba nb) (fun _ => rfl)
          (fun _ => rfl) (fun _ => rfl) (fun _ _ => rfl) d w
      rw [e]
      refine ⟨rfl, rfl, (CursorInv_ew (hk.trans hop)).2 (Or.inr ⟨?_, ?_, ba, nb, rfl⟩)⟩
      · obtain ⟨⟨b, hb⟩, -⟩ := StartXfer_wait_frame d w
        rw [hb]; exact he
      · obtain ⟨⟨b, hb⟩, -⟩ := StartXfer_wait_frame d w
        rw [hb]; exact hw

/-- The loop of the sequencer ends the same way, with the same status and the
same environment, from two instance objects related by `CursorInv`. -/
theorem loop_CursorInv : ∀ (fuel : Nat) (d d' : DRV_MEMORY_OBJECT) (w : World) (ts : Nat),
    CursorInv d d' →
    Outcome.Same (fun r r' => r'.1 = r.1 ∧ r'.2.2 = r.2.2 ∧ CursorInv r.2.1 r'.2.1)
      (DRV_MEMORY_StartXfer_loop fuel d w ts) (DRV_MEMORY_StartXfer_loop fuel d' w ts) := by
  intro fuel
  induction fuel with
  | zero =>
    intro d d' w ts h
    rw [loop_zero, loop_zero]
    by_cases hb : ts = MEMORY_DEVICE_TRANSFER_BUSY
    · rw [if_pos hb, if_pos hb]
      exact Outcome.Same_outOfFuel
    · rw [if_neg hb, if_neg hb]
      exact Outcome.Same_returned ⟨rfl, rfl, h⟩
  | succ fuel ih =>
    intro d d' w ts h
    rw [loop_succ, loop_succ]
    by_cases hb : ts = MEMORY_DEVICE_TRANSFER_BUSY
    · rw [if_pos hb, if_pos hb]
      obtain ⟨w1, w2, w3⟩ := wait_CursorInv d d' w h
      rw [w1, w2]
      by_cases hf : (DRV_MEMORY_StartXfer_wait d w).1 = false
      · rw [if_pos hf, if_pos hf]
        exact Outcome.Same_returned ⟨rfl, rfl, w3⟩
      · rw [if_neg hf, if_neg hf]
        rcases SameTicks_cases (tick_CursorInv _ _ (DRV_MEMORY_StartXfer_wait d w).2.2 w3) with
          ⟨a, b⟩ | ⟨t, t', a, b, c1, c2, c3⟩
        · rw [a, b]
          exact Outcome.Same_undefined
        · rw [a, b]
          show Outcome.Same _ (DRV_MEMORY_StartXfer_loop fuel t.2.1 t.2.2 t.1)
            (DRV_MEMORY_StartXfer_loop fuel t'.2.1 t'.2.2 t'.1)
          rw [c1, c2]
          exact ih t.2.1 t'.2.1 t.2.2 t.1 c3
    · rw [if_neg hb, if_neg hb]
      exact Outcome.Same_returned ⟨rfl, rfl, h⟩

/-- The end of the sequencer from two driver tables and two instance objects
that differ only in the sub-state cursors. -/
theorem StartXfer_finish_cursors (g g' : Driver) (i : Nat) (dF dF' : DRV_MEMORY_OBJECT)
    (wF : World) (ts : Nat) (h : ∀ j, (g j).SameButCursors (g' j))
    (hd : dF.SameButCursors dF') :
    Outcome.Same (fun r r' => r'.1 = r.1 ∧ r'.2.2 = r.2.2 ∧
        ∀ j, (r.2.1 j).SameButCursors (r'.2.1 j))
      (DRV_MEMORY_StartXfer_finish g i dF wF ts) (DRV_MEMORY_StartXfer_finish g' i dF' wF ts) := by
  obtain ⟨rs, ws, es, ews, ba, nb, wp, sn, off, ntw, rfl⟩ := hd
  unfold DRV_MEMORY_StartXfer_finish
  have e : (dF.withCursors rs ws es ews ba nb wp sn off ntw).currentBufObj = dF.currentBufObj :=
    rfl
  rw [e]
  dsimp only
  cases hcl : dF.currentBufObj.hClient with
  | none => exact Outcome.Same_undefined
  | some p =>
    dsimp only
    refine Outcome.Same_returned ⟨rfl, ?_, ?_⟩
    · dsimp only
      refine congrArg (fun c => wF.callTransferHandler c _ _) (client_congr _ _ p
        (fun j => SameButCursors_sameConfig (SameButCursors_update h ?_ i j)))
      exact ⟨rs, ws, es, ews, ba, nb, wp, sn, off, ntw, rfl⟩
    · exact SameButCursors_update h ⟨rs, ws, es, ews, ba, nb, wp, sn, off, ntw, rfl⟩ i

/-- The sequencer from two driver tables that differ only in the sub-state
cursors: it ends the same way, with the same return value and the same
environment, and driver tables that differ only in the sub-state cursors. -/
theorem StartXfer_cursors (fuel : Nat) (g g' : Driver) (i : Nat) (w : World)
    (h : ∀ j, (g j).SameButCursors (g' j)) :
    Outcome.Same (fun r r' => r'.1 = r.1 ∧ r'.2.2 = r.2.2 ∧
        ∀ j, (r.2.1 j).SameButCursors (r'.2.1 j))
      (DRV_MEMORY_StartXfer fuel g i w) (DRV_MEMORY_StartXfer fuel g' i w) := by
  unfold DRV_MEMORY_StartXfer
  dsimp only
  rcases SameTicks_cases (tick_first (g i) (g' i) w (h i)) with
    ⟨a, b⟩ | ⟨t, t', a, b, c1, c2, c3⟩
  · rw [a, b]
    exact Outcome.Same_undefined
  · rw [a, b]
    dsimp only
    rw [c1, c2]
    rcases Outcome.Same_cases (loop_CursorInv fuel t.2.1 t'.2.1 t.2.2 t.1 c3) with
      ⟨r, r', e1, e2, q1, q2, q3⟩ | ⟨e1, e2⟩ | ⟨e1, e2⟩
    · rw [e1, e2]
      obtain ⟨o, dF, wF⟩ := r
      obtain ⟨o', dF', wF'⟩ := r'
      dsimp only at q1 q2 q3
      subst q1 q2
      cases o' with
      | none =>
        exact Outcome.Same_returned
          ⟨rfl, rfl, SameButCursors_update h (CursorInv_sameButCursors q3) i⟩
      | some ts =>
        exact StartXfer_finish_cursors g g' i dF dF' wF' ts h (CursorInv_sameButCursors q3)
    · rw [e1, e2]
      exact Outcome.Same_undefined
    · rw [e1, e2]
      exact Outcome.Same_outOfFuel

theorem allocated_cursors (g g' : Driver) (p : ClientPtr) (buffer blockStart nBlock : Nat)
    (opType : DRV_MEMORY_OPERATION_TYPE) (h : ∀ j, (g j).SameButCursors (g' j)) (j : Nat) :
    (g.allocated p buffer blockStart nBlock opType j).SameButCursors
      (g'.allocated p buffer blockStart nBlock opType j) := by
  have hc : g'.client p = g.client p :=
    client_congr g g' p (fun j => SameButCursors_sameConfig (h j))
  by_cases hj : j = (g.client p).drvIndex
  · subst hj
    have e' := Driver.allocated_at g' p buffer blockStart nBlock opType
    rw [hc] at e'
    rw [Driver.allocated_at, e']
    obtain ⟨rs, ws, es, ews, ba, nb, wp, sn, off, ntw, hh⟩ := h (g.client p).drvIndex
    rw [hh]
    exact ⟨rs, ws, es, ews, ba, nb, wp, sn, off, ntw, rfl⟩
  · rw [Driver.allocated_other g p _ _ _ _ j hj,
      Driver.allocated_other g' p _ _ _ _ j (by rw [hc]; exact hj)]
    exact h j

theorem Unlock_cursors (g g' : Driver) (i : Nat) (w : World)
    (h : ∀ j, (g j).SameButCursors (g' j)) :
    (OSAL_MUTEX_Unlock_transferMutex g' i w).2 = (OSAL_MUTEX_Unlock_transferMutex g i w).2 ∧
      ∀ j, ((OSAL_MUTEX_Unlock_transferMutex g i w).1 j).SameButCursors
        ((OSAL_MUTEX_Unlock_transferMutex g' i w).1 j) := by
  unfold OSAL_MUTEX_Unlock_transferMutex
  refine ⟨rfl, fun j => SameButCursors_update h ?_ i j⟩
  obtain ⟨rs, ws, es, ews, ba, nb, wp, sn, off, ntw, hh⟩ := h i
  rw [hh]
  exact ⟨rs, ws, es, ews, ba, nb, wp, sn, off, ntw, rfl⟩

/-- C29. The sub-state cursors are reset at the start of every command, so a
command does not depend on what the previous one left behind. For two driver
tables whose instance objects differ only in the sub-state cursors (the states
of the read, write, erase and erase-write machines, block address, remaining
count, write pointer, sector number, offset in the sector, blocks to write),
the same admitted request in the same environment (the same device and the
same answers of the device and of the OS) and with the same fuel: the request
is admitted from the second table too, and the two runs of
`DRV_MEMORY_SetupXfer` end the same way; when they return, the return value,
the command handle and the whole environment are the same, so the commands
given to the device, their order, the flash, the RAM and the handler calls are
the same, and the driver tables left behind differ only in the sub-state
cursors. -/
theorem C29_command_independent_of_stale_cursors (fuel : Nat) (g g' : Driver) (w : World)
    (handle : Nat) (hasCommandHandle : Bool) (buffer blockStart nBlock geometry_type : Nat)
    (opType : DRV_MEMORY_OPERATION_TYPE) (io_intent : Nat) (p : ClientPtr)
    (hcur : ∀ j, (g j).SameButCursors (g' j))
    (hadm : Admitted g w handle buffer blockStart nBlock geometry_type opType io_intent p) :
    Admitted g' w handle buffer blockStart nBlock geometry_type opType io_intent p ∧
      Outcome.Same SetupResult.SameButCursors
        (DRV_MEMORY_SetupXfer fuel g w handle hasCommandHandle buffer blockStart nBlock
          geometry_type opType io_intent)
        (DRV_MEMORY_SetupXfer fuel g' w handle hasCommandHandle buffer blockStart nBlock
          geometry_type opType io_intent) ∧
      ∀ r, DRV_MEMORY_SetupXfer fuel g w handle hasCommandHandle buffer blockStart nBlock
          geometry_type opType io_intent = Outcome.returned r →
        ∃ r', DRV_MEMORY_SetupXfer fuel g' w handle hasCommandHandle buffer blockStart nBlock
            geometry_type opType io_intent = Outcome.returned r' ∧
          r'.isSuccess = r.isSuccess ∧ r'.commandHandle = r.commandHandle ∧
          r'.w.cmdLog = r.w.cmdLog ∧ r'.w.flash = r.w.flash ∧ r'.w.ram = r.w.ram ∧
          r'.w.handlerLog = r.w.handlerLog ∧ r'.w = r.w ∧
          ∀ j, (r.g j).SameButCursors (r'.g j) := by
  obtain ⟨ha, hlock, hop⟩ := hadm
  have hcfg : ∀ j, (g j).SameConfig (g' j) := fun j => SameButCursors_sameConfig (hcur j)
  have hc : g'.client p = g.client p := client_congr g g' p hcfg
  have hv' : DRV_MEMORY_DriverHandleValidate g' handle = some p :=
    (Validate_congr g g' handle hcfg).trans ha.valid
  have hi' : (g'.client p).intent &&& io_intent ≠ 0 := by rw [hc]; exact ha.intent
  have hr' : blockStart + nBlock ≤
      ((g' (g'.client p).drvIndex).mediaGeometryTable geometry_type).numBlocks := by
    rw [hc, (hcfg _).mediaGeometryTable]; exact ha.range
  have hop' : (g' (g'.client p).drvIndex).memoryDevice.hasSectorErase = true ∨
      opType ≠ DRV_MEMORY_OPERATION_TYPE_ERASE := by
    rw [hc, (hcfg _).memoryDevice]; exact hop
  have htok : (g' (g.client p).drvIndex).bufferToken = (g (g.client p).drvIndex).bufferToken := by
    obtain ⟨rs, ws, es, ews, ba, nb, wp, sn, off, ntw, hh⟩ := hcur (g.client p).drvIndex
    rw [hh]; rfl
  have hadm' : Admitted g' w handle buffer blockStart nBlock geometry_type opType io_intent p :=
    ⟨⟨hv', hi', ha.buffer, ha.count, hr'⟩, hlock, hop'⟩
  have hsame : Outcome.Same SetupResult.SameButCursors
      (DRV_MEMORY_SetupXfer fuel g w handle hasCommandHandle buffer blockStart nBlock
        geometry_type opType io_intent)
      (DRV_MEMORY_SetupXfer fuel g' w handle hasCommandHandle buffer blockStart nBlock
        geometry_type opType io_intent) := by
    rw [SetupXfer_admitted fuel g w handle hasCommandHandle buffer blockStart nBlock
        geometry_type opType io_intent p ha.valid ha.intent ha.buffer ha.count ha.range hlock hop,
      SetupXfer_admitted fuel g' w handle hasCommandHandle buffer blockStart nBlock
        geometry_type opType io_intent p hv' hi' ha.buffer ha.count hr' hlock hop']
    rw [hc, (hcfg _).memoryDevice, htok]
    rcases Outcome.Same_cases (StartXfer_cursors fuel
        (g.allocated p buffer blockStart nBlock
          (effectiveOpType (g (g.client p).drvIndex).memoryDevice.hasSectorErase opType))
        (g'.allocated p buffer blockStart nBlock
          (effectiveOpType (g (g.client p).drvIndex).memoryDevice.hasSectorErase opType))
        (g.client p).drvIndex { w with nLock := w.nLock + 1 }
        (allocated_cursors g g' p buffer blockStart nBlock _ hcur)) with
      ⟨r, r', e1, e2, q1, q2, q3⟩ | ⟨e1, e2⟩ | ⟨e1, e2⟩
    · rw [e1, e2]
      obtain ⟨u1, u2⟩ := Unlock_cursors r.2.1 r'.2.1 (g.client p).drvIndex r.2.2 q3
      refine Outcome.Same_returned ⟨q1, ?_, rfl, ?_⟩
      · show (OSAL_MUTEX_Unlock_transferMutex r'.2.1 (g.client p).drvIndex r'.2.2).2 =
          (OSAL_MUTEX_Unlock_transferMutex r.2.1 (g.client p).drvIndex r.2.2).2
        rw [q2]; exact u1
      · intro j
        show ((OSAL_MUTEX_Unlock_transferMutex r.2.1 (g.client p).drvIndex r.2.2).1 j).SameButCursors
          ((OSAL_MUTEX_Unlock_transferMutex r'.2.1 (g.client p).drvIndex r'.2.2).1 j)
        rw [q2]; exact u2 j
    · rw [e1, e2]
      exact Outcome.Same_undefined
    · rw [e1, e2]
      exact Outcome.Same_outOfFuel
  refine ⟨hadm', hsame, fun r hr => ?_⟩
  rcases Outcome.Same_cases hsame with ⟨a, a', e1, e2, q1, q2, q3, q4⟩ | ⟨e1, e2⟩ | ⟨e1, e2⟩
  · rw [hr] at e1
    cases e1
    exact ⟨a', e2, q1, q3, by rw [q2], by rw [q2], by rw [q2], by rw [q2], q2, q4⟩
  · rw [hr] at e1; cases e1
  · rw [hr] at e1; cases e1

/-- C29 at the concrete device: the erase-write of pages 3 to 22 from the table
as initialised and from a table whose cursors an earlier command left in their
last states. With enough fuel both runs return `true`, with the same
environment, so the same commands given to the device, and the same command
handle. -/
theorem C29_command_independent_of_stale_cursors_witness :
    ∃ fuel0, ∀ fuel, fuel0 ≤ fuel → ∃ r r',
      DRV_MEMORY_SetupXfer fuel demoDriver demoWorld 0x10000 true 0x20002000 3 20
        SYS_MEDIA_GEOMETRY_TABLE_WRITE_ENTRY DRV_MEMORY_OPERATION_TYPE_ERASE_WRITE
        DRV_IO_INTENT_WRITE = Outcome.returned r ∧
      DRV_MEMORY_SetupXfer fuel demoDriverStale demoWorld 0x10000 true 0x20002000 3 20
        SYS_MEDIA_GEOMETRY_TABLE_WRITE_ENTRY DRV_MEMORY_OPERATION_TYPE_ERASE_WRITE
        DRV_IO_INTENT_WRITE = Outcome.returned r' ∧
      r.isSuccess = true ∧ r'.isSuccess = true ∧ r'.commandHandle = r.commandHandle ∧
      r'.w.cmdLog = r.w.cmdLog ∧ r'.w = r.w := by
  have hcur : ∀ j, (demoDriver j).SameButCursors (demoDriverStale j) :=
    fun _ => ⟨_, _, _, _, _, _, _, _, _, _, rfl⟩
  have hadm : Admitted demoDriver demoWorld 0x10000 0x20002000 3 20
      SYS_MEDIA_GEOMETRY_TABLE_WRITE_ENTRY DRV_MEMORY_OPERATION_TYPE_ERASE_WRITE
      DRV_IO_INTENT_WRITE ⟨0, 0⟩ :=
    ⟨⟨demo_valid, by decide, Or.inl (by decide), by decide, by decide⟩, rfl, Or.inl rfl⟩
  obtain ⟨f, hf⟩ := SetupXfer_eraseWrite demoDriver demoWorld 0x10000 true 0x20002000 3 20
    SYS_MEDIA_GEOMETRY_TABLE_WRITE_ENTRY DRV_IO_INTENT_WRITE ⟨0, 0⟩ hadm.1 rfl rfl
    (by decide) (by decide) demoWorld_cooperative
  refine ⟨f, fun fuel hfu => ?_⟩
  obtain ⟨r, e, hs, -⟩ := hf fuel hfu
  obtain ⟨r', e', q1, q2, q3, -, -, -, q7, -⟩ :=
    (C29_command_independent_of_stale_cursors fuel demoDriver demoDriverStale demoWorld
      0x10000 true 0x20002000 3 20 SYS_MEDIA_GEOMETRY_TABLE_WRITE_ENTRY
      DRV_MEMORY_OPERATION_TYPE_ERASE_WRITE DRV_IO_INTENT_WRITE ⟨0, 0⟩ hcur hadm).2.2 r e
  exact ⟨r, r', e, e', hs, q1.trans hs, q2, q3, q7⟩

theorem devRead_ram_outside (w : World) (h data n x a : Nat) (ha : a < data ∨ data + n ≤ a) :
    (w.devRead h data n x).2.ram a = w.ram a := by
  unfold World.devRead
  dsimp only
  by_cases hacc : w.accept w.cmdLog.length = true
  · rw [if_pos hacc]
    dsimp only
    rw [if_neg (by omega)]
  · rw [if_neg hacc]

theorem devSectorErase_ram (w : World) (h x : Nat) : (w.devSectorErase h x).2.ram = w.ram := by
  unfold World.devSectorErase
  dsimp only
  by_cases hacc : w.accept w.cmdLog.length = true
  · rw [if_pos hacc]
  · rw [if_neg hacc]

/-- A tick of the read machine writes no RAM byte outside the `nBlocks` bytes
at `data`. -/
theorem HandleRead_ram_outside (d : DRV_MEMORY_OBJECT) (w : World) (data y nBlocks a : Nat)
    (ha : a < data ∨ data + nBlocks ≤ a) :
    (DRV_MEMORY_HandleRead d w data y nBlocks).2.2.ram a = w.ram a := by
  have hM : ∀ (d0 : DRV_MEMORY_OBJECT) (x : Nat),
      (DRV_MEMORY_HandleRead_MEM d0 w data nBlocks x).2.2.ram a = w.ram a := by
    intro d0 x
    unfold DRV_MEMORY_HandleRead_MEM
    by_cases hacc : (w.devRead d0.memDevHandle data nBlocks x).1 = true
    · simp only [hacc, if_true]
      exact devRead_ram_outside w _ data nBlocks x a ha
    · simp only [hacc, if_false]
      exact devRead_ram_outside w _ data nBlocks x a ha
  unfold DRV_MEMORY_HandleRead
  cases d.readState with
  | DRV_MEMORY_READ_INIT => exact hM _ _
  | DRV_MEMORY_READ_MEM => exact hM _ _
  | DRV_MEMORY_READ_MEM_STATUS => rfl

/-- A tick of the erase machine writes no RAM byte. -/
theorem HandleErase_ram (d : DRV_MEMORY_OBJECT) (w : World) (x y z : Nat) :
    (DRV_MEMORY_HandleErase d w x y z).2.2.ram = w.ram := by
  have hS : ∀ (d0 : DRV_MEMORY_OBJECT) (w0 : World),
      (DRV_MEMORY_HandleErase_CMD_STATUS d0 w0).2.2.ram = w0.ram := by
    intro d0 w0
    rw [HandleErase_CMD_STATUS_eq]
    by_cases h1 : w0.tstatus w0.nPoll = MEMORY_DEVICE_TRANSFER_COMPLETED
    · by_cases h2 : dec32 d0.nBlocks ≠ 0
      · rw [if_pos h1, if_pos h2]
      · rw [if_pos h1, if_neg h2]
    · rw [if_neg h1]
  have hM : ∀ (d0 : DRV_MEMORY_OBJECT),
      (DRV_MEMORY_HandleErase_CMD d0 w).2.2.ram = w.ram := by
    intro d0
    unfold DRV_MEMORY_HandleErase_CMD
    by_cases hacc : (w.devSectorErase d0.memDevHandle d0.blockAddress).1 = true
    · simp only [hacc, if_true]
      rw [hS]
      exact devSectorErase_ram w _ _
    · simp only [hacc, if_false]
      exact devSectorErase_ram w _ _
  unfold DRV_MEMORY_HandleErase
  cases d.eraseState with
  | DRV_MEMORY_ERASE_INIT => exact hM _
  | DRV_MEMORY_ERASE_CMD => exact hM _
  | DRV_MEMORY_ERASE_CMD_STATUS => exact hS _ _

theorem HandleEraseWrite_ERASE_SECTOR_ram (d : DRV_MEMORY_OBJECT) (w : World) :
    (DRV_MEMORY_HandleEraseWrite_ERASE_SECTOR d w).2.2.ram = w.ram := by
  unfold DRV_MEMORY_HandleEraseWrite_ERASE_SECTOR
  dsimp only
  by_cases h : (DRV_MEMORY_HandleErase d w 0 d.sectorNumber 1).1
      = MEMORY_DEVICE_TRANSFER_COMPLETED
  · rw [if_pos h]
    exact HandleErase_ram d w 0 d.sectorNumber 1
  · rw [if_neg h]
    exact HandleErase_ram d w 0 d.sectorNumber 1

/-- A tick of the Read Sector state, when the page offset and the number of
pages to write lie within one sector, writes no RAM byte outside the scratch
buffer of one erase block. -/
theorem HandleEraseWrite_READ_SECTOR_ram (d : DRV_MEMORY_OBJECT) (w : World) (a : Nat)
    (hb : d.blockOffsetInSector + d.nBlocksToWrite ≤ u8 (d.eraseBlockSize / d.writeBlockSize))
    (ha : a < d.ewBuffer ∨ d.ewBuffer + d.eraseBlockSize ≤ a) :
    (DRV_MEMORY_HandleEraseWrite_READ_SECTOR d w).2.2.ram a = w.ram a := by
  have hR := HandleRead_ram_outside d w d.ewBuffer (u32 (d.sectorNumber * d.eraseBlockSize))
    d.eraseBlockSize a ha
  obtain ⟨rs, hrs⟩ := HandleRead_obj d w d.ewBuffer (u32 (d.sectorNumber * d.eraseBlockSize))
    d.eraseBlockSize
  have hPW := pps_mul_le d
  have h1 : u32 (d.blockOffsetInSector * d.writeBlockSize)
      ≤ d.blockOffsetInSector * d.writeBlockSize := Nat.mod_le _ _
  have h2 : u32 (d.nBlocksToWrite * d.writeBlockSize)
      ≤ d.nBlocksToWrite * d.writeBlockSize := Nat.mod_le _ _
  have h3 : d.blockOffsetInSector * d.writeBlockSize + d.nBlocksToWrite * d.writeBlockSize
      ≤ u8 (d.eraseBlockSize / d.writeBlockSize) * d.writeBlockSize := by
    rw [← Nat.add_mul]
    exact Nat.mul_le_mul_right _ hb
  unfold DRV_MEMORY_HandleEraseWrite_READ_SECTOR
  dsimp only
  generalize DRV_MEMORY_HandleRead d w d.ewBuffer (u32 (d.sectorNumber * d.eraseBlockSize))
    d.eraseBlockSize = r at hR hrs
  obtain ⟨s, d1, w1⟩ := r
  dsimp only at hR hrs ⊢
  subst hrs
  by_cases hc : s = MEMORY_DEVICE_TRANSFER_COMPLETED
  · rw [if_pos hc, HandleEraseWrite_ERASE_SECTOR_ram]
    unfold World.memcpy
    dsimp only
    rw [if_neg (by omega)]
    exact hR
  · rw [if_neg hc]
    exact hR

/-- C31: an erase-write command of at least one block on a geometry whose
`pagesPerSector` (the `uint8_t` quotient of the erase block by the write
block) is at least 1. The values the Init state computes, `blockOffsetInSector
= blockStart mod pagesPerSector` and `nBlocksToWrite = min (pagesPerSector -
blockOffsetInSector) nBlocks`, satisfy `1 <= nBlocksToWrite` and
`blockOffsetInSector + nBlocksToWrite <= pagesPerSector`; the Init state leaves
them in the instance object and either takes the direct path or goes on as the
Read Sector state; the overlay copy of `nBlocksToWrite * writeBlockSize` bytes
at offset `blockOffsetInSector * writeBlockSize` of the scratch buffer ends at
or before `eraseBlockSize`, and neither product wraps when the erase block
size is a `uint32_t`; and no tick of the Read Sector state for this sector
(whatever the state of the read machine and the environment), nor the tick
from the Init state, changes a RAM byte outside the `eraseBlockSize` bytes of
the scratch buffer. -/
theorem C31_overlay_within_scratch (d : DRV_MEMORY_OBJECT) (w : World)
    (hp : 1 ≤ u8 (d.eraseBlockSize / d.writeBlockSize))
    (hn : 1 ≤ d.currentBufObj.nBlocks) :
    (1 ≤ (d.ewInit (u8 (d.eraseBlockSize / d.writeBlockSize))).nBlocksToWrite ∧
      (d.ewInit (u8 (d.eraseBlockSize / d.writeBlockSize))).blockOffsetInSector
        = d.currentBufObj.blockStart % u8 (d.eraseBlockSize / d.writeBlockSize) ∧
      d.currentBufObj.blockStart % u8 (d.eraseBlockSize / d.writeBlockSize)
        + (d.ewInit (u8 (d.eraseBlockSize / d.writeBlockSize))).nBlocksToWrite
        ≤ u8 (d.eraseBlockSize / d.writeBlockSize)) ∧
    (DRV_MEMORY_HandleEraseWrite_INIT d w (u8 (d.eraseBlockSize / d.writeBlockSize)) =
      if d.currentBufObj.blockStart % u8 (d.eraseBlockSize / d.writeBlockSize) = 0 ∧
          u8 (d.eraseBlockSize / d.writeBlockSize) ≤ d.currentBufObj.nBlocks then
        (MEMORY_DEVICE_TRANSFER_BUSY,
          { d.ewInit (u8 (d.eraseBlockSize / d.writeBlockSize)) with
            writePtr := d.currentBufObj.buffer, ewState := DRV_MEMORY_EW_ERASE_SECTOR }, w)
      else
        DRV_MEMORY_HandleEraseWrite_READ_SECTOR
          { d.ewInit (u8 (d.eraseBlockSize / d.writeBlockSize)) with
            writePtr := d.ewBuffer, ewState := DRV_MEMORY_EW_READ_SECTOR } w) ∧
    (u32 ((d.ewInit (u8 (d.eraseBlockSize / d.writeBlockSize))).blockOffsetInSector
          * d.writeBlockSize)
        + u32 ((d.ewInit (u8 (d.eraseBlockSize / d.writeBlockSize))).nBlocksToWrite
          * d.writeBlockSize) ≤ d.eraseBlockSize) ∧
    (d.eraseBlockSize < 4294967296 →
      u32 ((d.ewInit (u8 (d.eraseBlockSize / d.writeBlockSize))).blockOffsetInSector
          * d.writeBlockSize)
        = d.currentBufObj.blockStart % u8 (d.eraseBlockSize / d.writeBlockSize)
          * d.writeBlockSize ∧
      u32 ((d.ewInit (u8 (d.eraseBlockSize / d.writeBlockSize))).nBlocksToWrite
          * d.writeBlockSize)
        = (d.ewInit (u8 (d.eraseBlockSize / d.writeBlockSize))).nBlocksToWrite
          * d.writeBlockSize) ∧
    (∀ (rs : DRV_MEMORY_READ_STATE) (b : Bool) (w1 : World) (a : Nat),
      a < d.ewBuffer ∨ d.ewBuffer + d.eraseBlockSize ≤ a →
      (DRV_MEMORY_HandleEraseWrite_READ_SECTOR
        { d.ewInit (u8 (d.eraseBlockSize / d.writeBlockSize)) with
          writePtr := d.ewBuffer, ewState := DRV_MEMORY_EW_READ_SECTOR,
          readState := rs, isTransferDone := b } w1).2.2.ram a = w1.ram a) ∧
    (∀ a, a < d.ewBuffer ∨ d.ewBuffer + d.eraseBlockSize ≤ a →
      (DRV_MEMORY_HandleEraseWrite_INIT d w
        (u8 (d.eraseBlockSize / d.writeBlockSize))).2.2.ram a = w.ram a) := by
  have hp0 : u8 (d.eraseBlockSize / d.writeBlockSize) ≠ 0 := by omega
  have hlt : d.currentBufObj.blockStart % u8 (d.eraseBlockSize / d.writeBlockSize)
      < u8 (d.eraseBlockSize / d.writeBlockSize) := Nat.mod_lt _ (by omega)
  have hPW := pps_mul_le d
  generalize hP : u8 (d.eraseBlockSize / d.writeBlockSize) = P at *
  have hntw : (d.ewInit P).nBlocksToWrite
      = min (P - d.currentBufObj.blockStart % P) d.currentBufObj.nBlocks := rfl
  have hoff : (d.ewInit P).blockOffsetInSector = d.currentBufObj.blockStart % P := rfl
  have hmin1 : 1 ≤ min (P - d.currentBufObj.blockStart % P) d.currentBufObj.nBlocks :=
    Nat.le_min.mpr ⟨by omega, hn⟩
  have hmin2 : min (P - d.currentBufObj.blockStart % P) d.currentBufObj.nBlocks
      ≤ P - d.currentBufObj.blockStart % P := Nat.min_le_left _ _
  have hsum : d.currentBufObj.blockStart % P
      + min (P - d.currentBufObj.blockStart % P) d.currentBufObj.nBlocks ≤ P := by omega
  have hmul : d.currentBufObj.blockStart % P * d.writeBlockSize
      + min (P - d.currentBufObj.blockStart % P) d.currentBufObj.nBlocks * d.writeBlockSize
      ≤ P * d.writeBlockSize := by
    rw [← Nat.add_mul]
    exact Nat.mul_le_mul_right _ hsum
  have hu1 : u32 (d.currentBufObj.blockStart % P * d.writeBlockSize)
      ≤ d.currentBufObj.blockStart % P * d.writeBlockSize := Nat.mod_le _ _
  have hu2 : u32 (min (P - d.currentBufObj.blockStart % P) d.currentBufObj.nBlocks
      * d.writeBlockSize)
      ≤ min (P - d.currentBufObj.blockStart % P) d.currentBufObj.nBlocks * d.writeBlockSize :=
    Nat.mod_le _ _
  have hread : ∀ (rs : DRV_MEMORY_READ_STATE) (b : Bool) (w1 : World) (a : Nat),
      a < d.ewBuffer ∨ d.ewBuffer + d.eraseBlockSize ≤ a →
      (DRV_MEMORY_HandleEraseWrite_READ_SECTOR
        { d.ewInit P with
          writePtr := d.ewBuffer, ewState := DRV_MEMORY_EW_READ_SECTOR,
          readState := rs, isTransferDone := b } w1).2.2.ram a = w1.ram a := by
    intro rs b w1 a ha
    refine HandleEraseWrite_READ_SECTOR_ram _ w1 a ?_ ha
    show d.currentBufObj.blockStart % P
      + min (P - d.currentBufObj.blockStart % P) d.currentBufObj.nBlocks
      ≤ u8 (d.eraseBlockSize / d.writeBlockSize)
    rw [hP]
    exact hsum
  refine ⟨⟨by rw [hntw]; exact hmin1, hoff, by rw [hntw]; exact hsum⟩,
    HandleEraseWrite_INIT_eq d w P hp0, ?_, ?_, hread, ?_⟩
  · rw [hntw, hoff]
    omega
  · intro hE
    rw [hntw, hoff]
    exact ⟨u32_of_lt (by omega), u32_of_lt (by omega)⟩
  · intro a ha
    rw [HandleEraseWrite_INIT_eq d w P hp0]
    by_cases hal : d.currentBufObj.blockStart % P = 0 ∧ P ≤ d.currentBufObj.nBlocks
    · rw [if_pos hal]
    · rw [if_neg hal]
      exact hread DRV_MEMORY_READ_INIT d.isTransferDone w a ha

/-- C31 at the concrete device: an erase-write of 20 pages from page 3, with
16 pages in a sector: the Init state computes the page offset 3 and 13 pages
to write, and the copy of `13 * 256` bytes at offset `3 * 256` ends at the end
of the 4096 bytes of the scratch buffer. -/
theorem C31_overlay_within_scratch_witness :
    (1 ≤ ((demoEwObj 3 20).ewInit 16).nBlocksToWrite ∧
      ((demoEwObj 3 20).ewInit 16).blockOffsetInSector = 3 ∧
      3 + ((demoEwObj 3 20).ewInit 16).nBlocksToWrite ≤ 16) ∧
    ((demoEwObj 3 20).ewInit 16).nBlocksToWrite = 13 ∧
    u32 (3 * 256) + u32 (13 * 256) ≤ 4096 :=
  ⟨(C31_overlay_within_scratch (demoEwObj 3 20) demoWorld (by decide) (by decide)).1, rfl,
    (C31_overlay_within_scratch (demoEwObj 3 20) demoWorld (by decide) (by decide)).2.2.1⟩

theorem HandleWrite_ebs (d : DRV_MEMORY_OBJECT) (w : World) (data blockStart nBlocks : Nat) :
    (DRV_MEMORY_HandleWrite d w data blockStart nBlocks).2.1.eraseBlockSize = d.eraseBlockSize := by
  have hS : ∀ (d : DRV_MEMORY_OBJECT) (w : World),
      (DRV_MEMORY_HandleWrite_MEM_STATUS d w).2.1.eraseBlockSize = d.eraseBlockSize := by
    intro d w
    rw [HandleWrite_MEM_STATUS_eq]
    by_cases h1 : w.tstatus w.nPoll = MEMORY_DEVICE_TRANSFER_COMPLETED
    · by_cases h2 : dec32 d.nBlocks ≠ 0
      · rw [if_pos h1, if_pos h2]
      · rw [if_pos h1, if_neg h2]
    · rw [if_neg h1]
  have hM : ∀ (d : DRV_MEMORY_OBJECT) (w : World),
      (DRV_MEMORY_HandleWrite_MEM d w).2.1.eraseBlockSize = d.eraseBlockSize := by
    intro d w
    unfold DRV_MEMORY_HandleWrite_MEM
    by_cases hacc : (w.devPageWrite d.memDevHandle d.writePtr d.blockAddress).1 = true
    · simp only [hacc, if_true]
      exact hS _ _
    · simp only [hacc, if_false]
      rfl
  unfold DRV_MEMORY_HandleWrite
  cases d.writeState with
  | DRV_MEMORY_WRITE_INIT => exact hM _ _
  | DRV_MEMORY_WRITE_MEM => exact hM _ _
  | DRV_MEMORY_WRITE_MEM_STATUS => exact hS _ _

/-- A tick of the erase machine leaves alone the descriptor, the geometry, the
number of pages to write and the state of the erase-write machine. -/
theorem HandleErase_keeps (d : DRV_MEMORY_OBJECT) (w : World) (data blockStart nBlocks : Nat) :
    (DRV_MEMORY_HandleErase d w data blockStart nBlocks).2.1.currentBufObj = d.currentBufObj ∧
    (DRV_MEMORY_HandleErase d w data blockStart nBlocks).2.1.nBlocksToWrite = d.nBlocksToWrite ∧
    (DRV_MEMORY_HandleErase d w data blockStart nBlocks).2.1.writeBlockSize = d.writeBlockSize ∧
    (DRV_MEMORY_HandleErase d w data blockStart nBlocks).2.1.eraseBlockSize = d.eraseBlockSize ∧
    (DRV_MEMORY_HandleErase d w data blockStart nBlocks).2.1.ewState = d.ewState := by
  have hS : ∀ (d : DRV_MEMORY_OBJECT) (w : World),
      (DRV_MEMORY_HandleErase_CMD_STATUS d w).2.1.currentBufObj = d.currentBufObj ∧
      (DRV_MEMORY_HandleErase_CMD_STATUS d w).2.1.nBlocksToWrite = d.nBlocksToWrite ∧
      (DRV_MEMORY_HandleErase_CMD_STATUS d w).2.1.writeBlockSize = d.writeBlockSize ∧
      (DRV_MEMORY_HandleErase_CMD_STATUS d w).2.1.eraseBlockSize = d.eraseBlockSize ∧
      (DRV_MEMORY_HandleErase_CMD_STATUS d w).2.1.ewState = d.ewState := by
    intro d w
    rw [HandleErase_CMD_STATUS_eq]
    by_cases h1 : w.tstatus w.nPoll = MEMORY_DEVICE_TRANSFER_COMPLETED
    · by_cases h2 : dec32 d.nBlocks ≠ 0
      · rw [if_pos h1, if_pos h2]; exact ⟨rfl, rfl, rfl, rfl, rfl⟩
      · rw [if_pos h1, if_neg h2]; exact ⟨rfl, rfl, rfl, rfl, rfl⟩
    · rw [if_neg h1]; exact ⟨rfl, rfl, rfl, rfl, rfl⟩
  have hM : ∀ (d : DRV_MEMORY_OBJECT) (w : World),
      (DRV_MEMORY_HandleErase_CMD d w).2.1.currentBufObj = d.currentBufObj ∧
      (DRV_MEMORY_HandleErase_CMD d w).2.1.nBlocksToWrite = d.nBlocksToWrite ∧
      (DRV_MEMORY_HandleErase_CMD d w).2.1.writeBlockSize = d.writeBlockSize ∧
      (DRV_MEMORY_HandleErase_CMD d w).2.1.eraseBlockSize = d.eraseBlockSize ∧
      (DRV_MEMORY_HandleErase_CMD d w).2.1.ewState = d.ewState := by
    intro d w
    unfold DRV_MEMORY_HandleErase_CMD
    by_cases hacc : (w.devSectorErase d.memDevHandle d.blockAddress).1 = true
    · simp only [hacc, if_true]
      exact hS _ _
    · simp only [hacc, if_false]
      exact ⟨rfl, rfl, rfl, rfl, rfl⟩
  unfold DRV_MEMORY_HandleErase
  cases d.eraseState with
  | DRV_MEMORY_ERASE_INIT => exact hM _ _
  | DRV_MEMORY_ERASE_CMD => exact hM _ _
  | DRV_MEMORY_ERASE_CMD_STATUS => exact hS _ _

/-- The invariant passes to an instance object with the same descriptor,
geometry and number of pages to write, in a state other than Init when the
first is. -/
theorem EwCursors.congr_fields {bs0 n0 buf0 W E : Nat} {d d' : DRV_MEMORY_OBJECT}
    (h : EwCursors bs0 n0 buf0 W E d) (hc : d'.currentBufObj = d.currentBufObj)
    (hn : d'.nBlocksToWrite = d.nBlocksToWrite) (hw : d'.writeBlockSize = d.writeBlockSize)
    (he : d'.eraseBlockSize = d.eraseBlockSize)
    (hp : d.nBlocksToWrite ≤ d.currentBufObj.nBlocks ∧ d.nBlocksToWrite ≤ u8 (E / W)) :
    EwCursors bs0 n0 buf0 W E d' :=
  ⟨by rw [hc]; exact h.opType, hw.trans h.wbs, he.trans h.ebs, by rw [hc]; exact h.fwd,
    by rw [hc]; exact h.sum, by rw [hc]; exact h.buf, fun _ => by rw [hc, hn]; exact hp⟩

theorem EwCursors.erase_sector {bs0 n0 buf0 W E : Nat} {d : DRV_MEMORY_OBJECT}
    (h : EwCursors bs0 n0 buf0 W E d)
    (hp : d.nBlocksToWrite ≤ d.currentBufObj.nBlocks ∧ d.nBlocksToWrite ≤ u8 (E / W))
    (w : World) :
    EwCursors bs0 n0 buf0 W E (DRV_MEMORY_HandleEraseWrite_ERASE_SECTOR d w).2.1 := by
  obtain ⟨k1, k2, k3, k4, -⟩ := HandleErase_keeps d w 0 d.sectorNumber 1
  unfold DRV_MEMORY_HandleEraseWrite_ERASE_SECTOR
  dsimp only
  by_cases hc : (DRV_MEMORY_HandleErase d w 0 d.sectorNumber 1).1
      = MEMORY_DEVICE_TRANSFER_COMPLETED
  · rw [if_pos hc]
    exact h.congr_fields k1 k2 k3 k4 hp
  · rw [if_neg hc]
    exact h.congr_fields k1 k2 k3 k4 hp

theorem EwCursors.read_sector {bs0 n0 buf0 W E : Nat} {d : DRV_MEMORY_OBJECT}
    (h : EwCursors bs0 n0 buf0 W E d)
    (hp : d.nBlocksToWrite ≤ d.currentBufObj.nBlocks ∧ d.nBlocksToWrite ≤ u8 (E / W))
    (w : World) :
    EwCursors bs0 n0 buf0 W E (DRV_MEMORY_HandleEraseWrite_READ_SECTOR d w).2.1 := by
  obtain ⟨rs, hrs⟩ := HandleRead_obj d w d.ewBuffer (u32 (d.sectorNumber * d.eraseBlockSize))
    d.eraseBlockSize
  unfold DRV_MEMORY_HandleEraseWrite_READ_SECTOR
  dsimp only
  generalize DRV_MEMORY_HandleRead d w d.ewBuffer (u32 (d.sectorNumber * d.eraseBlockSize))
    d.eraseBlockSize = r at hrs
  obtain ⟨s, d1, w1⟩ := r
  dsimp only at hrs ⊢
  subst hrs
  by_cases hc : s = MEMORY_DEVICE_TRANSFER_COMPLETED
  · rw [if_pos hc]
    have hX : EwCursors bs0 n0 buf0 W E
        { d with
          readState := rs,
          blockOffsetInSector := u32 (d.blockOffsetInSector * d.writeBlockSize),
          ewState := DRV_MEMORY_EW_ERASE_SECTOR } := h.congr_fields rfl rfl rfl rfl hp
    exact EwCursors.erase_sector hX hp _
  · rw [if_neg hc]
    exact h.congr_fields rfl rfl rfl rfl hp

theorem EwCursors.write_sector {bs0 n0 buf0 W E : Nat} {d : DRV_MEMORY_OBJECT}
    (h : EwCursors bs0 n0 buf0 W E d)
    (hp : d.nBlocksToWrite ≤ d.currentBufObj.nBlocks ∧ d.nBlocksToWrite ≤ u8 (E / W))
    (h32 : bs0 + n0 < 4294967296) (hE : E < 4294967296) (w : World) (pps : Nat) :
    EwCursors bs0 n0 buf0 W E (DRV_MEMORY_HandleEraseWrite_WRITE_SECTOR d w pps).2.1 := by
  obtain ⟨k1, k2, k3, -⟩ := HandleWrite_keeps d w d.writePtr (u32 (d.sectorNumber * pps)) pps
  have k4 := HandleWrite_ebs d w d.writePtr (u32 (d.sectorNumber * pps)) pps
  have hR := h.congr_fields k1 k2 k3 k4 hp
  rw [WRITE_SECTOR_eq]
  generalize DRV_MEMORY_HandleWrite d w d.writePtr (u32 (d.sectorNumber * pps)) pps = r
    at k1 k2 k3 k4 hR
  obtain ⟨s, d1, w1⟩ := r
  dsimp only at k1 k2 k3 k4 hR
  unfold ewWritePost
  dsimp only
  by_cases hc : s = MEMORY_DEVICE_TRANSFER_COMPLETED
  · rw [if_pos hc]
    by_cases hz : sub32 d1.currentBufObj.nBlocks d1.nBlocksToWrite = 0
    · rw [if_pos hz]
      exact hR
    · rw [if_neg hz]
      have hle : d1.nBlocksToWrite ≤ d1.currentBufObj.nBlocks := by rw [k1, k2]; exact hp.1
      have hsub : sub32 d1.currentBufObj.nBlocks d1.nBlocksToWrite
          = d1.currentBufObj.nBlocks - d1.nBlocksToWrite := by
        unfold sub32; rw [if_pos hle]
      have hPW : u8 (E / W) * W ≤ E := by
        have := pps_mul_le d
        rw [h.wbs, h.ebs] at this
        exact this
      have hmul : d1.nBlocksToWrite * W ≤ u8 (E / W) * W :=
        Nat.mul_le_mul_right _ (by rw [k2]; exact hp.2)
      have hu : u32 (d1.nBlocksToWrite * d1.writeBlockSize) = d1.nBlocksToWrite * W := by
        rw [hR.wbs]
        exact u32_of_lt (by omega)
      have hs := hR.sum
      have hf := hR.fwd
      have hb := hR.buf
      have hu2 : u32 (d1.currentBufObj.blockStart + d1.nBlocksToWrite)
          = d1.currentBufObj.blockStart + d1.nBlocksToWrite := u32_of_lt (by omega)
      refine ⟨hR.opType, hR.wbs, hR.ebs, ?_, ?_, ?_, fun hne => absurd rfl hne⟩
      · show bs0 ≤ u32 (d1.currentBufObj.blockStart + d1.nBlocksToWrite)
        rw [hu2]; omega
      · show u32 (d1.currentBufObj.blockStart + d1.nBlocksToWrite)
          + sub32 d1.currentBufObj.nBlocks d1.nBlocksToWrite = bs0 + n0
        rw [hu2, hsub]; omega
      · show d1.currentBufObj.buffer + u32 (d1.nBlocksToWrite * d1.writeBlockSize)
          = buf0 + (u32 (d1.currentBufObj.blockStart + d1.nBlocksToWrite) - bs0) * W
        rw [hu2, hu, hb]
        have e : d1.currentBufObj.blockStart + d1.nBlocksToWrite - bs0
            = (d1.currentBufObj.blockStart - bs0) + d1.nBlocksToWrite := by omega
        rw [e, Nat.add_mul, Nat.add_assoc]
  · rw [if_neg hc]
    exact hR

/-- The invariant holds when the sequencer starts the command. -/
theorem EwCursors.start (d0 : DRV_MEMORY_OBJECT)
    (hop : d0.currentBufObj.opType = DRV_MEMORY_OPERATION_TYPE_ERASE_WRITE) :
    EwCursors d0.currentBufObj.blockStart d0.currentBufObj.nBlocks d0.currentBufObj.buffer
      d0.writeBlockSize d0.eraseBlockSize (DRV_MEMORY_StartXfer_init d0) :=
  ⟨hop, rfl, rfl, Nat.le_refl _, rfl,
    by
      show d0.currentBufObj.buffer = d0.currentBufObj.buffer
        + (d0.currentBufObj.blockStart - d0.currentBufObj.blockStart) * d0.writeBlockSize
      rw [Nat.sub_self, Nat.zero_mul, Nat.add_zero],
    fun h => absurd rfl h⟩

/-- The wait of the sequencer keeps the invariant. -/
theorem EwCursors.wait {bs0 n0 buf0 W E : Nat} {d : DRV_MEMORY_OBJECT}
    (h : EwCursors bs0 n0 buf0 W E d) (w : World) :
    EwCursors bs0 n0 buf0 W E (DRV_MEMORY_StartXfer_wait d w).2.1 := by
  obtain ⟨⟨b, hb⟩, -⟩ := StartXfer_wait_frame d w
  rw [hb]
  exact ⟨h.opType, h.wbs, h.ebs, h.fwd, h.sum, h.buf, h.part⟩

/-- A tick keeps the invariant, whatever the device answers. -/
theorem EwCursors.tick {bs0 n0 buf0 W E : Nat} {d : DRV_MEMORY_OBJECT}
    (h : EwCursors bs0 n0 buf0 W E d)
    (h32 : bs0 + n0 < 4294967296) (hE : E < 4294967296) (w : World)
    (t : Nat × DRV_MEMORY_OBJECT × World) (ht : DRV_MEMORY_StartXfer_tick d w = some t) :
    EwCursors bs0 n0 buf0 W E t.2.1 := by
  rw [tick_ew d w h.opType] at ht
  unfold DRV_MEMORY_HandleEraseWrite at ht
  by_cases hz : d.writeBlockSize = 0
  · rw [if_pos hz] at ht; cases ht
  · rw [if_neg hz] at ht
    have hpp : u8 (d.eraseBlockSize / d.writeBlockSize) = u8 (E / W) := by rw [h.wbs, h.ebs]
    cases hs : d.ewState with
    | DRV_MEMORY_EW_INIT =>
      simp only [hs] at ht
      by_cases hp0 : u8 (d.eraseBlockSize / d.writeBlockSize) = 0
      · rw [if_pos hp0] at ht; cases ht
      · rw [if_neg hp0] at ht
        cases ht
        have hpart : (d.ewInit (u8 (d.eraseBlockSize / d.writeBlockSize))).nBlocksToWrite
              ≤ d.currentBufObj.nBlocks ∧
            (d.ewInit (u8 (d.eraseBlockSize / d.writeBlockSize))).nBlocksToWrite
              ≤ u8 (E / W) := by
          rw [← hpp]
          exact ⟨Nat.min_le_right _ _, Nat.le_trans (Nat.min_le_left _ _) (Nat.sub_le _ _)⟩
        rw [HandleEraseWrite_INIT_eq d w _ hp0]
        by_cases hal : d.currentBufObj.blockStart % u8 (d.eraseBlockSize / d.writeBlockSize) = 0
            ∧ u8 (d.eraseBlockSize / d.writeBlockSize) ≤ d.currentBufObj.nBlocks
        · rw [if_pos hal]
          exact ⟨h.opType, h.wbs, h.ebs, h.fwd, h.sum, h.buf, fun _ => hpart⟩
        · rw [if_neg hal]
          have hX : EwCursors bs0 n0 buf0 W E
              { d.ewInit (u8 (d.eraseBlockSize / d.writeBlockSize)) with
                writePtr := d.ewBuffer, ewState := DRV_MEMORY_EW_READ_SECTOR } :=
            ⟨h.opType, h.wbs, h.ebs, h.fwd, h.sum, h.buf, fun _ => hpart⟩
          exact EwCursors.read_sector hX hpart w
    | DRV_MEMORY_EW_READ_SECTOR =>
      simp only [hs] at ht
      cases ht
      exact h.read_sector (h.part (by rw [hs]; decide)) w
    | DRV_MEMORY_EW_ERASE_SECTOR =>
      simp only [hs] at ht
      cases ht
      exact h.erase_sector (h.part (by rw [hs]; decide)) w
    | DRV_MEMORY_EW_WRITE_SECTOR =>
      simp only [hs] at ht
      cases ht
      exact h.write_sector (h.part (by rw [hs]; decide)) h32 hE w _

/-- The invariant holds at every tick boundary of the command. -/
theorem EwCursors.boundary (d0 : DRV_MEMORY_OBJECT)
    (hop : d0.currentBufObj.opType = DRV_MEMORY_OPERATION_TYPE_ERASE_WRITE)
    (h32 : d0.currentBufObj.blockStart + d0.currentBufObj.nBlocks < 4294967296)
    (hE : d0.eraseBlockSize < 4294967296) (w : World) :
    ∀ (k : Nat) (r : Nat × DRV_MEMORY_OBJECT × World),
      tickBoundary k (DRV_MEMORY_StartXfer_init d0) w = some r →
      EwCursors d0.currentBufObj.blockStart d0.currentBufObj.nBlocks d0.currentBufObj.buffer
        d0.writeBlockSize d0.eraseBlockSize r.2.1 := by
  intro k
  induction k with
  | zero =>
    intro r hr
    exact (EwCursors.start d0 hop).tick h32 hE w r hr
  | succ k ih =>
    intro r hr
    rw [tickBoundary] at hr
    cases hk : tickBoundary k (DRV_MEMORY_StartXfer_init d0) w with
    | none => rw [hk] at hr; cases hr
    | some r0 =>
      rw [hk] at hr
      exact ((ih r0 hk).wait r0.2.2).tick h32 hE _ r hr

/-- The loop of the sequencer keeps the invariant. -/
theorem EwCursors.loop {bs0 n0 buf0 W E : Nat}
    (h32 : bs0 + n0 < 4294967296) (hE : E < 4294967296) :
    ∀ (fuel : Nat) (d : DRV_MEMORY_OBJECT) (w : World) (ts : Nat)
      (o : Option Nat) (dF : DRV_MEMORY_OBJECT) (wF : World),
      EwCursors bs0 n0 buf0 W E d →
      DRV_MEMORY_StartXfer_loop fuel d w ts = Outcome.returned (o, dF, wF) →
      EwCursors bs0 n0 buf0 W E dF := by
  intro fuel
  induction fuel with
  | zero =>
    intro d w ts o dF wF hd h
    rw [loop_zero] at h
    by_cases hb : ts = MEMORY_DEVICE_TRANSFER_BUSY
    · rw [if_pos hb] at h; cases h
    · rw [if_neg hb] at h; cases h; exact hd
  | succ fuel ih =>
    intro d w ts o dF wF hd h
    rw [loop_succ] at h
    by_cases hb : ts = MEMORY_DEVICE_TRANSFER_BUSY
    · rw [if_pos hb] at h
      by_cases hf : (DRV_MEMORY_StartXfer_wait d w).1 = false
      · rw [if_pos hf] at h; cases h; exact hd.wait w
      · rw [if_neg hf] at h
        cases ht : DRV_MEMORY_StartXfer_tick (DRV_MEMORY_StartXfer_wait d w).2.1
            (DRV_MEMORY_StartXfer_wait d w).2.2 with
        | none => rw [ht] at h; cases h
        | some t =>
          rw [ht] at h
          exact ih _ _ _ _ _ _ ((hd.wait w).tick h32 hE _ t ht) h
    · rw [if_neg hb] at h; cases h; exact hd

/-- The sequencer leaves the descriptor of an erase-write command within the
invariant. -/
theorem StartXfer_EwCursors (fuel : Nat) (g : Driver) (i : Nat) (w : World)
    (r : Bool × Driver × World)
    (hop : (g i).currentBufObj.opType = DRV_MEMORY_OPERATION_TYPE_ERASE_WRITE)
    (h32 : (g i).currentBufObj.blockStart + (g i).currentBufObj.nBlocks < 4294967296)
    (hE : (g i).eraseBlockSize < 4294967296)
    (h : DRV_MEMORY_StartXfer fuel g i w = Outcome.returned r) :
    EwCursors (g i).currentBufObj.blockStart (g i).currentBufObj.nBlocks
      (g i).currentBufObj.buffer (g i).writeBlockSize (g i).eraseBlockSize (r.2.1 i) := by
  cases htick : DRV_MEMORY_StartXfer_tick (DRV_MEMORY_StartXfer_init (g i)) w with
  | none =>
    unfold DRV_MEMORY_StartXfer at h
    simp only [htick] at h
    cases h
  | some t =>
    have h0 := (EwCursors.start (g i) hop).tick h32 hE w t htick
    cases hloop : DRV_MEMORY_StartXfer_loop fuel t.2.1 t.2.2 t.1 with
    | outOfFuel =>
      unfold DRV_MEMORY_StartXfer at h
      simp only [htick, hloop] at h
      cases h
    | undefinedBehaviour =>
      unfold DRV_MEMORY_StartXfer at h
      simp only [htick, hloop] at h
      cases h
    | returned x =>
      obtain ⟨o, dF, wF⟩ := x
      have hF := EwCursors.loop h32 hE fuel _ _ _ _ _ _ h0 hloop
      cases o with
      | none =>
        obtain ⟨hS, -, -⟩ := StartXfer_aborted fuel g i w t dF wF htick hloop
        rw [hS] at h
        cases h
        simp only [Function.update_same]
        exact hF
      | some ts =>
        obtain ⟨hS, -, -⟩ := StartXfer_finished fuel g i w t ts dF wF htick hloop
        rw [hS] at h
        unfold DRV_MEMORY_StartXfer_finish at h
        cases hcl : dF.currentBufObj.hClient with
        | none =>
          simp only [hcl] at h
          cases h
        | some p =>
          simp only [hcl] at h
          cases h
          simp only [Function.update_same]
          exact ⟨hF.opType, hF.wbs, hF.ebs, hF.fwd, hF.sum, hF.buf, hF.part⟩

/-- C32: an erase-write command whose descriptor asks for `nBlocks` blocks from
`blockStart` with the data at `buffer`, the end of the range and the erase
block size being `uint32_t` values. At every tick boundary of the command,
whatever the device and the OS answer: the descriptor's `blockStart + nBlocks`
is the requested `blockStart + nBlocks`, the block cursor is not below the
requested `blockStart`, and the buffer cursor is the requested buffer plus
`(blockStart - requested blockStart) * writeBlockSize`. From one boundary to
the next the block cursor does not move back. The same holds of the descriptor
that `DRV_MEMORY_StartXfer` leaves behind when it returns. -/
theorem C32_descriptor_range_invariant (d0 : DRV_MEMORY_OBJECT)
    (hop : d0.currentBufObj.opType = DRV_MEMORY_OPERATION_TYPE_ERASE_WRITE)
    (h32 : d0.currentBufObj.blockStart + d0.currentBufObj.nBlocks < 4294967296)
    (hE : d0.eraseBlockSize < 4294967296) :
    (∀ (k : Nat) (w : World) (r : Nat × DRV_MEMORY_OBJECT × World),
      tickBoundary k (DRV_MEMORY_StartXfer_init d0) w = some r →
      r.2.1.currentBufObj.blockStart + r.2.1.currentBufObj.nBlocks
        = d0.currentBufObj.blockStart + d0.currentBufObj.nBlocks ∧
      d0.currentBufObj.blockStart ≤ r.2.1.currentBufObj.blockStart ∧
      r.2.1.currentBufObj.buffer = d0.currentBufObj.buffer
        + (r.2.1.currentBufObj.blockStart - d0.currentBufObj.blockStart) * d0.writeBlockSize) ∧
    (∀ (k : Nat) (w : World) (r r' : Nat × DRV_MEMORY_OBJECT × World),
      tickBoundary k (DRV_MEMORY_StartXfer_init d0) w = some r →
      tickBoundary (k + 1) (DRV_MEMORY_StartXfer_init d0) w = some r' →
      r.2.1.currentBufObj.blockStart ≤ r'.2.1.currentBufObj.blockStart ∧
      r'.2.1.currentBufObj.nBlocks ≤ r.2.1.currentBufObj.nBlocks) ∧
    (∀ (fuel : Nat) (g : Driver) (i : Nat) (w : World) (res : Bool × Driver × World),
      g i = d0 → DRV_MEMORY_StartXfer fuel g i w = Outcome.returned res →
      (res.2.1 i).currentBufObj.blockStart + (res.2.1 i).currentBufObj.nBlocks
        = d0.currentBufObj.blockStart + d0.currentBufObj.nBlocks ∧
      d0.currentBufObj.blockStart ≤ (res.2.1 i).currentBufObj.blockStart ∧
      (res.2.1 i).currentBufObj.buffer = d0.currentBufObj.buffer
        + ((res.2.1 i).currentBufObj.blockStart - d0.currentBufObj.blockStart)
          * d0.writeBlockSize) := by
  refine ⟨fun k w r hr => ?_, fun k w r r' hr hr' => ?_, fun fuel g i w res hg hres => ?_⟩
  · have h := EwCursors.boundary d0 hop h32 hE w k r hr
    exact ⟨h.sum, h.fwd, h.buf⟩
  · have h := EwCursors.boundary d0 hop h32 hE w k r hr
    have h' := EwCursors.boundary d0 hop h32 hE w (k + 1) r' hr'
    have hself : EwCursors r.2.1.currentBufObj.blockStart r.2.1.currentBufObj.nBlocks
        r.2.1.currentBufObj.buffer d0.writeBlockSize d0.eraseBlockSize r.2.1 :=
      ⟨h.opType, h.wbs, h.ebs, Nat.le_refl _, rfl,
        by rw [Nat.sub_self, Nat.zero_mul, Nat.add_zero], h.part⟩
    rw [tickBoundary, hr] at hr'
    have hs := h.sum
    have hstep := (hself.wait r.2.2).tick (by omega) hE _ r' hr'
    have h1 := hstep.fwd
    have h2 := hstep.sum
    omega
  · subst hg
    have h := StartXfer_EwCursors fuel g i w res hop h32 hE hres
    exact ⟨h.sum, h.fwd, h.buf⟩

/-- C32 at the concrete device: the erase-write of 20 pages from page 3 with
the data at `0x20002000`, on the device that completes every command at once.
At tick boundary 16 the sector of pages 0 to 15 is written, the block cursor
is 16 with 7 blocks remaining, `16 + 7 = 3 + 20`, and the buffer cursor is
`0x20002000 + (16 - 3) * 256`. -/
theorem C32_descriptor_range_invariant_witness :
    ∃ r, tickBoundary 16 (DRV_MEMORY_StartXfer_init (demoEwObj 3 20)) demoWorldFast = some r ∧
      r.2.1.currentBufObj.blockStart = 16 ∧ r.2.1.currentBufObj.nBlocks = 7 ∧
      r.2.1.currentBufObj.blockStart + r.2.1.currentBufObj.nBlocks = 3 + 20 ∧
      r.2.1.currentBufObj.buffer = 0x20002000 + (r.2.1.currentBufObj.blockStart - 3) * 256 :=
  ⟨_, rfl, rfl, rfl,
    ((C32_descriptor_range_invariant (demoEwObj 3 20) rfl (by decide) (by decide)).1 16
      demoWorldFast _ rfl).1,
    ((C32_descriptor_range_invariant (demoEwObj 3 20) rfl (by decide) (by decide)).1 16
      demoWorldFast _ rfl).2.2⟩

theorem countP_flatMap_one {α β : Type} (p : β → Bool) (f : α → List β)
    (h : ∀ a, (f a).countP p = 1) : ∀ l : List α, (l.flatMap f).countP p = l.length := by
  intro l
  induction l with
  | nil => rfl
  | cons a l ih =>
    rw [List.flatMap_cons, List.countP_append, h a, ih, List.length_cons, Nat.add_comm]

theorem ewSectorCmds_erases (d : DRV_MEMORY_OBJECT) (B bs n s : Nat) :
    (ewSectorCmds d B bs n s).countP DevCall.isSectorErase = 1 := by
  unfold ewSectorCmds
  rw [List.countP_append, List.countP_cons]
  have h1 : ∀ (l : List Nat) (f : Nat → Nat) (g : Nat → Nat),
      (l.map (fun k => DevCall.pageWrite d.memDevHandle (f k) (g k))).countP
        DevCall.isSectorErase = 0 := by
    intro l f g
    induction l with
    | nil => rfl
    | cons a l ih => rw [List.map_cons, List.countP_cons, ih]; rfl
  rw [h1]
  by_cases hc : bs ≤ s * u8 (d.eraseBlockSize / d.writeBlockSize)
      ∧ (s + 1) * u8 (d.eraseBlockSize / d.writeBlockSize) ≤ bs + n
  · rw [if_pos hc]; rfl
  · rw [if_neg hc]; rfl

theorem ewCmds_erases (d : DRV_MEMORY_OBJECT) (B bs n : Nat) :
    (ewCmds d B bs n).countP DevCall.isSectorErase
      = (bs + n - 1) / u8 (d.eraseBlockSize / d.writeBlockSize)
        - bs / u8 (d.eraseBlockSize / d.writeBlockSize) + 1 := by
  unfold ewCmds
  rw [countP_flatMap_one _ _ (fun j => ewSectorCmds_erases d B bs n _), List.length_range]

/-- A request of `n >= 1` pages from page `bs` touches at most `n` sectors of
`P >= 1` pages. -/
theorem sectors_le (bs n P : Nat) (hP : 1 ≤ P) (hn : 1 ≤ n) :
    (bs + n - 1) / P - bs / P + 1 ≤ n := by
  have h1 : bs < (bs / P + 1) * P := by
    have := Nat.div_add_mod bs P
    have := Nat.mod_lt bs (show 0 < P by omega)
    rw [Nat.add_mul, Nat.one_mul, Nat.mul_comm]
    omega
  have h2 : (n - 1) ≤ (n - 1) * P := Nat.le_mul_of_pos_right _ (by omega)
  have h3 : bs + n - 1 < (bs / P + n) * P := by
    have e : (bs / P + n) * P = (bs / P + 1) * P + (n - 1) * P := by
      rw [← Nat.add_mul]
      congr 1
      omega
    rw [e]
    omega
  have h4 : (bs + n - 1) / P < bs / P + n := Nat.div_lt_of_lt_mul (by rw [Nat.mul_comm]; exact h3)
  omega

theorem pagesLog_erases (hdl wbs : Nat) (k ptr addr : Nat) (log : List DevCall)
    (ha : addr < 4294967296) :
    ((pagesLog hdl wbs k ptr addr log).drop log.length).countP DevCall.isSectorErase = 0 := by
  rw [pagesLog_eq hdl wbs k ptr addr log ha, List.drop_left]
  generalize List.range k = l
  induction l with
  | nil => rfl
  | cons a l ih => rw [List.map_cons, List.countP_cons, ih]; rfl

/-- An erase-write request that passes admission on a device without a
sector-erase primitive, with a cooperative device and OS: given enough fuel,
`DRV_MEMORY_SetupXfer` returns `true` after the page writes of a plain
write. -/
theorem SetupXfer_eraseWrite_as_write (g : Driver) (w : World) (handle : Nat)
    (hasCommandHandle : Bool) (buffer blockStart nBlock geometry_type io_intent : Nat)
    (p : ClientPtr)
    (ha : Admissible g handle buffer blockStart nBlock geometry_type
      DRV_MEMORY_OPERATION_TYPE_ERASE_WRITE io_intent p)
    (hlock : w.lockOk w.nLock = true)
    (hse : (g (g.client p).drvIndex).memoryDevice.hasSectorErase = false)
    (hn32 : nBlock < 4294967296) (hc : w.Cooperative) :
    ∃ fuel0, ∀ fuel, fuel0 ≤ fuel → ∃ r,
      DRV_MEMORY_SetupXfer fuel g w handle hasCommandHandle buffer blockStart nBlock
        geometry_type DRV_MEMORY_OPERATION_TYPE_ERASE_WRITE io_intent = Outcome.returned r ∧
      r.isSuccess = true ∧
      r.w.cmdLog = pagesLog (g (g.client p).drvIndex).memDevHandle
        (g (g.client p).drvIndex).writeBlockSize nBlock buffer
        (u32 (u32 (blockStart * (g (g.client p).drvIndex).writeBlockSize)
          + (g (g.client p).drvIndex).blockStartAddress)) w.cmdLog := by
  have hat := Driver.allocated_at g p buffer blockStart nBlock DRV_MEMORY_OPERATION_TYPE_WRITE
  have heff : effectiveOpType (g (g.client p).drvIndex).memoryDevice.hasSectorErase
      DRV_MEMORY_OPERATION_TYPE_ERASE_WRITE = DRV_MEMORY_OPERATION_TYPE_WRITE := by
    rw [hse]; rfl
  have hc1 : World.Cooperative { w with nLock := w.nLock + 1 } :=
    ⟨hc.accept, hc.tstatus, hc.timerOk, hc.pendOk⟩
  obtain ⟨n, hrun⟩ := StartXfer_write
    (g.allocated p buffer blockStart nBlock DRV_MEMORY_OPERATION_TYPE_WRITE)
    (g.client p).drvIndex { w with nLock := w.nLock + 1 } p
    (by rw [hat]) (by rw [hat]) (by rw [hat]; exact Nat.pos_of_ne_zero ha.count)
    (by rw [hat]; exact hn32) hc1
  refine ⟨n, fun fuel hf => ?_⟩
  obtain ⟨g', w', hS, hlog, -⟩ := hrun (fuel - n)
  rw [Nat.sub_add_cancel hf] at hS
  rw [SetupXfer_admitted fuel g w handle hasCommandHandle buffer blockStart nBlock _ _ _ p
    ha.valid ha.intent ha.buffer ha.count ha.range hlock (Or.inr (by decide)), heff, hS]
  refine ⟨_, rfl, rfl, ?_⟩
  show w'.cmdLog = _
  rw [hlog, hat]

/-- The tick of the Write Sector state that sees the sector written without
finishing the request lowers the remaining block count. -/
theorem WRITE_SECTOR_decreases (d : DRV_MEMORY_OBJECT) (w : World) (pps : Nat)
    (hcomp : (DRV_MEMORY_HandleWrite d w d.writePtr (u32 (d.sectorNumber * pps)) pps).1
      = MEMORY_DEVICE_TRANSFER_COMPLETED)
    (h1 : 1 ≤ d.nBlocksToWrite) (hle : d.nBlocksToWrite ≤ d.currentBufObj.nBlocks)
    (hne : d.currentBufObj.nBlocks ≠ d.nBlocksToWrite) :
    (DRV_MEMORY_HandleEraseWrite_WRITE_SECTOR d w pps).1 = MEMORY_DEVICE_TRANSFER_BUSY ∧
    (DRV_MEMORY_HandleEraseWrite_WRITE_SECTOR d w pps).2.1.ewState = DRV_MEMORY_EW_INIT ∧
    (DRV_MEMORY_HandleEraseWrite_WRITE_SECTOR d w pps).2.1.currentBufObj.nBlocks
      = d.currentBufObj.nBlocks - d.nBlocksToWrite ∧
    (DRV_MEMORY_HandleEraseWrite_WRITE_SECTOR d w pps).2.1.currentBufObj.nBlocks
      < d.currentBufObj.nBlocks ∧
    1 ≤ (DRV_MEMORY_HandleEraseWrite_WRITE_SECTOR d w pps).2.1.currentBufObj.nBlocks := by
  obtain ⟨k1, k2, -, -⟩ := HandleWrite_keeps d w d.writePtr (u32 (d.sectorNumber * pps)) pps
  rw [WRITE_SECTOR_eq]
  generalize DRV_MEMORY_HandleWrite d w d.writePtr (u32 (d.sectorNumber * pps)) pps = r
    at k1 k2 hcomp
  obtain ⟨s, d1, w1⟩ := r
  dsimp only at k1 k2 hcomp
  subst hcomp
  have hsub : sub32 d1.currentBufObj.nBlocks d1.nBlocksToWrite
      = d.currentBufObj.nBlocks - d.nBlocksToWrite := by
    rw [k1, k2]
    unfold sub32; rw [if_pos hle]
  have hz : ¬ (sub32 d1.currentBufObj.nBlocks d1.nBlocksToWrite = 0) := by
    rw [hsub]; omega
  unfold ewWritePost
  dsimp only
  rw [if_pos rfl, if_neg hz]
  refine ⟨rfl, rfl, hsub, ?_, ?_⟩
  · show sub32 d1.currentBufObj.nBlocks d1.nBlocksToWrite < d.currentBufObj.nBlocks
    rw [hsub]; omega
  · show 1 ≤ sub32 d1.currentBufObj.nBlocks d1.nBlocksToWrite
    rw [hsub]; omega

/-- C33: an erase-write request of `nBlock >= 1` pages that passes admission,
with `pagesPerSector >= 1`, on a device that accepts every command and
completes it after finitely many Busy polls (and an OS that never fails a
timer or a wait). With enough fuel `DRV_MEMORY_EraseWrite` returns `true`: the
loop of the sequencer has ended with Completed and the command is marked
Completed. The sectors gone through, counted by the sector erases given to
the device during the call, are at most `nBlock`; on a device with a
sector-erase primitive they are the sectors `blockStart / pagesPerSector` to
`(blockStart + nBlock - 1) / pagesPerSector`. The tick of the Write Sector
state that sees its sector written without finishing the request (the pages to
write in the sector being at least 1 and at most the remaining count, as the
Init state leaves them for a remaining count of at least 1) returns Busy in
the Init state with a remaining count that is lower than before and still at
least 1. -/
theorem C33_erase_write_terminates (g : Driver) (w : World) (handle : Nat)
    (hasCommandHandle : Bool) (sourceBuffer blockStart nBlock : Nat) (p : ClientPtr)
    (hvalid : DRV_MEMORY_DriverHandleValidate g handle = some p)
    (hintent : (g.client p).intent &&& DRV_IO_INTENT_WRITE ≠ 0)
    (hbuf : sourceBuffer ≠ 0)
    (hn : 1 ≤ nBlock)
    (hrange : blockStart + nBlock ≤ ((g (g.client p).drvIndex).mediaGeometryTable
      SYS_MEDIA_GEOMETRY_TABLE_WRITE_ENTRY).numBlocks)
    (h32 : blockStart + nBlock < 4294967296)
    (hebs : (g (g.client p).drvIndex).eraseBlockSize < 4294967296)
    (hlock : w.lockOk w.nLock = true)
    (hp : 1 ≤ u8 ((g (g.client p).drvIndex).eraseBlockSize
      / (g (g.client p).drvIndex).writeBlockSize))
    (hcoop : w.Cooperative) :
    (∃ fuel0, ∀ fuel, fuel0 ≤ fuel → ∃ r,
      DRV_MEMORY_EraseWrite fuel g w handle hasCommandHandle sourceBuffer blockStart nBlock =
        Outcome.returned r ∧
      r.isSuccess = true ∧
      (r.g (g.client p).drvIndex).currentBufObj.status = DRV_MEMORY_COMMAND_COMPLETED ∧
      (r.w.cmdLog.drop w.cmdLog.length).countP DevCall.isSectorErase ≤ nBlock ∧
      ((g (g.client p).drvIndex).memoryDevice.hasSectorErase = true →
        (r.w.cmdLog.drop w.cmdLog.length).countP DevCall.isSectorErase
          = (blockStart + nBlock - 1) / u8 ((g (g.client p).drvIndex).eraseBlockSize
              / (g (g.client p).drvIndex).writeBlockSize)
            - blockStart / u8 ((g (g.client p).drvIndex).eraseBlockSize
              / (g (g.client p).drvIndex).writeBlockSize) + 1)) ∧
    (∀ (d : DRV_MEMORY_OBJECT) (w1 : World),
      (DRV_MEMORY_HandleWrite d w1 d.writePtr
        (u32 (d.sectorNumber * u8 (d.eraseBlockSize / d.writeBlockSize)))
        (u8 (d.eraseBlockSize / d.writeBlockSize))).1 = MEMORY_DEVICE_TRANSFER_COMPLETED →
      1 ≤ d.nBlocksToWrite → d.nBlocksToWrite ≤ d.currentBufObj.nBlocks →
      d.currentBufObj.nBlocks ≠ d.nBlocksToWrite →
      (DRV_MEMORY_HandleEraseWrite_WRITE_SECTOR d w1
        (u8 (d.eraseBlockSize / d.writeBlockSize))).1 = MEMORY_DEVICE_TRANSFER_BUSY ∧
      (DRV_MEMORY_HandleEraseWrite_WRITE_SECTOR d w1
        (u8 (d.eraseBlockSize / d.writeBlockSize))).2.1.ewState = DRV_MEMORY_EW_INIT ∧
      (DRV_MEMORY_HandleEraseWrite_WRITE_SECTOR d w1
        (u8 (d.eraseBlockSize / d.writeBlockSize))).2.1.currentBufObj.nBlocks
        < d.currentBufObj.nBlocks ∧
      1 ≤ (DRV_MEMORY_HandleEraseWrite_WRITE_SECTOR d w1
        (u8 (d.eraseBlockSize / d.writeBlockSize))).2.1.currentBufObj.nBlocks) ∧
    (∀ (d : DRV_MEMORY_OBJECT), 1 ≤ d.currentBufObj.nBlocks →
      1 ≤ u8 (d.eraseBlockSize / d.writeBlockSize) →
      1 ≤ (d.ewInit (u8 (d.eraseBlockSize / d.writeBlockSize))).nBlocksToWrite ∧
      (d.ewInit (u8 (d.eraseBlockSize / d.writeBlockSize))).nBlocksToWrite
        ≤ d.currentBufObj.nBlocks) := by
  have hp' : u8 ((g (g.client p).drvIndex).eraseBlockSize
      / (g (g.client p).drvIndex).writeBlockSize) ≠ 0 := by omega
  have hw : (g (g.client p).drvIndex).writeBlockSize ≠ 0 := by
    intro h0
    rw [h0, Nat.div_zero] at hp'
    exact hp' rfl
  have ha : Admissible g handle sourceBuffer blockStart nBlock
      SYS_MEDIA_GEOMETRY_TABLE_WRITE_ENTRY DRV_MEMORY_OPERATION_TYPE_ERASE_WRITE
      DRV_IO_INTENT_WRITE p := ⟨hvalid, hintent, Or.inl hbuf, by omega, hrange⟩
  refine ⟨?_, fun d w1 hc h1 hle hne => ?_, fun d hn1 hp1 => ?_⟩
  · by_cases hse : (g (g.client p).drvIndex).memoryDevice.hasSectorErase = true
    · obtain ⟨fuel0, hrun⟩ := SetupXfer_eraseWrite g w handle hasCommandHandle sourceBuffer
        blockStart nBlock SYS_MEDIA_GEOMETRY_TABLE_WRITE_ENTRY DRV_IO_INTENT_WRITE p ha hlock hse
        hw hp' hcoop
      refine ⟨fuel0, fun fuel hf => ?_⟩
      obtain ⟨r, e, hs, hmem⟩ := hrun fuel hf
      have hst := (SetupXfer_admitted_frame fuel g w handle hasCommandHandle sourceBuffer
        blockStart nBlock _ _ _ p ha hlock (Or.inl hse) r e).2.2.2.2.2.2.1 hs
      have hlog : r.w.cmdLog = w.cmdLog
          ++ ewCmds (g (g.client p).drvIndex) sourceBuffer blockStart nBlock := by
        have hl := congrArg Mem.log hmem
        rw [ewMem_log _ _ _ hp' (Nat.lt_of_le_of_lt (pps_mul_le _) hebs) _ _ _ _ _ hn
          (Nat.le_refl _) h32] at hl
        exact hl
      have hcount : (r.w.cmdLog.drop w.cmdLog.length).countP DevCall.isSectorErase
          = (blockStart + nBlock - 1) / u8 ((g (g.client p).drvIndex).eraseBlockSize
              / (g (g.client p).drvIndex).writeBlockSize)
            - blockStart / u8 ((g (g.client p).drvIndex).eraseBlockSize
              / (g (g.client p).drvIndex).writeBlockSize) + 1 := by
        rw [hlog, List.drop_left, ewCmds_erases]
      refine ⟨r, e, hs, hst, ?_, fun _ => hcount⟩
      rw [hcount]
      exact sectors_le _ _ _ hp hn
    · have hse' : (g (g.client p).drvIndex).memoryDevice.hasSectorErase = false := by
        cases hb : (g (g.client p).drvIndex).memoryDevice.hasSectorErase with
        | true => exact absurd hb hse
        | false => rfl
      obtain ⟨fuel0, hrun⟩ := SetupXfer_eraseWrite_as_write g w handle hasCommandHandle
        sourceBuffer blockStart nBlock SYS_MEDIA_GEOMETRY_TABLE_WRITE_ENTRY DRV_IO_INTENT_WRITE p
        ha hlock hse' (by omega) hcoop
      refine ⟨fuel0, fun fuel hf => ?_⟩
      obtain ⟨r, e, hs, hlog⟩ := hrun fuel hf
      have hst := (SetupXfer_admitted_frame fuel g w handle hasCommandHandle sourceBuffer
        blockStart nBlock _ _ _ p ha hlock (Or.inr (by decide)) r e).2.2.2.2.2.2.1 hs
      refine ⟨r, e, hs, hst, ?_, fun h => absurd h hse⟩
      rw [hlog]
      have hz := pagesLog_erases (g (g.client p).drvIndex).memDevHandle
        (g (g.client p).drvIndex).writeBlockSize nBlock sourceBuffer
        (u32 (u32 (blockStart * (g (g.client p).drvIndex).writeBlockSize)
          + (g (g.client p).drvIndex).blockStartAddress)) w.cmdLog (Nat.mod_lt _ (by decide))
      rw [hz]
      exact Nat.zero_le _
  · obtain ⟨a1, a2, -, a4, a5⟩ := WRITE_SECTOR_decreases d w1 _ hc h1 hle hne
    exact ⟨a1, a2, a4, a5⟩
  · exact ⟨Nat.le_min.mpr ⟨by
        have := Nat.mod_lt d.currentBufObj.blockStart
          (show 0 < u8 (d.eraseBlockSize / d.writeBlockSize) by omega)
        omega, hn1⟩, Nat.min_le_right _ _⟩

/-- C33 at the concrete device (16 pages in a sector): the erase-write of 20
pages from page 3 returns `true` with the command marked Completed after two
sector erases, for the sectors 0 and 1. -/
theorem C33_erase_write_terminates_witness :
    ∃ fuel0, ∀ fuel, fuel0 ≤ fuel → ∃ r,
      DRV_MEMORY_EraseWrite fuel demoDriver demoWorld 0x10000 true 0x20002000 3 20 =
        Outcome.returned r ∧
      r.isSuccess = true ∧
      (r.g 0).currentBufObj.status = DRV_MEMORY_COMMAND_COMPLETED ∧
      (r.w.cmdLog.drop 0).countP DevCall.isSectorErase = 2 := by
  obtain ⟨f, h⟩ := (C33_erase_write_terminates demoDriver demoWorld 0x10000 true 0x20002000 3 20
    ⟨0, 0⟩ demo_valid (by decide) (by decide) (by decide) (by decide) (by decide) (by decide)
    rfl (by decide) demoWorld_cooperative).1
  refine ⟨f, fun fuel hf => ?_⟩
  obtain ⟨r, h1, h2, h3, -, h5⟩ := h fuel hf
  exact ⟨r, h1, h2, h3, (h5 rfl).trans (by decide)⟩

/-- With fewer slots in use than the pool has, the allocation loop finds a
slot. -/
theorem find_free_slot (d : DRV_MEMORY_OBJECT) (h : d.inUseCount < d.nClientsMax) :
    ∃ s, (List.range d.nClientsMax).find? (fun k => (d.clientObjPool k).inUse = false)
      = some s := by
  cases hf : (List.range d.nClientsMax).find? (fun k => (d.clientObjPool k).inUse = false) with
  | some s => exact ⟨s, rfl⟩
  | none =>
    exfalso
    rw [List.find?_eq_none] at hf
    have hall : (List.range d.nClientsMax).countP (fun k => (d.clientObjPool k).inUse)
        = (List.range d.nClientsMax).length := by
      rw [List.countP_eq_length]
      intro a ha
      have := hf a ha
      simpa using this
    unfold DRV_MEMORY_OBJECT.inUseCount at h
    rw [hall, List.length_range] at h
    omega

/-- The slot the allocation loop finds lies in the pool and is not in use. -/
theorem find_slot_spec (d : DRV_MEMORY_OBJECT) (s : Nat)
    (h : (List.range d.nClientsMax).find? (fun k => (d.clientObjPool k).inUse = false)
      = some s) :
    s < d.nClientsMax ∧ (d.clientObjPool s).inUse = false := by
  have h1 := List.find?_some h
  have h2 := List.mem_of_find?_eq_some h
  exact ⟨List.mem_range.mp h2, by simpa using h1⟩

theorem SameClients.refl (d : DRV_MEMORY_OBJECT) : SameClients d d := ⟨rfl, rfl, rfl, rfl⟩

theorem SameClients.trans {a b c : DRV_MEMORY_OBJECT} (h1 : SameClients a b)
    (h2 : SameClients b c) : SameClients a c :=
  ⟨h2.nClientsMax.trans h1.nClientsMax, h2.pool.trans h1.pool,
    h2.numClients.trans h1.numClients, h2.isExclusive.trans h1.isExclusive⟩

theorem Open_world (g : Driver) (w : World) (i io : Nat) (dev : DeviceAnswers) :
    (DRV_MEMORY_Open g w i io dev).2.2.lockOk = w.lockOk := by
  unfold DRV_MEMORY_Open OSAL_MUTEX_Lock_clientMutex OSAL_MUTEX_Unlock_clientMutex
  dsimp only
  split_ifs <;> rfl

/-- The allocation loop that finds a slot, after the two refusals of
`DRV_MEMORY_Open` have been passed. -/
theorem Open_locked_takes (d : DRV_MEMORY_OBJECT) (i io s : Nat)
    (hi : i < DRV_MEMORY_INSTANCES_NUMBER) (hfree : d.isExclusive = false)
    (halone : io &&& DRV_IO_INTENT_EXCLUSIVE ≠ 0 → d.numClients = 0)
    (hf : (List.range d.nClientsMax).find? (fun k => (d.clientObjPool k).inUse = false)
      = some s) :
    TakesSlot d (DRV_MEMORY_Open_locked d i io).2 i io ∧
    (DRV_MEMORY_Open_locked d i io).2.status = d.status ∧
    (DRV_MEMORY_Open_locked d i io).1 = some (DRV_MEMORY_MAKE_HANDLE d.clientToken i s) := by
  obtain ⟨h1, h2⟩ := find_slot_spec d s hf
  unfold DRV_MEMORY_Open_locked
  rw [hf]
  dsimp only
  refine ⟨⟨rfl, hfree, halone, ⟨s, _, h1, h2, rfl, ?_, rfl⟩, rfl, ?_⟩, rfl, rfl⟩
  · show u8 i = i
    unfold u8
    unfold DRV_MEMORY_INSTANCES_NUMBER at hi
    omega
  · intro he
    by_contra hx
    rw [if_neg (not_not.mpr hx), hfree] at he
    cases he

/-- `DRV_MEMORY_Open` on a ready instance whose pool has a slot left, with the
lock obtained, the exclusive flag clear and, for an exclusive intent, no client
counted: a slot is taken and the instance stays ready. -/
theorem Open_object_takes (d : DRV_MEMORY_OBJECT) (i io : Nat) (dev : DeviceAnswers)
    (hi : i < DRV_MEMORY_INSTANCES_NUMBER) (hst : d.status = SYS_STATUS_READY)
    (hfree : d.isExclusive = false)
    (halone : io &&& DRV_IO_INTENT_EXCLUSIVE ≠ 0 → d.numClients = 0)
    (hroom : d.inUseCount < d.nClientsMax) :
    TakesSlot d (DRV_MEMORY_Open_object d true i io dev) i io ∧
    (DRV_MEMORY_Open_object d true i io dev).status = SYS_STATUS_READY := by
  obtain ⟨s, hf⟩ := find_free_slot d hroom
  obtain ⟨k1, k2, -⟩ := Open_locked_takes d i io s hi hfree halone hf
  have hr : (if d.status ≠ SYS_STATUS_READY then DRV_MEMORY_IsReady d dev
      else (SYS_STATUS_READY, d)) = (SYS_STATUS_READY, d) := by
    rw [if_neg (not_not.mpr hst)]
  have he : ¬ (d.isExclusive = true) := by rw [hfree]; decide
  have hx : ¬ (d.numClients > 0 ∧ io &&& DRV_IO_INTENT_EXCLUSIVE ≠ 0) := by
    rintro ⟨a, b⟩
    have := halone b
    omega
  unfold DRV_MEMORY_Open_object
  rw [hr]
  dsimp only
  rw [if_neg (not_not.mpr rfl), if_pos rfl, if_neg he, if_neg hx]
  exact ⟨k1, k2.trans hst⟩

end DrvMemory
